import Mathlib

/-!
# Mapper daemon (mt-mapperd.c): request translation and map codec

Shallow embedding of `src/xseg/peers/user/mt-mapperd.c`.

Conventions of the embedding.
* Bytes are natural numbers below 256, buffers and C strings are `List Nat`.
* `uint64_t` and `uint32_t` values are natural numbers; every subtraction and
  increment the source performs on them is reduced modulo `2^64` / `2^32`.
* The `int` index of the loop of `handle_clone` is a natural number up to
  `INT_MAX`; an increment past `INT_MAX` has no defined result.
* A loop of the source is a function with a fuel argument; `none` means that
  the fuel ran out before the loop condition became false.
* The xhash tables (`xtypes/xhash.h`), the xq queues and the xseg request
  primitives are not part of the sources at hand.  Tables are finite maps kept
  as association lists, queues are lists with a capacity, and the outcome of
  each fallible primitive (`calloc`, `xseg_get_request`, ...) is an explicit
  input of the function that calls it.
* Multi-byte integers in buffers are little-endian (the header stores
  `map->size` by `memcpy` from a `uint64_t`).
-/

namespace Mapperd

/-! ## Constants -/

/-- Macro `MF_PENDING`. -/
def MF_PENDING : Int := 1

/-- Constant `SHA256_DIGEST_SIZE` of `sys/sha256.h`. -/
def SHA256_DIGEST_SIZE : Nat := 32

/-- Macro `XSEG_MAX_TARGET_LEN`, that is `SHA256_DIGEST_SIZE << 1`. -/
def XSEG_MAX_TARGET_LEN : Nat := SHA256_DIGEST_SIZE * 2

/-- Macro `block_size`, that is `1 << 20`. -/
def block_size : Nat := 2 ^ 20

/-- Macro `objectsize_in_map`: transparency byte plus maximal object name. -/
def objectsize_in_map : Nat := 1 + XSEG_MAX_TARGET_LEN

/-- Macro `mapheader_size`: magic hash value plus `sizeof(uint64_t)`. -/
def mapheader_size : Nat := SHA256_DIGEST_SIZE + 8

/-- Macro `MF_OBJECT_EXIST`. -/
def MF_OBJECT_EXIST : Nat := 1

/-- Macro `MF_OBJECT_COPYING`. -/
def MF_OBJECT_COPYING : Nat := 2

/-- Macro `MF_MAP_LOADING`. -/
def MF_MAP_LOADING : Nat := 1

/-- Macro `MF_MAP_DESTROYED`. -/
def MF_MAP_DESTROYED : Nat := 2

/-- Number of values of a `uint64_t`. -/
def U64 : Nat := 2 ^ 64

/-- Number of values of a `uint32_t`. -/
def U32 : Nat := 2 ^ 32

/-- Largest value of an `int` (`INT_MAX` of `limits.h`). -/
def INT_MAX : Nat := 2 ^ 31 - 1

/-- Subtraction of two `uint64_t` values, wrapping modulo `2^64`. -/
def sub64 (a b : Nat) : Nat := (a % U64 + U64 - b % U64) % U64

/-! ## Data model -/

/-- Operation codes of `xseg/protocol.h` used by the mapper. -/
inductive xseg_op where
  | X_READ
  | X_WRITE
  | X_COPY
  | X_MAPR
  | X_MAPW
  | X_CLONE
  | X_INFO
  | X_DELETE
  | X_SNAPSHOT
deriving DecidableEq, Repr

/-- Fields of `struct xseg_request` the mapper reads or writes.  `copy_target`
is the `target` field of the `struct xseg_request_copy` payload of a COPY,
`clone_target` and `clone_size` are the fields of the
`struct xseg_request_clone` payload of a CLONE. -/
structure xseg_request where
  op : xseg_op
  target : List Nat
  targetlen : Nat
  offset : Nat
  size : Nat
  copy_target : List Nat
  clone_target : List Nat := []
  clone_size : Nat := 0
deriving DecidableEq, Repr

/-- Record `struct map_node`.  `object` is the `char object[65]` buffer,
`pending` the queue of parked peer requests (identified by number). -/
structure map_node where
  flags : Nat
  objectidx : Nat
  objectlen : Nat
  object : List Nat
  pending : List Nat
deriving DecidableEq, Repr

/-- Record `struct map`.  `objects` is the table `obj_index --> map_node`. -/
structure map where
  flags : Nat
  size : Nat
  volumelen : Nat
  volume : List Nat
  objects : List (Nat × map_node)
  pending : List Nat
deriving DecidableEq, Repr

/-- Record `struct mapper_io`; `copyups_nodes` binds the handle of an in-flight
COPY request to the node it copies up (volume of its map and table key). -/
structure mapper_io where
  copyups : Nat
  copyups_nodes : List (Nat × (List Nat × Nat))
  err : Nat
deriving DecidableEq, Repr

/-- Record `struct peer_req` with the `mapper_io` it carries in `priv`.
`id` stands for the address of the record. -/
structure peer_req where
  id : Nat
  req : xseg_request
  mio : mapper_io
deriving DecidableEq, Repr

/-- One entry `struct xseg_reply_map_scatterlist` of a map reply. -/
structure xseg_reply_map_scatterlist where
  target : List Nat
  offset : Nat
  size : Nat
deriving DecidableEq, Repr

/-- Reply `struct xseg_reply_map`: the count and the entries filled so far. -/
structure xseg_reply_map where
  cnt : Nat
  segs : List xseg_reply_map_scatterlist
deriving DecidableEq, Repr

/-- Outcomes of the xseg primitives one call of `req2objs` may use:
`xseg_resize_request`, and for a copy-up `xseg_get_request` (the handle, or
`none` for NULL), `xseg_prep_request`, `xseg_set_req_data`, `xseg_submit`;
and of the two updates `__set_copyup_node` makes to `copyups_nodes`: each is
`false` when `xhash_insert` (`xhash_delete`) answers `-XHASH_ERESIZE` and
`xhash_resize` returns NULL, so that the table is left as it was. -/
structure xseg_env where
  resize_ok : Bool
  get_request : Option Nat
  prep_ok : Bool
  set_req_data_ok : Bool
  submit_ok : Bool
  copyups_insert_ok : Bool := true
  copyups_delete_ok : Bool := true
deriving DecidableEq, Repr

/-- A request handed to `xseg_submit`: handle, request and the peer request
stored with `xseg_set_req_data`. -/
structure submitted_req where
  handle : Nat
  req : xseg_request
  req_data : Nat
deriving DecidableEq, Repr

/-! ## C string helpers -/

/-- Bytes of a buffer before its first NUL: the C string it holds. -/
def cstr (s : List Nat) : List Nat := s.takeWhile (fun c => c != 0)

/-- Function `strlen`. -/
def strlen (s : List Nat) : Nat := (cstr s).length

/-- The `n` bytes `strncpy(dest, src, n)` stores: the string of `src` cut at
`n` bytes and padded with NULs up to `n`. -/
def strncpy_bytes (src : List Nat) (n : Nat) : List Nat :=
  (cstr src).take n ++ List.replicate (n - ((cstr src).take n).length) 0

/-- ASCII code of the lowercase hexadecimal digit `d`. -/
def hexdigit (d : Nat) : Nat := if d < 10 then 48 + d else 87 + d

/-- Characters produced by `%02x` for an `unsigned int` value. -/
def fmt_02x (v : Nat) : List Nat :=
  if v < 16 then [48, hexdigit v]
  else (Nat.toDigits 16 v).map (fun c => c.toNat)

/-- Characters produced by `%u`. -/
def fmt_u (v : Nat) : List Nat := (Nat.toDigits 10 v).map (fun c => c.toNat)

/-- Lowercase hexadecimal expansion of a digest, two characters per byte, as
written by `sprintf(dst + 2*i, "%02x", buf[i])` over `unsigned char buf[]`. -/
def hexlify (digest : List Nat) : List Nat :=
  digest.flatMap (fun b => fmt_02x (b % 256))

/-! ## Helper functions -/

/-- Function `calc_map_obj`. -/
def calc_map_obj (m : map) : Nat :=
  let nr_objs := m.size / block_size
  if m.size % block_size != 0 then (nr_objs + 1) % U64 else nr_objs

/-- The `while (rem_size > 0)` loop of `calc_nr_obj`; `r` is an
`unsigned int`, `rem_size` a `uint64_t`, and `rem_size - block_size > 0` is an
unsigned comparison. -/
def calc_nr_obj_loop : Nat → Nat → Nat → Option Nat
  | 0, _, _ => none
  | fuel + 1, rem_size, r =>
    if rem_size > 0 then
      let obj_size := if sub64 rem_size block_size > 0 then block_size else rem_size
      calc_nr_obj_loop fuel (sub64 rem_size obj_size) ((r + 1) % U32)
    else some r

/-- Function `calc_nr_obj`. -/
def calc_nr_obj (fuel : Nat) (req : xseg_request) : Option Nat :=
  let r := 1
  let rem_size := req.size % U64
  let obj_offset := (req.offset % U64) &&& (block_size - 1)
  let obj_size := if rem_size > block_size then sub64 block_size obj_offset else rem_size
  let rem_size := sub64 rem_size obj_size
  calc_nr_obj_loop fuel rem_size r

/-! ## Object table -/

/-- Modelled from the spec: the table operation `find(index)` of the
ObjectTable (xhash_lookup of `xtypes/xhash.h`, absent from the sources), on a
table kept as an association list. -/
def xhash_lookup {α : Type} (t : List (Nat × α)) (key : Nat) : Option α :=
  (t.find? (fun e => e.1 == key)).map (fun e => e.2)

/-- Modelled from the spec: the table operation `insert(Entry)` of the
ObjectTable (xhash_insert of `xtypes/xhash.h`, absent from the sources); a
binding already stored under the key is replaced. -/
def xhash_insert {α : Type} (t : List (Nat × α)) (key : Nat) (v : α) : List (Nat × α) :=
  if t.any (fun e => e.1 == key) then
    t.map (fun e => if e.1 == key then (key, v) else e)
  else t ++ [(key, v)]

/-- Function `find_object`. -/
def find_object (m : map) (obj_index : Nat) : Option map_node :=
  xhash_lookup m.objects obj_index

/-- Function `insert_object`; the table grows as needed. -/
def insert_object (m : map) (mn : map_node) : map :=
  { m with objects := xhash_insert m.objects mn.objectidx mn }

/-- Store through a pointer obtained from a lookup: the first element of the
table that satisfies `p`, the one the lookup returns, becomes `v`. -/
def store_first {α : Type} (p : α → Bool) (v : α) : List α → List α
  | [] => []
  | x :: l => if p x then v :: l else x :: store_first p v l

/-- Store through the pointer `mn` obtained from `find_object(map, key)`: the
node bound to `key` is replaced by `mn`. -/
def store_node (m : map) (key : Nat) (mn : map_node) : map :=
  { m with objects := store_first (fun e => e.1 == key) (key, mn) m.objects }

/-- Modelled from the spec: appending to a pending FIFO (`__xq_append_tail` of
the xq queues, absent from the sources) allocated by `xq_alloc_empty` for `cap`
entries; a full queue is left as it is. -/
def xq_append_tail (cap : Nat) (q : List Nat) (x : Nat) : List Nat :=
  if q.length < cap then q ++ [x] else q

/-! ## Copy-up and request translation -/

/-- State the translation of one request works on: the map, the peer request
(with its `mapper_io`), the reply being built in the request data, the
requests submitted to the backing store and the handles given back with
`xseg_put_request`. -/
structure r2o_state where
  map : map
  pr : peer_req
  reply : xseg_reply_map
  submitted : List submitted_req
  released : List Nat
deriving DecidableEq, Repr

/-- Function `__set_copyup_node` with a node, when the insertion is made: bind
the request handle. -/
def set_copyup_node (mio : mapper_io) (handle : Nat) (node : List Nat × Nat) : mapper_io :=
  { mio with copyups_nodes := xhash_insert mio.copyups_nodes handle node }

/-- Name `copyup_object` derives for node `mn`: the hexlified digest of the
string held in `new_object` (the node's name cut at `objectlen` bytes followed
by the decimal index; `new_object[83]` is forced to NUL). -/
def copyup_target (sha256 : List Nat → List Nat) (mn : map_node) : List Nat :=
  let new_object := strncpy_bytes mn.object mn.objectlen ++ fmt_u mn.objectidx ++ [0]
  let len := min (strlen new_object) (XSEG_MAX_TARGET_LEN + 19)
  hexlify (sha256 (new_object.take len))

/-- Function `copyup_object` on the node stored under `key`; returns `r`. -/
def copyup_object (sha256 : List Nat → List Nat) (env : xseg_env) (key : Nat)
    (mn : map_node) (st : r2o_state) : Int × r2o_state :=
  let new_target := copyup_target sha256 mn
  let newtargetlen := SHA256_DIGEST_SIZE * 2
  match env.get_request with
  | none => (-1, st)
  | some h =>
    if !env.prep_ok then (-1, { st with released := st.released ++ [h] })
    else
      let req : xseg_request :=
        { op := xseg_op.X_COPY
          target := strncpy_bytes new_target newtargetlen
          targetlen := newtargetlen
          offset := 0
          size := block_size
          copy_target := cstr (strncpy_bytes mn.object mn.objectlen ++ [0]) }
      if !env.set_req_data_ok then (-1, { st with released := st.released ++ [h] })
      else
        let mio :=
          if env.copyups_insert_ok then set_copyup_node st.pr.mio h (st.map.volume, key)
          else st.pr.mio
        let st := { st with pr := { st.pr with mio := mio } }
        if !env.submit_ok then (-1, { st with released := st.released ++ [h] })
        else (0, { st with submitted := st.submitted ++ [⟨h, req, st.pr.id⟩] })

/-- Name stored in a reply entry: `strncpy(target, mn->object, 64)` followed by
`target[mn->objectlen] = 0`, read back as a string (for `objectlen` up to 64,
the size of the part of `target` that `strncpy` fills). -/
def seg_target (mn : map_node) : List Nat :=
  cstr ((strncpy_bytes mn.object XSEG_MAX_TARGET_LEN ++ [0]).set mn.objectlen 0)

/-- Assignment to `reply->segs[idx]`. -/
def write_seg (segs : List xseg_reply_map_scatterlist) (idx : Nat)
    (seg : xseg_reply_map_scatterlist) : List xseg_reply_map_scatterlist :=
  segs.take idx ++ [seg] ++ segs.drop (idx + 1)

/-- Label `out_object_copying` of `req2objs`: park `pr` on the node. -/
def out_object_copying (nr_ops : Nat) (key : Nat) (mn : map_node) (st : r2o_state) :
    Int × r2o_state :=
  let mn1 : map_node := { mn with pending := xq_append_tail nr_ops mn.pending st.pr.id }
  (MF_PENDING, { st with map := store_node st.map key mn1 })

/-- Body `req2objs` runs for the object at `obj_index`, the same for the first
object and inside the loop: lookup, write-path checks and emission of
`segs[idx]`.  `Except.error` is a `return` from `req2objs`. -/
def visit_object (sha256 : List Nat → List Nat) (env : xseg_env) (nr_ops : Nat)
    (write : Bool) (idx obj_index obj_offset obj_size : Nat) (st : r2o_state) :
    Except (Int × r2o_state) r2o_state :=
  match find_object st.map obj_index with
  | none => Except.error (-1, st)
  | some mn =>
    if write && (mn.flags &&& MF_OBJECT_COPYING != 0) then
      Except.error (out_object_copying nr_ops obj_index mn st)
    else if write && !(mn.flags &&& MF_OBJECT_EXIST != 0) then
      match copyup_object sha256 env obj_index mn st with
      | (r, st1) =>
        if r < 0 then Except.error (-1, st1)
        else
          let mn1 := { mn with flags := mn.flags ||| MF_OBJECT_COPYING }
          let st2 := { st1 with map := store_node st1.map obj_index mn1 }
          Except.error (out_object_copying nr_ops obj_index mn1 st2)
    else
      let segs := write_seg st.reply.segs idx ⟨seg_target mn, obj_offset, obj_size⟩
      Except.ok { st with reply := { cnt := st.reply.cnt, segs := segs } }

/-- The `while (rem_size > 0)` loop of `req2objs`. -/
def req2objs_loop (sha256 : List Nat → List Nat) (env : xseg_env) (nr_ops : Nat)
    (write : Bool) : Nat → Nat → Nat → Nat → r2o_state → Option (Int × r2o_state)
  | 0, _, _, _, _ => none
  | fuel + 1, rem_size, idx, obj_index, st =>
    if rem_size > 0 then
      let idx := (idx + 1) % U32
      let obj_index := (obj_index + 1) % U64
      let obj_offset := 0
      let obj_size := if sub64 rem_size block_size > 0 then block_size else rem_size
      let rem_size := sub64 rem_size obj_size
      match visit_object sha256 env nr_ops write idx obj_index obj_offset obj_size st with
      | Except.error res => some res
      | Except.ok st1 => req2objs_loop sha256 env nr_ops write fuel rem_size idx obj_index st1
    else some (0, st)

/-- Function `req2objs`.  The result is `none` when `calc_nr_obj` or the
emission loop does not finish within `fuel` iterations. -/
def req2objs (fuel : Nat) (sha256 : List Nat → List Nat) (env : xseg_env) (nr_ops : Nat)
    (st : r2o_state) (write : Bool) : Option (Int × r2o_state) :=
  match calc_nr_obj fuel st.pr.req with
  | none => none
  | some nr_objs =>
    if !env.resize_ok then some (-1, st)
    else
      let st := { st with reply := { cnt := nr_objs, segs := [] } }
      let idx := 0
      let rem_size := st.pr.req.size % U64
      let obj_index := (st.pr.req.offset % U64) / block_size
      let obj_offset := (st.pr.req.offset % U64) &&& (block_size - 1)
      let obj_size := if rem_size > block_size then sub64 block_size obj_offset else rem_size
      match visit_object sha256 env nr_ops write idx obj_index obj_offset obj_size st with
      | Except.error res => some res
      | Except.ok st1 =>
        req2objs_loop sha256 env nr_ops write fuel (sub64 rem_size obj_size) idx obj_index st1

/-! ## Map codec -/

/-- What the codec takes from outside the file: the global `magic_sha256`
(32 bytes, the SHA-256 of `magic_string` computed by `custom_peer_init`),
whether plain `char` is signed on the platform, and whether `calloc` of a node
array of the given number of elements succeeds. -/
structure platform where
  magic_sha256 : List Nat
  char_signed : Bool
  calloc_ok : Nat → Bool

/-- Bytes of a `uint64_t` in memory, least significant first. -/
def le64 (n : Nat) : List Nat := (List.range 8).map (fun i => (n / 256 ^ i) % 256)

/-- Value of a `uint64_t` read from its bytes in memory. -/
def le64_decode (bs : List Nat) : Nat := bs.foldr (fun b acc => b % 256 + 256 * acc) 0

/-- The array `nulls` of `read_map`. -/
def nulls : List Nat := List.replicate SHA256_DIGEST_SIZE 0

/-- Element `map_node[i]` of a `calloc`ed node array after
`map_node[i].objectidx = i` and `xq_alloc_empty(&map_node[i].pending, ...)`. -/
def new_node (i : Nat) : map_node :=
  { flags := 0, objectidx := i % U32, objectlen := 0,
    object := List.replicate (XSEG_MAX_TARGET_LEN + 1) 0, pending := [] }

/-- Value passed to `sprintf` for a `char` argument read from a byte `c`:
the integer promotion of the `char`, seen as `unsigned int` by `%x`. -/
def char_promote (char_signed : Bool) (c : Nat) : Nat :=
  if char_signed && decide (128 ≤ c % 256) then U32 - 256 + c % 256 else c % 256

/-- Call `sprintf(dest, "%02x", v)`: the digits and a NUL at the start of
`dest`. -/
def sprintf_02x (dest : List Nat) (v : Nat) : List Nat :=
  let s := fmt_02x v ++ [0]
  s ++ dest.drop s.length

/-- Function `pithosmap_to_object`; `buf` starts at the digest.  The result is
`none` when the 32 bytes read lie outside `buf`. -/
def pithosmap_to_object (char_signed : Bool) (mn : map_node) (buf : List Nat) :
    Option map_node :=
  if buf.length < SHA256_DIGEST_SIZE then none
  else
    let object := (buf.take SHA256_DIGEST_SIZE).foldl
      (fun obj c => sprintf_02x obj (char_promote char_signed c)) mn.object
    let object := object.set XSEG_MAX_TARGET_LEN 0
    some { mn with object := object, objectlen := strlen object, flags := 0 }

/-- Function `map_to_object`; `buf` starts at the record.  The result is
`none` when the 65 bytes read lie outside `buf`. -/
def map_to_object (mn : map_node) (buf : List Nat) : Option map_node :=
  if buf.length < objectsize_in_map then none
  else
    let c := buf.headD 0
    let flags := 0
    let flags := if c != 0 then flags ||| MF_OBJECT_EXIST else flags
    let object := (buf.drop 1).take XSEG_MAX_TARGET_LEN ++ [0]
    some { mn with flags := flags, object := object, objectlen := strlen object }

/-- Function `object_to_map`; `buf` starts at the record and the result is
`buf` after the stores. -/
def object_to_map (buf : List Nat) (mn : map_node) : List Nat :=
  [if mn.flags &&& MF_OBJECT_EXIST != 0 then 1 else 0]
    ++ mn.object.take mn.objectlen
    ++ List.replicate (XSEG_MAX_TARGET_LEN - mn.objectlen) 0
    ++ buf.drop objectsize_in_map

/-- Function `mapheader_to_map`; the result is `buf` after the stores. -/
def mapheader_to_map (P : platform) (m : map) (buf : List Nat) : List Nat :=
  P.magic_sha256.take SHA256_DIGEST_SIZE ++ le64 m.size ++ buf.drop mapheader_size

/-- Store through the pointer `buf + pos`. -/
def at_pos (buf : List Nat) (pos : Nat) (f : List Nat → List Nat) : List Nat :=
  buf.take pos ++ f (buf.drop pos)

/-- Loop `for (i = 0; i < nr_objs; i++)` of the native branch of `read_map`;
the first argument counts the iterations left. -/
def read_map_native_loop (buf : List Nat) : Nat → Nat → Nat → map → Option map
  | 0, _, _, m => some m
  | n + 1, i, pos, m =>
    match map_to_object (new_node i) (buf.drop pos) with
    | none => none
    | some mn => read_map_native_loop buf n (i + 1) (pos + objectsize_in_map) (insert_object m mn)

/-- Native branch of `read_map` (`type == 1`). -/
def read_map_native (P : platform) (m : map) (buf : List Nat) : Option (Int × map) :=
  let pos := SHA256_DIGEST_SIZE
  if buf.length < pos + 8 then none
  else
    let m1 := { m with size := le64_decode ((buf.drop pos).take 8) }
    let pos := pos + 8
    let nr_objs := m1.size / block_size
    let nr_objs := if m1.size % block_size != 0 then nr_objs + 1 else nr_objs
    if !P.calloc_ok nr_objs then some (-1, m1)
    else
      match read_map_native_loop buf nr_objs 0 pos m1 with
      | none => none
      | some m2 => some (0, m2)

/-- Loop `for (i = 0; i < max_nr_objs; i++)` of the legacy branch of
`read_map`; the first argument counts the iterations left and the result
carries the final `i`. -/
def read_map_pithos_loop (char_signed : Bool) (buf : List Nat) :
    Nat → Nat → Nat → map → Option (Nat × map)
  | 0, i, _, m => some (i, m)
  | n + 1, i, pos, m =>
    if (buf.drop pos).length < SHA256_DIGEST_SIZE then none
    else if (buf.drop pos).take SHA256_DIGEST_SIZE = nulls then some (i, m)
    else
      match pithosmap_to_object char_signed (new_node i) (buf.drop pos) with
      | none => none
      | some mn =>
        read_map_pithos_loop char_signed buf n (i + 1) (pos + SHA256_DIGEST_SIZE)
          (insert_object m mn)

/-- Legacy branch of `read_map` (`type == 0`, pithos map). -/
def read_map_pithos (P : platform) (m : map) (buf : List Nat) : Option (Int × map) :=
  let max_nr_objs := block_size / SHA256_DIGEST_SIZE
  if !P.calloc_ok max_nr_objs then some (-1, m)
  else
    match read_map_pithos_loop P.char_signed buf max_nr_objs 0 0 m with
    | none => none
    | some (i, m1) => some (0, { m1 with size := (i * block_size) % U64 })

/-- Function `read_map`: the return value and the map after the call; `none`
when the function reads outside `buf`. -/
def read_map (P : platform) (m : map) (buf : List Nat) : Option (Int × map) :=
  if buf.length < SHA256_DIGEST_SIZE then none
  else if buf.take SHA256_DIGEST_SIZE = nulls then some (-1, m)
  else if buf.take SHA256_DIGEST_SIZE = P.magic_sha256 then read_map_native P m buf
  else read_map_pithos P m buf

/-- Exit taken by `map_write`. -/
inductive map_write_exit where
  | submitted
  | no_request
  | prep_failed
  | missing_object (i : Nat)
  | set_req_data_failed
  | submit_failed
deriving DecidableEq, Repr

/-- Loop `for (i = 0; i < max_objidx; i++)` of `map_write`; the first argument
counts the iterations left.  `Except.error i` is the `goto out_put` taken when
`find_object(map, i)` finds nothing. -/
def map_write_loop (m : map) : Nat → Nat → Nat → List Nat → Except Nat (List Nat)
  | 0, _, _, data => Except.ok data
  | n + 1, i, pos, data =>
    match find_object m i with
    | none => Except.error i
    | some mn =>
      map_write_loop m n (i + 1) (pos + objectsize_in_map)
        (at_pos data pos (fun b => object_to_map b mn))

/-- Function `map_write`: the return value, the exit taken, the size of the
data area asked from `xseg_prep_request` and the bytes stored through `data`
(a list longer than the data area means stores past its end).  `data0` is the
content of the data area before the call. -/
def map_write (P : platform) (env : xseg_env) (m : map) (data0 : List Nat) :
    Int × map_write_exit × Nat × List Nat :=
  let max_objidx := calc_map_obj m
  let datalen := mapheader_size + max_objidx * objectsize_in_map
  match env.get_request with
  | none => (-1, map_write_exit.no_request, datalen, [])
  | some _ =>
    if !env.prep_ok then (-1, map_write_exit.prep_failed, datalen, [])
    else
      let data := (data0 ++ List.replicate datalen 0).take datalen
      let data := mapheader_to_map P m data
      let pos := mapheader_size
      let max_objidx := if m.size % block_size != 0 then (max_objidx + 1) % U64 else max_objidx
      match map_write_loop m max_objidx 0 pos data with
      | Except.error i => (-1, map_write_exit.missing_object i, datalen, data)
      | Except.ok data1 =>
        if !env.set_req_data_ok then (-1, map_write_exit.set_req_data_failed, datalen, data1)
        else if !env.submit_ok then (-1, map_write_exit.submit_failed, datalen, data1)
        else (MF_PENDING, map_write_exit.submitted, datalen, data1)

/-- Encoding part of `test_map`: `mapheader_to_map(m, data)` followed by
`object_to_map(data + pos, find_object(m, i))` for `i = 0 .. n-1`, on a data
buffer with content `data0`.  `Except.error i` is the `exit(1)` taken when
object `i` is not found. -/
def test_map_encode (P : platform) (m : map) (n : Nat) (data0 : List Nat) :
    Except Nat (List Nat) :=
  let data := mapheader_to_map P m data0
  let pos := mapheader_size
  map_write_loop m n 0 pos data

/-! ## Example inputs -/

/-- Node of index `i` with the given flags whose name is the string `name`,
stored NUL-padded in the 65-byte `object` buffer. -/
def named_node (i flags : Nat) (name : List Nat) : map_node :=
  { flags := flags, objectidx := i, objectlen := name.length,
    object := name ++ List.replicate (XSEG_MAX_TARGET_LEN + 1 - name.length) 0,
    pending := [] }

/-- Peer request number 1 carrying operation `op` on volume `v` for the range
`(offset, size)`, with a fresh `mapper_io`. -/
def map_req (op : xseg_op) (offset size : Nat) : peer_req :=
  { id := 1,
    req := { op := op, target := [118], targetlen := 1, offset := offset, size := size,
             copy_target := [] },
    mio := { copyups := 0, copyups_nodes := [], err := 0 } }

/-- Scenario S1: READY native map of size `3 * block_size` whose entries
0, 1, 2 all have EXIST set; their names are `n0`, `n1`, `n2`. -/
def s1_map : map :=
  { flags := 0, size := 3 * block_size, volumelen := 1, volume := [118],
    objects := [(0, named_node 0 MF_OBJECT_EXIST [110, 48]),
                (1, named_node 1 MF_OBJECT_EXIST [110, 49]),
                (2, named_node 2 MF_OBJECT_EXIST [110, 50])],
    pending := [] }

/-- State in which `req2objs` is entered for request `pr` on map `m`. -/
def r2o_init (m : map) (pr : peer_req) : r2o_state :=
  { map := m, pr := pr, reply := { cnt := 0, segs := [] }, submitted := [], released := [] }

/-- Environment in which every xseg primitive succeeds; a request obtained
with `xseg_get_request` has handle 7. -/
def env_ok : xseg_env :=
  { resize_ok := true, get_request := some 7, prep_ok := true, set_req_data_ok := true,
    submit_ok := true }

/-! ## Predicates used in the statements -/

/-- Every key of the table is below `i`. -/
def keys_below {α : Type} (t : List (Nat × α)) (i : Nat) : Prop := ∀ e ∈ t, e.1 < i

/-- The 65 bytes `object_to_map` stores for node `mn`. -/
def object_record (mn : map_node) : List Nat :=
  [if mn.flags &&& MF_OBJECT_EXIST != 0 then 1 else 0]
    ++ mn.object.take mn.objectlen
    ++ List.replicate (XSEG_MAX_TARGET_LEN - mn.objectlen) 0

/-- Node whose `objectlen` fits the record and the `object` buffer. -/
def node_fits (mn : map_node) : Prop :=
  mn.objectlen ≤ XSEG_MAX_TARGET_LEN ∧ mn.objectlen ≤ mn.object.length

/-- Node as in the round trip: `objectlen` is the length of the name held in
`object`, it is at most 64, and no flag other than EXIST is set. -/
def roundtrip_node (mn : map_node) : Prop :=
  mn.objectlen = strlen mn.object ∧ mn.objectlen ≤ XSEG_MAX_TARGET_LEN ∧
    (mn.flags = 0 ∨ mn.flags = MF_OBJECT_EXIST)

/-- Node `read_map` decodes at index `i` from the record of node `mn`. -/
def decoded_node (i : Nat) (mn : map_node) : map_node :=
  { flags := mn.flags, objectidx := i % U32, objectlen := mn.objectlen,
    object := cstr mn.object ++ List.replicate (XSEG_MAX_TARGET_LEN - mn.objectlen) 0 ++ [0],
    pending := [] }



instance (mn : map_node) : Decidable (roundtrip_node mn) := by
  unfold roundtrip_node; infer_instance

/-- Value of `magic_sha256` after `custom_peer_init`: the SHA-256 digest of
`magic_string`, "This a magic string. Please hash me". -/
def magic_digest : List Nat :=
  [19, 129, 12, 23, 126, 156, 200, 112, 21, 46, 191, 104, 18, 186, 38, 84,
   202, 8, 150, 231, 186, 40, 17, 63, 48, 211, 208, 27, 181, 218, 61, 48]

/-- Platform with the real magic digest, signed `char` and a `calloc` that
always succeeds. -/
def test_platform : platform :=
  { magic_sha256 := magic_digest, char_signed := true, calloc_ok := fun _ => true }

/-- Map after `malloc` and `xhash_new`: nothing but an empty object table. -/
def empty_map : map :=
  { flags := 0, size := 0, volumelen := 0, volume := [], objects := [], pending := [] }

/-- Name of node `i` in the test map: 64 lowercase hexadecimal characters
(`test_map` takes the hexlified SHA-256 of the volume name followed by `i`;
here the digest is replaced by 32 copies of the byte `i`). -/
def test_name (i : Nat) : List Nat := hexlify (List.replicate SHA256_DIGEST_SIZE i)

/-- Map built by `test_map`: size `100 * block_size` and, for `i < 100`, node
`i` with EXIST set and a 64-character name, inserted in index order. -/
def test_map_m : map :=
  (List.range 100).foldl
    (fun m i => insert_object m (named_node i MF_OBJECT_EXIST (test_name i)))
    { empty_map with size := 100 * block_size }


/-- Map of size `2 * block_size + 5` with three nodes: `a0` with EXIST set,
`a1` without, and a node with an empty name. -/
def small_map : map :=
  { flags := 0, size := 2 * block_size + 5, volumelen := 1, volume := [118],
    objects := [(0, named_node 0 MF_OBJECT_EXIST [97, 48]), (1, named_node 1 0 [97, 49]),
                (2, named_node 2 MF_OBJECT_EXIST [])],
    pending := [] }

/-- Legacy (pithos) map block holding the digests `ds`: the digests back to
back, followed by zeros up to `block_size` bytes. -/
def legacy_buf (ds : List (List Nat)) : List Nat :=
  ds.flatten ++ List.replicate (block_size - SHA256_DIGEST_SIZE * ds.length) 0

/-- Digest with the bytes 1, 2, ..., 32. -/
def counting_digest : List Nat := List.range' 1 32

/-- Map size stored in the header of a native map block. -/
def header_size_field (buf : List Nat) : Nat :=
  le64_decode ((buf.drop SHA256_DIGEST_SIZE).take 8)

/-- Number of nodes the native branch of `read_map` allocates for a block. -/
def header_nr_objs (buf : List Nat) : Nat :=
  if header_size_field buf % block_size != 0 then header_size_field buf / block_size + 1
  else header_size_field buf / block_size

/-- Platform with the real magic digest on which `calloc` of more than `2^24`
nodes fails. -/
def bounded_platform : platform :=
  { magic_sha256 := magic_digest, char_signed := true,
    calloc_ok := fun n => decide (n ≤ 2 ^ 24) }

/-- Block-sized buffer with the magic, the size field `2^64 - 1` and zeros. -/
def huge_size_buf : List Nat :=
  magic_digest ++ (List.replicate 8 255 ++ List.replicate (block_size - 40) 0)


/-- Map of size 1 (one block) whose table holds the node of index 0. -/
def one_byte_map : map :=
  { flags := 0, size := 1, volumelen := 1, volume := [118],
    objects := [(0, named_node 0 MF_OBJECT_EXIST [97, 48])], pending := [] }

/-- Map of size 1 whose table holds nodes at the indices 0 and 1, one more
than the one block of its size. -/
def one_byte_clone_map : map :=
  { flags := 0, size := 1, volumelen := 1, volume := [118],
    objects := [(0, named_node 0 0 [97, 48]), (1, named_node 1 0 [97, 49])], pending := [] }

/-! ## Dispatcher state -/

/-- Request of the backing store that comes back to the mapper: its handle,
operation and target, the `XS_FAILED` and `XS_SERVED` bits of its state and
its data area. -/
structure backing_reply where
  handle : Nat
  op : xseg_op
  target : List Nat
  targetlen : Nat
  failed : Bool
  served : Bool
  data : List Nat
deriving DecidableEq, Repr

/-- Calls observed from outside a handler, in the order they are made:
entry into `dispatch` for peer request `pr` (with the handle of the reply it
is called for, if any) and the calls `fail(peer, pr)`, `complete(peer, pr)`. -/
inductive event where
  | dispatch (pr : Nat) (reply : Option Nat)
  | fail (pr : Nat)
  | complete (pr : Nat)
deriving DecidableEq, Repr

/-- Reply written into the data of a client request. -/
inductive reply_data where
  | map_reply (r : xseg_reply_map)
  | info_reply (size : Nat)
deriving DecidableEq, Repr

/-- Outcomes of what one handler invocation takes from outside: the xseg
primitives, `malloc` of a `struct map` and the bytes found in its `volume`
field, `xq_alloc_empty` and `xhash_new` for a new map, `calloc` of the node
array of a clone, and whether `xseg_get_data` / `xseg_get_target` return a
pointer. -/
structure handler_env where
  xseg : xseg_env
  malloc_ok : Bool
  heap : List Nat
  xq_alloc_ok : Bool
  xhash_new_ok : Bool
  nodes_calloc_ok : Bool
  get_data_ok : Bool
  get_target_ok : Bool

/-- What stays fixed while the daemon runs (`struct peerd` and the globals):
`nr_ops`, the platform of the codec, the SHA-256 function, the global
`zero_block` and, for the `n`-th handler invocation, the outcomes of the
primitives it uses. -/
structure peerd where
  nr_ops : Nat
  P : platform
  sha256 : List Nat → List Nat
  zero_block : List Nat
  envs : Nat → handler_env

/-- State of the daemon: the map cache `mapper->hashmaps` (maps in insertion
order, keyed by the string in `volume`), the peer requests with their
`mapper_io`, the reply data of the client requests, the requests submitted to
the backing store, the handles given back, the calls observed so far and the
number of handler invocations so far. -/
structure mstate where
  hashmaps : List map
  peer_reqs : List peer_req
  replies : List (Nat × reply_data)
  submitted : List submitted_req
  released : List Nat
  log : List event
  tick : Nat
deriving DecidableEq, Repr

/-- Why a handler does not return a state: its loops did not end within the
fuel, it read outside a buffer, or the increment of an `int` overflowed. -/
inductive stop where
  | out_of_fuel
  | undefined_read
  | signed_overflow
deriving DecidableEq, Repr

/-- Key under which a map is stored in `mapper->hashmaps`: the string held in
its `volume` buffer. -/
def map_key (m : map) : List Nat := cstr m.volume

/-- Function `find_map`. -/
def find_map (hashmaps : List map) (target : List Nat) (targetlen : Nat) : Option map :=
  hashmaps.find? (fun m => map_key m == cstr (strncpy_bytes target targetlen ++ [0]))

/-- Function `insert_map`: the return value and the cache after the call. -/
def insert_map (hashmaps : List map) (m : map) : Int × List map :=
  if (find_map hashmaps m.volume m.volumelen).isSome then (-1, hashmaps)
  else (0, hashmaps ++ [m])

/-- Function `remove_map`. -/
def remove_map (hashmaps : List map) (m : map) : List map :=
  hashmaps.eraseP (fun x => map_key x == map_key m)

/-- Store through a `struct map *` obtained from `find_map`: the cached map
found under the key of `m` is replaced by `m`. -/
def put_map (st : mstate) (m : map) : mstate :=
  { st with hashmaps := store_first (fun x => map_key x == map_key m) m st.hashmaps }

/-- Peer request with the given number. -/
def get_pr (st : mstate) (id : Nat) : Option peer_req :=
  st.peer_reqs.find? (fun p => p.id == id)

/-- Store through a `struct peer_req *`. -/
def put_pr (st : mstate) (pr : peer_req) : mstate :=
  { st with peer_reqs := st.peer_reqs.map (fun p => if p.id == pr.id then pr else p) }

/-- Call `fail(peer, pr)` of the peer framework. -/
def fail (st : mstate) (pr : Nat) : mstate := { st with log := st.log ++ [event.fail pr] }

/-- Call `complete(peer, pr)` of the peer framework. -/
def complete (st : mstate) (pr : Nat) : mstate :=
  { st with log := st.log ++ [event.complete pr] }

/-- Call `xseg_put_request` on the request with handle `h`. -/
def put_request (st : mstate) (h : Nat) : mstate := { st with released := st.released ++ [h] }

/-- Loop `while ((idx = __xq_pop_head(&m->pending)) != Noneidx) fail(peer, idx)`
on a queue with content `q`. -/
def fail_all (st : mstate) (q : List Nat) : mstate := q.foldl fail st



/-! ## Map cache and handlers -/

/-- Modelled from the spec: removal of a binding from a table (xhash_delete of
`xtypes/xhash.h`, absent from the sources). -/
def xhash_delete {α : Type} (t : List (Nat × α)) (key : Nat) : List (Nat × α) :=
  t.eraseP (fun e => e.1 == key)

/-- The READ request `load_map` builds for a volume. -/
def read_request (target : List Nat) (targetlen : Nat) : xseg_request :=
  { op := xseg_op.X_READ, target := strncpy_bytes target targetlen, targetlen := targetlen,
    offset := 0, size := block_size, copy_target := [] }

/-- Labels `out_fail` .. `out_err` of `load_map`: the map is removed from the
cache, the requests on its queue are failed and -1 is returned. -/
def load_map_out_fail (st : mstate) (m : map) : Int × mstate :=
  (-1, fail_all { st with hashmaps := remove_map st.hashmaps m } m.pending)

/-- Function `load_map`.  `d` is the call `dispatch(peer, pr, pr->req)`. -/
def load_map (W : peerd) (env : handler_env) (d : mstate → Nat → Except stop mstate)
    (st : mstate) (pr : peer_req) (target : List Nat) (targetlen : Nat) :
    Except stop (Int × mstate) :=
  match find_map st.hashmaps target targetlen with
  | some m =>
    if m.flags &&& MF_MAP_LOADING != 0 then
      Except.ok (0, put_map st { m with pending := xq_append_tail W.nr_ops m.pending pr.id })
    else
      match d st pr.id with
      | Except.error e => Except.error e
      | Except.ok st1 => Except.ok (0, st1)
  | none =>
    if !env.malloc_ok then Except.ok (-1, st)
    else if !env.xq_alloc_ok then Except.ok (-1, st)
    else if !env.xhash_new_ok then Except.ok (-1, st)
    else
      let volume :=
        (strncpy_bytes target targetlen ++ env.heap.drop targetlen).take XSEG_MAX_TARGET_LEN
          ++ [0]
      let m : map :=
        { flags := MF_MAP_LOADING, size := U64 - 1, volumelen := targetlen % U32,
          volume := volume, objects := [], pending := xq_append_tail W.nr_ops [] pr.id }
      match insert_map st.hashmaps m with
      | (r, hm) =>
        if r < 0 then Except.ok (-1, st)
        else
          let st1 := { st with hashmaps := hm }
          match env.xseg.get_request with
          | none => Except.ok (load_map_out_fail st1 m)
          | some h =>
            if !env.xseg.prep_ok then Except.ok (load_map_out_fail (put_request st1 h) m)
            else if !env.get_target_ok then
              Except.ok (load_map_out_fail (put_request st1 h) m)
            else if !env.xseg.set_req_data_ok then
              Except.ok (load_map_out_fail (put_request st1 h) m)
            else if !env.xseg.submit_ok then
              Except.ok (load_map_out_fail (put_request st1 h) m)
            else
              Except.ok (0, { st1 with
                submitted := st1.submitted ++ [⟨h, read_request target targetlen, pr.id⟩] })

/-- Function `find_or_load_map`: the return value, the map stored in `*m`
and the state after the call. -/
def find_or_load_map (W : peerd) (env : handler_env) (d : mstate → Nat → Except stop mstate)
    (st : mstate) (pr : peer_req) (target : List Nat) (targetlen : Nat) :
    Except stop (Int × Option map × mstate) :=
  match find_map st.hashmaps target targetlen with
  | some m =>
    if m.flags &&& MF_MAP_LOADING != 0 then
      let m1 := { m with pending := xq_append_tail W.nr_ops m.pending pr.id }
      Except.ok (MF_PENDING, some m1, put_map st m1)
    else Except.ok (0, some m, st)
  | none =>
    match load_map W env d st pr target targetlen with
    | Except.error e => Except.error e
    | Except.ok (r, st1) =>
      if r < 0 then Except.ok (-1, none, st1) else Except.ok (MF_PENDING, none, st1)

/-- Call `req2objs(peer, pr, map, write)` from a handler: the return value and
the state with the map, the peer request, the reply and the submitted and
released requests written back. -/
def run_req2objs (W : peerd) (env : handler_env) (fuel : Nat) (st : mstate) (pr : peer_req)
    (m : map) (write : Bool) : Except stop (Int × mstate) :=
  let reply0 : xseg_reply_map :=
    match xhash_lookup st.replies pr.id with
    | some (reply_data.map_reply r) => r
    | _ => { cnt := 0, segs := [] }
  match req2objs fuel W.sha256 env.xseg W.nr_ops
      { map := m, pr := pr, reply := reply0, submitted := st.submitted,
        released := st.released } write with
  | none => Except.error stop.out_of_fuel
  | some (r, rs) =>
    let st1 := put_pr (put_map st rs.map) rs.pr
    Except.ok (r, { st1 with
      replies := xhash_insert st1.replies pr.id (reply_data.map_reply rs.reply),
      submitted := rs.submitted, released := rs.released })

/-- Function `handle_mapr`. -/
def handle_mapr (W : peerd) (env : handler_env) (fuel : Nat)
    (d : mstate → Nat → Except stop mstate) (st : mstate) (pr : peer_req) :
    Except stop mstate :=
  match find_or_load_map W env d st pr pr.req.target pr.req.targetlen with
  | Except.error e => Except.error e
  | Except.ok (r, om, st1) =>
    if r < 0 then Except.ok (fail st1 pr.id)
    else if r = MF_PENDING then Except.ok st1
    else
      match om with
      | none => Except.ok st1
      | some m =>
        if m.flags &&& MF_MAP_DESTROYED != 0 then Except.ok (fail st1 pr.id)
        else
          match run_req2objs W env fuel st1 pr m false with
          | Except.error e => Except.error e
          | Except.ok (r2, st2) =>
            if r2 < 0 then Except.ok (fail st2 pr.id)
            else if r2 = 0 then Except.ok (complete st2 pr.id)
            else Except.ok st2

/-- Node a binding of `copyups_nodes` points to: the node stored under the
key in the cached map with that volume. -/
def resolve_node (st : mstate) (ref : List Nat × Nat) : Option (map × map_node) :=
  match st.hashmaps.find? (fun m => map_key m == cstr ref.1) with
  | none => none
  | some m =>
    match find_object m ref.2 with
    | none => none
    | some mn => some (m, mn)

/-- Loop `while ((idx = __xq_pop_head(&mn->pending)) != Noneidx) dispatch(...)`
of `handle_copyup` on the node `ref` points to; `d` is the call
`dispatch(peer, preq, preq->req)`. -/
def drain_object (d : mstate → Nat → Except stop mstate) (ref : List Nat × Nat) :
    Nat → mstate → Except stop mstate
  | 0, _ => Except.error stop.out_of_fuel
  | n + 1, st =>
    match resolve_node st ref with
    | none => Except.ok st
    | some (m, mn) =>
      match mn.pending with
      | [] => Except.ok st
      | p :: rest =>
        match d (put_map st (store_node m ref.2 { mn with pending := rest })) p with
        | Except.error e => Except.error e
        | Except.ok st2 => drain_object d ref n st2

/-- Function `handle_copyup` up to and including `mio->copyups--`: the state
after these statements and the node found for the reply, if any. -/
def handle_copyup_update (env : xseg_env) (st : mstate) (pr : peer_req)
    (req : backing_reply) : mstate × Option (List Nat × Nat) :=
  let r := req.failed && !req.served
  let mio := if r then { pr.mio with err := 1 } else pr.mio
  let ref := xhash_lookup mio.copyups_nodes req.handle
  let node := ref.bind (resolve_node st)
  let upd : mstate × mapper_io :=
    match ref, node with
    | some rf, some (m, mn) =>
      let mn1 := { mn with flags := mn.flags &&& (U32 - 1 - MF_OBJECT_COPYING) }
      let mn2 :=
        if r then mn1
        else { mn1 with
          flags := mn1.flags ||| MF_OBJECT_EXIST,
          object := strncpy_bytes req.target req.targetlen ++ mn1.object.drop req.targetlen }
      (put_map st (store_node m rf.2 mn2), mio)
    | _, _ => (st, { mio with err := 1 })
  let mio1 :=
    if env.copyups_delete_ok then
      { upd.2 with copyups_nodes := xhash_delete upd.2.copyups_nodes req.handle }
    else upd.2
  let mio2 := { mio1 with copyups := (mio1.copyups + U32 - 1) % U32 }
  (put_pr (put_request upd.1 req.handle) { pr with mio := mio2 },
    match node with
    | some _ => ref
    | none => none)

/-- Function `handle_copyup`. -/
def handle_copyup (env : xseg_env) (d : mstate → Nat → Except stop mstate) (fuel : Nat)
    (st : mstate) (pr : peer_req) (req : backing_reply) : Except stop mstate :=
  match handle_copyup_update env st pr req with
  | (st1, none) => Except.ok st1
  | (st1, some ref) => drain_object d ref fuel st1

/-- Function `handle_mapw` after the test for a COPY reply. -/
def handle_mapw_client (W : peerd) (env : handler_env) (fuel : Nat)
    (d : mstate → Nat → Except stop mstate) (st : mstate) (pr : peer_req) :
    Except stop mstate :=
  match find_or_load_map W env d st pr pr.req.target pr.req.targetlen with
  | Except.error e => Except.error e
  | Except.ok (r, om, st1) =>
    if r < 0 then Except.ok (fail st1 pr.id)
    else if r = MF_PENDING then Except.ok st1
    else
      match om with
      | none => Except.ok st1
      | some m =>
        if m.flags &&& MF_MAP_DESTROYED != 0 then Except.ok (fail st1 pr.id)
        else if pr.mio.err != 0 then Except.ok (fail st1 pr.id)
        else
          match run_req2objs W env fuel st1 { pr with mio := { pr.mio with err := 0 } } m true
          with
          | Except.error e => Except.error e
          | Except.ok (r2, st2) =>
            let st3 := if r2 < 0 then fail st2 pr.id else st2
            if r2 = 0 then Except.ok (complete st3 pr.id) else Except.ok st3

/-- Function `handle_mapw`; `req` is the reply the handler is called for, or
`none` when it is called for the client request itself. -/
def handle_mapw (W : peerd) (env : handler_env) (fuel : Nat)
    (d : mstate → Nat → Except stop mstate) (st : mstate) (pr : peer_req)
    (req : Option backing_reply) : Except stop mstate :=
  match req with
  | some rq =>
    if rq.op = xseg_op.X_COPY then handle_copyup env.xseg d fuel st pr rq
    else handle_mapw_client W env fuel d st pr
  | none => handle_mapw_client W env fuel d st pr



/-- Function `handle_info`. -/
def handle_info (W : peerd) (env : handler_env) (d : mstate → Nat → Except stop mstate)
    (st : mstate) (pr : peer_req) : Except stop mstate :=
  if !env.get_target_ok then Except.ok (fail st pr.id)
  else
    match find_or_load_map W env d st pr pr.req.target pr.req.targetlen with
    | Except.error e => Except.error e
    | Except.ok (r, om, st1) =>
      if r < 0 then Except.ok (fail st1 pr.id)
      else if r = MF_PENDING then Except.ok st1
      else
        match om with
        | none => Except.ok st1
        | some m =>
          if m.flags &&& MF_MAP_DESTROYED != 0 then Except.ok (fail st1 pr.id)
          else
            Except.ok (complete
              { st1 with replies := xhash_insert st1.replies pr.id (reply_data.info_reply m.size) }
              pr.id)

/-- Function `handle_destroy`. -/
def handle_destroy (st : mstate) (pr : peer_req) : Except stop mstate :=
  Except.ok (fail st pr.id)

/-- Function `handle_snap`. -/
def handle_snap (st : mstate) (pr : peer_req) : Except stop mstate :=
  Except.ok (fail st pr.id)

/-- Element `map_nodes[i]` that `handle_clone` fills for index `i` of the
parent map `parent`. -/
def clone_node (W : peerd) (parent : map) (i : Nat) : map_node :=
  let src : List Nat × Nat :=
    match find_object parent i with
    | some mn => (strncpy_bytes mn.object mn.objectlen, mn.objectlen)
    | none => (strncpy_bytes W.zero_block (strlen W.zero_block), strlen W.zero_block)
  { flags := 0, objectidx := i % U32, objectlen := src.2,
    object := ((src.1 ++ List.replicate (XSEG_MAX_TARGET_LEN + 1 - src.2) 0).take
      (XSEG_MAX_TARGET_LEN + 1)).set src.2 0,
    pending := [] }

/-- Loop `for (i = 0; i < xclone->size/block_size + 1; i++)` of `handle_clone`;
the first argument counts the iterations left.  The index `i` is an `int`: the
result is `none` when `i++` is reached with `i = INT_MAX`, where the increment
overflows. -/
def clone_nodes (W : peerd) (parent : map) : Nat → Nat → map → Option map
  | 0, _, cm => some cm
  | n + 1, i, cm =>
    if i < INT_MAX then
      clone_nodes W parent n (i + 1) (insert_object cm (clone_node W parent i))
    else none

/-- Function `handle_clone`. -/
def handle_clone (W : peerd) (env : handler_env) (d : mstate → Nat → Except stop mstate)
    (st : mstate) (pr : peer_req) : Except stop mstate :=
  if !env.get_data_ok then Except.ok (fail st pr.id)
  else
    match find_or_load_map W env d st pr pr.req.clone_target (strlen pr.req.clone_target) with
    | Except.error e => Except.error e
    | Except.ok (r, om, st1) =>
      if r < 0 then Except.ok (fail st1 pr.id)
      else if r = MF_PENDING then Except.ok st1
      else
        match om with
        | none => Except.ok st1
        | some m =>
          if m.flags &&& MF_MAP_DESTROYED != 0 then Except.ok (fail st1 pr.id)
          else if !env.malloc_ok then Except.ok (fail st1 pr.id)
          else if !env.xhash_new_ok then Except.ok (fail st1 pr.id)
          else if !env.xq_alloc_ok then Except.ok (fail st1 pr.id)
          else
            let len := pr.req.targetlen
            let clonemap : map :=
              { flags := 0, size := pr.req.clone_size % U64, volumelen := len % U32,
                volume := (strncpy_bytes pr.req.target len ++ [0] ++ env.heap.drop (len + 1)).take
                  (XSEG_MAX_TARGET_LEN + 1),
                objects := [], pending := [] }
            if !env.nodes_calloc_ok then Except.ok (fail st1 pr.id)
            else
              let c := (pr.req.clone_size % U64) / block_size + 1
              match clone_nodes W m c 0 clonemap with
              | none => Except.error stop.signed_overflow
              | some clonemap1 =>
                match insert_map st1.hashmaps clonemap1 with
                | (r2, hm) =>
                  if r2 < 0 then Except.ok (fail st1 pr.id)
                  else Except.ok (complete { st1 with hashmaps := hm } pr.id)

/-- Loop `while ((idx = __xq_pop_head(&map->pending)) != Noneidx) dispatch(...)`
of `handle_mapread` on the cached map with key `key`; `d` is the call
`dispatch(peer, preq, preq->req)`. -/
def drain_map (d : mstate → Nat → Except stop mstate) (key : List Nat) :
    Nat → mstate → Except stop mstate
  | 0, _ => Except.error stop.out_of_fuel
  | n + 1, st =>
    match st.hashmaps.find? (fun m => map_key m == key) with
    | none => Except.ok st
    | some m =>
      match m.pending with
      | [] => Except.ok st
      | p :: rest =>
        match d (put_map st { m with pending := rest }) p with
        | Except.error e => Except.error e
        | Except.ok st2 => drain_map d key n st2

/-- Label `out_fail` of `handle_mapread`: every request parked on the map is
failed and the map is removed from the cache. -/
def handle_mapread_out_fail (st : mstate) (m : map) (req : backing_reply) : mstate :=
  let st1 := fail_all (put_request st req.handle) m.pending
  { st1 with hashmaps := remove_map st1.hashmaps m }

/-- Function `handle_mapread`. -/
def handle_mapread (W : peerd) (d : mstate → Nat → Except stop mstate) (fuel : Nat)
    (st : mstate) (req : backing_reply) : Except stop mstate :=
  match find_map st.hashmaps req.target req.targetlen with
  | none => Except.ok (put_request st req.handle)
  | some m =>
    if req.failed then Except.ok (handle_mapread_out_fail st m req)
    else
      match read_map W.P m req.data with
      | none => Except.error stop.undefined_read
      | some (r, m1) =>
        if r < 0 then Except.ok (handle_mapread_out_fail (put_map st m1) m1 req)
        else
          let m2 := { m1 with flags := m1.flags &&& (U32 - 1 - MF_MAP_LOADING) }
          drain_map d (map_key m2) fuel (put_map (put_request st req.handle) m2)

/-- The client request of `pr` seen as the `req` argument of `dispatch`: it
is neither failed nor served and its data area holds no map block (0 stands
for its handle). -/
def own_request (pr : peer_req) : backing_reply :=
  { handle := 0, op := pr.req.op, target := pr.req.target, targetlen := pr.req.targetlen,
    failed := false, served := false, data := [] }

/-- Body of `dispatch(peer, pr, req)`; `req` is a reply of the backing store,
or `none` for `pr->req`, and `d` is the nested call `dispatch(peer, preq,
preq->req)`. -/
def dispatch_body (W : peerd) (fuel : Nat) (d : mstate → Nat → Except stop mstate)
    (st0 : mstate) (pr_id : Nat) (req : Option backing_reply) : Except stop mstate :=
  let env := W.envs st0.tick
  let st := { st0 with
    tick := st0.tick + 1,
    log := st0.log ++ [event.dispatch pr_id (req.map (fun r => r.handle))] }
  match get_pr st pr_id with
  | none => Except.ok st
  | some pr =>
    let rq := match req with
      | some r => r
      | none => own_request pr
    if rq.op = xseg_op.X_READ then handle_mapread W d fuel st rq
    else
      match pr.req.op with
      | xseg_op.X_CLONE => handle_clone W env d st pr
      | xseg_op.X_MAPR => handle_mapr W env fuel d st pr
      | xseg_op.X_MAPW => handle_mapw W env fuel d st pr req
      | xseg_op.X_INFO => handle_info W env d st pr
      | xseg_op.X_DELETE => handle_destroy st pr
      | _ => Except.ok st

/-- Function `dispatch`: `fuel` bounds the depth of nested calls and the
number of iterations of every loop. -/
def dispatch : Nat → peerd → mstate → Nat → Option backing_reply → Except stop mstate
  | 0, _, _, _, _ => Except.error stop.out_of_fuel
  | fuel + 1, W, st, pr_id, req =>
    dispatch_body W fuel (fun s p => dispatch fuel W s p none) st pr_id req



/-- ASCII code of a lowercase hexadecimal digit, `0`-`9` or `a`-`f`. -/
def is_lower_hex (c : Nat) : Prop := (48 ≤ c ∧ c ≤ 57) ∨ (97 ≤ c ∧ c ≤ 102)



/-- Stand-in for SHA-256 in the examples: 32 copies of the sum of the input
bytes modulo 256. -/
def digest_stub (l : List Nat) : List Nat := List.replicate SHA256_DIGEST_SIZE (l.sum % 256)

/-- Legacy map with six entries, none with EXIST set, named as `read_map`
names them (two characters); entry 5 is called `25`. -/
def s2_map : map :=
  { flags := 0, size := 6 * block_size, volumelen := 1,
    volume := [118] ++ List.replicate XSEG_MAX_TARGET_LEN 0,
    objects := (List.range 6).map (fun i => (i, named_node i 0 [50, 48 + i])),
    pending := [] }

/-- State `req2objs` returns with `MF_PENDING` after it has started a copy-up
of the node `mn` stored under `key`, whose name is `p`, with the COPY request
of handle `h`: the COPY is submitted, the handle is bound to the node, the
node has COPYING set and the request is at the tail of its queue. -/
def copyup_started (sha256 : List Nat → List Nat) (h key : Nat) (mn : map_node)
    (p : List Nat) (st : r2o_state) : r2o_state :=
  { st with
    map := store_node st.map key
      { mn with flags := mn.flags ||| MF_OBJECT_COPYING,
                pending := mn.pending ++ [st.pr.id] },
    pr := { st.pr with mio := set_copyup_node st.pr.mio h (st.map.volume, key) },
    submitted := st.submitted ++
      [⟨h, { op := xseg_op.X_COPY, target := hexlify (sha256 (p ++ fmt_u mn.objectidx)),
             targetlen := 64, offset := 0, size := block_size, copy_target := p },
        st.pr.id⟩] }

/-- State `req2objs` returns with `MF_PENDING` after it has parked the request
on the node `mn` stored under `key`: nothing but the queue of that node has
changed. -/
def parked_on (key : Nat) (mn : map_node) (st : r2o_state) : r2o_state :=
  { st with map := store_node st.map key { mn with pending := mn.pending ++ [st.pr.id] } }

/-- Entry 5 of `s2_map` while its copy-up, started by peer request 1, is in
flight. -/
def s2_copying_node : map_node :=
  { named_node 5 MF_OBJECT_COPYING [50, 53] with pending := [1] }

/-- The map `s2_map` with entry 5 being copied up for peer request 1. -/
def s2_copying_map : map := store_node s2_map 5 s2_copying_node

/-- Peer request number `id` carrying a MAPW for block 5 of volume `v`. -/
def mapw5 (id : Nat) : peer_req :=
  { map_req xseg_op.X_MAPW (5 * block_size) block_size with id := id }

/-- Outcomes for the `n`-th handler invocation when every primitive succeeds;
a request obtained with `xseg_get_request` then has handle `100 + n`. -/
def henv_ok (n : Nat) : handler_env :=
  { xseg := { resize_ok := true, get_request := some (100 + n), prep_ok := true,
              set_req_data_ok := true, submit_ok := true },
    malloc_ok := true, heap := List.replicate (XSEG_MAX_TARGET_LEN + 1) 0, xq_alloc_ok := true,
    xhash_new_ok := true, nodes_calloc_ok := true, get_data_ok := true, get_target_ok := true }

/-- Daemon of the examples: four peer requests, `digest_stub` for SHA-256 and
primitives that all succeed. -/
def test_peerd : peerd :=
  { nr_ops := 4, P := test_platform, sha256 := digest_stub,
    zero_block := List.replicate XSEG_MAX_TARGET_LEN 48 ++ [0], envs := henv_ok }

/-- Scenario S2, before the request: `s2_map` is cached and READY, and the
peer requests 1 and 2 each carry a MAPW for block 5. -/
def s2_before : mstate :=
  { hashmaps := [s2_map], peer_reqs := [mapw5 1, mapw5 2], replies := [], submitted := [],
    released := [], log := [], tick := 0 }

/-- Name `copyup_object` derives for entry 5 of `s2_map` with `digest_stub`. -/
def s2_new_name : List Nat := hexlify (digest_stub ([50, 53] ++ fmt_u 5))

/-- The COPY request submitted for entry 5 of `s2_map`. -/
def s2_copy : xseg_request :=
  { op := xseg_op.X_COPY, target := s2_new_name, targetlen := 64, offset := 0,
    size := block_size, copy_target := [50, 53] }

/-- Peer request 1 while its COPY, of handle 100, is in flight. -/
def copying_req : peer_req :=
  { mapw5 1 with
    mio := { copyups := 0, copyups_nodes := [(100, (s2_map.volume, 5))], err := 0 } }

/-- Scenario S2, after the MAPW of peer request 1 was dispatched: the COPY
with handle 100 is in flight and bound to entry 5, which has COPYING set and
peer request 1 on its queue. -/
def s2_after : mstate :=
  { hashmaps := [s2_copying_map],
    peer_reqs := [copying_req, mapw5 2],
    replies := [(1, reply_data.map_reply { cnt := 1, segs := [] })],
    submitted := [⟨100, s2_copy, 1⟩], released := [], log := [event.dispatch 1 none],
    tick := 1 }

/-- Reply of the backing store to the COPY with handle `h` and target
`s2_new_name`: failed (and not served) or served. -/
def copy_reply (h : Nat) (failed : Bool) : backing_reply :=
  { handle := h, op := xseg_op.X_COPY, target := s2_new_name, targetlen := 64,
    failed := failed, served := !failed, data := [] }

/-- Scenario S3, after the successful reply to the COPY of `s2_after` was
handled: entry 5 has EXIST set and the 64 bytes of the new name in `object`,
with `objectlen` still 2, and peer request 1 was answered with one segment
named by the first two bytes of the new name. -/
def s3_after : mstate :=
  { hashmaps :=
      [store_node s2_map 5
        { flags := MF_OBJECT_EXIST, objectidx := 5, objectlen := 2,
          object := s2_new_name ++ [0], pending := [] }],
    peer_reqs :=
      [{ mapw5 1 with mio := { copyups := U32 - 1, copyups_nodes := [], err := 0 } },
       mapw5 2],
    replies :=
      [(1, reply_data.map_reply
        { cnt := 1, segs := [⟨s2_new_name.take 2, 0, block_size⟩] })],
    submitted := [⟨100, s2_copy, 1⟩], released := [100],
    log := [event.dispatch 1 none, event.dispatch 1 (some 100), event.dispatch 1 none,
            event.complete 1],
    tick := 3 }

/-- Scenario S4, after the failed reply to the COPY of `s2_after` was
handled: entry 5 is as before S2, peer request 1 has `err` set and was
failed. -/
def s4_after : mstate :=
  { hashmaps := [s2_map],
    peer_reqs :=
      [{ mapw5 1 with mio := { copyups := U32 - 1, copyups_nodes := [], err := 1 } },
       mapw5 2],
    replies := [(1, reply_data.map_reply { cnt := 1, segs := [] })],
    submitted := [⟨100, s2_copy, 1⟩], released := [100],
    log := [event.dispatch 1 none, event.dispatch 1 (some 100), event.dispatch 1 none,
            event.fail 1],
    tick := 3 }

/-- The map `s2_map` with flags `f` and queue `q` on entry 5. -/
def s2_map_with (f : Nat) (q : List Nat) : map :=
  store_node s2_map 5 { named_node 5 f [50, 53] with pending := q }

/-- Scenario S2 continued: peer request 2 was dispatched too and is parked
behind peer request 1 on entry 5. -/
def s2_both_parked : mstate :=
  { s2_after with
    hashmaps := [s2_map_with MF_OBJECT_COPYING [1, 2]],
    replies := [(1, reply_data.map_reply { cnt := 1, segs := [] }),
                (2, reply_data.map_reply { cnt := 1, segs := [] })],
    log := [event.dispatch 1 none, event.dispatch 2 none],
    tick := 2 }

/-- Peer request 1 after its COPY has failed: `err` is set. -/
def failed_req : peer_req :=
  { mapw5 1 with mio := { copyups := U32 - 1, copyups_nodes := [], err := 1 } }

/-- Peer request 2 with the bindings `b` in `copyups_nodes`. -/
def retry_req (b : List (Nat × (List Nat × Nat))) : peer_req :=
  { mapw5 2 with mio := { copyups := 0, copyups_nodes := b, err := 0 } }

/-- Peer requests after the COPY of peer request 1 has failed. -/
def reqs_after_failure (b : List (Nat × (List Nat × Nat))) : List peer_req :=
  [failed_req, retry_req b]

/-- State with the map `s2_map_with f q` and the peer requests
`reqs_after_failure b`; the other fields are those of `s`. -/
def retry_state (f : Nat) (q : List Nat) (b : List (Nat × (List Nat × Nat))) (s : mstate) :
    mstate :=
  { s with hashmaps := [s2_map_with f q], peer_reqs := reqs_after_failure b }

/-- Scenario S4 continued: the state in which a MAPW of peer request 2 has
started a new copy-up of entry 5, with the COPY of handle 103. -/
def s4_retried : mstate :=
  { s4_after with
    hashmaps := [s2_map_with MF_OBJECT_COPYING [2]],
    peer_reqs := reqs_after_failure [(103, (s2_map.volume, 5))],
    replies := [(1, reply_data.map_reply { cnt := 1, segs := [] }),
                (2, reply_data.map_reply { cnt := 1, segs := [] })],
    submitted := [⟨100, s2_copy, 1⟩, ⟨103, s2_copy, 2⟩],
    log := s4_after.log ++ [event.dispatch 2 none],
    tick := 4 }

/-- Node `handle_copyup` leaves for the reply `req` where it found `mn`:
COPYING is cleared and, unless the reply is failed and not served, EXIST is
set and the first `targetlen` bytes of `object` are those of the target. -/
def node_after_copyup (req : backing_reply) (mn : map_node) : map_node :=
  if req.failed && !req.served then
    { mn with flags := mn.flags &&& (U32 - 1 - MF_OBJECT_COPYING) }
  else
    { mn with
      flags := (mn.flags &&& (U32 - 1 - MF_OBJECT_COPYING)) ||| MF_OBJECT_EXIST,
      object := strncpy_bytes req.target req.targetlen ++ mn.object.drop req.targetlen }

/-- The `mapper_io` `handle_copyup` leaves for the reply `req` when it found
the node: `err` is set for a reply that is failed and not served, the binding
of the handle is removed when the deletion is made, and `copyups` is
decremented. -/
def mio_after_copyup (env : xseg_env) (req : backing_reply) (mio : mapper_io) : mapper_io :=
  { copyups := (mio.copyups + U32 - 1) % U32,
    copyups_nodes :=
      if env.copyups_delete_ok then xhash_delete mio.copyups_nodes req.handle
      else mio.copyups_nodes,
    err := if req.failed && !req.served then 1 else mio.err }

/-- Requests of the log that are re-dispatches of a peer request
(`dispatch(peer, pr, pr->req)`), in the order they were made. -/
def redispatched (log : List event) : List Nat :=
  log.filterMap (fun e => match e with
    | event.dispatch p none => some p
    | _ => none)

/-- Queue `pending` of the cached map with key `key` (empty when there is no
such map). -/
def map_pending (st : mstate) (key : List Nat) : List Nat :=
  match st.hashmaps.find? (fun m => map_key m == key) with
  | some m => m.pending
  | none => []

/-- Queue `pending` of the node `ref` points to (empty when there is no such
node). -/
def entry_pending (st : mstate) (ref : List Nat × Nat) : List Nat :=
  match resolve_node st ref with
  | some x => x.2.pending
  | none => []

/-- A stand-in for `dispatch(peer, preq, preq->req)` that only records the
call. -/
def record_dispatch (s : mstate) (p : Nat) : Except stop mstate :=
  Except.ok { s with log := s.log ++ [event.dispatch p none] }

/-- Peer request number `id` carrying a MAPR of 512 bytes at offset 0 of
volume `v`. -/
def mapr0 (id : Nat) : peer_req := { map_req xseg_op.X_MAPR 0 512 with id := id }

/-- Empty cache and two peer requests that read volume `v`. -/
def load_before : mstate :=
  { hashmaps := [], peer_reqs := [mapr0 1, mapr0 2], replies := [], submitted := [],
    released := [], log := [], tick := 0 }

/-- Start of a native map block for a volume of one block whose object 0
exists and is called `test_name 7`: the magic, the size and one record. -/
def one_block_map_data : List Nat :=
  magic_digest ++ le64 block_size ++ [1] ++ test_name 7

/-- Reply to the READ of handle `h` for volume `v`, failed or served with
`one_block_map_data`. -/
def read_reply (h : Nat) (failed : Bool) : backing_reply :=
  { handle := h, op := xseg_op.X_READ, target := [118], targetlen := 1, failed := failed,
    served := !failed, data := one_block_map_data }

/-- State after both peer requests of `load_before` were dispatched: the map
of volume `v` is LOADING, the READ of handle 100 is in flight and the peer
requests 1 and 2 are parked on the map, in this order. -/
def load_both : mstate :=
  { hashmaps :=
      [{ flags := MF_MAP_LOADING, size := U64 - 1, volumelen := 1,
         volume := [118] ++ List.replicate XSEG_MAX_TARGET_LEN 0, objects := [],
         pending := [1, 2] }],
    peer_reqs := [mapr0 1, mapr0 2], replies := [],
    submitted := [⟨100, read_request [118] 1, 1⟩], released := [],
    log := [event.dispatch 1 none, event.dispatch 2 none], tick := 2 }

/-- Bindings of `copyups_nodes` tables that point to the node `ref`, as pairs
of the peer request that holds the table and the handle bound. -/
def copies_bound_to (st : mstate) (ref : List Nat × Nat) : List (Nat × Nat) :=
  st.peer_reqs.flatMap (fun pr =>
    (pr.mio.copyups_nodes.filter (fun b => b.2 == ref)).map (fun b => (pr.id, b.1)))

/-- Outcomes as in `henv_ok`, except that the first handler invocation cannot
insert into `copyups_nodes` (`xhash_resize` returns NULL). -/
def henv_no_insert (n : Nat) : handler_env :=
  if n = 0 then
    { henv_ok 0 with xseg := { (henv_ok 0).xseg with copyups_insert_ok := false } }
  else henv_ok n

/-- The daemon `test_peerd` with the outcomes `henv_no_insert`. -/
def peerd_no_insert : peerd := { test_peerd with envs := henv_no_insert }

/-- State reached from `s2_before` by the MAPW of peer request 1 when the
insertion into `copyups_nodes` is not made: as `s2_after`, without the
binding. -/
def s2_unbound : mstate := { s2_after with peer_reqs := [mapw5 1, mapw5 2] }

/-- State reached from `s2_unbound` when the reply to the COPY, a success,
was handled. -/
def s2_unbound_replied : mstate :=
  { s2_unbound with
    peer_reqs :=
      [{ mapw5 1 with mio := { copyups := U32 - 1, copyups_nodes := [], err := 1 } },
       mapw5 2],
    released := [100],
    log := [event.dispatch 1 none, event.dispatch 1 (some 100)],
    tick := 2 }

/-- The `struct map` `handle_clone` fills in before it creates the nodes. -/
def new_clonemap (env : handler_env) (pr : peer_req) : map :=
  { flags := 0, size := pr.req.clone_size % U64, volumelen := pr.req.targetlen % U32,
    volume :=
      (strncpy_bytes pr.req.target pr.req.targetlen ++ [0]
        ++ env.heap.drop (pr.req.targetlen + 1)).take (XSEG_MAX_TARGET_LEN + 1),
    objects := [], pending := [] }

/-- Number `c` of nodes `handle_clone` creates: `xclone->size/block_size + 1`. -/
def clone_count (pr : peer_req) : Nat := (pr.req.clone_size % U64) / block_size + 1

/-- Peer request number `id` carrying a CLONE of volume `v1` into the new
volume `v2` of `size` bytes. -/
def clone_req (id size : Nat) : peer_req :=
  { id := id,
    req := { op := xseg_op.X_CLONE, target := [118, 50], targetlen := 2, offset := 0,
             size := 0, copy_target := [], clone_target := [118, 49], clone_size := size },
    mio := { copyups := 0, copyups_nodes := [], err := 0 } }

/-- Scenario S6: READY map of volume `v1` with entry 0 named `a` and entry 1
named `b`, and no entry 2. -/
def s6_parent (a b : List Nat) : map :=
  { flags := 0, size := 2 * block_size, volumelen := 2,
    volume := [118, 49] ++ List.replicate (XSEG_MAX_TARGET_LEN - 1) 0,
    objects := [(0, named_node 0 MF_OBJECT_EXIST a), (1, named_node 1 MF_OBJECT_EXIST b)],
    pending := [] }

/-- Scenario S6, before the request: `v1` is cached and peer request 1
carries the CLONE into `v2` with size `2.5 * block_size`. -/
def s6_before (a b : List Nat) : mstate :=
  { hashmaps := [s6_parent a b], peer_reqs := [clone_req 1 (2 * block_size + block_size / 2)],
    replies := [], submitted := [], released := [], log := [], tick := 0 }

/-- Scenario S6: the map of volume `v2` expected after the CLONE. -/
def s6_clone (a b : List Nat) : map :=
  { flags := 0, size := 2 * block_size + block_size / 2, volumelen := 2,
    volume := [118, 50] ++ List.replicate (XSEG_MAX_TARGET_LEN - 1) 0,
    objects := [(0, named_node 0 0 a), (1, named_node 1 0 b),
                (2, named_node 2 0 (List.replicate XSEG_MAX_TARGET_LEN 48))],
    pending := [] }



/-- State whose only peer request, number 1, carries a request of operation
`op`; the cache holds `s2_map`. -/
def single_req_state (op : xseg_op) : mstate :=
  { s2_before with peer_reqs := [map_req op 0 0] }

/-- Outcomes as in `henv_ok`, except that the memory `malloc` returns holds
the byte 170 everywhere. -/
def henv_dirty (n : Nat) : handler_env :=
  { henv_ok n with heap := List.replicate (XSEG_MAX_TARGET_LEN + 1) 170 }

/-- The daemon `test_peerd` with the outcomes `henv_dirty`. -/
def peerd_dirty : peerd := { test_peerd with envs := henv_dirty }

/-- Content of the `volume` field of a map that `load_map` makes for volume
`v` in memory of `henv_dirty`: `strncpy` stores the one byte of the name, the
bytes 1 to 63 keep what `malloc` returned and byte 64 is set to NUL. -/
def dirty_volume : List Nat :=
  [118] ++ List.replicate (XSEG_MAX_TARGET_LEN - 1) 170 ++ [0]

/-- Map that `load_map` makes for volume `v` and peer request `p` in memory
of `henv_dirty`. -/
def dirty_map (p : Nat) : map :=
  { flags := MF_MAP_LOADING, size := U64 - 1, volumelen := 1, volume := dirty_volume,
    objects := [], pending := [p] }

/-- State after both peer requests of `load_before` were dispatched with the
outcomes `henv_dirty`: two maps for volume `v`, each with its own READ. -/
def dirty_both : mstate :=
  { hashmaps := [dirty_map 1, dirty_map 2], peer_reqs := [mapr0 1, mapr0 2], replies := [],
    submitted := [⟨100, read_request [118] 1, 1⟩, ⟨101, read_request [118] 1, 2⟩],
    released := [], log := [event.dispatch 1 none, event.dispatch 2 none], tick := 2 }

/-- Run of `dispatch` for the client request of peer request `a`, then for
that of peer request `b`. -/
def dispatch_two (W : peerd) (st : mstate) (a b : Nat) : Except stop mstate :=
  match dispatch 2 W st a none with
  | Except.error e => Except.error e
  | Except.ok s => dispatch 2 W s b none

/-- Calls of `find_or_load_map` for the target of `a`, then for that of `b`,
as made by the first two handler invocations: the two return values and the
state after the second call. -/
def find_or_load_two (W : peerd) (st : mstate) (a b : peer_req) : Option (Int × Int × mstate) :=
  match find_or_load_map W (W.envs 0) record_dispatch st a a.req.target a.req.targetlen with
  | Except.error _ => none
  | Except.ok (r1, _, s1) =>
    match find_or_load_map W (W.envs 1) record_dispatch s1 b b.req.target b.req.targetlen with
    | Except.error _ => none
    | Except.ok (r2, _, s2) => some (r1, r2, s2)

/-- Reply to the READ of handle `h` for volume `v` that was served with a
block whose first 32 bytes are zero, which `read_map` rejects. -/
def zero_magic_reply (h : Nat) : backing_reply :=
  { read_reply h false with data := List.replicate SHA256_DIGEST_SIZE 0 }

/-- Outcomes as in `henv_ok 0`, except that `xseg_get_request` returns no
request. -/
def henv_no_request : handler_env :=
  { henv_ok 0 with xseg := { (henv_ok 0).xseg with get_request := none } }

/-- Peer request number `id` carrying a MAPR for the range `(offset, size)` of
volume `v2`. -/
def mapr_v2 (id offset size : Nat) : peer_req :=
  { id := id,
    req := { op := xseg_op.X_MAPR, target := [118, 50], targetlen := 2, offset := offset,
             size := size, copy_target := [] },
    mio := { copyups := 0, copyups_nodes := [], err := 0 } }

/-- Volume `v1` of scenario S6 is cached; peer request 1 carries the CLONE
into `v2` with a size of exactly one block and peer request 2 a MAPR of 512
bytes at offset `block_size` of `v2`. -/
def s6_one_block : mstate :=
  { s6_before [65] [66] with
    peer_reqs := [clone_req 1 block_size, mapr_v2 2 block_size 512] }

/-- Empty cache and one peer request that reads the range `(offset, size)` of
volume `v`. -/
def load_one_before (offset size : Nat) : mstate :=
  { load_before with peer_reqs := [{ map_req xseg_op.X_MAPR offset size with id := 1 }] }

/-- Run from `load_one_before`: the client request is dispatched, which
starts the load of volume `v`, then the reply to the READ comes back with
`one_block_map_data` (size `block_size`, one entry). -/
def load_and_decode (offset size : Nat) : Except stop mstate :=
  match dispatch 2 test_peerd (load_one_before offset size) 1 none with
  | Except.error e => Except.error e
  | Except.ok s => dispatch 4 test_peerd s 1 (some (read_reply 100 false))

/-- The daemon `test_peerd` when `xseg_get_request` never returns a request. -/
def peerd_no_request : peerd := { test_peerd with envs := fun _ => henv_no_request }

/-- Outcomes as in `henv_ok`, except that `xseg_submit` returns `NoPort`. -/
def henv_no_submit (n : Nat) : handler_env :=
  { henv_ok n with xseg := { (henv_ok n).xseg with submit_ok := false } }

/-- The daemon `test_peerd` when no request can be submitted. -/
def peerd_no_submit : peerd := { test_peerd with envs := henv_no_submit }

/-- Block-sized buffer with the magic, the size field `16132 * block_size`
and zeros. -/
def past_block_buf : List Nat :=
  magic_digest ++ (le64 (16132 * block_size) ++ List.replicate (block_size - 40) 0)

/-- Record `struct xseg_config` as `xseg.c` uses it (the declaration is in
`xseg.h`, absent from the sources): the two names and the five numbers of a
segment spec. -/
structure xseg_config where
  type : List Nat
  name : List Nat
  nr_ports : Nat
  nr_requests : Nat
  request_size : Nat
  extra_size : Nat
  page_shift : Nat
deriving DecidableEq, Repr

/-- What `xseg.c` takes from `xseg.h`, absent from the sources, as fixed
parameters: the sizes of the structures laid out in a segment and the sizes
of the two name arrays of a config. -/
structure xseg_sizes where
  sizeof_xseg_request : Nat
  sizeof_xseg_port : Nat
  sizeof_xqindex : Nat
  sizeof_xseg_shared : Nat
  tnamesize : Nat
  namesize : Nat
deriving DecidableEq, Repr

/-- Macro `XSEG_MIN_PAGE_SIZE`. -/
def XSEG_MIN_PAGE_SIZE : Nat := 4096

/-- Modelled from the spec: the macro `__align(x, shift)` of `xseg.h`, absent
from the sources, on a `uint64_t`: `x` rounded up to the next multiple of
`2^shift`. -/
def seg_align (x shift : Nat) : Nat := ((x + 2 ^ shift - 1) / 2 ^ shift * 2 ^ shift) % U64

/-- Function `calculate_segment_size`; `size` is a `uint64_t` and `page_size`
a `uint32_t`.  The products are taken without wrap-around. -/
def calculate_segment_size (S : xseg_sizes) (config : xseg_config) : Nat :=
  let size := 0
  let page_shift := config.page_shift
  if page_shift < 9 then 0
  else
    let page_size := 2 ^ page_shift % U32
    let size := (size + page_size) % U64
    let size := (size + page_size) % U64
    let size := (size + config.nr_requests * S.sizeof_xseg_request) % U64
    let size := seg_align size page_shift
    let size := (size + config.nr_requests * config.request_size * page_size) % U64
    let size := (size + config.nr_ports * S.sizeof_xseg_port) % U64
    let size := seg_align size page_shift
    let size := (size + config.nr_ports * 3 * config.nr_requests * S.sizeof_xqindex) % U64
    let size := seg_align size page_shift
    let size := (size + config.nr_requests * S.sizeof_xqindex) % U64
    let size := seg_align size page_shift
    let size := (size + config.extra_size) % U64
    let size := seg_align size page_shift
    let size := (size + S.sizeof_xseg_shared) % U64
    let size := seg_align size page_shift
    let size := (size + page_size) % U64
    size

/-- Function `initialize_segment`, as far as it computes `size`: the value
stored in `xseg->segment_size`, or `none` when the function returns -1.  The
loop over the ports adds the bodies of the three queues of each port. -/
def initialize_segment (S : xseg_sizes) (cfg : xseg_config) : Option Nat :=
  let page_shift := cfg.page_shift
  let page_size := 2 ^ page_shift % U32
  let size := page_size
  let nr_requests := cfg.nr_requests
  if page_size < XSEG_MIN_PAGE_SIZE then none
  else
    let size := (size + page_size) % U64
    let size := (size + nr_requests * S.sizeof_xseg_request) % U64
    let size := seg_align size page_shift
    let size := (size + nr_requests * cfg.request_size * page_size) % U64
    let size := (size + cfg.nr_ports * S.sizeof_xseg_port) % U64
    let bodysize := (nr_requests * S.sizeof_xqindex) % U64
    let size := (List.range cfg.nr_ports).foldl
      (fun size _ => (((size + bodysize) % U64 + bodysize) % U64 + bodysize) % U64) size
    let size := seg_align size page_shift
    let size := (size + bodysize) % U64
    let size := seg_align size page_shift
    let size := (size + cfg.extra_size) % U64
    let size := seg_align size page_shift
    let size := (size + S.sizeof_xseg_shared) % U64
    let size := seg_align size page_shift
    let size := (size + page_size) % U64
    some size

/-- Macro `TOK(s, sp, def)` on the bytes from `sp` on: the string `s` points
to afterwards and the bytes from the new `sp` on.  `acc` holds the bytes
passed so far.  At the terminator `s` becomes `def` and `sp` stays; at a colon
the token ends and `sp` moves behind it. -/
def tok_scan (dflt : List Nat) (acc : List Nat) : List Nat → List Nat × List Nat
  | [] => (dflt, [])
  | c :: rest =>
    if c = 0 then (dflt, c :: rest)
    else if c = 58 then (acc, rest)
    else tok_scan dflt (acc ++ [c]) rest

/-- Macro `TOK(s, sp, def)`. -/
def TOK (dflt : List Nat) (sp : List Nat) : List Nat × List Nat := tok_scan dflt [] sp

/-- Loop of `strul` on the bytes from `s` on; `c` is an `unsigned char` and
`n` an `unsigned long` of 64 bits. -/
def strul_loop : List Nat → Nat → Nat
  | [], n => n
  | ch :: s, n =>
    let c := (ch + 256 - 48) % 256
    if c ≥ 10 then n else strul_loop s ((n * 10 + c) % U64)

/-- Function `strul`. -/
def strul (s : List Nat) : Nat := strul_loop s 0

/-- Bytes of an ASCII string. -/
def ascii (s : String) : List Nat := s.toList.map Char.toNat

/-- Function `xseg_parse_spec` on the bytes of `segspec`: the config it
fills. -/
def xseg_parse_spec (S : xseg_sizes) (segspec : List Nat) : xseg_config :=
  let sp := segspec
  let (s, sp) := TOK (ascii "posix") sp
  let type := cstr ((strncpy_bytes s S.tnamesize).set (S.tnamesize - 1) 0)
  let (s, sp) := TOK (ascii "globalxseg") sp
  let name := cstr ((strncpy_bytes s S.namesize).set (S.namesize - 1) 0)
  let (s, sp) := TOK (ascii "4") sp
  let nr_ports := strul s
  let (s, sp) := TOK (ascii "512") sp
  let nr_requests := strul s
  let (s, sp) := TOK (ascii "64") sp
  let request_size := strul s
  let (s, sp) := TOK (ascii "128") sp
  let extra_size := strul s
  let (s, _) := TOK (ascii "12") sp
  let page_shift := strul s
  { type := type, name := name, nr_ports := nr_ports, nr_requests := nr_requests,
    request_size := request_size, extra_size := extra_size, page_shift := page_shift }

/-- Sizes used in the examples. -/
def test_sizes : xseg_sizes :=
  { sizeof_xseg_request := 128, sizeof_xseg_port := 192, sizeof_xqindex := 8,
    sizeof_xseg_shared := 24, tnamesize := 32, namesize := 256 }

/-- Config with one port and one request of one page, pages of 4096 bytes. -/
def small_config : xseg_config :=
  { type := ascii "posix", name := ascii "seg", nr_ports := 1, nr_requests := 1,
    request_size := 1, extra_size := 0, page_shift := 12 }

/-- Config of the default spec `posix:globalxseg:4:512:64:1024:12`. -/
def default_config : xseg_config :=
  { type := ascii "posix", name := ascii "globalxseg", nr_ports := 4, nr_requests := 512,
    request_size := 64, extra_size := 1024, page_shift := 12 }

/-- State `req2objs` returns for a MAPR of the whole of `s1_map`: three
segments, one for each object. -/
def s1_whole : r2o_state :=
  { r2o_init s1_map (map_req xseg_op.X_MAPR 0 (3 * block_size)) with
    reply := { cnt := 3, segs := [⟨[110, 48], 0, block_size⟩, ⟨[110, 49], 0, block_size⟩,
                                  ⟨[110, 50], 0, block_size⟩] } }

/-- Number of times peer request `p` stands in the pending queue of the map
or of one of its nodes. -/
def map_queued (m : map) (p : Nat) : Nat :=
  m.pending.count p + (m.objects.map (fun e => e.2.pending.count p)).sum

/-- Number of times peer request `p` stands in a pending queue of the cache,
over the queues of all maps and of all their nodes. -/
def queued (hashmaps : List map) (p : Nat) : Nat :=
  (hashmaps.map (fun m => map_queued m p)).sum

/-- Map that a lookup in the cache returns for the key `key`. -/
def cached (hashmaps : List map) (key : List Nat) : Option map :=
  hashmaps.find? (fun m => map_key m == key)

/-- No entry of the cache has both EXIST and COPYING set. -/
def flags_ok (l : List map) : Prop :=
  ∀ m ∈ l, ∀ e ∈ m.objects,
    ¬ (e.2.flags &&& MF_OBJECT_EXIST ≠ 0 ∧ e.2.flags &&& MF_OBJECT_COPYING ≠ 0)

/-- What the translation of the request of peer request `id` may do to a
node: park the request on it, and set COPYING when EXIST is clear. -/
def node_step (id : Nat) (mn mn1 : map_node) : Prop :=
  (mn1.pending = mn.pending ∨ mn1.pending = mn.pending ++ [id]) ∧
  (mn1.flags = mn.flags ∨
    (mn.flags &&& MF_OBJECT_EXIST = 0 ∧ mn1.flags = mn.flags ||| MF_OBJECT_COPYING))

/-- What one run of a handler for the client request of peer request `id`
does to the cache: nothing (`stay`); the request is parked on a cached map
(`park`); a map with no entries is added for a load with the request parked on
it (`load`), or added and then a map of its key removed when the READ cannot
be issued (`load_fail`); one node of a cached map takes a `node_step`
(`translate`); a map whose entries all have flags 0 and an empty queue is
added (`clone`). -/
inductive client_step (id : Nat) (l : List map) : List map → Prop
  | stay : client_step id l l
  | park (key : List Nat) (m : map) (q : List Nat) (h : cached l key = some m)
      (hq : q = m.pending ∨ q = m.pending ++ [id]) :
      client_step id l
        (store_first (fun x => map_key x == map_key m) { m with pending := q } l)
  | load (m : map) (ho : m.objects = [])
      (hq : m.pending = [] ∨ m.pending = [id]) : client_step id l (l ++ [m])
  | load_fail (m : map) (ho : m.objects = [])
      (hq : m.pending = [] ∨ m.pending = [id]) :
      client_step id l (remove_map (l ++ [m]) m)
  | translate (key : List Nat) (m : map) (k : Nat) (mn mn1 : map_node)
      (h : cached l key = some m)
      (hf : find_object m k = some mn) (hs : node_step id mn mn1) :
      client_step id l
        (store_first (fun x => map_key x == map_key m) (store_node m k mn1) l)
  | clone (m : map) (hq : m.pending = [])
      (ho : ∀ e ∈ m.objects, e.2.flags = 0 ∧ e.2.pending = []) :
      client_step id l (l ++ [m])

/-- Relation between a map and the same map after entries were inserted into
its table by a decode: volume and queue are kept, every entry is one the map
had or a new one with an empty queue and COPYING clear, and no request stands
on more queues than before. -/
def refreshed (m m1 : map) : Prop :=
  m1.volume = m.volume ∧ m1.pending = m.pending ∧
  (∀ e ∈ m1.objects, e ∈ m.objects ∨
    (e.2.pending = [] ∧ e.2.flags &&& MF_OBJECT_COPYING = 0)) ∧
  ∀ p, (m1.objects.map (fun e => e.2.pending.count p)).sum
    ≤ (m.objects.map (fun e => e.2.pending.count p)).sum

/-- What a handler of a reply does to the cache, one step at a time: a cached
map is replaced by a decoded one (`decode`); a map is removed (`remove`); one
node of a cached map is replaced by a node with the same queue and COPYING
clear, the only step that may set EXIST (`copied`); a peer request is taken
from the head of the queue of a cached map (`resume_map`) or of one of its
nodes (`resume_node`) and the handler of its client request runs. -/
inductive reply_step (l : List map) : List map → Prop
  | decode (key : List Nat) (m m1 : map) (h : cached l key = some m) (hm : refreshed m m1) :
      reply_step l (store_first (fun x => map_key x == map_key m) m1 l)
  | remove (m : map) : reply_step l (remove_map l m)
  | copied (key : List Nat) (m : map) (k : Nat) (mn mn1 : map_node)
      (h : cached l key = some m) (hf : find_object m k = some mn)
      (hp : mn1.pending = mn.pending) (hc : mn1.flags &&& MF_OBJECT_COPYING = 0) :
      reply_step l (store_first (fun x => map_key x == map_key m) (store_node m k mn1) l)
  | resume_map (key : List Nat) (m : map) (p : Nat) (rest : List Nat) (l1 : List map)
      (h : cached l key = some m) (hp : m.pending = p :: rest)
      (hs : client_step p
        (store_first (fun x => map_key x == map_key m) { m with pending := rest } l) l1) :
      reply_step l l1
  | resume_node (key : List Nat) (m : map) (k : Nat) (mn : map_node) (p : Nat)
      (rest : List Nat) (l1 : List map)
      (h : cached l key = some m) (hf : find_object m k = some mn)
      (hp : mn.pending = p :: rest)
      (hs : client_step p
        (store_first (fun x => map_key x == map_key m)
          (store_node m k { mn with pending := rest }) l) l1) :
      reply_step l l1

/-- Sequence of steps of a reply handler. -/
inductive reply_steps : List map → List map → Prop
  | done (l : List map) : reply_steps l l
  | step (l l1 l2 : List map) (h : reply_step l l1) (t : reply_steps l1 l2) : reply_steps l l2

/-- Calls of `dispatch` made one after the other; each comes with its fuel,
the number of the peer request and the reply it is made for, if any. -/
def run_calls (W : peerd) :
    List (Nat × Nat × Option backing_reply) → mstate → Except stop mstate
  | [], st => Except.ok st
  | (fuel, id, req) :: cs, st =>
    match dispatch fuel W st id req with
    | Except.error e => Except.error e
    | Except.ok s => run_calls W cs s

/-- Outcomes as in `henv_ok`, except that the memory `malloc` returns to the
first handler invocation holds the byte 170 everywhere. -/
def henv_dirty_once (n : Nat) : handler_env := if n = 0 then henv_dirty 0 else henv_ok n

/-- The daemon `test_peerd` with the outcomes `henv_dirty_once`. -/
def peerd_dirty_once : peerd := { test_peerd with envs := henv_dirty_once }

/-- Peer request number `id` carrying a MAPW of 512 bytes at offset 0 of
volume `v`. -/
def mapw0 (id : Nat) : peer_req := { map_req xseg_op.X_MAPW 0 512 with id := id }

/-- Empty cache and two peer requests that write to block 0 of volume `v`. -/
def two_writers : mstate :=
  { hashmaps := [], peer_reqs := [mapw0 1, mapw0 2], replies := [], submitted := [],
    released := [], log := [], tick := 0 }

/-- Start of a native map block for a volume of one block whose object 0 is
called `test_name 7` and does not exist yet: the magic, the size and one
record with the flag byte 0. -/
def unwritten_map_data : List Nat :=
  magic_digest ++ le64 block_size ++ [0] ++ test_name 7

/-- Reply to the READ of handle `h` for volume `v`, served with
`unwritten_map_data`. -/
def unwritten_reply (h : Nat) : backing_reply :=
  { read_reply h false with data := unwritten_map_data }

/-- Reply to the COPY of handle 103 that copies object 0 of volume `v` up:
served, with the name `copyup_object` derived as target. -/
def copied_reply : backing_reply :=
  { handle := 103, op := xseg_op.X_COPY,
    target := hexlify (digest_stub (test_name 7 ++ fmt_u 0)), targetlen := 64,
    failed := false, served := true, data := [] }

/-- Calls up to the completion of the copy-up: the MAPW of peer request 1
and that of peer request 2, the reply to the READ of handle 100 and the reply
to the COPY of handle 103. -/
def double_load_calls : List (Nat × Nat × Option backing_reply) :=
  [(2, 1, none), (2, 2, none), (4, 1, some (unwritten_reply 100)), (4, 2, some copied_reply)]

/-- Flags of the map cached under the key `key` and of its entry `i`. -/
def entry_flags (st : mstate) (key : List Nat) (i : Nat) : Option (Nat × Nat) :=
  match resolve_node st (key, i) with
  | some (m, mn) => some (m.flags, mn.flags)
  | none => none

/-- Handles of the requests submitted so far and of those given back. -/
def handles (st : mstate) : List Nat × List Nat :=
  (st.submitted.map (fun x => x.handle), st.released)

/-- Total length of the pending queues of the cache. -/
def queue_lengths (l : List map) : Nat :=
  (l.map (fun m => m.pending.length + (m.objects.map (fun e => e.2.pending.length)).sum)).sum

/-- A request whose handler, re-invoked with fuel `k + 1` while the map it
names is cached under `key` and READY, runs to its end: a MAPR or MAPW for
that map whose counting loop ends within `k` iterations, an INFO for that map,
or a CLONE of that map whose loop index stays within `int`. -/
def resumable (k : Nat) (key : List Nat) (req : xseg_request) : Prop :=
  ((req.op = xseg_op.X_MAPR ∨ req.op = xseg_op.X_MAPW) ∧
    cstr (strncpy_bytes req.target req.targetlen ++ [0]) = key ∧
    calc_nr_obj k req ≠ none) ∨
  (req.op = xseg_op.X_INFO ∧ cstr (strncpy_bytes req.target req.targetlen ++ [0]) = key) ∨
  (req.op = xseg_op.X_CLONE ∧
    cstr (strncpy_bytes req.clone_target (strlen req.clone_target) ++ [0]) = key ∧
    (req.clone_size % U64) / block_size + 1 ≤ INT_MAX)

/-- What a handler re-invoked on the READY map `m` leaves behind: no further
re-dispatch in the log, peer requests that carry the requests they carried,
and a cache that is as before, or has one more map at its end, or has `m`
replaced by `m` with another node at an index whose entry had COPYING set or
EXIST clear. -/
def resumed (m : map) (st st1 : mstate) : Prop :=
  redispatched st1.log = redispatched st.log ∧
  (∀ x ∈ st1.peer_reqs, ∃ y ∈ st.peer_reqs, y.id = x.id ∧ y.req = x.req) ∧
  (st1.hashmaps = st.hashmaps ∨
    (∃ c, st1.hashmaps = st.hashmaps ++ [c]) ∨
    ∃ i mn mn1, find_object m i = some mn ∧
      (mn.flags &&& MF_OBJECT_COPYING ≠ 0 ∨ mn.flags &&& MF_OBJECT_EXIST = 0) ∧
      st1.hashmaps
        = store_first (fun x => map_key x == map_key m) (store_node m i mn1) st.hashmaps)

/-- The READY map `s2_map` is cached with the peer requests 1 and 2, each
carrying a MAPR of 512 bytes at offset 0, on its queue in this order. -/
def parked_readers : mstate :=
  { load_both with hashmaps := [{ s2_map with pending := [1, 2] }] }

/-- State of `s2_both_parked` after the reply to the COPY has set EXIST and
cleared COPYING on entry 5: the peer requests 1 and 2, each carrying a MAPW
for block 5, are on the queue of the entry in this order. -/
def copied_both : mstate :=
  { s2_both_parked with hashmaps := [s2_map_with MF_OBJECT_EXIST [1, 2]] }

/-! ## Arithmetic of the translation -/

theorem sub64_self (a : Nat) : sub64 a a = 0 := by
  simp only [sub64, U64]
  have : a % 2 ^ 64 < 2 ^ 64 := Nat.mod_lt _ (by norm_num)
  omega

theorem mod_U64_of_le_block (a : Nat) (h : a ≤ block_size) : a % U64 = a := by
  apply Nat.mod_eq_of_lt
  simp only [U64, block_size] at *
  omega

theorem land_block_mask (a : Nat) : a &&& (block_size - 1) = a % block_size := by
  simp only [block_size]
  exact Nat.and_pow_two_sub_one_eq_mod a 20

theorem sub64_block_residue (rem : Nat) (h1 : rem < U64) (h2 : rem % block_size ≠ 0) :
    sub64 rem block_size < U64 ∧ sub64 rem block_size % block_size ≠ 0 ∧
      0 < sub64 rem block_size := by
  simp only [sub64, U64, block_size] at *
  norm_num at *
  omega

/-- The counting loop never ends once the remaining size is not a multiple of
the block size: `rem_size - block_size > 0` holds for every such value, so each
iteration subtracts `block_size` modulo `2^64` and keeps the residue. -/
theorem calc_nr_obj_loop_diverges (fuel : Nat) :
    ∀ rem r : Nat, rem < U64 → rem % block_size ≠ 0 → calc_nr_obj_loop fuel rem r = none := by
  induction fuel with
  | zero => intro rem r _ _; rfl
  | succ n ih =>
    intro rem r h1 h2
    have hpos : rem > 0 := by
      rcases Nat.eq_zero_or_pos rem with h | h
      · subst h; simp at h2
      · exact h
    obtain ⟨h3, h4, h5⟩ := sub64_block_residue rem h1 h2
    simp only [calc_nr_obj_loop, hpos, h5, if_true]
    exact ih _ _ h3 h4

theorem first_rem_residue (offset size : Nat)
    (hend : (offset + size) % block_size ≠ 0) :
    sub64 size (sub64 block_size (offset % block_size)) < U64 ∧
      sub64 size (sub64 block_size (offset % block_size)) % block_size ≠ 0 := by
  simp only [sub64, U64, block_size] at *
  norm_num at *
  omega

/-- For a request longer than a block whose end is not on a block boundary
`calc_nr_obj` returns for no amount of fuel. -/
theorem calc_nr_obj_diverges (fuel : Nat) (req : xseg_request) (hs : req.size < U64)
    (hoff : req.offset < U64) (hgt : req.size > block_size)
    (hend : (req.offset + req.size) % block_size ≠ 0) : calc_nr_obj fuel req = none := by
  obtain ⟨h1, h2⟩ := first_rem_residue req.offset req.size hend
  simp only [calc_nr_obj, Nat.mod_eq_of_lt hs, Nat.mod_eq_of_lt hoff, land_block_mask, hgt,
    if_true]
  exact calc_nr_obj_loop_diverges fuel _ _ h1 h2

theorem req2objs_diverges (fuel : Nat) (sha256 : List Nat → List Nat) (env : xseg_env)
    (nr_ops : Nat) (st : r2o_state) (write : Bool) (hs : st.pr.req.size < U64)
    (hoff : st.pr.req.offset < U64) (hgt : st.pr.req.size > block_size)
    (hend : (st.pr.req.offset + st.pr.req.size) % block_size ≠ 0) :
    req2objs fuel sha256 env nr_ops st write = none := by
  simp only [req2objs, calc_nr_obj_diverges fuel _ hs hoff hgt hend]

theorem calc_nr_obj_within_block_size (fuel : Nat) (req : xseg_request)
    (hle : req.size ≤ block_size) : calc_nr_obj (fuel + 1) req = some 1 := by
  have h1 : req.size % U64 = req.size := mod_U64_of_le_block _ hle
  have h2 : ¬ req.size > block_size := by omega
  simp [calc_nr_obj, h1, h2, sub64_self, calc_nr_obj_loop]

/-- A request of at most `block_size` bytes is answered with one segment that
carries the whole size, wherever it starts in its block. -/
theorem req2objs_within_block_size (fuel : Nat) (sha256 : List Nat → List Nat)
    (env : xseg_env) (nr_ops : Nat) (st : r2o_state) (write : Bool) (mn : map_node)
    (hle : st.pr.req.size ≤ block_size) (hoff : st.pr.req.offset < U64)
    (hres : env.resize_ok = true)
    (hfind : find_object st.map (st.pr.req.offset / block_size) = some mn)
    (hw : write = false ∨
      (mn.flags &&& MF_OBJECT_EXIST ≠ 0 ∧ mn.flags &&& MF_OBJECT_COPYING = 0)) :
    req2objs (fuel + 1) sha256 env nr_ops st write = some (0,
      { st with reply :=
          { cnt := 1,
            segs := [⟨seg_target mn, st.pr.req.offset % block_size, st.pr.req.size⟩] } }) := by
  have h1 : st.pr.req.size % U64 = st.pr.req.size := mod_U64_of_le_block _ hle
  have h2 : ¬ st.pr.req.size > block_size := by omega
  have h3 : st.pr.req.offset % U64 = st.pr.req.offset := Nat.mod_eq_of_lt hoff
  have hv : visit_object sha256 env nr_ops write 0 (st.pr.req.offset / block_size)
      (st.pr.req.offset % block_size) st.pr.req.size
      { st with reply := { cnt := 1, segs := [] } } =
      Except.ok { st with reply :=
          { cnt := 1,
            segs := [⟨seg_target mn, st.pr.req.offset % block_size, st.pr.req.size⟩] } } := by
    rcases hw with hw | ⟨hw1, hw2⟩
    · subst hw
      simp [visit_object, hfind, write_seg]
    · simp [visit_object, hfind, write_seg, hw1, hw2]
  simp only [req2objs, calc_nr_obj_within_block_size fuel _ hle, hres, h1, h2, h3,
    land_block_mask, if_false, Bool.not_true, Bool.false_eq_true, hv, sub64_self,
    req2objs_loop]
  simp

/-! ## C strings -/

theorem cstr_nul_free (s : List Nat) : ∀ x ∈ cstr s, x ≠ 0 := by
  intro x hx
  have := List.mem_takeWhile_imp hx
  simpa using this

theorem cstr_append_nul (a t : List Nat) (ha : ∀ x ∈ a, x ≠ 0) : cstr (a ++ 0 :: t) = a := by
  induction a with
  | nil => simp [cstr]
  | cons x a ih =>
    have hx : x ≠ 0 := ha x (by simp)
    have ih1 := ih (fun y hy => ha y (by simp [hy]))
    simp only [cstr] at ih1
    simp [cstr, List.takeWhile_cons, hx, ih1]

theorem cstr_set_nul (a : List Nat) (ha : ∀ x ∈ a, x ≠ 0) :
    ∀ (t : List Nat) (k : Nat), a.length ≤ k → cstr ((a ++ 0 :: t).set k 0) = a := by
  induction a with
  | nil =>
    intro t k _
    cases k <;> simp [cstr]
  | cons x a ih =>
    intro t k hk
    have hx : x ≠ 0 := ha x (by simp)
    cases k with
    | zero => simp at hk
    | succ k =>
      have ih1 := ih (fun y hy => ha y (by simp [hy])) t k (by simpa using hk)
      simp only [cstr] at ih1
      simp [cstr, List.takeWhile_cons, hx, ih1]

theorem take_strlen (s : List Nat) : s.take (strlen s) = cstr s := by
  induction s with
  | nil => simp [cstr, strlen]
  | cons x s ih =>
    by_cases hx : x = 0
    · simp [cstr, strlen, hx]
    · simp only [strlen, cstr] at ih
      simp [cstr, strlen, List.takeWhile_cons, hx, ih]

theorem replicate_zero_append_nul (n : Nat) :
    List.replicate n 0 ++ [0] = 0 :: List.replicate n 0 := by
  induction n with
  | zero => rfl
  | succ n ih => simp [List.replicate_succ, ih]

/-- For a node whose `objectlen` is the length of its name and at most 64, the
name put in a reply entry is the node's name. -/
theorem seg_target_eq_cstr (mn : map_node) (h1 : mn.objectlen = strlen mn.object)
    (h2 : mn.objectlen ≤ XSEG_MAX_TARGET_LEN) : seg_target mn = cstr mn.object := by
  have hlen : (cstr mn.object).length ≤ XSEG_MAX_TARGET_LEN := by
    simpa [strlen, h1] using h2
  have htake : (cstr mn.object).take XSEG_MAX_TARGET_LEN = cstr mn.object :=
    List.take_of_length_le hlen
  simp only [seg_target, strncpy_bytes, htake, List.append_assoc, replicate_zero_append_nul]
  exact cstr_set_nul _ (cstr_nul_free _) _ _ (by simp [h1, strlen])

/-! ## Claims on the translation arithmetic -/

/-- C1 (code defect, failing input): the read request `(offset = 0, size = block_size + 1)`
on the three-entry map of scenario S1, which holds an entry for both touched
indices, is never answered: `req2objs` returns for no amount of fuel, whatever
the xseg primitives do, because the counting loop of `calc_nr_obj` does not end. -/
theorem req2objs_read_unaligned_end_never_returns (fuel : Nat)
    (sha256 : List Nat → List Nat) (env : xseg_env) (nr_ops : Nat) :
    req2objs fuel sha256 env nr_ops
      (r2o_init s1_map (map_req xseg_op.X_MAPR 0 (block_size + 1))) false = none := by
  apply req2objs_diverges <;> simp [r2o_init, map_req, U64, block_size]

/-- C2 (code defect, failing input): for the read request
`(offset = block_size - 256, size = 512)`, which straddles the boundary between
blocks 0 and 1, `req2objs` answers with the single segment
`(n0, block_size - 256, 512)`: its length is 512, not
`min(block_size - offset mod block_size, size) = 256`, so it extends 256 bytes
past the end of block 0. -/
theorem req2objs_first_segment_crosses_block_end (fuel : Nat)
    (sha256 : List Nat → List Nat) (nr_ops : Nat) :
    req2objs (fuel + 1) sha256 env_ok nr_ops
        (r2o_init s1_map (map_req xseg_op.X_MAPR (block_size - 256) 512)) false
      = some (0, { r2o_init s1_map (map_req xseg_op.X_MAPR (block_size - 256) 512) with
          reply := { cnt := 1, segs := [⟨[110, 48], 1048320, 512⟩] } })
    ∧ min (block_size - (block_size - 256) % block_size) 512 = 256
    ∧ block_size < 1048320 + 512 := by
  refine ⟨?_, by decide, by decide⟩
  have h := req2objs_within_block_size fuel sha256 env_ok nr_ops
    (r2o_init s1_map (map_req xseg_op.X_MAPR (block_size - 256) 512)) false
    (named_node 0 MF_OBJECT_EXIST [110, 48]) (by decide) (by decide) rfl (by decide)
    (Or.inl rfl)
  have hn : seg_target (named_node 0 MF_OBJECT_EXIST [110, 48]) = [110, 48] := by decide
  have ho : (r2o_init s1_map (map_req xseg_op.X_MAPR (block_size - 256) 512)).pr.req.offset
      % block_size = 1048320 := by decide
  rw [hn, ho] at h
  exact h

/-- C3 (code defect, failing input): in scenario S1 the request
`MAPR(offset = block_size - 256, size = block_size + 512)` on the READY map with
entries 0, 1, 2 all EXIST is never completed: `req2objs` returns for no amount
of fuel, so no reply with three segments is produced. -/
theorem scenario_S1_never_returns (fuel : Nat) (sha256 : List Nat → List Nat)
    (env : xseg_env) (nr_ops : Nat) :
    req2objs fuel sha256 env nr_ops
      (r2o_init s1_map (map_req xseg_op.X_MAPR (block_size - 256) (block_size + 512)))
      false = none := by
  apply req2objs_diverges <;> simp [r2o_init, map_req, U64, block_size]

/-- C4: for every offset and size > 0 whose first and last byte lie in the same
block, `calc_nr_obj` returns 1 and `req2objs` (for a read, or for a write on an
entry with EXIST set and COPYING clear) on a map holding the entry `mn` of
index `offset / block_size` returns 0 with exactly one segment
`(name of mn, offset mod block_size, size)`; the name is the node's name when
`objectlen` is its length and at most 64. -/
theorem single_block_request_one_segment (fuel : Nat) (sha256 : List Nat → List Nat)
    (env : xseg_env) (nr_ops : Nat) (st : r2o_state) (write : Bool) (mn : map_node)
    (hoff : st.pr.req.offset < U64)
    (hsame : st.pr.req.offset / block_size
      = (st.pr.req.offset + st.pr.req.size - 1) / block_size)
    (hres : env.resize_ok = true)
    (hfind : find_object st.map (st.pr.req.offset / block_size) = some mn)
    (hw : write = false ∨
      (mn.flags &&& MF_OBJECT_EXIST ≠ 0 ∧ mn.flags &&& MF_OBJECT_COPYING = 0)) :
    calc_nr_obj (fuel + 1) st.pr.req = some 1 ∧
    req2objs (fuel + 1) sha256 env nr_ops st write = some (0,
      { st with reply :=
          { cnt := 1,
            segs := [⟨seg_target mn, st.pr.req.offset % block_size, st.pr.req.size⟩] } }) ∧
    (mn.objectlen = strlen mn.object → mn.objectlen ≤ XSEG_MAX_TARGET_LEN →
      seg_target mn = cstr mn.object) := by
  have hle : st.pr.req.size ≤ block_size := by
    simp only [block_size] at *
    norm_num at *
    omega
  exact ⟨calc_nr_obj_within_block_size fuel _ hle,
    req2objs_within_block_size fuel sha256 env nr_ops st write mn hle hoff hres hfind hw,
    seg_target_eq_cstr mn⟩

theorem single_block_request_one_segment_witness :
    calc_nr_obj 1 (map_req xseg_op.X_MAPR (block_size + 5) 100).req = some 1 ∧
    req2objs 1 id env_ok 4 (r2o_init s1_map (map_req xseg_op.X_MAPR (block_size + 5) 100)) false
      = some (0, { r2o_init s1_map (map_req xseg_op.X_MAPR (block_size + 5) 100) with
          reply := { cnt := 1, segs := [⟨[110, 49], 5, 100⟩] } }) := by
  have h := single_block_request_one_segment 0 id env_ok 4
    (r2o_init s1_map (map_req xseg_op.X_MAPR (block_size + 5) 100)) false
    (named_node 1 MF_OBJECT_EXIST [110, 49]) (by decide) (by decide)
    rfl (by decide) (Or.inl rfl)
  have hn : seg_target (named_node 1 MF_OBJECT_EXIST [110, 49]) = [110, 49] := by decide
  have ho : (r2o_init s1_map (map_req xseg_op.X_MAPR (block_size + 5) 100)).pr.req.offset
      % block_size = 5 := by decide
  rw [hn, ho] at h
  exact ⟨h.1, h.2.1⟩

/-! ## Object table and codec lemmas -/

theorem xhash_lookup_nil {α : Type} (x : Nat) : xhash_lookup ([] : List (Nat × α)) x = none := rfl

theorem xhash_lookup_cons {α : Type} (e : Nat × α) (t : List (Nat × α)) (x : Nat) :
    xhash_lookup (e :: t) x = if e.1 = x then some e.2 else xhash_lookup t x := by
  by_cases h : e.1 = x
  · have hb : (e.1 == x) = true := by simp [h]
    simp [xhash_lookup, List.find?, hb, h]
  · have hb : (e.1 == x) = false := by simp [h]
    simp [xhash_lookup, List.find?, hb, h]

theorem xhash_insert_fresh {α : Type} (t : List (Nat × α)) (k : Nat) (v : α)
    (h : keys_below t k) : xhash_insert t k v = t ++ [(k, v)] := by
  have hany : t.any (fun e => e.1 == k) = false := by
    rw [List.any_eq_false]
    intro e he
    have := h e he
    simp
    omega
  simp [xhash_insert, hany]

theorem xhash_lookup_append_ne {α : Type} (t : List (Nat × α)) (k x : Nat) (v : α)
    (h : x ≠ k) : xhash_lookup (t ++ [(k, v)]) x = xhash_lookup t x := by
  induction t with
  | nil =>
    have : ¬ k = x := fun e => h e.symm
    simp [xhash_lookup_cons, xhash_lookup_nil, this]
  | cons e t ih => simp [xhash_lookup_cons, ih]

theorem xhash_lookup_append_fresh {α : Type} (t : List (Nat × α)) (k : Nat) (v : α)
    (h : keys_below t k) : xhash_lookup (t ++ [(k, v)]) k = some v := by
  induction t with
  | nil => simp [xhash_lookup_cons]
  | cons e t ih =>
    have he : e.1 < k := h e (by simp)
    have he1 : ¬ e.1 = k := by omega
    have ih1 := ih (fun y hy => h y (by simp [hy]))
    simp [xhash_lookup_cons, he1, ih1]

theorem xhash_lookup_none_of_keys_below {α : Type} (t : List (Nat × α)) (i x : Nat)
    (h : keys_below t i) (hx : i ≤ x) : xhash_lookup t x = none := by
  induction t with
  | nil => rfl
  | cons e t ih =>
    have he : e.1 < i := h e (by simp)
    have he1 : ¬ e.1 = x := by omega
    have ih1 := ih (fun y hy => h y (by simp [hy]))
    simp [xhash_lookup_cons, he1, ih1]

theorem keys_below_append {α : Type} (t : List (Nat × α)) (k : Nat) (v : α)
    (h : keys_below t k) : keys_below (t ++ [(k, v)]) (k + 1) := by
  intro e he
  rcases List.mem_append.mp he with h1 | h1
  · have := h e h1
    omega
  · simp at h1
    subst h1
    simp

/-- Fields of the node `map_to_object` decodes from a record. -/
theorem map_to_object_some (mn : map_node) (buf : List Nat)
    (h : objectsize_in_map ≤ buf.length) :
    map_to_object mn buf = some
      { mn with
        flags := if buf.headD 0 != 0 then 0 ||| MF_OBJECT_EXIST else 0,
        object := (buf.drop 1).take XSEG_MAX_TARGET_LEN ++ [0],
        objectlen := strlen ((buf.drop 1).take XSEG_MAX_TARGET_LEN ++ [0]) } := by
  have : ¬ buf.length < objectsize_in_map := by omega
  simp [map_to_object, this]

/-- The native decode loop on a buffer that holds all `k` records: it ends
with a map in which the keys `i .. i+k-1` are bound to the decoded records and
nothing else changed. -/
theorem read_map_native_loop_spec (buf : List Nat) :
    ∀ (k i pos : Nat) (m0 : map), pos + objectsize_in_map * k ≤ buf.length → i + k ≤ U32 →
      keys_below m0.objects i →
      ∃ m1, read_map_native_loop buf k i pos m0 = some m1 ∧ m1.size = m0.size ∧
        m1.objects.length = m0.objects.length + k ∧ keys_below m1.objects (i + k) ∧
        (∀ x, x < i → find_object m1 x = find_object m0 x) ∧
        (∀ j, j < k → find_object m1 (i + j)
          = map_to_object (new_node (i + j)) (buf.drop (pos + objectsize_in_map * j))) := by
  intro k
  induction k with
  | zero =>
    intro i pos m0 _ _ hk
    exact ⟨m0, rfl, rfl, rfl, hk, fun _ _ => rfl, fun j hj => absurd hj (by omega)⟩
  | succ k ih =>
    intro i pos m0 hlen hi hk
    have hl : objectsize_in_map ≤ (buf.drop pos).length := by
      simp only [List.length_drop]
      have : objectsize_in_map * (k + 1) = objectsize_in_map * k + objectsize_in_map := by ring
      omega
    have hmn := map_to_object_some (new_node i) (buf.drop pos) hl
    have hidx : i % U32 = i := Nat.mod_eq_of_lt (by omega)
    obtain ⟨mn, hmn1, hmnidx⟩ : ∃ mn, map_to_object (new_node i) (buf.drop pos) = some mn ∧
        mn.objectidx = i := ⟨_, hmn, by simp [new_node, hidx]⟩
    have hobj : (insert_object m0 mn).objects = m0.objects ++ [(i, mn)] := by
      simp [insert_object, hmnidx, xhash_insert_fresh _ _ _ hk]
    have hk1 : keys_below (insert_object m0 mn).objects (i + 1) := by
      rw [hobj]; exact keys_below_append _ _ _ hk
    obtain ⟨m1, h1, h2, h3, h4, h5, h6⟩ := ih (i + 1) (pos + objectsize_in_map)
      (insert_object m0 mn) (by
        have : objectsize_in_map * (k + 1) = objectsize_in_map * k + objectsize_in_map := by ring
        omega) (by omega) hk1
    refine ⟨m1, ?_, ?_, ?_, ?_, ?_, ?_⟩
    · simp only [read_map_native_loop, hmn1, h1]
    · rw [h2]; rfl
    · rw [h3, hobj]; simp; omega
    · have : i + (k + 1) = i + 1 + k := by omega
      rw [this]; exact h4
    · intro x hx
      rw [h5 x (by omega)]
      simp only [find_object, hobj]
      exact xhash_lookup_append_ne _ _ _ _ (by omega)
    · intro j hj
      cases j with
      | zero =>
        simp only [Nat.add_zero, Nat.mul_zero]
        rw [h5 i (by omega)]
        simp only [find_object, hobj]
        rw [xhash_lookup_append_fresh _ _ _ hk, hmn1]
      | succ j =>
        have e1 : i + (j + 1) = i + 1 + j := by omega
        have e2 : pos + objectsize_in_map * (j + 1)
            = pos + objectsize_in_map + objectsize_in_map * j := by ring
        rw [e1, e2]
        exact h6 j (by omega)

theorem store_at_pos (data r : List Nat) (pos len : Nat) (hr : r.length = len)
    (h : pos + len ≤ data.length) :
    (data.take pos ++ (r ++ (data.drop pos).drop len)).length = data.length ∧
    (data.take pos ++ (r ++ (data.drop pos).drop len)).take pos = data.take pos ∧
    ((data.take pos ++ (r ++ (data.drop pos).drop len)).drop pos).take len = r ∧
    ∀ n, (data.take pos ++ (r ++ (data.drop pos).drop len)).drop (pos + len + n)
      = data.drop (pos + len + n) := by
  subst hr
  have hA : (data.take pos).length = pos := by simp; omega
  refine ⟨?_, ?_, ?_, ?_⟩
  · simp; omega
  · rw [List.take_append_of_le_length (by omega)]
    rw [List.take_take]; simp
  · rw [List.drop_append_of_le_length (by omega)]
    have : List.drop pos (List.take pos data) = [] := by
      apply List.drop_of_length_le; omega
    rw [this]; simp
  · intro n
    have e1 : pos + r.length + n = (data.take pos).length + (r.length + n) := by omega
    rw [e1, List.drop_append, List.drop_append, List.drop_drop, List.drop_drop, hA]

theorem object_record_length (mn : map_node) (h : node_fits mn) :
    (object_record mn).length = objectsize_in_map := by
  obtain ⟨h1, h2⟩ := h
  simp only [object_record, objectsize_in_map, XSEG_MAX_TARGET_LEN, SHA256_DIGEST_SIZE] at *
  simp
  omega

theorem object_to_map_eq (buf : List Nat) (mn : map_node) :
    object_to_map buf mn = object_record mn ++ buf.drop objectsize_in_map := by
  simp [object_to_map, object_record]

/-- The encoding loop on a data area that has room for `k` records and a map
that holds the nodes `i .. i+k-1`: it ends, keeps the size of the area and the
bytes outside `[pos, pos + 65 k)`, and record `j` is at `pos + 65 j`. -/
theorem map_write_loop_spec (m : map) :
    ∀ (k i pos : Nat) (data : List Nat), pos + objectsize_in_map * k ≤ data.length →
      (∀ j, j < k → ∃ mn, find_object m (i + j) = some mn ∧ node_fits mn) →
      ∃ out, map_write_loop m k i pos data = Except.ok out ∧ out.length = data.length ∧
        out.take pos = data.take pos ∧
        (∀ n, out.drop (pos + objectsize_in_map * k + n)
          = data.drop (pos + objectsize_in_map * k + n)) ∧
        (∀ j mn, j < k → find_object m (i + j) = some mn →
          (out.drop (pos + objectsize_in_map * j)).take objectsize_in_map
            = object_record mn) := by
  intro k
  induction k with
  | zero =>
    intro i pos data _ _
    exact ⟨data, rfl, rfl, rfl, fun _ => rfl, fun j _ hj => absurd hj (by omega)⟩
  | succ k ih =>
    intro i pos data hlen hall
    have hmul : objectsize_in_map * (k + 1) = objectsize_in_map * k + objectsize_in_map := by
      ring
    obtain ⟨mn, hf, hfit⟩ := hall 0 (by omega)
    simp only [Nat.add_zero] at hf
    have hrl := object_record_length mn hfit
    obtain ⟨s1, s2, s3, s4⟩ := store_at_pos data (object_record mn) pos objectsize_in_map hrl
      (by omega)
    have hdata : at_pos data pos (fun b => object_to_map b mn)
        = data.take pos ++ (object_record mn ++ (data.drop pos).drop objectsize_in_map) := by
      simp only [at_pos, object_to_map_eq]
    obtain ⟨out, h1, h2, h3, h4, h5⟩ := ih (i + 1) (pos + objectsize_in_map)
      (at_pos data pos (fun b => object_to_map b mn)) (by rw [hdata, s1]; omega)
      (fun j hj => by
        have := hall (j + 1) (by omega)
        have e : i + (j + 1) = i + 1 + j := by omega
        rwa [e] at this)
    rw [hdata] at h2 h3 h4
    refine ⟨out, ?_, ?_, ?_, ?_, ?_⟩
    · simp only [map_write_loop, hf, h1]
    · rw [h2, s1]
    · have : out.take pos = (out.take (pos + objectsize_in_map)).take pos := by
        rw [List.take_take, Nat.min_eq_left (Nat.le_add_right _ _)]
      rw [this, h3, List.take_take, Nat.min_eq_left (Nat.le_add_right _ _), s2]
    · intro n
      have e : pos + objectsize_in_map * (k + 1) + n
          = pos + objectsize_in_map + objectsize_in_map * k + n := by omega
      rw [e, h4 n]
      have e2 : pos + objectsize_in_map + objectsize_in_map * k + n
          = pos + objectsize_in_map + (objectsize_in_map * k + n) := by omega
      rw [e2, s4]
    · intro j mn1 hj hf1
      cases j with
      | zero =>
        simp only [Nat.add_zero] at hf1
        rw [hf] at hf1
        cases hf1
        simp only [Nat.mul_zero, Nat.add_zero]
        have : (out.drop pos).take objectsize_in_map
            = (out.take (pos + objectsize_in_map)).drop pos := by
          rw [List.drop_take]; simp
        rw [this, h3, List.drop_take]
        simpa using s3
      | succ j =>
        have e1 : i + (j + 1) = i + 1 + j := by omega
        have e2 : pos + objectsize_in_map * (j + 1)
            = pos + objectsize_in_map + objectsize_in_map * j := by ring
        rw [e2]
        exact h5 j mn1 (by omega) (by rwa [e1] at hf1)

theorem le64_length (n : Nat) : (le64 n).length = 8 := by simp [le64]

theorem le64_decode_le64 (n : Nat) (h : n < U64) : le64_decode (le64 n) = n := by
  simp only [U64] at h
  simp only [le64, le64_decode, List.range, List.range.loop, List.map, List.foldr]
  norm_num
  omega

theorem calc_map_obj_eq (m : map) (h : m.size < U64) :
    calc_map_obj m = if m.size % block_size != 0 then m.size / block_size + 1
      else m.size / block_size := by
  simp only [calc_map_obj]
  split
  · apply Nat.mod_eq_of_lt
    simp only [U64, block_size] at *
    omega
  · rfl

theorem map_to_object_take (mn : map_node) (buf : List Nat)
    (h : objectsize_in_map ≤ buf.length) :
    map_to_object mn buf = map_to_object mn (buf.take objectsize_in_map) := by
  have h1 : ¬ buf.length < objectsize_in_map := by omega
  have h2 : ¬ (buf.take objectsize_in_map).length < objectsize_in_map := by
    simp; omega
  have h3 : (buf.take objectsize_in_map).headD 0 = buf.headD 0 := by
    cases buf with
    | nil => simp
    | cons b t => simp [objectsize_in_map, List.take]
  have h4 : ((buf.take objectsize_in_map).drop 1).take XSEG_MAX_TARGET_LEN
      = (buf.drop 1).take XSEG_MAX_TARGET_LEN := by
    rw [List.drop_take, List.take_take]
    simp [objectsize_in_map]
  simp only [map_to_object, h1, h2, if_false, h3, h4]

theorem strlen_le_length (s : List Nat) : strlen s ≤ s.length := by
  simp only [strlen, cstr]
  exact (List.takeWhile_sublist _).length_le

theorem roundtrip_node_fits (mn : map_node) (h : roundtrip_node mn) : node_fits mn := by
  obtain ⟨h1, h2, _⟩ := h
  exact ⟨h2, by rw [h1]; exact strlen_le_length _⟩

/-- Decoding the record of a round-trip node gives back its flags, its name
(NUL-padded to 65 bytes) and its name length. -/
theorem map_to_object_record (i : Nat) (mn : map_node) (h : roundtrip_node mn) :
    map_to_object (new_node i) (object_record mn) = some
      { flags := mn.flags, objectidx := i % U32, objectlen := mn.objectlen,
        object := cstr mn.object ++ List.replicate (XSEG_MAX_TARGET_LEN - mn.objectlen) 0 ++ [0],
        pending := [] } := by
  obtain ⟨h1, h2, h3⟩ := h
  have hname : mn.object.take mn.objectlen = cstr mn.object := by rw [h1]; exact take_strlen _
  have hnl : (cstr mn.object).length = mn.objectlen := by rw [h1]; rfl
  have hrec : object_record mn = (if mn.flags &&& MF_OBJECT_EXIST != 0 then 1 else 0)
      :: (cstr mn.object ++ List.replicate (XSEG_MAX_TARGET_LEN - mn.objectlen) 0) := by
    simp [object_record, hname]
  have hl : ¬ (object_record mn).length < objectsize_in_map := by
    rw [object_record_length mn (roundtrip_node_fits mn ⟨h1, h2, h3⟩)]; omega
  have hbody : ((object_record mn).drop 1).take XSEG_MAX_TARGET_LEN
      = cstr mn.object ++ List.replicate (XSEG_MAX_TARGET_LEN - mn.objectlen) 0 := by
    rw [hrec]
    simp only [List.drop_succ_cons, List.drop_zero]
    apply List.take_of_length_le
    simp [hnl]; omega
  have hstr : strlen (cstr mn.object ++ List.replicate (XSEG_MAX_TARGET_LEN - mn.objectlen) 0
      ++ [0]) = mn.objectlen := by
    simp only [strlen, List.append_assoc, replicate_zero_append_nul]
    rw [cstr_append_nul _ _ (cstr_nul_free _), hnl]
  have hflag : (if (object_record mn).headD 0 != 0 then 0 ||| MF_OBJECT_EXIST else 0)
      = mn.flags := by
    rw [hrec]
    rcases h3 with h3 | h3 <;> simp [h3, MF_OBJECT_EXIST]
  simp only [map_to_object, hl, if_false, hbody, hstr, hflag, new_node]

theorem nulls_length : nulls.length = SHA256_DIGEST_SIZE := by simp [nulls]

/-- Header written by `mapheader_to_map` and left in place by the encoding
loop: the first 40 bytes of the encoded buffer. -/
theorem test_map_encode_spec (P : platform) (m : map) (n : Nat) (data0 : List Nat)
    (hmagic : P.magic_sha256.length = SHA256_DIGEST_SIZE)
    (hnodes : ∀ i, i < n → ∃ mn, find_object m i = some mn ∧ node_fits mn)
    (hfit : mapheader_size + objectsize_in_map * n ≤ data0.length) :
    ∃ buf, test_map_encode P m n data0 = Except.ok buf ∧ buf.length = data0.length ∧
      buf.take mapheader_size = P.magic_sha256 ++ le64 m.size ∧
      (∀ k, buf.drop (mapheader_size + objectsize_in_map * n + k)
        = data0.drop (mapheader_size + objectsize_in_map * n + k)) ∧
      (∀ j mn, j < n → find_object m j = some mn →
        (buf.drop (mapheader_size + objectsize_in_map * j)).take objectsize_in_map
          = object_record mn) := by
  have hhead : (P.magic_sha256.take SHA256_DIGEST_SIZE ++ le64 m.size).length
      = mapheader_size := by
    simp [hmagic, le64_length, mapheader_size]
  have hdl : (mapheader_to_map P m data0).length = data0.length := by
    simp only [mapheader_to_map, List.length_append, List.length_drop] at *
    omega
  have hdt : (mapheader_to_map P m data0).take mapheader_size
      = P.magic_sha256 ++ le64 m.size := by
    have : P.magic_sha256.take SHA256_DIGEST_SIZE = P.magic_sha256 :=
      List.take_of_length_le (by omega)
    rw [this] at hhead
    simp only [mapheader_to_map, this]
    rw [List.take_append_of_le_length (by omega)]
    exact List.take_of_length_le (by omega)
  have hdd : ∀ k, (mapheader_to_map P m data0).drop (mapheader_size + k)
      = data0.drop (mapheader_size + k) := by
    intro k
    have e : mapheader_size + k
        = (P.magic_sha256.take SHA256_DIGEST_SIZE ++ le64 m.size).length + k := by rw [hhead]
    simp only [mapheader_to_map]
    nth_rewrite 1 [e]
    rw [List.drop_append, List.drop_drop]
  obtain ⟨out, h1, h2, h3, h4, h5⟩ := map_write_loop_spec m n 0 mapheader_size
    (mapheader_to_map P m data0) (by rw [hdl]; exact hfit)
    (fun j hj => by simpa using hnodes j hj)
  refine ⟨out, ?_, ?_, ?_, ?_, ?_⟩
  · simp only [test_map_encode, h1]
  · rw [h2, hdl]
  · rw [h3, hdt]
  · intro k
    rw [h4 k, Nat.add_assoc, hdd]
  · intro j mn hj hf
    exact h5 j mn hj (by simpa using hf)

theorem take_of_take_eq_append (buf a b : List Nat) (n : Nat) (h : buf.take n = a ++ b)
    (hn : a.length ≤ n) : buf.take a.length = a ∧ (buf.drop a.length).take (n - a.length) = b := by
  constructor
  · have : buf.take a.length = (buf.take n).take a.length := by
      rw [List.take_take, Nat.min_eq_left hn]
    rw [this, h, List.take_append_of_le_length (le_refl _), List.take_length]
  · have : (buf.drop a.length).take (n - a.length) = (buf.take n).drop a.length := by
      rw [List.drop_take]
    rw [this, h, List.drop_append_of_le_length (le_refl _), List.drop_length, List.nil_append]

/-- Native decoding of a buffer that starts with the header of a map of
`size` bytes and has room for its `n` records. -/
theorem read_map_native_spec (P : platform) (m2 : map) (buf : List Nat) (size n : Nat)
    (hmagic : P.magic_sha256.length = SHA256_DIGEST_SIZE)
    (hhead : buf.take mapheader_size = P.magic_sha256 ++ le64 size) (hsize : size < U64)
    (hn : n = if size % block_size != 0 then size / block_size + 1 else size / block_size)
    (hlen : mapheader_size + objectsize_in_map * n ≤ buf.length) (hn32 : n ≤ U32)
    (hcalloc : P.calloc_ok n = true) (hm2 : m2.objects = []) :
    ∃ m1, read_map_native P m2 buf = some (0, m1) ∧ m1.size = size ∧
      m1.objects.length = n ∧ keys_below m1.objects n ∧
      (∀ j, j < n → find_object m1 j
        = map_to_object (new_node j) (buf.drop (mapheader_size + objectsize_in_map * j))) := by
  obtain ⟨_, h8⟩ := take_of_take_eq_append buf _ _ mapheader_size hhead
    (by simp [hmagic, mapheader_size])
  rw [hmagic] at h8
  have h8' : (buf.drop SHA256_DIGEST_SIZE).take 8 = le64 size := by
    simpa [mapheader_size] using h8
  have hl : ¬ buf.length < SHA256_DIGEST_SIZE + 8 := by
    simp only [mapheader_size] at hlen; omega
  obtain ⟨m1, h1, h2, h3, h4, _, h6⟩ := read_map_native_loop_spec buf n 0 mapheader_size
    { m2 with size := size } hlen (by omega) (by
      intro e he
      simp [hm2] at he)
  refine ⟨m1, ?_, h2, ?_, ?_, ?_⟩
  · simp only [read_map_native, hl, if_false, h8', le64_decode_le64 size hsize, ← hn, hcalloc,
      Bool.not_true, Bool.false_eq_true]
    simp only [mapheader_size] at h1
    rw [h1]
  · rw [h3]; simp [hm2]
  · simpa using h4
  · intro j hj
    simpa using h6 j hj

theorem read_map_of_magic (P : platform) (m : map) (buf : List Nat)
    (hlen : SHA256_DIGEST_SIZE ≤ buf.length)
    (hmagic : buf.take SHA256_DIGEST_SIZE = P.magic_sha256) (hnz : P.magic_sha256 ≠ nulls) :
    read_map P m buf = read_map_native P m buf := by
  have h1 : ¬ buf.length < SHA256_DIGEST_SIZE := by omega
  simp only [read_map, h1, if_false, hmagic, hnz, if_true]

/-- Entry `i` decoded from a buffer that holds the record of a round-trip
node `mn` at `40 + 65 i`. -/
theorem decoded_entry (buf : List Nat) (i : Nat) (mn : map_node) (h : roundtrip_node mn)
    (hlen : mapheader_size + objectsize_in_map * (i + 1) ≤ buf.length)
    (hrec : (buf.drop (mapheader_size + objectsize_in_map * i)).take objectsize_in_map
      = object_record mn) :
    map_to_object (new_node i) (buf.drop (mapheader_size + objectsize_in_map * i)) = some
      { flags := mn.flags, objectidx := i % U32, objectlen := mn.objectlen,
        object := cstr mn.object ++ List.replicate (XSEG_MAX_TARGET_LEN - mn.objectlen) 0 ++ [0],
        pending := [] } := by
  rw [map_to_object_take _ _ (by
    simp only [List.length_drop]
    have : objectsize_in_map * (i + 1) = objectsize_in_map * i + objectsize_in_map := by ring
    omega), hrec]
  exact map_to_object_record i mn h

theorem cstr_padded (s : List Nat) (n : Nat) :
    cstr (cstr s ++ List.replicate n 0 ++ [0]) = cstr s := by
  rw [List.append_assoc, replicate_zero_append_nul]
  exact cstr_append_nul _ _ (cstr_nul_free _)

/-! ## Native round trip -/


/-- Encoding a round-trip map into a block-sized buffer and decoding the
buffer: shape of the buffer and of the decoded map. -/
theorem encode_decode_core (P : platform) (m m2 : map) (data0 : List Nat)
    (hmagic : P.magic_sha256.length = SHA256_DIGEST_SIZE) (hnz : P.magic_sha256 ≠ nulls)
    (hsize : m.size < U64)
    (hnodes : ∀ i, i < calc_map_obj m → ∃ mn, find_object m i = some mn ∧ roundtrip_node mn)
    (hdata : data0.length = block_size)
    (hfit : mapheader_size + objectsize_in_map * calc_map_obj m ≤ block_size)
    (hcalloc : P.calloc_ok (calc_map_obj m) = true) (hm2 : m2.objects = []) :
    ∃ buf m1, test_map_encode P m (calc_map_obj m) data0 = Except.ok buf ∧
      buf.length = block_size ∧
      buf.take mapheader_size = P.magic_sha256 ++ le64 m.size ∧
      (∀ k, buf.drop (mapheader_size + objectsize_in_map * calc_map_obj m + k)
        = data0.drop (mapheader_size + objectsize_in_map * calc_map_obj m + k)) ∧
      (∀ j mn, j < calc_map_obj m → find_object m j = some mn →
        (buf.drop (mapheader_size + objectsize_in_map * j)).take objectsize_in_map
          = object_record mn) ∧
      read_map P m2 buf = some (0, m1) ∧ m1.size = m.size ∧
      m1.objects.length = calc_map_obj m ∧ keys_below m1.objects (calc_map_obj m) ∧
      (∀ i mn, i < calc_map_obj m → find_object m i = some mn →
        find_object m1 i = some (decoded_node i mn)) := by
  obtain ⟨buf, e1, e2, e3, e4, e5⟩ := test_map_encode_spec P m (calc_map_obj m) data0 hmagic
    (fun i hi => by
      obtain ⟨mn, h1, h2⟩ := hnodes i hi
      exact ⟨mn, h1, roundtrip_node_fits mn h2⟩) (by rw [hdata]; exact hfit)
  have hn32 : calc_map_obj m ≤ U32 := by
    simp only [mapheader_size, objectsize_in_map, block_size, U32, XSEG_MAX_TARGET_LEN,
      SHA256_DIGEST_SIZE] at *
    omega
  obtain ⟨m1, d1, d2, d3, d4, d5⟩ := read_map_native_spec P m2 buf m.size (calc_map_obj m)
    hmagic e3 hsize (calc_map_obj_eq m hsize) (by rw [e2, hdata]; exact hfit) hn32 hcalloc hm2
  have hm32 : buf.take SHA256_DIGEST_SIZE = P.magic_sha256 := by
    have := (take_of_take_eq_append buf _ _ mapheader_size e3
      (by simp [hmagic, mapheader_size])).1
    rwa [hmagic] at this
  have hb32 : SHA256_DIGEST_SIZE ≤ buf.length := by
    rw [e2, hdata]; simp [SHA256_DIGEST_SIZE, block_size]
  refine ⟨buf, m1, e1, by rw [e2, hdata], e3, e4, e5, ?_, d2, d3, d4, ?_⟩
  · rw [read_map_of_magic P m2 buf hb32 hm32 hnz, d1]
  · intro i mn hi h1
    obtain ⟨mn0, h0, h2⟩ := hnodes i hi
    rw [h1] at h0
    cases h0
    have hlen : mapheader_size + objectsize_in_map * (i + 1) ≤ buf.length := by
      rw [e2, hdata]
      have : objectsize_in_map * (i + 1) ≤ objectsize_in_map * calc_map_obj m :=
        Nat.mul_le_mul_left _ hi
      omega
    exact (d5 i hi).trans (decoded_entry buf i mn h2 hlen (e5 i mn hi h1))

/-- C5: native round trip.  For every map `m` of size below `2^64` whose table
holds, for each index below `n = calc_map_obj m` (the number of blocks), a node
with a NUL-free name of `objectlen` at most 64 bytes and no flag other than
EXIST, and whose encoding fits in a block-sized buffer: the buffer built by
`mapheader_to_map` followed by `object_to_map` for `i = 0 .. n-1` is decoded by
`read_map` (into a map with an empty table, the node array being allocated)
with result 0 into a map of the same size that has exactly `n` entries, entry
`i` at index `i` with the same name, the same name length and the same flags,
and no entry at any other index. -/
theorem native_roundtrip (P : platform) (m m2 : map) (data0 : List Nat)
    (hmagic : P.magic_sha256.length = SHA256_DIGEST_SIZE) (hnz : P.magic_sha256 ≠ nulls)
    (hsize : m.size < U64)
    (hnodes : ∀ i, i < calc_map_obj m → ∃ mn, find_object m i = some mn ∧ roundtrip_node mn)
    (hdata : data0.length = block_size)
    (hfit : mapheader_size + objectsize_in_map * calc_map_obj m ≤ block_size)
    (hcalloc : P.calloc_ok (calc_map_obj m) = true) (hm2 : m2.objects = []) :
    ∃ buf m1, test_map_encode P m (calc_map_obj m) data0 = Except.ok buf ∧
      buf.length = block_size ∧ read_map P m2 buf = some (0, m1) ∧ m1.size = m.size ∧
      m1.objects.length = calc_map_obj m ∧
      (∀ i, i < calc_map_obj m → ∃ mn mn1, find_object m i = some mn ∧
        find_object m1 i = some mn1 ∧ mn1.objectidx = i ∧ cstr mn1.object = cstr mn.object ∧
        mn1.objectlen = mn.objectlen ∧ mn1.flags = mn.flags) ∧
      (∀ i, calc_map_obj m ≤ i → find_object m1 i = none) := by
  obtain ⟨buf, m1, c1, c2, _, _, _, c6, c7, c8, c9, c10⟩ :=
    encode_decode_core P m m2 data0 hmagic hnz hsize hnodes hdata hfit hcalloc hm2
  have hn32 : calc_map_obj m ≤ U32 := by
    simp only [mapheader_size, objectsize_in_map, block_size, U32, XSEG_MAX_TARGET_LEN,
      SHA256_DIGEST_SIZE] at *
    omega
  refine ⟨buf, m1, c1, c2, c6, c7, c8, ?_, ?_⟩
  · intro i hi
    obtain ⟨mn, h1, _⟩ := hnodes i hi
    exact ⟨mn, _, h1, c10 i mn hi h1, Nat.mod_eq_of_lt (by omega), cstr_padded _ _, rfl, rfl⟩
  · intro i hi
    exact xhash_lookup_none_of_keys_below _ _ _ c9 hi

set_option maxRecDepth 1000000

theorem native_roundtrip_witness :
    ∃ buf m1, test_map_encode test_platform test_map_m (calc_map_obj test_map_m)
        (List.replicate block_size 0) = Except.ok buf ∧
      buf.length = block_size ∧ read_map test_platform empty_map buf = some (0, m1) ∧
      m1.size = test_map_m.size ∧ m1.objects.length = calc_map_obj test_map_m ∧
      (∀ i, i < calc_map_obj test_map_m → ∃ mn mn1, find_object test_map_m i = some mn ∧
        find_object m1 i = some mn1 ∧ mn1.objectidx = i ∧ cstr mn1.object = cstr mn.object ∧
        mn1.objectlen = mn.objectlen ∧ mn1.flags = mn.flags) ∧
      (∀ i, calc_map_obj test_map_m ≤ i → find_object m1 i = none) :=
  native_roundtrip test_platform test_map_m empty_map (List.replicate block_size 0)
    (by decide) (by decide) (by decide)
    (by
      have h100 : calc_map_obj test_map_m = 100 := by decide
      rw [h100]
      intro i hi
      interval_cases i <;> exact ⟨_, rfl, by decide⟩)
    (by simp) (by decide) rfl rfl

theorem take_eq_of_records (a b : List Nat) (pos : Nat) :
    ∀ k, a.take pos = b.take pos →
      (∀ j, j < k → (a.drop (pos + objectsize_in_map * j)).take objectsize_in_map
        = (b.drop (pos + objectsize_in_map * j)).take objectsize_in_map) →
      a.take (pos + objectsize_in_map * k) = b.take (pos + objectsize_in_map * k) := by
  intro k
  induction k with
  | zero => intro h _; simpa using h
  | succ k ih =>
    intro h hs
    have e : pos + objectsize_in_map * (k + 1)
        = pos + objectsize_in_map * k + objectsize_in_map := by ring
    have ha : a.take (pos + objectsize_in_map * k + objectsize_in_map)
        = a.take (pos + objectsize_in_map * k)
          ++ (a.drop (pos + objectsize_in_map * k)).take objectsize_in_map := by
      rw [List.take_add]
    have hb : b.take (pos + objectsize_in_map * k + objectsize_in_map)
        = b.take (pos + objectsize_in_map * k)
          ++ (b.drop (pos + objectsize_in_map * k)).take objectsize_in_map := by
      rw [List.take_add]
    rw [e, ha, hb, ih h (fun j hj => hs j (by omega)), hs k (by omega)]

theorem decoded_node_roundtrip (i : Nat) (mn : map_node) (h : roundtrip_node mn) :
    roundtrip_node (decoded_node i mn) ∧ object_record (decoded_node i mn) = object_record mn := by
  obtain ⟨h1, h2, h3⟩ := h
  have hnl : (cstr mn.object).length = mn.objectlen := by rw [h1]; rfl
  have hstr : strlen (decoded_node i mn).object = mn.objectlen := by
    simp only [decoded_node, strlen, cstr_padded, hnl]
  have hr : roundtrip_node (decoded_node i mn) := ⟨hstr.symm, h2, h3⟩
  refine ⟨hr, ?_⟩
  have t1 : (decoded_node i mn).object.take (decoded_node i mn).objectlen = cstr mn.object := by
    have : (decoded_node i mn).objectlen = strlen (decoded_node i mn).object := hstr.symm
    rw [this, take_strlen]
    exact cstr_padded _ _
  have t2 : mn.object.take mn.objectlen = cstr mn.object := by rw [h1]; exact take_strlen _
  simp only [object_record, t1, t2]
  rfl

/-- C10: re-encoding is a fixpoint.  For every map `m` as in the native round
trip (size below `2^64`, a node with NUL-free name of `objectlen` at most 64
bytes at every index below `calc_map_obj m`, encoding fitting in a block):
encoding `m` into a block-sized buffer, decoding that buffer with `read_map`
and encoding the decoded map (header by `mapheader_to_map`, records by
`object_to_map`) into a block-sized buffer gives the same `40 + 65 n` encoded
bytes, and the same buffer when both encodings start from the same content. -/
theorem reencode_fixpoint (P : platform) (m m2 : map) (data0 data1 : List Nat)
    (hmagic : P.magic_sha256.length = SHA256_DIGEST_SIZE) (hnz : P.magic_sha256 ≠ nulls)
    (hsize : m.size < U64)
    (hnodes : ∀ i, i < calc_map_obj m → ∃ mn, find_object m i = some mn ∧ roundtrip_node mn)
    (hdata : data0.length = block_size) (hdata1 : data1.length = block_size)
    (hfit : mapheader_size + objectsize_in_map * calc_map_obj m ≤ block_size)
    (hcalloc : P.calloc_ok (calc_map_obj m) = true) (hm2 : m2.objects = []) :
    ∃ buf m1 buf1, test_map_encode P m (calc_map_obj m) data0 = Except.ok buf ∧
      read_map P m2 buf = some (0, m1) ∧
      test_map_encode P m1 (calc_map_obj m1) data1 = Except.ok buf1 ∧
      buf1.take (mapheader_size + objectsize_in_map * calc_map_obj m)
        = buf.take (mapheader_size + objectsize_in_map * calc_map_obj m) ∧
      (data1 = data0 → buf1 = buf) := by
  obtain ⟨buf, m1, c1, c2, c3, c4, c5, c6, c7, _, _, c10⟩ :=
    encode_decode_core P m m2 data0 hmagic hnz hsize hnodes hdata hfit hcalloc hm2
  have hcalc : calc_map_obj m1 = calc_map_obj m := by simp only [calc_map_obj, c7]
  have hnodes1 : ∀ i, i < calc_map_obj m → ∃ mn, find_object m1 i = some mn ∧ node_fits mn := by
    intro i hi
    obtain ⟨mn, h1, h2⟩ := hnodes i hi
    exact ⟨_, c10 i mn hi h1, roundtrip_node_fits _ (decoded_node_roundtrip i mn h2).1⟩
  obtain ⟨buf1, e1, e2, e3, e4, e5⟩ := test_map_encode_spec P m1 (calc_map_obj m) data1 hmagic
    hnodes1 (by rw [hdata1]; exact hfit)
  have hrec : ∀ j, j < calc_map_obj m →
      (buf1.drop (mapheader_size + objectsize_in_map * j)).take objectsize_in_map
        = (buf.drop (mapheader_size + objectsize_in_map * j)).take objectsize_in_map := by
    intro j hj
    obtain ⟨mn, h1, h2⟩ := hnodes j hj
    rw [e5 j _ hj (c10 j mn hj h1), c5 j mn hj h1]
    exact (decoded_node_roundtrip j mn h2).2
  have htake := take_eq_of_records buf1 buf mapheader_size (calc_map_obj m)
    (by rw [e3, c3, c7]) hrec
  refine ⟨buf, m1, buf1, c1, c6, by rw [hcalc]; exact e1, htake, ?_⟩
  intro hd
  have hdrop : buf1.drop (mapheader_size + objectsize_in_map * calc_map_obj m)
      = buf.drop (mapheader_size + objectsize_in_map * calc_map_obj m) := by
    have h1 := e4 0
    have h2 := c4 0
    simp only [Nat.add_zero] at h1 h2
    rw [h1, h2, hd]
  rw [← List.take_append_drop (mapheader_size + objectsize_in_map * calc_map_obj m) buf1,
    ← List.take_append_drop (mapheader_size + objectsize_in_map * calc_map_obj m) buf, htake,
    hdrop]

theorem reencode_fixpoint_witness :
    ∃ buf m1 buf1, test_map_encode test_platform small_map (calc_map_obj small_map)
        (List.replicate block_size 0) = Except.ok buf ∧
      read_map test_platform empty_map buf = some (0, m1) ∧
      test_map_encode test_platform m1 (calc_map_obj m1) (List.replicate block_size 255)
        = Except.ok buf1 ∧
      buf1.take (mapheader_size + objectsize_in_map * calc_map_obj small_map)
        = buf.take (mapheader_size + objectsize_in_map * calc_map_obj small_map) ∧
      (List.replicate block_size 255 = List.replicate block_size 0 → buf1 = buf) :=
  reencode_fixpoint test_platform small_map empty_map (List.replicate block_size 0)
    (List.replicate block_size 255) (by decide) (by decide) (by decide)
    (by
      have h3 : calc_map_obj small_map = 3 := by decide
      rw [h3]
      intro i hi
      interval_cases i <;> exact ⟨_, rfl, by decide⟩)
    (by simp) (by simp) (by decide) rfl rfl

/-! ## Legacy decode -/


theorem pithosmap_to_object_take (cs : Bool) (mn : map_node) (buf : List Nat)
    (h : SHA256_DIGEST_SIZE ≤ buf.length) :
    pithosmap_to_object cs mn buf = pithosmap_to_object cs mn (buf.take SHA256_DIGEST_SIZE) := by
  have h1 : ¬ buf.length < SHA256_DIGEST_SIZE := by omega
  have h2 : ¬ (buf.take SHA256_DIGEST_SIZE).length < SHA256_DIGEST_SIZE := by simp; omega
  simp only [pithosmap_to_object, h1, h2, if_false, List.take_take, Nat.min_self]

theorem pithosmap_to_object_fields (cs : Bool) (i : Nat) (d : List Nat)
    (h : d.length = SHA256_DIGEST_SIZE) :
    ∃ mn, pithosmap_to_object cs (new_node i) d = some mn ∧ mn.flags = 0 ∧
      mn.objectidx = i % U32 ∧ mn.pending = [] := by
  have h1 : ¬ d.length < SHA256_DIGEST_SIZE := by omega
  simp only [pithosmap_to_object, h1, if_false]
  exact ⟨_, rfl, rfl, rfl, rfl⟩


/-- The legacy decode loop on a buffer whose bytes from `pos` on are the
digests `ds` (32 bytes each, none all-zero) followed by zeros up to the end of
the `n` slots left: it stops after `ds.length` entries, binds the keys
`i .. i + ds.length - 1` to the nodes made from the digests and changes
nothing else. -/
theorem read_map_pithos_loop_spec (cs : Bool) (buf : List Nat) :
    ∀ (ds : List (List Nat)) (n i pos z : Nat) (m0 : map),
      buf.drop pos = ds.flatten ++ List.replicate z 0 →
      (∀ d ∈ ds, d.length = SHA256_DIGEST_SIZE ∧ d ≠ nulls) →
      SHA256_DIGEST_SIZE * ds.length + z = SHA256_DIGEST_SIZE * n →
      i + ds.length ≤ U32 → keys_below m0.objects i →
      ∃ m1, read_map_pithos_loop cs buf n i pos m0 = some (i + ds.length, m1) ∧
        m1.size = m0.size ∧ m1.objects.length = m0.objects.length + ds.length ∧
        keys_below m1.objects (i + ds.length) ∧
        (∀ x, x < i → find_object m1 x = find_object m0 x) ∧
        (∀ j d, ds[j]? = some d →
          find_object m1 (i + j) = pithosmap_to_object cs (new_node (i + j)) d) := by
  intro ds
  induction ds with
  | nil =>
    intro n i pos z m0 hbuf _ hz _ hk
    refine ⟨m0, ?_, rfl, rfl, hk, fun _ _ => rfl, fun j d hj => by simp at hj⟩
    cases n with
    | zero => rfl
    | succ n =>
      simp only [List.flatten_nil, List.nil_append] at hbuf
      have hz32 : SHA256_DIGEST_SIZE ≤ z := by
        simp only [List.length_nil, Nat.mul_zero, Nat.zero_add] at hz
        rw [hz, Nat.mul_succ]; omega
      have h1 : ¬ (buf.drop pos).length < SHA256_DIGEST_SIZE := by
        rw [hbuf]; simp; omega
      have h2 : (buf.drop pos).take SHA256_DIGEST_SIZE = nulls := by
        rw [hbuf, nulls, List.take_replicate, Nat.min_eq_left hz32]
      simp only [read_map_pithos_loop, h1, h2, if_false, if_true, List.length_nil, Nat.add_zero]
  | cons d ds ih =>
    intro n i pos z m0 hbuf hds hz hi hk
    obtain ⟨hdl, hdnz⟩ := hds d (by simp)
    have hlen : (d :: ds).length = ds.length + 1 := rfl
    have h32 : SHA256_DIGEST_SIZE = 32 := rfl
    rw [hlen] at hi hz
    have hz' : 32 * (ds.length + 1) + z = 32 * n := hz
    cases n with
    | zero => omega
    | succ n =>
      simp only [List.flatten_cons, List.append_assoc] at hbuf
      have h1 : ¬ (buf.drop pos).length < SHA256_DIGEST_SIZE := by
        rw [hbuf]; simp; omega
      have h2 : (buf.drop pos).take SHA256_DIGEST_SIZE = d := by
        rw [hbuf, List.take_append_of_le_length (by omega)]
        exact List.take_of_length_le (by omega)
      have h2' : ¬ (buf.drop pos).take SHA256_DIGEST_SIZE = nulls := by rw [h2]; exact hdnz
      have hp : pithosmap_to_object cs (new_node i) (buf.drop pos)
          = pithosmap_to_object cs (new_node i) d := by
        rw [pithosmap_to_object_take cs _ _ (by omega), h2]
      obtain ⟨mn, hmn, _, hidx, _⟩ := pithosmap_to_object_fields cs i d hdl
      have hidx' : mn.objectidx = i := by
        rw [hidx]; exact Nat.mod_eq_of_lt (by omega)
      have hobj : (insert_object m0 mn).objects = m0.objects ++ [(i, mn)] := by
        simp [insert_object, hidx', xhash_insert_fresh _ _ _ hk]
      have hk1 : keys_below (insert_object m0 mn).objects (i + 1) := by
        rw [hobj]; exact keys_below_append _ _ _ hk
      have hnext : buf.drop (pos + SHA256_DIGEST_SIZE) = ds.flatten ++ List.replicate z 0 := by
        rw [← List.drop_drop, hbuf, ← hdl, List.drop_left]
      obtain ⟨m1, r1, r2, r3, r4, r5, r6⟩ := ih n (i + 1) (pos + SHA256_DIGEST_SIZE) z
        (insert_object m0 mn) hnext (fun e he => hds e (by simp [he]))
        (by show 32 * ds.length + z = 32 * n; omega) (by omega) hk1
      refine ⟨m1, ?_, ?_, ?_, ?_, ?_, ?_⟩
      · simp only [read_map_pithos_loop, h1, h2', if_false, hp, hmn, r1, hlen]
        have : i + 1 + ds.length = i + (ds.length + 1) := by omega
        rw [this]
      · rw [r2]; rfl
      · rw [r3, hobj]; simp; omega
      · have : i + (d :: ds).length = i + 1 + ds.length := by rw [hlen]; omega
        rw [this]; exact r4
      · intro x hx
        rw [r5 x (by omega)]
        simp only [find_object, hobj]
        exact xhash_lookup_append_ne _ _ _ _ (by omega)
      · intro j e hj
        cases j with
        | zero =>
          simp only [List.getElem?_cons_zero, Option.some.injEq] at hj
          subst hj
          simp only [Nat.add_zero]
          rw [r5 i (by omega)]
          simp only [find_object, hobj]
          rw [xhash_lookup_append_fresh _ _ _ hk, hmn]
        | succ j =>
          simp only [List.getElem?_cons_succ] at hj
          have e1 : i + (j + 1) = i + 1 + j := by omega
          rw [e1]
          exact r6 j e hj


theorem flatten_length_digests (ds : List (List Nat))
    (h : ∀ d ∈ ds, d.length = SHA256_DIGEST_SIZE ∧ d ≠ nulls) :
    ds.flatten.length = SHA256_DIGEST_SIZE * ds.length := by
  induction ds with
  | nil => rfl
  | cons d ds ih =>
    have h1 := (h d (by simp)).1
    have h2 := ih (fun e he => h e (by simp [he]))
    simp only [List.flatten_cons, List.length_append, List.length_cons, h1, h2]
    ring

theorem legacy_buf_length (ds : List (List Nat))
    (h : ∀ d ∈ ds, d.length = SHA256_DIGEST_SIZE ∧ d ≠ nulls)
    (hmax : ds.length ≤ block_size / SHA256_DIGEST_SIZE) :
    (legacy_buf ds).length = block_size := by
  have h1 := flatten_length_digests ds h
  have h2 : SHA256_DIGEST_SIZE * ds.length ≤ block_size := by
    simp only [block_size, SHA256_DIGEST_SIZE] at *
    omega
  simp only [legacy_buf, List.length_append, List.length_replicate, h1]
  omega

/-- Decoding of a legacy map block with the digests `ds`: `read_map` takes the
legacy branch, returns 0 and leaves a map of `ds.length` blocks whose table
binds `j` to the node `pithosmap_to_object` makes from digest `j`. -/
theorem legacy_decode_core (P : platform) (m0 : map) (ds : List (List Nat))
    (hk : 1 ≤ ds.length) (hmax : ds.length ≤ block_size / SHA256_DIGEST_SIZE)
    (hd : ∀ d ∈ ds, d.length = SHA256_DIGEST_SIZE ∧ d ≠ nulls)
    (hfirst : ds.head? ≠ some P.magic_sha256)
    (hcalloc : P.calloc_ok (block_size / SHA256_DIGEST_SIZE) = true) (hm0 : m0.objects = []) :
    ∃ m1, read_map P m0 (legacy_buf ds) = some (0, m1) ∧ m1.size = ds.length * block_size ∧
      m1.objects.length = ds.length ∧ keys_below m1.objects ds.length ∧
      (∀ j d, ds[j]? = some d →
        find_object m1 j = pithosmap_to_object P.char_signed (new_node j) d) := by
  have hmax' : SHA256_DIGEST_SIZE * ds.length ≤ block_size := by
    simp only [block_size, SHA256_DIGEST_SIZE] at *
    omega
  obtain ⟨m1, r1, r2, r3, r4, _, r6⟩ := read_map_pithos_loop_spec P.char_signed (legacy_buf ds) ds
    (block_size / SHA256_DIGEST_SIZE) 0 0 (block_size - SHA256_DIGEST_SIZE * ds.length) m0
    (by simp [legacy_buf]) hd
    (by simp only [block_size, SHA256_DIGEST_SIZE] at *; omega)
    (by simp only [block_size, SHA256_DIGEST_SIZE, U32] at *; omega)
    (by intro e he; simp [hm0] at he)
  cases ds with
  | nil => simp at hk
  | cons d ds' =>
    obtain ⟨hdl, hdnz⟩ := hd d (by simp)
    have hne : d ≠ P.magic_sha256 := by
      intro e; apply hfirst; simp [e]
    have hl : ¬ (legacy_buf (d :: ds')).length < SHA256_DIGEST_SIZE := by
      rw [legacy_buf_length _ hd hmax]; simp [block_size, SHA256_DIGEST_SIZE]
    have ht : (legacy_buf (d :: ds')).take SHA256_DIGEST_SIZE = d := by
      simp only [legacy_buf, List.flatten_cons, List.append_assoc]
      rw [List.take_append_of_le_length (by omega)]
      exact List.take_of_length_le (by omega)
    have hsz : ((d :: ds').length * block_size) % U64 = (d :: ds').length * block_size := by
      apply Nat.mod_eq_of_lt
      have : (d :: ds').length * block_size ≤ block_size / SHA256_DIGEST_SIZE * block_size :=
        Nat.mul_le_mul_right _ hmax
      have h2 : block_size / SHA256_DIGEST_SIZE * block_size < U64 := by decide
      omega
    refine ⟨{ m1 with size := (d :: ds').length * block_size }, ?_, rfl, r3.trans (by simp [hm0]),
      by simpa using r4, ?_⟩
    · simp only [Nat.zero_add] at r1
      simp only [read_map, hl, if_false, ht, hdnz, hne, read_map_pithos, hcalloc, Bool.not_true,
        Bool.false_eq_true, r1, hsz]
    · intro j e hj
      have := r6 j e hj
      simp only [Nat.zero_add] at this
      exact this


/-- C6: legacy decode.  For every block-sized buffer that consists of `k ≥ 1`
digests of 32 bytes, none of them all-zero and the first one different from
the magic, followed by zero padding, `read_map` (on a map with an empty table,
the node array being allocated) returns 0, sets the map size to
`k * block_size` and leaves exactly `k` entries, at the indices `0 .. k-1`,
each with no flag set. -/
theorem legacy_decode (P : platform) (m0 : map) (ds : List (List Nat))
    (hk : 1 ≤ ds.length) (hmax : ds.length ≤ block_size / SHA256_DIGEST_SIZE)
    (hd : ∀ d ∈ ds, d.length = SHA256_DIGEST_SIZE ∧ d ≠ nulls)
    (hfirst : ds.head? ≠ some P.magic_sha256)
    (hcalloc : P.calloc_ok (block_size / SHA256_DIGEST_SIZE) = true) (hm0 : m0.objects = []) :
    ∃ m1, read_map P m0 (legacy_buf ds) = some (0, m1) ∧
      (legacy_buf ds).length = block_size ∧ m1.size = ds.length * block_size ∧
      m1.objects.length = ds.length ∧
      (∀ i, i < ds.length → ∃ mn, find_object m1 i = some mn ∧ mn.flags = 0 ∧
        mn.objectidx = i) ∧
      (∀ i, ds.length ≤ i → find_object m1 i = none) := by
  obtain ⟨m1, c1, c2, c3, c4, c5⟩ := legacy_decode_core P m0 ds hk hmax hd hfirst hcalloc hm0
  refine ⟨m1, c1, legacy_buf_length ds hd hmax, c2, c3, ?_, ?_⟩
  · intro i hi
    have hget : ds[i]? = some ds[i] := List.getElem?_eq_getElem hi
    obtain ⟨mn, h1, h2, h3, _⟩ := pithosmap_to_object_fields P.char_signed i ds[i]
      (hd _ (List.getElem_mem hi)).1
    refine ⟨mn, (c5 i _ hget).trans h1, h2, ?_⟩
    rw [h3]
    apply Nat.mod_eq_of_lt
    simp only [block_size, SHA256_DIGEST_SIZE, U32] at *
    omega
  · intro i hi
    exact xhash_lookup_none_of_keys_below _ _ _ c4 hi

theorem legacy_decode_witness :
    ∃ m1, read_map test_platform empty_map
        (legacy_buf [counting_digest, List.replicate 32 200]) = some (0, m1) ∧
      (legacy_buf [counting_digest, List.replicate 32 200]).length = block_size ∧
      m1.size = [counting_digest, List.replicate 32 200].length * block_size ∧
      m1.objects.length = [counting_digest, List.replicate 32 200].length ∧
      (∀ i, i < [counting_digest, List.replicate 32 200].length →
        ∃ mn, find_object m1 i = some mn ∧ mn.flags = 0 ∧ mn.objectidx = i) ∧
      (∀ i, [counting_digest, List.replicate 32 200].length ≤ i → find_object m1 i = none) :=
  legacy_decode test_platform empty_map [counting_digest, List.replicate 32 200]
    (by decide) (by decide) (by decide) (by decide) rfl rfl

theorem node_of_name_eq (o : Option map_node) (a : List Nat) (b : Nat)
    (h : o.map (fun mn => (cstr mn.object, mn.objectlen)) = some (a, b)) :
    ∃ mn, o = some mn ∧ cstr mn.object = a ∧ mn.objectlen = b := by
  cases o with
  | none => simp at h
  | some mn =>
    simp only [Option.map_some', Option.some.injEq, Prod.mk.injEq] at h
    exact ⟨mn, rfl, h.1, h.2⟩

/-- C7 (code defect, failing input): for the legacy map block that holds the
digest with bytes 1 .. 32 followed by the digest with 32 bytes 200, `read_map`
gives entry 0 the name `20` (the hex of the last byte only) with name length
2, not the 64 characters `0102...1f20`, and entry 1 the name `c8` (length 2),
or `ffffffc8` (length 8) where `char` is signed. -/
theorem legacy_name_holds_last_byte_only (cs : Bool) :
    ∃ m1 mn0 mn1,
      read_map { test_platform with char_signed := cs } empty_map
        (legacy_buf [counting_digest, List.replicate 32 200]) = some (0, m1) ∧
      find_object m1 0 = some mn0 ∧ cstr mn0.object = [50, 48] ∧ mn0.objectlen = 2 ∧
      find_object m1 1 = some mn1 ∧
      cstr mn1.object = (if cs then [102, 102, 102, 102, 102, 102, 99, 56] else [99, 56]) ∧
      mn1.objectlen = (if cs then 8 else 2) ∧
      (hexlify counting_digest).length = 64 ∧ hexlify counting_digest ≠ [50, 48] := by
  obtain ⟨m1, c1, _, _, _, c5⟩ := legacy_decode_core { test_platform with char_signed := cs }
    empty_map [counting_digest, List.replicate 32 200]
    (by decide) (by decide) (by decide)
    (show [counting_digest, List.replicate 32 200].head? ≠ some magic_digest by decide) rfl rfl
  have h0 := c5 0 counting_digest rfl
  have h1 := c5 1 (List.replicate 32 200) rfl
  obtain ⟨mn0, a1, a2, a3⟩ := node_of_name_eq
    (pithosmap_to_object cs (new_node 0) counting_digest) [50, 48] 2
    (by cases cs <;> decide)
  obtain ⟨mn1, b1, b2, b3⟩ := node_of_name_eq
    (pithosmap_to_object cs (new_node 1) (List.replicate 32 200))
    (if cs then [102, 102, 102, 102, 102, 102, 99, 56] else [99, 56]) (if cs then 8 else 2)
    (by cases cs <;> decide)
  exact ⟨m1, mn0, mn1, c1, h0.trans a1, a2, a3, h1.trans b1, b2, b3, by decide, by decide⟩

/-! ## Format detection and map_write -/


theorem read_map_native_fail_iff (P : platform) (m m1 : map) (buf : List Nat) :
    read_map_native P m buf = some (-1, m1) ↔
      (SHA256_DIGEST_SIZE + 8 ≤ buf.length ∧ P.calloc_ok (header_nr_objs buf) = false ∧
        m1 = { m with size := header_size_field buf }) := by
  simp only [read_map_native, header_nr_objs, header_size_field]
  by_cases hl : buf.length < SHA256_DIGEST_SIZE + 8
  · simp [hl]
  · have hl' : SHA256_DIGEST_SIZE + 8 ≤ buf.length := by omega
    simp only [hl, if_false, hl', true_and]
    cases hc : P.calloc_ok (if (le64_decode (List.take 8 (List.drop SHA256_DIGEST_SIZE buf))
        % block_size != 0) = true
        then le64_decode (List.take 8 (List.drop SHA256_DIGEST_SIZE buf)) / block_size + 1
        else le64_decode (List.take 8 (List.drop SHA256_DIGEST_SIZE buf)) / block_size)
    · simp [eq_comm]
    · simp only [Bool.not_true, Bool.false_eq_true, if_false]
      split <;> simp

theorem read_map_pithos_fail_iff (P : platform) (m m1 : map) (buf : List Nat) :
    read_map_pithos P m buf = some (-1, m1) ↔
      (P.calloc_ok (block_size / SHA256_DIGEST_SIZE) = false ∧ m1 = m) := by
  simp only [read_map_pithos]
  cases hc : P.calloc_ok (block_size / SHA256_DIGEST_SIZE)
  · simp [eq_comm]
  · simp only [Bool.not_true, Bool.false_eq_true, if_false]
    split <;> simp


theorem huge_size_buf_length : huge_size_buf.length = block_size := by
  have h : magic_digest.length = 32 := rfl
  simp only [huge_size_buf, List.length_append, List.length_replicate, h]
  decide

/-- C8 as stated fails: on a platform where `calloc` of `2^44` nodes fails, the
block whose first 32 bytes are the magic (so not all zero) and whose size
field is `2^64 - 1` makes `read_map` return -1, after it has overwritten the
map size. -/
theorem read_map_fails_on_magic_block :
    huge_size_buf.take SHA256_DIGEST_SIZE ≠ nulls ∧
    read_map bounded_platform empty_map huge_size_buf
      = some (-1, { empty_map with size := 2 ^ 64 - 1 }) ∧
    ({ empty_map with size := 2 ^ 64 - 1 } : map).size ≠ empty_map.size := by
  have hml : magic_digest.length = SHA256_DIGEST_SIZE := rfl
  have ht : huge_size_buf.take SHA256_DIGEST_SIZE = magic_digest := by
    simp only [huge_size_buf]
    rw [← hml, List.take_left]
  have hl : ¬ huge_size_buf.length < SHA256_DIGEST_SIZE := by
    rw [huge_size_buf_length]; decide
  have hd : (huge_size_buf.drop SHA256_DIGEST_SIZE).take 8 = List.replicate 8 255 := by
    have : huge_size_buf.drop SHA256_DIGEST_SIZE
        = List.replicate 8 255 ++ List.replicate (block_size - 40) 0 := by
      simp only [huge_size_buf]
      rw [← hml, List.drop_left]
    have h8 : (List.replicate 8 255).length = 8 := rfl
    rw [this]
    nth_rewrite 1 [← h8]
    rw [List.take_left]
  have hf : header_size_field huge_size_buf = 2 ^ 64 - 1 := by
    simp only [header_size_field, hd]
    decide
  have hn : bounded_platform.calloc_ok (header_nr_objs huge_size_buf) = false := by
    simp only [header_nr_objs, hf]
    decide
  refine ⟨by rw [ht]; decide, ?_, by decide⟩
  have hnat := (read_map_native_fail_iff bounded_platform empty_map
    { empty_map with size := 2 ^ 64 - 1 } huge_size_buf).mpr
    ⟨by rw [huge_size_buf_length]; decide, hn, by rw [hf]⟩
  have hz : ¬ magic_digest = nulls := by decide
  have hmag : bounded_platform.magic_sha256 = magic_digest := rfl
  simp only [read_map, hl, if_false, ht, hz, hmag, if_true]
  exact hnat

/-- C8 (amended): format detection in `read_map`.  For every buffer of at
least 32 bytes: if the first 32 bytes are all zero the call returns -1 with
the map untouched (no entry inserted, size unchanged); otherwise the buffer is
decoded by the native branch if its first 32 bytes equal the magic and by the
legacy branch in every other case; and the call returns -1 exactly when the
first 32 bytes are all zero or the node array of the branch taken cannot be
allocated. -/
theorem read_map_format_detection (P : platform) (m : map) (buf : List Nat)
    (hlen : SHA256_DIGEST_SIZE ≤ buf.length) :
    (buf.take SHA256_DIGEST_SIZE = nulls → read_map P m buf = some (-1, m)) ∧
    (buf.take SHA256_DIGEST_SIZE ≠ nulls → buf.take SHA256_DIGEST_SIZE = P.magic_sha256 →
      read_map P m buf = read_map_native P m buf) ∧
    (buf.take SHA256_DIGEST_SIZE ≠ nulls → buf.take SHA256_DIGEST_SIZE ≠ P.magic_sha256 →
      read_map P m buf = read_map_pithos P m buf) ∧
    ((∃ m1, read_map P m buf = some (-1, m1)) ↔
      (buf.take SHA256_DIGEST_SIZE = nulls ∨
        (buf.take SHA256_DIGEST_SIZE ≠ nulls ∧ buf.take SHA256_DIGEST_SIZE = P.magic_sha256 ∧
          SHA256_DIGEST_SIZE + 8 ≤ buf.length ∧ P.calloc_ok (header_nr_objs buf) = false) ∨
        (buf.take SHA256_DIGEST_SIZE ≠ nulls ∧ buf.take SHA256_DIGEST_SIZE ≠ P.magic_sha256 ∧
          P.calloc_ok (block_size / SHA256_DIGEST_SIZE) = false))) := by
  have hl : ¬ buf.length < SHA256_DIGEST_SIZE := by omega
  by_cases hz : buf.take SHA256_DIGEST_SIZE = nulls
  · have hr : read_map P m buf = some (-1, m) := by simp only [read_map, hl, if_false, hz, if_true]
    exact ⟨fun _ => hr, fun h => absurd hz h, fun h => absurd hz h,
      ⟨fun _ => Or.inl hz, fun _ => ⟨m, hr⟩⟩⟩
  · by_cases hm : buf.take SHA256_DIGEST_SIZE = P.magic_sha256
    · have hz' : ¬ P.magic_sha256 = nulls := by rw [← hm]; exact hz
      have hr : read_map P m buf = read_map_native P m buf := by
        simp only [read_map, hl, if_false, hm, hz', if_true]
      refine ⟨fun h => absurd h hz, fun _ _ => hr, fun _ h => absurd hm h, ?_⟩
      rw [hr]
      constructor
      · rintro ⟨m1, h1⟩
        obtain ⟨a, b, _⟩ := (read_map_native_fail_iff P m m1 buf).mp h1
        exact Or.inr (Or.inl ⟨hz, hm, a, b⟩)
      · rintro (h | ⟨_, _, a, b⟩ | ⟨_, h, _⟩)
        · exact absurd h hz
        · exact ⟨_, (read_map_native_fail_iff P m _ buf).mpr ⟨a, b, rfl⟩⟩
        · exact absurd hm h
    · have hr : read_map P m buf = read_map_pithos P m buf := by
        simp only [read_map, hl, if_false, hz, hm]
      refine ⟨fun h => absurd h hz, fun _ h => absurd h hm, fun _ _ => hr, ?_⟩
      rw [hr]
      constructor
      · rintro ⟨m1, h1⟩
        obtain ⟨a, _⟩ := (read_map_pithos_fail_iff P m m1 buf).mp h1
        exact Or.inr (Or.inr ⟨hz, hm, a⟩)
      · rintro (h | ⟨_, h, _⟩ | ⟨_, _, a⟩)
        · exact absurd h hz
        · exact absurd h hm
        · exact ⟨_, (read_map_pithos_fail_iff P m _ buf).mpr ⟨a, rfl⟩⟩


theorem read_map_format_detection_witness :
    (huge_size_buf.take SHA256_DIGEST_SIZE = nulls →
      read_map test_platform empty_map huge_size_buf = some (-1, empty_map)) ∧
    (huge_size_buf.take SHA256_DIGEST_SIZE ≠ nulls →
      huge_size_buf.take SHA256_DIGEST_SIZE = test_platform.magic_sha256 →
      read_map test_platform empty_map huge_size_buf
        = read_map_native test_platform empty_map huge_size_buf) ∧
    (huge_size_buf.take SHA256_DIGEST_SIZE ≠ nulls →
      huge_size_buf.take SHA256_DIGEST_SIZE ≠ test_platform.magic_sha256 →
      read_map test_platform empty_map huge_size_buf
        = read_map_pithos test_platform empty_map huge_size_buf) ∧
    ((∃ m1, read_map test_platform empty_map huge_size_buf = some (-1, m1)) ↔
      (huge_size_buf.take SHA256_DIGEST_SIZE = nulls ∨
        (huge_size_buf.take SHA256_DIGEST_SIZE ≠ nulls ∧
          huge_size_buf.take SHA256_DIGEST_SIZE = test_platform.magic_sha256 ∧
          SHA256_DIGEST_SIZE + 8 ≤ huge_size_buf.length ∧
          test_platform.calloc_ok (header_nr_objs huge_size_buf) = false) ∨
        (huge_size_buf.take SHA256_DIGEST_SIZE ≠ nulls ∧
          huge_size_buf.take SHA256_DIGEST_SIZE ≠ test_platform.magic_sha256 ∧
          test_platform.calloc_ok (block_size / SHA256_DIGEST_SIZE) = false))) :=
  read_map_format_detection test_platform empty_map huge_size_buf
    (by rw [huge_size_buf_length]; decide)

/-- C9 (code defect, failing input): for the map of size 1, whose table holds
the entry of every index below `calc_map_obj = 1`, `map_write` looks up index 1
as well, takes the missing-entry exit and returns -1 although the data area it
prepared has the 105 bytes of a header and one record; when the table also
holds an entry at index 1 it stores two records, 170 bytes, in that area of
105 bytes. -/
theorem map_write_visits_one_index_too_many :
    calc_map_obj one_byte_map = 1 ∧
    find_object one_byte_map 0 = some (named_node 0 MF_OBJECT_EXIST [97, 48]) ∧
    (map_write test_platform env_ok one_byte_map []).1 = -1 ∧
    (map_write test_platform env_ok one_byte_map []).2.1 = map_write_exit.missing_object 1 ∧
    (map_write test_platform env_ok one_byte_map []).2.2.1 = 105 ∧
    (map_write test_platform env_ok one_byte_clone_map []).2.1 = map_write_exit.submitted ∧
    (map_write test_platform env_ok one_byte_clone_map []).2.2.1 = 105 ∧
    (map_write test_platform env_ok one_byte_clone_map []).2.2.2.length = 170 := by
  decide

/-! ## Object name derivation -/

theorem digitChar_toNat_ne_zero (k : Nat) : (Nat.digitChar k).toNat ≠ 0 := by
  by_cases h : k < 16
  · interval_cases k <;> decide
  · have : Nat.digitChar k = '*' := by
      unfold Nat.digitChar
      iterate 16 rw [if_neg (by omega)]
    rw [this]
    decide

theorem toDigitsCore_nul_free (b : Nat) :
    ∀ (fuel n : Nat) (ds : List Char), (∀ c ∈ ds, c.toNat ≠ 0) →
      ∀ c ∈ Nat.toDigitsCore b fuel n ds, c.toNat ≠ 0 := by
  intro fuel
  induction fuel with
  | zero => intro n ds h c hc; exact h c (by simpa [Nat.toDigitsCore] using hc)
  | succ f ih =>
    intro n ds h c hc
    have hds : ∀ c ∈ Nat.digitChar (n % b) :: ds, c.toNat ≠ 0 := by
      intro c hc
      rcases List.mem_cons.mp hc with h1 | h1
      · rw [h1]; exact digitChar_toNat_ne_zero _
      · exact h c h1
    simp only [Nat.toDigitsCore] at hc
    split at hc
    · exact hds c hc
    · exact ih _ _ hds c hc

theorem toDigitsCore_length_le :
    ∀ (fuel n k : Nat) (ds : List Char), 1 ≤ k → n < 10 ^ k →
      (Nat.toDigitsCore 10 fuel n ds).length ≤ ds.length + k := by
  intro fuel
  induction fuel with
  | zero => intro n k ds _ _; simp [Nat.toDigitsCore]
  | succ f ih =>
    intro n k ds hk hn
    simp only [Nat.toDigitsCore]
    split
    · simp; omega
    · rename_i h0
      have hk2 : 2 ≤ k := by
        by_contra hlt
        have : k = 1 := by omega
        subst this
        apply h0
        exact Nat.div_eq_of_lt (by simpa using hn)
      have hdiv : n / 10 < 10 ^ (k - 1) := by
        apply Nat.div_lt_of_lt_mul
        have : 10 * 10 ^ (k - 1) = 10 ^ k := by
          rw [← Nat.pow_succ']
          congr 1
          omega
        rw [this]; exact hn
      have := ih (n / 10) (k - 1) (Nat.digitChar (n % 10) :: ds) (by omega) hdiv
      simp only [List.length_cons] at this
      omega

theorem fmt_u_nul_free (v : Nat) : ∀ x ∈ fmt_u v, x ≠ 0 := by
  intro x hx
  simp only [fmt_u, Nat.toDigits, List.mem_map] at hx
  obtain ⟨c, hc, rfl⟩ := hx
  exact toDigitsCore_nul_free 10 _ _ [] (by simp) c hc

theorem fmt_u_length_le (v : Nat) (h : v < U32) : (fmt_u v).length ≤ 10 := by
  simp only [fmt_u, Nat.toDigits, List.length_map]
  have := toDigitsCore_length_le (v + 1) v 10 [] (by omega) (by
    simp only [U32] at h
    omega)
  simpa using this



theorem fmt_02x_byte : ∀ b, b < 256 → fmt_02x b = [hexdigit (b / 16), hexdigit (b % 16)] := by
  decide

theorem hexdigit_is_lower_hex (d : Nat) (h : d < 16) : is_lower_hex (hexdigit d) := by
  simp only [hexdigit, is_lower_hex]
  split <;> omega

theorem hexlify_spec (digest : List Nat) :
    (hexlify digest).length = 2 * digest.length ∧ ∀ c ∈ hexlify digest, is_lower_hex c := by
  induction digest with
  | nil => simp [hexlify]
  | cons b t ih =>
    have hb := fmt_02x_byte (b % 256) (Nat.mod_lt _ (by norm_num))
    have hcons : hexlify (b :: t) = fmt_02x (b % 256) ++ hexlify t := by
      simp [hexlify, List.flatMap_cons]
    rw [hcons, hb]
    constructor
    · simp only [List.length_append, List.length_cons, List.length_nil, ih.1]
      omega
    · intro c hc
      simp only [List.cons_append, List.nil_append, List.mem_cons] at hc
      rcases hc with h | h | h
      · rw [h]; exact hexdigit_is_lower_hex _ (by omega)
      · rw [h]; exact hexdigit_is_lower_hex _ (by omega)
      · exact ih.2 c h

theorem is_lower_hex_ne_zero (c : Nat) (h : is_lower_hex c) : c ≠ 0 := by
  simp only [is_lower_hex] at h
  omega

theorem cstr_of_nul_free (a : List Nat) (ha : ∀ x ∈ a, x ≠ 0) : cstr a = a := by
  induction a with
  | nil => rfl
  | cons x a ih =>
    have hx : x ≠ 0 := ha x (by simp)
    have ih1 := ih (fun y hy => ha y (by simp [hy]))
    simp only [cstr] at ih1
    simp [cstr, List.takeWhile_cons, hx, ih1]

theorem cstr_append_of_nul_free (a t : List Nat) (ha : ∀ x ∈ a, x ≠ 0) :
    cstr (a ++ t) = a ++ cstr t := by
  induction a with
  | nil => rfl
  | cons x a ih =>
    have hx : x ≠ 0 := ha x (by simp)
    have ih1 := ih (fun y hy => ha y (by simp [hy]))
    simp only [cstr] at ih1
    simp [cstr, List.takeWhile_cons, hx, ih1]

/-- Bytes `strncpy(dst, src, n)` stores when the first `n` bytes of `src` hold
no NUL: those `n` bytes. -/
theorem strncpy_bytes_of_nul_free (src p : List Nat) (n : Nat) (hp : src.take n = p)
    (hlen : p.length = n) (hnul : ∀ x ∈ p, x ≠ 0) : strncpy_bytes src n = p := by
  have hsrc : src = p ++ src.drop n := by rw [← hp]; exact (List.take_append_drop n src).symm
  have hc : (cstr src).take n = p := by
    rw [hsrc, cstr_append_of_nul_free p _ hnul, List.take_append_of_le_length (by omega)]
    exact List.take_of_length_le (by omega)
  simp [strncpy_bytes, hc, hlen]

/-- Name derived for a node whose name `p` has `objectlen` bytes without NUL. -/
theorem copyup_target_eq (sha256 : List Nat → List Nat) (mn : map_node) (p : List Nat)
    (hp : mn.object.take mn.objectlen = p) (hlen : p.length = mn.objectlen)
    (hnul : ∀ x ∈ p, x ≠ 0) (h64 : mn.objectlen ≤ XSEG_MAX_TARGET_LEN)
    (hidx : mn.objectidx < U32) :
    copyup_target sha256 mn = hexlify (sha256 (p ++ fmt_u mn.objectidx)) := by
  have h1 := strncpy_bytes_of_nul_free mn.object p mn.objectlen hp hlen hnul
  have hnf : ∀ x ∈ p ++ fmt_u mn.objectidx, x ≠ 0 := by
    intro x hx
    rcases List.mem_append.mp hx with h | h
    · exact hnul x h
    · exact fmt_u_nul_free _ x h
  have hstr : strlen (p ++ fmt_u mn.objectidx ++ [0]) = (p ++ fmt_u mn.objectidx).length := by
    simp only [strlen]
    rw [cstr_append_nul _ _ hnf]
  have hle := fmt_u_length_le mn.objectidx hidx
  have hmin : min (p ++ fmt_u mn.objectidx).length (XSEG_MAX_TARGET_LEN + 19)
      = (p ++ fmt_u mn.objectidx).length := by
    apply Nat.min_eq_left
    simp only [List.length_append, XSEG_MAX_TARGET_LEN, SHA256_DIGEST_SIZE] at *
    omega
  simp only [copyup_target, h1, hstr, hmin]
  rw [List.take_append_of_le_length (le_refl _), List.take_length]



/-- The COPY request `copyup_object` submits for a node whose name `p` has
`objectlen` bytes without NUL, when every xseg primitive succeeds; the handle
is bound to the node when the insertion into `copyups_nodes` is made. -/
theorem copyup_object_ok (sha256 : List Nat → List Nat) (env : xseg_env) (key : Nat)
    (mn : map_node) (st : r2o_state) (p : List Nat) (h : Nat)
    (hp : mn.object.take mn.objectlen = p) (hlen : p.length = mn.objectlen)
    (hnul : ∀ x ∈ p, x ≠ 0) (h64 : mn.objectlen ≤ XSEG_MAX_TARGET_LEN)
    (hidx : mn.objectidx < U32) (hsha : ∀ l, (sha256 l).length = SHA256_DIGEST_SIZE)
    (hreq : env.get_request = some h) (hprep : env.prep_ok = true)
    (hset : env.set_req_data_ok = true) (hsub : env.submit_ok = true) :
    copyup_object sha256 env key mn st = (0,
      { st with
        pr := { st.pr with mio :=
          if env.copyups_insert_ok then set_copyup_node st.pr.mio h (st.map.volume, key)
          else st.pr.mio },
        submitted := st.submitted ++
          [⟨h, { op := xseg_op.X_COPY, target := hexlify (sha256 (p ++ fmt_u mn.objectidx)),
                 targetlen := 64, offset := 0, size := block_size, copy_target := p },
            st.pr.id⟩] }) := by
  have ht := copyup_target_eq sha256 mn p hp hlen hnul h64 hidx
  have hs := hexlify_spec (sha256 (p ++ fmt_u mn.objectidx))
  have hl : (hexlify (sha256 (p ++ fmt_u mn.objectidx))).length = 64 := by
    rw [hs.1, hsha]; rfl
  have hnf : ∀ x ∈ hexlify (sha256 (p ++ fmt_u mn.objectidx)), x ≠ 0 :=
    fun x hx => is_lower_hex_ne_zero x (hs.2 x hx)
  have htgt : strncpy_bytes (hexlify (sha256 (p ++ fmt_u mn.objectidx))) (SHA256_DIGEST_SIZE * 2)
      = hexlify (sha256 (p ++ fmt_u mn.objectidx)) :=
    strncpy_bytes_of_nul_free _ _ _ (List.take_of_length_le (by rw [hl]; decide))
      (by rw [hl]; rfl) hnf
  have hcp : cstr (strncpy_bytes mn.object mn.objectlen ++ [0]) = p := by
    rw [strncpy_bytes_of_nul_free mn.object p mn.objectlen hp hlen hnul]
    exact cstr_append_nul p [] hnul
  simp only [copyup_object, hreq, hprep, hset, hsub, ht, htgt, hcp, Bool.not_true,
    Bool.false_eq_true, if_false]
  rfl

/-- C11: object name derivation.  For every entry whose name `p` has
`objectlen ≤ 64` bytes, none of them NUL, and whose index `i` is a `uint32_t`,
the name `copyup_object` derives, and puts as target in the COPY request it
submits, is the hexlified digest `sha256 (p ++ decimal i)`: 64 lowercase
hexadecimal characters when the digest has 32 bytes.  It depends on `p` and
`i` only: two entries with the same name and index get the same target. -/
theorem copyup_name_derivation (sha256 : List Nat → List Nat) (env : xseg_env) (key : Nat)
    (mn : map_node) (st : r2o_state) (p : List Nat) (h : Nat)
    (hp : mn.object.take mn.objectlen = p) (hlen : p.length = mn.objectlen)
    (hnul : ∀ x ∈ p, x ≠ 0) (h64 : mn.objectlen ≤ XSEG_MAX_TARGET_LEN)
    (hidx : mn.objectidx < U32) (hsha : ∀ l, (sha256 l).length = SHA256_DIGEST_SIZE)
    (hreq : env.get_request = some h) (hprep : env.prep_ok = true)
    (hset : env.set_req_data_ok = true) (hsub : env.submit_ok = true) :
    copyup_target sha256 mn = hexlify (sha256 (p ++ fmt_u mn.objectidx)) ∧
    (copyup_target sha256 mn).length = 64 ∧
    (∀ c ∈ copyup_target sha256 mn, is_lower_hex c) ∧
    ((copyup_object sha256 env key mn st).2.submitted.getLast?.map (fun s => s.req.target)
      = some (hexlify (sha256 (p ++ fmt_u mn.objectidx)))) ∧
    (∀ mn2 : map_node, mn2.object.take mn2.objectlen = p → mn2.objectlen = mn.objectlen →
      mn2.objectidx = mn.objectidx → copyup_target sha256 mn2 = copyup_target sha256 mn) := by
  have ht := copyup_target_eq sha256 mn p hp hlen hnul h64 hidx
  have hs := hexlify_spec (sha256 (p ++ fmt_u mn.objectidx))
  refine ⟨ht, ?_, ?_, ?_, ?_⟩
  · rw [ht, hs.1, hsha]; rfl
  · rw [ht]; exact hs.2
  · rw [copyup_object_ok sha256 env key mn st p h hp hlen hnul h64 hidx hsha hreq hprep hset hsub]
    simp
  · intro mn2 hp2 hl2 hi2
    rw [ht, copyup_target_eq sha256 mn2 p hp2 (by rw [hl2]; exact hlen) hnul
      (by rw [hl2]; exact h64) (by rw [hi2]; exact hidx), hi2]

theorem copyup_name_derivation_witness :
    copyup_target digest_stub (named_node 5 0 [50, 53])
      = hexlify (digest_stub ([50, 53] ++ fmt_u 5)) ∧
    (copyup_target digest_stub (named_node 5 0 [50, 53])).length = 64 :=
  have h := copyup_name_derivation digest_stub env_ok 5 (named_node 5 0 [50, 53])
    (r2o_init s2_map (map_req xseg_op.X_MAPW (5 * block_size) block_size)) [50, 53] 7
    (by decide) (by decide) (by decide) (by decide) (by decide)
    (by intro l; simp [digest_stub]) rfl rfl rfl rfl
  ⟨h.1, h.2.1⟩

/-! ## Write path of the translation -/

theorem xhash_lookup_map_key {α : Type} (t : List (Nat × α)) (f : Nat × α → Nat × α)
    (hf : ∀ e, (f e).1 = e.1) (x : Nat) :
    xhash_lookup (t.map f) x = (t.find? (fun e => e.1 == x)).map (fun e => (f e).2) := by
  induction t with
  | nil => rfl
  | cons e t ih =>
    rw [List.map_cons, xhash_lookup_cons, hf, ih, List.find?_cons]
    by_cases he : e.1 = x
    · have hb : (e.1 == x) = true := by simp [he]
      rw [if_pos he, hb]
      rfl
    · have hb : (e.1 == x) = false := by simp [he]
      rw [if_neg he, hb]

theorem xhash_lookup_eq_find {α : Type} (t : List (Nat × α)) (x : Nat) :
    xhash_lookup t x = (t.find? (fun e => e.1 == x)).map (fun e => e.2) := rfl

theorem find_key_eq {α : Type} (t : List (Nat × α)) (x : Nat) (e : Nat × α)
    (h : t.find? (fun e => e.1 == x) = some e) : e.1 = x := by
  have := List.find?_some h
  simpa using this

theorem xhash_lookup_insert_self {α : Type} (t : List (Nat × α)) (k : Nat) (v : α) :
    xhash_lookup (xhash_insert t k v) k = some v := by
  simp only [xhash_insert]
  split
  · rename_i hany
    rw [xhash_lookup_map_key t _ (by intro e; by_cases he : e.1 = k <;> simp [he]) k]
    obtain ⟨e, he, hk⟩ := List.any_eq_true.mp hany
    cases hfind : t.find? (fun e => e.1 == k) with
    | none =>
      have := List.find?_eq_none.mp hfind e he
      exact absurd hk this
    | some e1 =>
      have h1 := find_key_eq t k e1 hfind
      simp [h1]
  · rename_i hany
    induction t with
    | nil => simp [xhash_lookup_cons]
    | cons e t ih =>
      have he : ¬ e.1 = k := by
        intro h; apply hany; simp [List.any_cons, h]
      have hany' : ¬ t.any (fun e => e.1 == k) = true := by
        intro h; apply hany; simp only [List.any_cons, h, Bool.or_true]
      rw [List.cons_append, xhash_lookup_cons, if_neg he]
      exact ih hany'

theorem store_first_nil {α : Type} (p : α → Bool) (v : α) : store_first p v [] = [] := rfl

theorem store_first_cons {α : Type} (p : α → Bool) (v x : α) (l : List α) :
    store_first p v (x :: l) = if p x then v :: l else x :: store_first p v l := rfl

/-- After a store through the pointer a lookup returned, the same lookup
returns the value stored. -/
theorem store_first_find {α : Type} (p : α → Bool) (v : α) (hv : p v = true) :
    ∀ (l : List α) (x : α), l.find? p = some x → (store_first p v l).find? p = some v := by
  intro l
  induction l with
  | nil => intro x h; simp at h
  | cons y l ih =>
    intro x h
    rw [store_first_cons]
    by_cases hy : p y = true
    · rw [if_pos hy, List.find?_cons, hv]
    · have hy1 : p y = false := by simpa using hy
      rw [List.find?_cons, hy1] at h
      rw [if_neg hy, List.find?_cons, hy1]
      exact ih x h

/-- A store through the pointer one lookup returned does not change the
result of a lookup for a key that excludes the first. -/
theorem store_first_find_other {α : Type} (p q : α → Bool) (v : α)
    (hpq : ∀ x, p x = true → q x = false) (hv : q v = false) :
    ∀ (l : List α), (store_first p v l).find? q = l.find? q := by
  intro l
  induction l with
  | nil => rfl
  | cons y l ih =>
    rw [store_first_cons]
    by_cases hy : p y = true
    · rw [if_pos hy, List.find?_cons, hv, List.find?_cons, hpq y hy]
    · rw [if_neg hy, List.find?_cons, List.find?_cons, ih]

theorem store_first_store_first {α : Type} (p : α → Bool) (a b : α) (ha : p a = true) :
    ∀ (l : List α), store_first p b (store_first p a l) = store_first p b l := by
  intro l
  induction l with
  | nil => rfl
  | cons y l ih =>
    by_cases hy : p y = true
    · rw [store_first_cons, if_pos hy, store_first_cons, if_pos ha, store_first_cons, if_pos hy]
    · rw [store_first_cons, if_neg hy, store_first_cons, if_neg hy, store_first_cons, if_neg hy,
        ih]

theorem find_object_store_node_self (m : map) (key : Nat) (mn mn1 : map_node)
    (h : find_object m key = some mn) : find_object (store_node m key mn1) key = some mn1 := by
  simp only [find_object, store_node, xhash_lookup_eq_find] at *
  cases hfind : m.objects.find? (fun e => e.1 == key) with
  | none => rw [hfind] at h; simp at h
  | some e1 =>
    rw [store_first_find (fun e : Nat × map_node => e.1 == key) (key, mn1) (by simp) _ e1 hfind]
    rfl

theorem find_object_store_node_ne (m : map) (key x : Nat) (mn1 : map_node) (h : x ≠ key) :
    find_object (store_node m key mn1) x = find_object m x := by
  simp only [find_object, store_node, xhash_lookup_eq_find]
  rw [store_first_find_other (fun e : Nat × map_node => e.1 == key) (fun e => e.1 == x)
    (key, mn1) _ _ m.objects]
  · intro e he
    have : e.1 = key := by simpa using he
    simp [this, Ne.symm h]
  · simp [Ne.symm h]

theorem store_node_store_node (m : map) (key : Nat) (a b : map_node) :
    store_node (store_node m key a) key b = store_node m key b := by
  simp only [store_node]
  rw [store_first_store_first (fun e : Nat × map_node => e.1 == key) (key, a) (key, b)
    (by simp) m.objects]



theorem flags_or_copying (f : Nat) (he : f &&& MF_OBJECT_EXIST = 0) :
    (f ||| MF_OBJECT_COPYING) &&& MF_OBJECT_COPYING = MF_OBJECT_COPYING ∧
    (f ||| MF_OBJECT_COPYING) &&& MF_OBJECT_EXIST = 0 := by
  constructor
  · rw [Nat.and_distrib_right, Nat.and_self]
    apply Nat.eq_of_testBit_eq
    intro i
    simp only [Nat.testBit_or, Nat.testBit_and]
    cases Nat.testBit MF_OBJECT_COPYING i <;> simp
  · rw [Nat.and_distrib_right, he]
    decide

theorem visit_object_copying (sha256 : List Nat → List Nat) (env : xseg_env)
    (nr_ops idx oi off sz : Nat) (st : r2o_state) (mn : map_node)
    (hf : find_object st.map oi = some mn) (hc : mn.flags &&& MF_OBJECT_COPYING ≠ 0)
    (hq : mn.pending.length < nr_ops) :
    visit_object sha256 env nr_ops true idx oi off sz st
      = Except.error (MF_PENDING, parked_on oi mn st) := by
  simp [visit_object, hf, hc, out_object_copying, parked_on, xq_append_tail, hq]

theorem visit_object_copyup (sha256 : List Nat → List Nat) (env : xseg_env)
    (nr_ops idx oi off sz : Nat) (st : r2o_state) (mn : map_node) (p : List Nat) (h : Nat)
    (hf : find_object st.map oi = some mn) (he : mn.flags &&& MF_OBJECT_EXIST = 0)
    (hc : mn.flags &&& MF_OBJECT_COPYING = 0)
    (hq : mn.pending.length < nr_ops)
    (hp : mn.object.take mn.objectlen = p) (hlen : p.length = mn.objectlen)
    (hnul : ∀ x ∈ p, x ≠ 0) (h64 : mn.objectlen ≤ XSEG_MAX_TARGET_LEN)
    (hidx : mn.objectidx < U32) (hsha : ∀ l, (sha256 l).length = SHA256_DIGEST_SIZE)
    (hreq : env.get_request = some h) (hprep : env.prep_ok = true)
    (hset : env.set_req_data_ok = true) (hsub : env.submit_ok = true)
    (hins : env.copyups_insert_ok = true) :
    visit_object sha256 env nr_ops true idx oi off sz st
      = Except.error (MF_PENDING, copyup_started sha256 h oi mn p st) := by
  have hco := copyup_object_ok sha256 env oi mn st p h hp hlen hnul h64 hidx hsha hreq hprep
    hset hsub
  rw [hins, if_pos rfl] at hco
  have h1 : (mn.flags &&& MF_OBJECT_COPYING != 0) = false := by rw [hc]; decide
  have h2 : (mn.flags &&& MF_OBJECT_EXIST != 0) = false := by rw [he]; decide
  simp only [visit_object, hf, h1, h2, hco, Bool.and_false, Bool.false_eq_true, if_false,
    Bool.not_false, Bool.and_self, if_true, out_object_copying, xq_append_tail, hq,
    store_node_store_node, copyup_started]
  simp

/-- An object that is emitted leaves everything but the reply as it was. -/
theorem visit_object_ok_frame (sha256 : List Nat → List Nat) (env : xseg_env)
    (nr_ops : Nat) (write : Bool) (idx oi off sz : Nat) (st st1 : r2o_state)
    (h : visit_object sha256 env nr_ops write idx oi off sz st = Except.ok st1) :
    st1.map = st.map ∧ st1.pr = st.pr ∧ st1.submitted = st.submitted ∧
    st1.released = st.released := by
  simp only [visit_object] at h
  split at h
  · cases h
  · split at h
    · cases h
    · split at h
      · split at h <;> cases h
      · cases h
        exact ⟨rfl, rfl, rfl, rfl⟩

/-- What the first object visited returns from `req2objs`, `req2objs` returns. -/
theorem req2objs_first_visit (fuel : Nat) (sha256 : List Nat → List Nat) (env : xseg_env)
    (nr_ops : Nat) (st : r2o_state) (write : Bool) (nr : Nat) (res : Int × r2o_state)
    (hnr : calc_nr_obj fuel st.pr.req = some nr) (hres : env.resize_ok = true)
    (hv : visit_object sha256 env nr_ops write 0 ((st.pr.req.offset % U64) / block_size)
      ((st.pr.req.offset % U64) &&& (block_size - 1))
      (if st.pr.req.size % U64 > block_size
        then sub64 block_size ((st.pr.req.offset % U64) &&& (block_size - 1))
        else st.pr.req.size % U64)
      { st with reply := { cnt := nr, segs := [] } } = Except.error res) :
    req2objs fuel sha256 env nr_ops st write = some res := by
  simp only [req2objs, hnr, hres, Bool.not_true, Bool.false_eq_true, if_false, hv]

/-- What an object visited in the loop returns from `req2objs`, the loop
returns. -/
theorem req2objs_loop_visit (fuel : Nat) (sha256 : List Nat → List Nat) (env : xseg_env)
    (nr_ops : Nat) (write : Bool) (rem idx oi : Nat) (st : r2o_state) (res : Int × r2o_state)
    (hrem : rem > 0)
    (hv : visit_object sha256 env nr_ops write ((idx + 1) % U32) ((oi + 1) % U64) 0
      (if sub64 rem block_size > 0 then block_size else rem) st = Except.error res) :
    req2objs_loop sha256 env nr_ops write (fuel + 1) rem idx oi st = some res := by
  simp only [req2objs_loop, hrem, if_true, hv]

theorem run_req2objs_log (W : peerd) (env : handler_env) (fuel : Nat) (st : mstate)
    (pr : peer_req) (m : map) (write : Bool) (r : Int) (st2 : mstate)
    (h : run_req2objs W env fuel st pr m write = Except.ok (r, st2)) : st2.log = st.log := by
  simp only [run_req2objs] at h
  split at h
  · cases h
  · cases h
    rfl

/-- On a READY map that is not destroyed, and with `mio->err` clear,
`handle_mapw` translates the request and acts on the result. -/
theorem handle_mapw_client_translates (W : peerd) (env : handler_env) (fuel : Nat)
    (d : mstate → Nat → Except stop mstate) (st : mstate) (pr : peer_req) (m : map)
    (r : Int) (st2 : mstate)
    (hm : find_map st.hashmaps pr.req.target pr.req.targetlen = some m)
    (hl : m.flags &&& MF_MAP_LOADING = 0) (hd : m.flags &&& MF_MAP_DESTROYED = 0)
    (herr : pr.mio.err = 0)
    (hr : run_req2objs W env fuel st { pr with mio := { pr.mio with err := 0 } } m true
      = Except.ok (r, st2)) :
    handle_mapw_client W env fuel d st pr =
      Except.ok (if r < 0 then fail st2 pr.id else if r = 0 then complete st2 pr.id
        else st2) := by
  have h1 : (0 : Int) = MF_PENDING ↔ False := by decide
  simp only [handle_mapw_client, find_or_load_map, hm, hl, hd, herr, hr, bne_self_eq_false,
    Bool.false_eq_true, if_false, lt_self_iff_false, h1]
  by_cases h0 : r < 0
  · have : ¬ r = 0 := by omega
    simp [h0, this]
  · by_cases h2 : r = 0 <;> simp [h0, h2]

/-- C12: copy-up initiation (scenario S2).  When `req2objs` with `write = 1`
visits the entry `mn` stored under `key`, whose name `p` has `objectlen ≤ 64`
bytes, with neither EXIST nor COPYING set, and the xseg primitives and the
insertion into `copyups_nodes` of `copyup_object` succeed (the COPY request
gets handle `h`), then the visit
returns `MF_PENDING` in the state `copyup_started`, both when the entry is the
first object of the request and when it is met in the loop.  In that state one
request has been added to the submitted ones (op COPY, offset 0, size
`block_size`, target the derived name, payload target `p`), the entry has
COPYING set and EXIST clear (its flags are exactly COPYING when they were 0),
`pr` is at the tail of its queue, no other entry has changed and `h` is bound
to the entry in `copyups_nodes`. -/
theorem copyup_initiation (sha256 : List Nat → List Nat) (env : xseg_env)
    (nr_ops key : Nat) (st : r2o_state) (mn : map_node) (p : List Nat) (h : Nat)
    (hf : find_object st.map key = some mn) (he : mn.flags &&& MF_OBJECT_EXIST = 0)
    (hc : mn.flags &&& MF_OBJECT_COPYING = 0) (hq : mn.pending.length < nr_ops)
    (hp : mn.object.take mn.objectlen = p) (hlen : p.length = mn.objectlen)
    (hnul : ∀ x ∈ p, x ≠ 0) (h64 : mn.objectlen ≤ XSEG_MAX_TARGET_LEN)
    (hidx : mn.objectidx < U32) (hsha : ∀ l, (sha256 l).length = SHA256_DIGEST_SIZE)
    (hreq : env.get_request = some h) (hprep : env.prep_ok = true)
    (hset : env.set_req_data_ok = true) (hsub : env.submit_ok = true)
    (hins : env.copyups_insert_ok = true) :
    (∀ idx off sz, visit_object sha256 env nr_ops true idx key off sz st
      = Except.error (MF_PENDING, copyup_started sha256 h key mn p st)) ∧
    (∀ fuel nr, calc_nr_obj fuel st.pr.req = some nr → env.resize_ok = true →
      (st.pr.req.offset % U64) / block_size = key →
      req2objs fuel sha256 env nr_ops st true = some (MF_PENDING,
        copyup_started sha256 h key mn p { st with reply := { cnt := nr, segs := [] } })) ∧
    (∀ fuel rem idx oi, rem > 0 → (oi + 1) % U64 = key →
      req2objs_loop sha256 env nr_ops true (fuel + 1) rem idx oi st
        = some (MF_PENDING, copyup_started sha256 h key mn p st)) ∧
    (copyup_started sha256 h key mn p st).submitted = st.submitted ++
      [⟨h, { op := xseg_op.X_COPY, target := hexlify (sha256 (p ++ fmt_u mn.objectidx)),
             targetlen := 64, offset := 0, size := block_size, copy_target := p },
        st.pr.id⟩] ∧
    find_object (copyup_started sha256 h key mn p st).map key
      = some { mn with flags := mn.flags ||| MF_OBJECT_COPYING,
                       pending := mn.pending ++ [st.pr.id] } ∧
    (mn.flags ||| MF_OBJECT_COPYING) &&& MF_OBJECT_COPYING = MF_OBJECT_COPYING ∧
    (mn.flags ||| MF_OBJECT_COPYING) &&& MF_OBJECT_EXIST = 0 ∧
    (mn.flags = 0 → mn.flags ||| MF_OBJECT_COPYING = MF_OBJECT_COPYING) ∧
    (∀ x, x ≠ key →
      find_object (copyup_started sha256 h key mn p st).map x = find_object st.map x) ∧
    xhash_lookup (copyup_started sha256 h key mn p st).pr.mio.copyups_nodes h
      = some (st.map.volume, key) := by
  refine ⟨?_, ?_, ?_, rfl, ?_, (flags_or_copying mn.flags he).1,
    (flags_or_copying mn.flags he).2, ?_, ?_, ?_⟩
  · intro idx off sz
    exact visit_object_copyup sha256 env nr_ops idx key off sz st mn p h hf he hc hq hp hlen
      hnul h64 hidx hsha hreq hprep hset hsub hins
  · intro fuel nr hnr hres hk
    apply req2objs_first_visit fuel sha256 env nr_ops st true nr _ hnr hres
    rw [hk]
    exact visit_object_copyup sha256 env nr_ops _ key _ _
      { st with reply := { cnt := nr, segs := [] } } mn p h hf he hc hq hp hlen
      hnul h64 hidx hsha hreq hprep hset hsub hins
  · intro fuel rem idx oi hrem hk
    apply req2objs_loop_visit fuel sha256 env nr_ops true rem idx oi st _ hrem
    rw [hk]
    exact visit_object_copyup sha256 env nr_ops _ key _ _ st mn p h hf he hc hq hp hlen
      hnul h64 hidx hsha hreq hprep hset hsub hins
  · exact find_object_store_node_self st.map key mn _ hf
  · intro h0
    rw [h0]
    decide
  · intro x hx
    exact find_object_store_node_ne st.map key x _ hx
  · exact xhash_lookup_insert_self _ _ _

theorem copyup_initiation_witness :
    req2objs 1 digest_stub env_ok 4
        (r2o_init s2_map (map_req xseg_op.X_MAPW (5 * block_size) block_size)) true
      = some (MF_PENDING, copyup_started digest_stub 7 5 (named_node 5 0 [50, 53]) [50, 53]
          { r2o_init s2_map (map_req xseg_op.X_MAPW (5 * block_size) block_size) with
            reply := { cnt := 1, segs := [] } }) ∧
    find_object (copyup_started digest_stub 7 5 (named_node 5 0 [50, 53]) [50, 53]
        (r2o_init s2_map (map_req xseg_op.X_MAPW (5 * block_size) block_size))).map 5
      = some { named_node 5 0 [50, 53] with flags := MF_OBJECT_COPYING, pending := [1] } :=
  have h := copyup_initiation digest_stub env_ok 4 5
    (r2o_init s2_map (map_req xseg_op.X_MAPW (5 * block_size) block_size))
    (named_node 5 0 [50, 53]) [50, 53] 7
    (by decide) (by decide) (by decide) (by decide) (by decide) (by decide) (by decide)
    (by decide) (by decide) (by intro l; simp [digest_stub]) rfl rfl rfl rfl rfl
  ⟨h.2.1 1 1 (by decide) rfl (by decide), h.2.2.2.2.1⟩

/-- C13: when `req2objs` with `write = 1` visits the entry `mn` stored under
`key` whose COPYING flag is set (and its queue is not full), the visit returns
`MF_PENDING` in the state `parked_on`, both when the entry is the first object
of the request and when it is met in the loop, whatever part of the request
remains: no later index is visited.  In that state nothing is added to the
submitted or released requests, the peer request is unchanged, `pr` is at the
tail of the queue of the entry, whose flags and name are unchanged, and no
other entry has changed.  Whenever `req2objs` returns `MF_PENDING` to
`handle_mapw`, the handler returns without calling `fail` or `complete`. -/
theorem write_on_copying_entry_parks (sha256 : List Nat → List Nat) (env : xseg_env)
    (nr_ops key : Nat) (st : r2o_state) (mn : map_node)
    (hf : find_object st.map key = some mn) (hc : mn.flags &&& MF_OBJECT_COPYING ≠ 0)
    (hq : mn.pending.length < nr_ops) :
    (∀ idx off sz, visit_object sha256 env nr_ops true idx key off sz st
      = Except.error (MF_PENDING, parked_on key mn st)) ∧
    (∀ fuel nr, calc_nr_obj fuel st.pr.req = some nr → env.resize_ok = true →
      (st.pr.req.offset % U64) / block_size = key →
      req2objs fuel sha256 env nr_ops st true = some (MF_PENDING,
        parked_on key mn { st with reply := { cnt := nr, segs := [] } })) ∧
    (∀ fuel rem idx oi, rem > 0 → (oi + 1) % U64 = key →
      req2objs_loop sha256 env nr_ops true (fuel + 1) rem idx oi st
        = some (MF_PENDING, parked_on key mn st)) ∧
    (parked_on key mn st).submitted = st.submitted ∧
    (parked_on key mn st).released = st.released ∧
    (parked_on key mn st).pr = st.pr ∧
    (parked_on key mn st).reply = st.reply ∧
    find_object (parked_on key mn st).map key
      = some { mn with pending := mn.pending ++ [st.pr.id] } ∧
    (∀ x, x ≠ key → find_object (parked_on key mn st).map x = find_object st.map x) ∧
    (∀ (W : peerd) (henv : handler_env) (fuel : Nat) (d : mstate → Nat → Except stop mstate)
      (ms ms2 : mstate) (pr : peer_req) (m : map),
      find_map ms.hashmaps pr.req.target pr.req.targetlen = some m →
      m.flags &&& MF_MAP_LOADING = 0 → m.flags &&& MF_MAP_DESTROYED = 0 → pr.mio.err = 0 →
      run_req2objs W henv fuel ms { pr with mio := { pr.mio with err := 0 } } m true
        = Except.ok (MF_PENDING, ms2) →
      handle_mapw_client W henv fuel d ms pr = Except.ok ms2 ∧ ms2.log = ms.log) := by
  refine ⟨?_, ?_, ?_, rfl, rfl, rfl, rfl, ?_, ?_, ?_⟩
  · intro idx off sz
    exact visit_object_copying sha256 env nr_ops idx key off sz st mn hf hc hq
  · intro fuel nr hnr hres hk
    apply req2objs_first_visit fuel sha256 env nr_ops st true nr _ hnr hres
    rw [hk]
    exact visit_object_copying sha256 env nr_ops _ key _ _
      { st with reply := { cnt := nr, segs := [] } } mn hf hc hq
  · intro fuel rem idx oi hrem hk
    apply req2objs_loop_visit fuel sha256 env nr_ops true rem idx oi st _ hrem
    rw [hk]
    exact visit_object_copying sha256 env nr_ops _ key _ _ st mn hf hc hq
  · exact find_object_store_node_self st.map key mn _ hf
  · intro x hx
    exact find_object_store_node_ne st.map key x _ hx
  · intro W henv fuel d ms ms2 pr m hm hl hd herr hr
    refine ⟨?_, run_req2objs_log W henv fuel ms _ m true _ ms2 hr⟩
    rw [handle_mapw_client_translates W henv fuel d ms pr m MF_PENDING ms2 hm hl hd herr hr]
    rfl

theorem write_on_copying_entry_parks_witness :
    req2objs 1 digest_stub env_ok 4 (r2o_init s2_copying_map (mapw5 2)) true
      = some (MF_PENDING, parked_on 5 s2_copying_node
          { r2o_init s2_copying_map (mapw5 2) with reply := { cnt := 1, segs := [] } }) ∧
    find_object (parked_on 5 s2_copying_node (r2o_init s2_copying_map (mapw5 2))).map 5
      = some { s2_copying_node with pending := [1, 2] } :=
  have h := write_on_copying_entry_parks digest_stub env_ok 4 5
    (r2o_init s2_copying_map (mapw5 2)) s2_copying_node (by decide) (by decide) (by decide)
  ⟨h.2.1 1 1 (by decide) rfl (by decide), h.2.2.2.2.2.2.2.1⟩

/-- With `write = 0` an object that is found is emitted, whatever its flags
are. -/
theorem visit_object_read (sha256 : List Nat → List Nat) (env : xseg_env)
    (nr_ops idx oi off sz : Nat) (st : r2o_state) (mn : map_node)
    (hf : find_object st.map oi = some mn) :
    visit_object sha256 env nr_ops false idx oi off sz st
      = Except.ok { st with reply :=
          { cnt := st.reply.cnt,
            segs := write_seg st.reply.segs idx ⟨seg_target mn, off, sz⟩ } } := by
  simp [visit_object, hf]

/-- With `write = 0` a visit that returns from `req2objs` leaves the state as
it was. -/
theorem visit_object_read_error (sha256 : List Nat → List Nat) (env : xseg_env)
    (nr_ops idx oi off sz : Nat) (st : r2o_state) (res : Int × r2o_state)
    (h : visit_object sha256 env nr_ops false idx oi off sz st = Except.error res) :
    res.2 = st := by
  simp only [visit_object] at h
  split at h
  · cases h
    rfl
  · simp at h

theorem req2objs_loop_read_frame (sha256 : List Nat → List Nat) (env : xseg_env)
    (nr_ops : Nat) :
    ∀ (fuel rem idx oi : Nat) (st : r2o_state) (res : Int × r2o_state),
      req2objs_loop sha256 env nr_ops false fuel rem idx oi st = some res →
      res.2.map = st.map ∧ res.2.pr = st.pr ∧ res.2.submitted = st.submitted ∧
      res.2.released = st.released := by
  intro fuel
  induction fuel with
  | zero =>
    intro rem idx oi st res h
    simp [req2objs_loop] at h
  | succ fuel ih =>
    intro rem idx oi st res h
    simp only [req2objs_loop] at h
    split at h
    · split at h
      · rename_i res1 hv
        cases h
        rw [visit_object_read_error sha256 env nr_ops _ _ _ _ st _ hv]
        exact ⟨rfl, rfl, rfl, rfl⟩
      · rename_i st1 hv
        have hfr := visit_object_ok_frame sha256 env nr_ops false _ _ _ _ st st1 hv
        have := ih _ _ _ st1 res h
        rw [hfr.1, hfr.2.1, hfr.2.2.1, hfr.2.2.2] at this
        exact this
    · cases h
      exact ⟨rfl, rfl, rfl, rfl⟩

/-- The read path changes nothing but the reply: the map (flags, names and
queues of all entries), the peer request with its bindings and the submitted
and released requests are as before. -/
theorem req2objs_read_frame (fuel : Nat) (sha256 : List Nat → List Nat) (env : xseg_env)
    (nr_ops : Nat) (st : r2o_state) (res : Int × r2o_state)
    (h : req2objs fuel sha256 env nr_ops st false = some res) :
    res.2.map = st.map ∧ res.2.pr = st.pr ∧ res.2.submitted = st.submitted ∧
    res.2.released = st.released := by
  simp only [req2objs] at h
  split at h
  · cases h
  · split at h
    · cases h
      exact ⟨rfl, rfl, rfl, rfl⟩
    · split at h
      · rename_i res1 hv
        cases h
        rw [visit_object_read_error sha256 env nr_ops _ _ _ _ _ _ hv]
        exact ⟨rfl, rfl, rfl, rfl⟩
      · rename_i st1 hv
        have hfr := visit_object_ok_frame sha256 env nr_ops false _ _ _ _ _ st1 hv
        have := req2objs_loop_read_frame sha256 env nr_ops _ _ _ _ st1 res h
        rw [hfr.1, hfr.2.1, hfr.2.2.1, hfr.2.2.2] at this
        exact this

/-- C14 (code defect, failing input): the read request
`(offset = block_size - 256, size = 512)` on the map of scenario S1 touches
the entries 0 and 1 (its last byte lies in block 1, whose entry `n1` is in
the map), but `req2objs` with `write = 0` returns 0 with a reply of one
segment, named `n0`: no segment of entry 1 is emitted.  What the read path
leaves untouched holds for every map and request: whenever `req2objs` with
`write = 0` returns, the map (flags, names and queues of every entry), the
peer request and the submitted and released requests are as before, and an
entry that is visited is emitted whatever its flags are. -/
theorem read_path_misses_touched_entry :
    (∀ (fuel : Nat) (sha256 : List Nat → List Nat) (nr_ops : Nat),
      ∃ st1, req2objs (fuel + 1) sha256 env_ok nr_ops
          (r2o_init s1_map (map_req xseg_op.X_MAPR (block_size - 256) 512)) false
          = some (0, st1) ∧
        st1.reply.cnt = 1 ∧ st1.reply.segs.map (fun s => s.target) = [[110, 48]]) ∧
    (block_size - 256 + 512 - 1) / block_size = 1 ∧
    (find_object s1_map 1).map seg_target = some [110, 49] ∧
    (∀ (fuel : Nat) (sha256 : List Nat → List Nat) (env : xseg_env) (nr_ops : Nat)
      (st : r2o_state) (res : Int × r2o_state),
      req2objs fuel sha256 env nr_ops st false = some res →
      res.2.map = st.map ∧ res.2.pr = st.pr ∧ res.2.submitted = st.submitted ∧
      res.2.released = st.released) ∧
    (∀ (sha256 : List Nat → List Nat) (env : xseg_env) (nr_ops idx oi off sz : Nat)
      (st : r2o_state) (mn : map_node), find_object st.map oi = some mn →
      visit_object sha256 env nr_ops false idx oi off sz st
        = Except.ok { st with reply :=
            { cnt := st.reply.cnt,
              segs := write_seg st.reply.segs idx ⟨seg_target mn, off, sz⟩ } }) := by
  refine ⟨?_, by decide, by decide, ?_, ?_⟩
  · intro fuel sha256 nr_ops
    have h := req2objs_within_block_size fuel sha256 env_ok nr_ops
      (r2o_init s1_map (map_req xseg_op.X_MAPR (block_size - 256) 512)) false
      (named_node 0 MF_OBJECT_EXIST [110, 48]) (by decide) (by decide) rfl (by decide)
      (Or.inl rfl)
    have hn : seg_target (named_node 0 MF_OBJECT_EXIST [110, 48]) = [110, 48] := by decide
    rw [hn] at h
    exact ⟨_, h, rfl, rfl⟩
  · intro fuel sha256 env nr_ops st res h
    exact req2objs_read_frame fuel sha256 env nr_ops st res h
  · intro sha256 env nr_ops idx oi off sz st mn hf
    exact visit_object_read sha256 env nr_ops idx oi off sz st mn hf

/-! ## Handlers of the write path -/

theorem except_ok_of_toOption {ε α : Type} (e : Except ε α) (a : α)
    (h : e.toOption = some a) : e = Except.ok a := by
  cases e with
  | error x => simp [Except.toOption] at h
  | ok x => simp only [Except.toOption, Option.some.injEq] at h; rw [h]

/-- A client request with operation MAPW goes to `handle_mapw`, past its test
for a COPY reply. -/
theorem dispatch_mapw_client (k : Nat) (W : peerd) (st : mstate) (pr_id : Nat) (pr : peer_req)
    (hget : get_pr st pr_id = some pr) (hop : pr.req.op = xseg_op.X_MAPW) :
    dispatch (k + 1) W st pr_id none
      = handle_mapw_client W (W.envs st.tick) k (fun s p => dispatch k W s p none)
          { st with tick := st.tick + 1, log := st.log ++ [event.dispatch pr_id none] } pr := by
  simp only [get_pr] at hget
  simp only [dispatch, dispatch_body, get_pr, hget, own_request, hop, handle_mapw]
  simp

/-- With `mio->err` set, `handle_mapw` fails the request without translating
it. -/
theorem handle_mapw_client_err (W : peerd) (env : handler_env) (fuel : Nat)
    (d : mstate → Nat → Except stop mstate) (st : mstate) (pr : peer_req) (m : map)
    (hm : find_map st.hashmaps pr.req.target pr.req.targetlen = some m)
    (hl : m.flags &&& MF_MAP_LOADING = 0) (hd : m.flags &&& MF_MAP_DESTROYED = 0)
    (herr : pr.mio.err ≠ 0) :
    handle_mapw_client W env fuel d st pr = Except.ok (fail st pr.id) := by
  have h1 : (0 : Int) = MF_PENDING ↔ False := by decide
  simp [handle_mapw_client, find_or_load_map, hm, hl, hd, herr, h1]

/-- What `req2objs` returns, the handler gets with the state written back. -/
theorem run_req2objs_some (W : peerd) (env : handler_env) (fuel : Nat) (st : mstate)
    (pr : peer_req) (m : map) (write : Bool) (r : Int)
    (rs : r2o_state)
    (h : ∀ reply0, req2objs fuel W.sha256 env.xseg W.nr_ops
      { map := m, pr := pr, reply := reply0, submitted := st.submitted,
        released := st.released } write = some (r, rs)) :
    run_req2objs W env fuel st pr m write = Except.ok (r,
      { put_pr (put_map st rs.map) rs.pr with
        replies := xhash_insert st.replies pr.id (reply_data.map_reply rs.reply),
        submitted := rs.submitted, released := rs.released }) := by
  simp only [run_req2objs, h]
  rfl



/-! ## A failed copy-up with another request parked -/

theorem map_key_store_node (m : map) (k : Nat) (mn : map_node) :
    map_key (store_node m k mn) = map_key m := rfl

theorem retry_find_map (f : Nat) (q : List Nat) (b : List (Nat × (List Nat × Nat)))
    (s : mstate) :
    find_map (retry_state f q b s).hashmaps [118] 1 = some (s2_map_with f q) := by
  have h : (cstr s2_map.volume == cstr (strncpy_bytes [118] 1 ++ [0])) = true := by decide
  simp [retry_state, find_map, map_key, s2_map_with, store_node, h]

theorem retry_flags (f : Nat) (q : List Nat) :
    (s2_map_with f q).flags &&& MF_MAP_LOADING = 0 ∧
    (s2_map_with f q).flags &&& MF_MAP_DESTROYED = 0 := by
  constructor
  · show s2_map.flags &&& MF_MAP_LOADING = 0
    decide
  · show s2_map.flags &&& MF_MAP_DESTROYED = 0
    decide

theorem retry_find_object (f : Nat) (q : List Nat) :
    find_object (s2_map_with f q) 5 = some { named_node 5 f [50, 53] with pending := q } :=
  find_object_store_node_self s2_map 5 (named_node 5 0 [50, 53]) _ (by decide)

theorem retry_put_map (f : Nat) (q : List Nat) (b : List (Nat × (List Nat × Nat)))
    (s : mstate) (mn : map_node) :
    put_map (retry_state f q b s) (store_node (s2_map_with f q) 5 mn)
      = { retry_state f q b s with hashmaps := [store_node s2_map 5 mn] } := by
  simp only [put_map, retry_state, s2_map_with, store_node_store_node, map_key_store_node,
    store_first, beq_self_eq_true, if_true]

theorem retry_fails_originator (j : Nat) (q : List Nat) (s : mstate) :
    dispatch (j + 1) test_peerd (retry_state 0 q [] s) 1 none
      = Except.ok (retry_state 0 q []
          { s with log := s.log ++ [event.dispatch 1 none, event.fail 1],
                   tick := s.tick + 1 }) := by
  rw [dispatch_mapw_client j test_peerd (retry_state 0 q [] s) 1 failed_req rfl rfl]
  rw [handle_mapw_client_err test_peerd _ j _ _ _ (s2_map_with 0 q)
    (retry_find_map 0 q [] s) (retry_flags 0 q).1 (retry_flags 0 q).2 (by decide)]
  simp [fail, retry_state, failed_req, mapw5]



theorem req2objs_parks (fuel : Nat) (sha256 : List Nat → List Nat) (env : xseg_env)
    (nr_ops key nr : Nat) (st : r2o_state) (mn : map_node)
    (hf : find_object st.map key = some mn) (hc : mn.flags &&& MF_OBJECT_COPYING ≠ 0)
    (hq : mn.pending.length < nr_ops) (hnr : calc_nr_obj fuel st.pr.req = some nr)
    (hres : env.resize_ok = true) (hk : (st.pr.req.offset % U64) / block_size = key) :
    req2objs fuel sha256 env nr_ops st true = some (MF_PENDING,
      parked_on key mn { st with reply := { cnt := nr, segs := [] } }) := by
  apply req2objs_first_visit fuel sha256 env nr_ops st true nr _ hnr hres
  rw [hk]
  exact visit_object_copying sha256 env nr_ops _ key _ _
    { st with reply := { cnt := nr, segs := [] } } mn hf hc hq

theorem req2objs_starts_copyup (fuel : Nat) (sha256 : List Nat → List Nat) (env : xseg_env)
    (nr_ops key nr : Nat) (st : r2o_state) (mn : map_node) (p : List Nat) (h : Nat)
    (hf : find_object st.map key = some mn) (he : mn.flags &&& MF_OBJECT_EXIST = 0)
    (hc : mn.flags &&& MF_OBJECT_COPYING = 0) (hq : mn.pending.length < nr_ops)
    (hp : mn.object.take mn.objectlen = p) (hlen : p.length = mn.objectlen)
    (hnul : ∀ x ∈ p, x ≠ 0) (h64 : mn.objectlen ≤ XSEG_MAX_TARGET_LEN)
    (hidx : mn.objectidx < U32) (hsha : ∀ l, (sha256 l).length = SHA256_DIGEST_SIZE)
    (hreq : env.get_request = some h) (hprep : env.prep_ok = true)
    (hset : env.set_req_data_ok = true) (hsub : env.submit_ok = true)
    (hins : env.copyups_insert_ok = true)
    (hnr : calc_nr_obj fuel st.pr.req = some nr)
    (hres : env.resize_ok = true) (hk : (st.pr.req.offset % U64) / block_size = key) :
    req2objs fuel sha256 env nr_ops st true = some (MF_PENDING,
      copyup_started sha256 h key mn p { st with reply := { cnt := nr, segs := [] } }) := by
  apply req2objs_first_visit fuel sha256 env nr_ops st true nr _ hnr hres
  rw [hk]
  exact visit_object_copyup sha256 env nr_ops _ key _ _
    { st with reply := { cnt := nr, segs := [] } } mn p h hf he hc hq hp hlen
    hnul h64 hidx hsha hreq hprep hset hsub hins



theorem retry_req2objs_parks (j : Nat) (b : List (Nat × (List Nat × Nat)))
    (env : xseg_env) (hres : env.resize_ok = true)
    (reply0 : xseg_reply_map) (su : List submitted_req) (re : List Nat) :
    req2objs (j + 1) digest_stub env 4
        ⟨s2_map_with MF_OBJECT_COPYING [], retry_req b, reply0, su, re⟩ true
      = some (MF_PENDING,
          ⟨s2_map_with MF_OBJECT_COPYING [2], retry_req b, ⟨1, []⟩, su, re⟩) := by
  have h := req2objs_parks (j + 1) digest_stub env 4 5 1
    ⟨s2_map_with MF_OBJECT_COPYING [], retry_req b, reply0, su, re⟩ _
    (retry_find_object MF_OBJECT_COPYING [])
    (show MF_OBJECT_COPYING &&& MF_OBJECT_COPYING ≠ 0 by decide)
    (show 0 < 4 by decide)
    (calc_nr_obj_within_block_size j _ (le_refl block_size)) hres
    (show (5 * block_size % U64) / block_size = 5 by decide)
  rw [h]
  simp only [parked_on, s2_map_with, store_node_store_node]
  rfl



theorem retry_state_header (f : Nat) (q : List Nat) (b : List (Nat × (List Nat × Nat)))
    (s : mstate) (e : event) :
    { retry_state f q b s with
      tick := (retry_state f q b s).tick + 1, log := (retry_state f q b s).log ++ [e] }
      = retry_state f q b { s with tick := s.tick + 1, log := s.log ++ [e] } := rfl

theorem retry_run_parks (j n : Nat) (b : List (Nat × (List Nat × Nat))) (s : mstate) :
    run_req2objs test_peerd (test_peerd.envs n) (j + 1)
        (retry_state MF_OBJECT_COPYING [] b s)
        { retry_req b with mio := { (retry_req b).mio with err := 0 } }
        (s2_map_with MF_OBJECT_COPYING []) true
      = Except.ok (MF_PENDING, retry_state MF_OBJECT_COPYING [2] b
          { s with replies :=
              xhash_insert s.replies 2 (reply_data.map_reply { cnt := 1, segs := [] }) }) := by
  have hr := run_req2objs_some test_peerd (test_peerd.envs n) (j + 1)
    (retry_state MF_OBJECT_COPYING [] b s) (retry_req b)
    (s2_map_with MF_OBJECT_COPYING []) true MF_PENDING
    ⟨s2_map_with MF_OBJECT_COPYING [2], retry_req b, ⟨1, []⟩, s.submitted, s.released⟩
    (fun reply0 => retry_req2objs_parks j b _ rfl reply0 _ _)
  refine hr.trans ?_
  have hm := retry_put_map MF_OBJECT_COPYING [] b s
    { named_node 5 MF_OBJECT_COPYING [50, 53] with pending := [2] }
  simp only [s2_map_with, store_node_store_node] at hm ⊢
  rw [hm]
  simp [put_pr, retry_state, reqs_after_failure, retry_req, failed_req, mapw5, map_req, s2_map_with]



theorem retry_req2objs_starts (j h : Nat) (env : xseg_env) (hres : env.resize_ok = true)
    (hreq : env.get_request = some h) (hprep : env.prep_ok = true)
    (hset : env.set_req_data_ok = true) (hsub : env.submit_ok = true)
    (hins : env.copyups_insert_ok = true)
    (reply0 : xseg_reply_map) (su : List submitted_req) (re : List Nat) :
    req2objs (j + 1) digest_stub env 4 ⟨s2_map_with 0 [], retry_req [], reply0, su, re⟩ true
      = some (MF_PENDING,
          ⟨s2_map_with MF_OBJECT_COPYING [2], retry_req [(h, (s2_map.volume, 5))], ⟨1, []⟩,
            su ++ [⟨h, s2_copy, 2⟩], re⟩) := by
  have h1 := req2objs_starts_copyup (j + 1) digest_stub env 4 5 1
    ⟨s2_map_with 0 [], retry_req [], reply0, su, re⟩ _ [50, 53] h
    (retry_find_object 0 [])
    (show 0 &&& MF_OBJECT_EXIST = 0 by decide)
    (show 0 &&& MF_OBJECT_COPYING = 0 by decide)
    (show 0 < 4 by decide)
    (show (named_node 5 0 [50, 53]).object.take 2 = [50, 53] by decide)
    (show 2 = 2 from rfl)
    (show ∀ x ∈ [50, 53], x ≠ 0 by decide)
    (show 2 ≤ XSEG_MAX_TARGET_LEN by decide)
    (show 5 < U32 by decide)
    (by intro l; simp [digest_stub]) hreq hprep hset hsub hins
    (calc_nr_obj_within_block_size j _ (le_refl block_size)) hres
    (show (5 * block_size % U64) / block_size = 5 by decide)
  rw [h1]
  have hf : (0 ||| MF_OBJECT_COPYING) = MF_OBJECT_COPYING := by decide
  simp only [copyup_started, s2_map_with, store_node_store_node, set_copyup_node, retry_req,
    xhash_insert, s2_copy]
  simp [named_node, hf, mapw5, map_req]
  exact ⟨rfl, rfl⟩

theorem retry_run_starts (j n : Nat) (s : mstate) :
    run_req2objs test_peerd (test_peerd.envs n) (j + 1) (retry_state 0 [] [] s)
        { retry_req [] with mio := { (retry_req []).mio with err := 0 } }
        (s2_map_with 0 []) true
      = Except.ok (MF_PENDING,
          retry_state MF_OBJECT_COPYING [2] [(100 + n, (s2_map.volume, 5))]
            { s with
              replies :=
                xhash_insert s.replies 2 (reply_data.map_reply { cnt := 1, segs := [] }),
              submitted := s.submitted ++ [⟨100 + n, s2_copy, 2⟩] }) := by
  have hr := run_req2objs_some test_peerd (test_peerd.envs n) (j + 1)
    (retry_state 0 [] [] s) (retry_req []) (s2_map_with 0 []) true MF_PENDING
    ⟨s2_map_with MF_OBJECT_COPYING [2], retry_req [(100 + n, (s2_map.volume, 5))], ⟨1, []⟩,
      s.submitted ++ [(⟨100 + n, s2_copy, 2⟩ : submitted_req)], s.released⟩
    (fun reply0 => retry_req2objs_starts j (100 + n) (test_peerd.envs n).xseg rfl rfl rfl rfl rfl
      rfl reply0 s.submitted s.released)
  refine hr.trans ?_
  have hm := retry_put_map 0 [] [] s
    { named_node 5 MF_OBJECT_COPYING [50, 53] with pending := [2] }
  simp only [s2_map_with, store_node_store_node] at hm ⊢
  rw [hm]
  simp [put_pr, retry_state, reqs_after_failure, retry_req, failed_req, mapw5, map_req,
    s2_map_with]

theorem retry_parks_again (j : Nat) (b : List (Nat × (List Nat × Nat))) (s : mstate) :
    dispatch (j + 2) test_peerd (retry_state MF_OBJECT_COPYING [] b s) 2 none
      = Except.ok (retry_state MF_OBJECT_COPYING [2] b
          { s with
            replies :=
              xhash_insert s.replies 2 (reply_data.map_reply { cnt := 1, segs := [] }),
            log := s.log ++ [event.dispatch 2 none], tick := s.tick + 1 }) := by
  rw [dispatch_mapw_client (j + 1) test_peerd (retry_state MF_OBJECT_COPYING [] b s) 2
    (retry_req b) rfl rfl, retry_state_header]
  refine (handle_mapw_client_translates test_peerd _ (j + 1) _ _ (retry_req b)
    (s2_map_with MF_OBJECT_COPYING []) MF_PENDING _ (retry_find_map _ _ _ _)
    (retry_flags _ _).1 (retry_flags _ _).2 rfl (retry_run_parks j _ b _)).trans ?_
  rfl

theorem retry_starts_copyup (j : Nat) (s : mstate) :
    dispatch (j + 2) test_peerd (retry_state 0 [] [] s) 2 none
      = Except.ok (retry_state MF_OBJECT_COPYING [2] [(100 + s.tick, (s2_map.volume, 5))]
          { s with
            replies :=
              xhash_insert s.replies 2 (reply_data.map_reply { cnt := 1, segs := [] }),
            submitted := s.submitted ++ [⟨100 + s.tick, s2_copy, 2⟩],
            log := s.log ++ [event.dispatch 2 none], tick := s.tick + 1 }) := by
  rw [dispatch_mapw_client (j + 1) test_peerd (retry_state 0 [] [] s) 2
    (retry_req []) rfl rfl, retry_state_header]
  refine (handle_mapw_client_translates test_peerd _ (j + 1) _ _ (retry_req [])
    (s2_map_with 0 []) MF_PENDING _ (retry_find_map _ _ _ _)
    (retry_flags _ _).1 (retry_flags _ _).2 rfl (retry_run_starts j _ _)).trans ?_
  rfl



/-- A COPY reply for a peer request with operation MAPW goes to
`handle_copyup`. -/
theorem dispatch_copy_reply (k : Nat) (W : peerd) (st : mstate) (pr_id : Nat) (pr : peer_req)
    (rq : backing_reply) (hget : get_pr st pr_id = some pr)
    (hop : pr.req.op = xseg_op.X_MAPW) (hrq : rq.op = xseg_op.X_COPY) :
    dispatch (k + 1) W st pr_id (some rq)
      = handle_copyup (W.envs st.tick).xseg (fun s p => dispatch k W s p none) k
          { st with tick := st.tick + 1,
                    log := st.log ++ [event.dispatch pr_id (some rq.handle)] } pr rq := by
  simp only [get_pr] at hget
  simp only [dispatch, dispatch_body, get_pr, hget, hop, hrq, handle_mapw]
  simp

theorem handle_copyup_found (env : xseg_env) (d : mstate → Nat → Except stop mstate)
    (fuel : Nat) (st st1 : mstate) (pr : peer_req) (rq : backing_reply) (ref : List Nat × Nat)
    (h : handle_copyup_update env st pr rq = (st1, some ref)) :
    handle_copyup env d fuel st pr rq = drain_object d ref fuel st1 := by
  simp only [handle_copyup, h]

theorem retry_drain_step (d : mstate → Nat → Except stop mstate) (n f p : Nat)
    (rest : List Nat) (b : List (Nat × (List Nat × Nat))) (s : mstate) :
    drain_object d (s2_map.volume, 5) (n + 1) (retry_state f (p :: rest) b s)
      = (match d (retry_state f rest b s) p with
        | Except.error e => Except.error e
        | Except.ok st2 => drain_object d (s2_map.volume, 5) n st2) := by
  have hk : (cstr s2_map.volume == cstr s2_map.volume) = true := by decide
  have hr : resolve_node (retry_state f (p :: rest) b s) (s2_map.volume, 5)
      = some (s2_map_with f (p :: rest),
          { named_node 5 f [50, 53] with pending := p :: rest }) := by
    simp only [resolve_node, retry_state, List.find?_cons, map_key, s2_map_with,
      store_node]
    rw [hk]
    have := retry_find_object f (p :: rest)
    simp only [s2_map_with, store_node] at this
    simp only [this]
  have hp := retry_put_map f (p :: rest) b s { named_node 5 f [50, 53] with pending := rest }
  simp only [drain_object, hr, hp]
  rfl

/-- Once the entry is being copied up again with only peer request 2 on its
queue, and every dispatch of peer request 2 parks it again, the loop of
`handle_copyup` does not end. -/
theorem retry_drain_parked (d : mstate → Nat → Except stop mstate)
    (b : List (Nat × (List Nat × Nat)))
    (hd : ∀ s, ∃ s1, d (retry_state MF_OBJECT_COPYING [] b s) 2
      = Except.ok (retry_state MF_OBJECT_COPYING [2] b s1)) :
    ∀ (n : Nat) (s : mstate),
      drain_object d (s2_map.volume, 5) n (retry_state MF_OBJECT_COPYING [2] b s)
        = Except.error stop.out_of_fuel := by
  intro n
  induction n with
  | zero => intro s; rfl
  | succ n ih =>
    intro s
    obtain ⟨s1, h1⟩ := hd s
    rw [retry_drain_step, h1]
    exact ih s1

theorem retry_drain_failed (d : mstate → Nat → Except stop mstate)
    (hd1 : ∀ q s, ∃ s1, d (retry_state 0 q [] s) 1 = Except.ok (retry_state 0 q [] s1))
    (hd2 : ∀ s, ∃ b s1, d (retry_state 0 [] [] s) 2
      = Except.ok (retry_state MF_OBJECT_COPYING [2] b s1))
    (hd3 : ∀ b s, ∃ s1, d (retry_state MF_OBJECT_COPYING [] b s) 2
      = Except.ok (retry_state MF_OBJECT_COPYING [2] b s1))
    (n : Nat) (s : mstate) :
    drain_object d (s2_map.volume, 5) n (retry_state 0 [1, 2] [] s)
      = Except.error stop.out_of_fuel := by
  cases n with
  | zero => rfl
  | succ n =>
    obtain ⟨s1, h1⟩ := hd1 [2] s
    rw [retry_drain_step, h1]
    cases n with
    | zero => rfl
    | succ n =>
      obtain ⟨b, s2, h2⟩ := hd2 s1
      show drain_object d (s2_map.volume, 5) (n + 1) (retry_state 0 [2] [] s1) = _
      rw [retry_drain_step, h2]
      exact retry_drain_parked d b (hd3 b) n s2

theorem retry_drain_short (d : mstate → Nat → Except stop mstate)
    (hd1 : ∀ q s, ∃ s1, d (retry_state 0 q [] s) 1 = Except.ok (retry_state 0 q [] s1))
    (s : mstate) :
    drain_object d (s2_map.volume, 5) 1 (retry_state 0 [1, 2] [] s)
      = Except.error stop.out_of_fuel := by
  obtain ⟨s1, h1⟩ := hd1 [2] s
  rw [retry_drain_step, h1]
  rfl



/-- The failed reply to the COPY of peer request 1, with peer request 2
parked behind it on entry 5, is never handled to the end. -/
theorem failed_copyup_drain_diverges (fuel : Nat) :
    dispatch fuel test_peerd s2_both_parked 1 (some (copy_reply 100 true))
      = Except.error stop.out_of_fuel := by
  cases fuel with
  | zero => rfl
  | succ k =>
    have hupd : handle_copyup_update (test_peerd.envs s2_both_parked.tick).xseg
        { s2_both_parked with
          tick := s2_both_parked.tick + 1,
          log := s2_both_parked.log ++ [event.dispatch 1 (some (copy_reply 100 true).handle)] }
        copying_req (copy_reply 100 true)
        = (retry_state 0 [1, 2] []
            { s2_both_parked with
              released := [100],
              log := [event.dispatch 1 none, event.dispatch 2 none,
                      event.dispatch 1 (some 100)],
              tick := 3 },
           some (s2_map.volume, 5)) := by decide
    rw [dispatch_copy_reply k test_peerd s2_both_parked 1 copying_req (copy_reply 100 true)
      (show get_pr s2_both_parked 1 = some copying_req by decide) rfl rfl,
      handle_copyup_found _ _ _ _ _ _ _ _ hupd]
    match k with
    | 0 => rfl
    | 1 =>
      exact retry_drain_short (fun s p => dispatch 1 test_peerd s p none)
        (fun q s => ⟨_, retry_fails_originator 0 q s⟩) _
    | j + 2 =>
      exact retry_drain_failed (fun s p => dispatch (j + 2) test_peerd s p none)
        (fun q s => ⟨_, retry_fails_originator (j + 1) q s⟩)
        (fun s => ⟨_, _, retry_starts_copyup j s⟩)
        (fun b s => ⟨_, retry_parks_again j b s⟩) _ _

/-! ## Completion of a copy-up -/

theorem find_map_key_replace (l : List map) (k : List Nat) (m m1 : map)
    (h : l.find? (fun x => map_key x == k) = some m) (hk : map_key m1 = map_key m) :
    (store_first (fun x => map_key x == map_key m1) m1 l).find?
      (fun x => map_key x == k) = some m1 := by
  have hmk : map_key m = k := by
    have := List.find?_some h
    simpa using this
  rw [hk, hmk]
  exact store_first_find (fun x => map_key x == k) m1 (by simp [hk, hmk]) l m h

theorem resolve_node_put_map (st : mstate) (rf : List Nat × Nat) (m : map)
    (mn mn1 : map_node) (h : resolve_node st rf = some (m, mn)) :
    resolve_node (put_map st (store_node m rf.2 mn1)) rf
      = some (store_node m rf.2 mn1, mn1) := by
  simp only [resolve_node] at h
  split at h
  · cases h
  · rename_i m0 hfind
    split at h
    · cases h
    · rename_i mn0 hobj
      cases h
      have hf := find_map_key_replace st.hashmaps (cstr rf.1) m (store_node m rf.2 mn1) hfind
        (map_key_store_node m rf.2 mn1)
      simp only [resolve_node, put_map, hf, find_object_store_node_self m rf.2 mn mn1 hobj]

theorem find_id_replace (l : List peer_req) (pr0 pr : peer_req)
    (h : l.find? (fun p => p.id == pr.id) = some pr0) :
    (l.map (fun p => if p.id == pr.id then pr else p)).find? (fun p => p.id == pr.id)
      = some pr := by
  induction l with
  | nil => simp at h
  | cons x l ih =>
    rw [List.find?_cons] at h
    rw [List.map_cons, List.find?_cons]
    by_cases hx : x.id = pr.id
    · have hb : (x.id == pr.id) = true := by simp [hx]
      simp [hb]
    · have hb : (x.id == pr.id) = false := by simp [hx]
      rw [hb] at h
      simp only [hb, Bool.false_eq_true, if_false]
      exact ih h

theorem get_pr_put_pr (st : mstate) (pr0 pr : peer_req) (h : get_pr st pr.id = some pr0) :
    get_pr (put_pr st pr) pr.id = some pr :=
  find_id_replace st.peer_reqs pr0 pr h

/-- What `handle_copyup` does before its loop when the handle of the reply is
bound to a node. -/
theorem handle_copyup_update_found (env : xseg_env) (st : mstate) (pr : peer_req)
    (req : backing_reply) (rf : List Nat × Nat) (m : map) (mn : map_node)
    (hb : xhash_lookup pr.mio.copyups_nodes req.handle = some rf)
    (hn : resolve_node st rf = some (m, mn)) :
    handle_copyup_update env st pr req =
      (put_pr (put_request (put_map st (store_node m rf.2 (node_after_copyup req mn)))
          req.handle) { pr with mio := mio_after_copyup env req pr.mio },
        some rf) := by
  by_cases hr : (req.failed && !req.served) = true
  · by_cases hdel : env.copyups_delete_ok = true <;>
      simp [handle_copyup_update, hb, hn, hr, hdel, node_after_copyup, mio_after_copyup]
  · by_cases hdel : env.copyups_delete_ok = true <;>
      simp [handle_copyup_update, hb, hn, hr, hdel, node_after_copyup, mio_after_copyup]

theorem flags_clear_copying (f : Nat) :
    (f &&& (U32 - 1 - MF_OBJECT_COPYING)) &&& MF_OBJECT_COPYING = 0 ∧
    (f &&& (U32 - 1 - MF_OBJECT_COPYING)) &&& MF_OBJECT_EXIST = f &&& MF_OBJECT_EXIST := by
  constructor
  · rw [Nat.and_assoc]
    have : (U32 - 1 - MF_OBJECT_COPYING) &&& MF_OBJECT_COPYING = 0 := by decide
    rw [this, Nat.and_zero]
  · rw [Nat.and_assoc]
    have : (U32 - 1 - MF_OBJECT_COPYING) &&& MF_OBJECT_EXIST = MF_OBJECT_EXIST := by decide
    rw [this]



theorem s2_run : dispatch 2 test_peerd s2_before 1 none = Except.ok s2_after :=
  except_ok_of_toOption _ _ (by decide)

theorem s4_run :
    dispatch 3 test_peerd s2_after 1 (some (copy_reply 100 true)) = Except.ok s4_after :=
  except_ok_of_toOption _ _ (by decide)

/-- C15 (code defect, failing input): scenario S3 on the legacy map `s2_map`,
whose entry 5 is called `25` (`objectlen = 2`).  After the MAPW of S2 the
successful reply to the COPY, whose target is the 64-byte new name, is handled:
entry 5 has COPYING clear and EXIST set and the 64 bytes of the new name in
`object`, but `objectlen` is still 2, so the segment the re-dispatched write
emits is named by the first two bytes of the new name only; the request
completes.  For every reply that is not a failure and every node found for
it, `handle_copyup` stores the flags and the bytes of the target and keeps
`objectlen`. -/
theorem copyup_success_keeps_name_length :
    dispatch 2 test_peerd s2_before 1 none = Except.ok s2_after ∧
    dispatch 3 test_peerd s2_after 1 (some (copy_reply 100 false)) = Except.ok s3_after ∧
    (copy_reply 100 false).target = s2_new_name ∧ (copy_reply 100 false).targetlen = 64 ∧
    s2_new_name.length = 64 ∧
    s3_after.hashmaps.head?.bind (fun m => find_object m 5)
      = some { flags := MF_OBJECT_EXIST, objectidx := 5, objectlen := 2,
               object := s2_new_name ++ [0], pending := [] } ∧
    xhash_lookup s3_after.replies 1
      = some (reply_data.map_reply
          { cnt := 1, segs := [⟨s2_new_name.take 2, 0, block_size⟩] }) ∧
    (s2_new_name.take 2).length = 2 ∧
    s3_after.log.getLast? = some (event.complete 1) ∧
    (∀ (env : xseg_env) (st : mstate) (pr : peer_req) (req : backing_reply)
      (rf : List Nat × Nat) (m : map) (mn : map_node),
      (req.failed && !req.served) = false →
      xhash_lookup pr.mio.copyups_nodes req.handle = some rf →
      resolve_node st rf = some (m, mn) →
      ∃ st1 mn1, handle_copyup_update env st pr req = (st1, some rf) ∧
        resolve_node st1 rf = some (store_node m rf.2 mn1, mn1) ∧
        mn1.flags &&& MF_OBJECT_COPYING = 0 ∧
        mn1.flags &&& MF_OBJECT_EXIST = MF_OBJECT_EXIST ∧
        mn1.object.take req.targetlen = (strncpy_bytes req.target req.targetlen) ∧
        mn1.objectlen = mn.objectlen) := by
  refine ⟨s2_run, except_ok_of_toOption _ _ (by decide), rfl, rfl, by decide, by decide,
    by decide, by decide, by decide, ?_⟩
  intro env st pr req rf m mn hr hb hn
  refine ⟨_, node_after_copyup req mn, handle_copyup_update_found env st pr req rf m mn hb hn,
    ?_, ?_, ?_, ?_, ?_⟩
  · exact resolve_node_put_map st rf m mn _ hn
  · simp only [node_after_copyup, hr, Bool.false_eq_true, if_false]
    rw [Nat.and_distrib_right, (flags_clear_copying mn.flags).1]
    decide
  · simp only [node_after_copyup, hr, Bool.false_eq_true, if_false]
    rw [Nat.and_distrib_right, Nat.and_self]
    apply Nat.eq_of_testBit_eq
    intro i
    simp only [Nat.testBit_or, Nat.testBit_and]
    cases Nat.testBit MF_OBJECT_EXIST i <;> simp
  · simp only [node_after_copyup, hr, Bool.false_eq_true, if_false]
    rw [List.take_append_of_le_length (by simp [strncpy_bytes])]
    exact List.take_of_length_le (by simp [strncpy_bytes])
  · simp only [node_after_copyup, hr, Bool.false_eq_true, if_false]

/-- C16: copy-up failure.  When the reply to a COPY is failed and not served
and its handle is bound, in the `copyups_nodes` of the peer request `pr` it
comes back for, to the node `mn`, `handle_copyup` (before it re-dispatches
the parked requests) sets `err` of `pr` and stores the node with COPYING
cleared: its EXIST bit, its name and its `objectlen` are those of `mn`, and
nothing is submitted. -/
theorem copyup_failure_update (env : xseg_env) (st : mstate) (pr : peer_req)
    (req : backing_reply) (rf : List Nat × Nat) (m : map) (mn : map_node)
    (hfail : req.failed = true) (hserved : req.served = false)
    (hb : xhash_lookup pr.mio.copyups_nodes req.handle = some rf)
    (hn : resolve_node st rf = some (m, mn)) (hpr : get_pr st pr.id = some pr) :
    ∃ st1, handle_copyup_update env st pr req = (st1, some rf) ∧
      (get_pr st1 pr.id).map (fun p => p.mio.err) = some 1 ∧
      resolve_node st1 rf
        = some (store_node m rf.2
            { mn with flags := mn.flags &&& (U32 - 1 - MF_OBJECT_COPYING) },
          { mn with flags := mn.flags &&& (U32 - 1 - MF_OBJECT_COPYING) }) ∧
      (mn.flags &&& (U32 - 1 - MF_OBJECT_COPYING)) &&& MF_OBJECT_COPYING = 0 ∧
      (mn.flags &&& (U32 - 1 - MF_OBJECT_COPYING)) &&& MF_OBJECT_EXIST
        = mn.flags &&& MF_OBJECT_EXIST ∧
      st1.submitted = st.submitted := by
  have hr : (req.failed && !req.served) = true := by simp [hfail, hserved]
  have hnode : node_after_copyup req mn
      = { mn with flags := mn.flags &&& (U32 - 1 - MF_OBJECT_COPYING) } := by
    simp [node_after_copyup, hr]
  have hupd := handle_copyup_update_found env st pr req rf m mn hb hn
  rw [hnode] at hupd
  refine ⟨_, hupd, ?_, ?_, (flags_clear_copying mn.flags).1, (flags_clear_copying mn.flags).2,
    rfl⟩
  · have := get_pr_put_pr
      (put_request (put_map st (store_node m rf.2
        { mn with flags := mn.flags &&& (U32 - 1 - MF_OBJECT_COPYING) })) req.handle)
      pr { pr with mio := mio_after_copyup env req pr.mio } hpr
    rw [this]
    simp [mio_after_copyup, hr]
  · exact resolve_node_put_map st rf m mn _ hn

theorem copyup_failure_update_witness :
    ∃ st1, handle_copyup_update env_ok s2_after copying_req (copy_reply 100 true)
        = (st1, some (s2_map.volume, 5)) ∧
      (get_pr st1 1).map (fun p => p.mio.err) = some 1 ∧
      resolve_node st1 (s2_map.volume, 5)
        = some (store_node s2_copying_map 5 { named_node 5 0 [50, 53] with pending := [1] },
          { named_node 5 0 [50, 53] with pending := [1] }) :=
  have h := copyup_failure_update env_ok s2_after copying_req (copy_reply 100 true)
    (s2_map.volume, 5) s2_copying_map s2_copying_node rfl rfl (by decide) (by decide)
    (by decide)
  match h with
  | ⟨st1, h1, h2, h3, _⟩ => ⟨st1, h1, h2, h3⟩

/-- C17 (code defect, failing input): scenario S4.  After the COPY issued in
S2 has failed, entry 5 has neither flag set and the parked peer request 1 is
failed on its re-dispatch without being translated again (nothing is
submitted).  A subsequent MAPW for block 5 carried by the same peer request
is failed at once as well: no COPY is issued and COPYING stays clear, because
`err` of the peer request is still set; only the MAPW carried by peer request
2 starts a new copy-up (COPY of handle 103, COPYING set).  In general
`handle_mapw` fails, without translating, every request of a peer request
whose `err` is set. -/
theorem failed_copyup_blocks_peer_request :
    dispatch 3 test_peerd s2_after 1 (some (copy_reply 100 true)) = Except.ok s4_after ∧
    s4_after.hashmaps.head?.bind (fun m => find_object m 5) = some (named_node 5 0 [50, 53]) ∧
    s4_after.log.getLast? = some (event.fail 1) ∧
    s4_after.submitted = s2_after.submitted ∧
    dispatch 2 test_peerd s4_after 1 none
      = Except.ok { s4_after with
          log := s4_after.log ++ [event.dispatch 1 none, event.fail 1], tick := 4 } ∧
    dispatch 2 test_peerd s4_after 2 none = Except.ok s4_retried ∧
    s4_retried.submitted = s4_after.submitted ++ [⟨103, s2_copy, 2⟩] ∧
    (s4_retried.hashmaps.head?.bind (fun m => find_object m 5)).map (fun mn => mn.flags)
      = some MF_OBJECT_COPYING ∧
    (∀ (W : peerd) (env : handler_env) (fuel : Nat) (d : mstate → Nat → Except stop mstate)
      (st : mstate) (pr : peer_req) (m : map),
      find_map st.hashmaps pr.req.target pr.req.targetlen = some m →
      m.flags &&& MF_MAP_LOADING = 0 → m.flags &&& MF_MAP_DESTROYED = 0 →
      pr.mio.err ≠ 0 →
      handle_mapw_client W env fuel d st pr = Except.ok (fail st pr.id)) := by
  refine ⟨s4_run, by decide, by decide, by decide, except_ok_of_toOption _ _ (by decide),
    except_ok_of_toOption _ _ (by decide), by decide, by decide, ?_⟩
  intro W env fuel d st pr m hm hl hd herr
  exact handle_mapw_client_err W env fuel d st pr m hm hl hd herr

/-- C18 (code defect, failing input): the peer requests 1 and 2 are parked,
in this order, on entry 5 while its copy-up is in flight.  When the reply to
the COPY is a failure, `dispatch` does not return for any amount of fuel: the
loop of `handle_copyup` re-dispatches peer request 2, which starts the
copy-up again and parks itself on the queue the loop is draining, and is
popped and parked again without end.  When the reply is a success the loop
ends after each of the two requests has been re-dispatched once, and both
complete. -/
theorem drain_after_failed_copyup_never_ends :
    dispatch 2 test_peerd s2_after 2 none = Except.ok s2_both_parked ∧
    s2_both_parked.hashmaps.head?.bind (fun m => find_object m 5)
      = some { named_node 5 MF_OBJECT_COPYING [50, 53] with pending := [1, 2] } ∧
    (∀ fuel, dispatch fuel test_peerd s2_both_parked 1 (some (copy_reply 100 true))
      = Except.error stop.out_of_fuel) ∧
    (dispatch 4 test_peerd s2_both_parked 1 (some (copy_reply 100 false))).toOption.map
        (fun s => s.log)
      = some [event.dispatch 1 none, event.dispatch 2 none, event.dispatch 1 (some 100),
          event.dispatch 1 none, event.complete 1, event.dispatch 2 none,
          event.complete 2] := by
  refine ⟨except_ok_of_toOption _ _ (by decide), by decide, failed_copyup_drain_diverges,
    by decide⟩

/-! ## Order of resumption -/

theorem fail_all_log (q : List Nat) :
    ∀ st : mstate, (fail_all st q).log = st.log ++ q.map event.fail := by
  induction q with
  | nil => intro st; simp [fail_all]
  | cons p q ih =>
    intro st
    have := ih (fail st p)
    simp only [fail_all, List.foldl_cons] at this ⊢
    rw [this]
    simp [fail]

theorem map_pending_put_map (st : mstate) (key : List Nat) (m : map) (q : List Nat)
    (h : st.hashmaps.find? (fun x => map_key x == key) = some m) :
    map_pending (put_map st { m with pending := q }) key = q := by
  have hf := find_map_key_replace st.hashmaps key m { m with pending := q } h rfl
  simp only [map_pending, put_map, hf]

theorem entry_pending_put_map (st : mstate) (ref : List Nat × Nat) (m : map) (mn : map_node)
    (q : List Nat) (h : resolve_node st ref = some (m, mn)) :
    entry_pending (put_map st (store_node m ref.2 { mn with pending := q })) ref = q := by
  simp only [entry_pending, resolve_node_put_map st ref m mn _ h]

theorem find_or_load_map_loading (W : peerd) (env : handler_env)
    (d : mstate → Nat → Except stop mstate) (st : mstate) (pr : peer_req)
    (target : List Nat) (targetlen : Nat) (m : map)
    (hm : find_map st.hashmaps target targetlen = some m)
    (hl : m.flags &&& MF_MAP_LOADING ≠ 0) (hq : m.pending.length < W.nr_ops) :
    find_or_load_map W env d st pr target targetlen
      = Except.ok (MF_PENDING, some { m with pending := m.pending ++ [pr.id] },
          put_map st { m with pending := m.pending ++ [pr.id] }) := by
  simp [find_or_load_map, hm, hl, xq_append_tail, hq]

/-! ## Bindings of in-flight copies -/

theorem visit_object_copyup_unbound (sha256 : List Nat → List Nat) (env : xseg_env)
    (nr_ops idx oi off sz : Nat) (st : r2o_state) (mn : map_node) (p : List Nat) (h : Nat)
    (hf : find_object st.map oi = some mn) (he : mn.flags &&& MF_OBJECT_EXIST = 0)
    (hc : mn.flags &&& MF_OBJECT_COPYING = 0)
    (hq : mn.pending.length < nr_ops)
    (hp : mn.object.take mn.objectlen = p) (hlen : p.length = mn.objectlen)
    (hnul : ∀ x ∈ p, x ≠ 0) (h64 : mn.objectlen ≤ XSEG_MAX_TARGET_LEN)
    (hidx : mn.objectidx < U32) (hsha : ∀ l, (sha256 l).length = SHA256_DIGEST_SIZE)
    (hreq : env.get_request = some h) (hprep : env.prep_ok = true)
    (hset : env.set_req_data_ok = true) (hsub : env.submit_ok = true)
    (hins : env.copyups_insert_ok = false) :
    visit_object sha256 env nr_ops true idx oi off sz st
      = Except.error (MF_PENDING, { copyup_started sha256 h oi mn p st with pr := st.pr }) := by
  have hco := copyup_object_ok sha256 env oi mn st p h hp hlen hnul h64 hidx hsha hreq hprep
    hset hsub
  rw [hins] at hco
  have h1 : (mn.flags &&& MF_OBJECT_COPYING != 0) = false := by rw [hc]; decide
  have h2 : (mn.flags &&& MF_OBJECT_EXIST != 0) = false := by rw [he]; decide
  simp only [visit_object, hf, h1, h2, hco, Bool.and_false, Bool.false_eq_true, if_false,
    Bool.not_false, Bool.and_self, if_true, out_object_copying, xq_append_tail, hq,
    store_node_store_node, copyup_started]
  simp

/-- C20 (code defect, failing input): `copyup_object` does not look at the
result of `__set_copyup_node`.  When the insertion into `copyups_nodes` is not
made (`xhash_insert` asks for a larger table and `xhash_resize` returns NULL),
the COPY is submitted all the same and `req2objs` sets COPYING: the entry has
COPYING set and an in-flight COPY, but no binding in the `copyups_nodes` of
the request that issued it.  In the scenario S2 with that outcome, entry 5 is
COPYING with no binding at all; when the reply to the COPY comes back no node
is found for it, so COPYING is never cleared and the parked request is not
re-dispatched.  When the insertion is made, entry 5 has the one binding
(peer request 1, handle 100) while it is COPYING and none after the reply has
been handled, successful or failed. -/
theorem copying_entry_without_binding :
    (∀ (sha256 : List Nat → List Nat) (env : xseg_env) (nr_ops idx oi off sz : Nat)
      (st : r2o_state) (mn : map_node) (p : List Nat) (h : Nat),
      find_object st.map oi = some mn → mn.flags &&& MF_OBJECT_EXIST = 0 →
      mn.flags &&& MF_OBJECT_COPYING = 0 → mn.pending.length < nr_ops →
      mn.object.take mn.objectlen = p → p.length = mn.objectlen → (∀ x ∈ p, x ≠ 0) →
      mn.objectlen ≤ XSEG_MAX_TARGET_LEN → mn.objectidx < U32 →
      (∀ l, (sha256 l).length = SHA256_DIGEST_SIZE) →
      env.get_request = some h → env.prep_ok = true → env.set_req_data_ok = true →
      env.submit_ok = true → env.copyups_insert_ok = false →
      ∃ st1, visit_object sha256 env nr_ops true idx oi off sz st
          = Except.error (MF_PENDING, st1) ∧
        (find_object st1.map oi).map (fun x => x.flags)
          = some (mn.flags ||| MF_OBJECT_COPYING) ∧
        (st1.submitted.getLast?.map (fun s => (s.handle, s.req.op)))
          = some (h, xseg_op.X_COPY) ∧
        st1.pr.mio.copyups_nodes = st.pr.mio.copyups_nodes) ∧
    dispatch 2 peerd_no_insert s2_before 1 none = Except.ok s2_unbound ∧
    s2_unbound.hashmaps.head?.bind (fun m => find_object m 5) = some s2_copying_node ∧
    s2_copying_node.flags = MF_OBJECT_COPYING ∧
    s2_unbound.submitted = [⟨100, s2_copy, 1⟩] ∧ s2_unbound.released = [] ∧
    copies_bound_to s2_unbound (s2_map.volume, 5) = [] ∧
    s2_unbound.peer_reqs.map (fun pr => pr.mio.copyups_nodes) = [[], []] ∧
    dispatch 3 peerd_no_insert s2_unbound 1 (some (copy_reply 100 false))
      = Except.ok s2_unbound_replied ∧
    s2_unbound_replied.hashmaps.head?.bind (fun m => find_object m 5)
      = some s2_copying_node ∧
    s2_unbound_replied.log = [event.dispatch 1 none, event.dispatch 1 (some 100)] ∧
    copies_bound_to s2_after (s2_map.volume, 5) = [(1, 100)] ∧
    copies_bound_to s3_after (s2_map.volume, 5) = [] ∧
    copies_bound_to s4_after (s2_map.volume, 5) = [] := by
  refine ⟨?_, except_ok_of_toOption _ _ (by decide), by decide, by decide, by decide,
    by decide, by decide, by decide, except_ok_of_toOption _ _ (by decide), by decide,
    by decide, by decide, by decide, by decide⟩
  intro sha256 env nr_ops idx oi off sz st mn p h hf he hc hq hp hlen hnul h64 hidx hsha hreq
    hprep hset hsub hins
  refine ⟨_, visit_object_copyup_unbound sha256 env nr_ops idx oi off sz st mn p h hf he hc hq
    hp hlen hnul h64 hidx hsha hreq hprep hset hsub hins, ?_, ?_, rfl⟩
  · simp only [copyup_started]
    rw [find_object_store_node_self st.map oi mn _ hf]
    rfl
  · simp [copyup_started]

/-! ## Clone -/

theorem clone_nodes_fields (W : peerd) (parent : map) :
    ∀ (n i : Nat) (cm cm1 : map), clone_nodes W parent n i cm = some cm1 →
      cm1.flags = cm.flags ∧ cm1.size = cm.size ∧ cm1.volumelen = cm.volumelen ∧
      cm1.volume = cm.volume ∧ cm1.pending = cm.pending := by
  intro n
  induction n with
  | zero =>
    intro i cm cm1 h
    simp only [clone_nodes, Option.some.injEq] at h
    rw [← h]
    exact ⟨rfl, rfl, rfl, rfl, rfl⟩
  | succ n ih =>
    intro i cm cm1 h
    simp only [clone_nodes] at h
    split at h
    · have := ih (i + 1) (insert_object cm (clone_node W parent i)) cm1 h
      simpa [insert_object] using this
    · cases h

/-- The loop of `handle_clone` appends the nodes of the indices `i`, `i + 1`,
..., one per iteration, as long as the index stays within `int`. -/
theorem clone_nodes_objects (W : peerd) (parent : map) :
    ∀ (n i : Nat) (cm : map), keys_below cm.objects i → i + n ≤ INT_MAX →
      ∃ cm1, clone_nodes W parent n i cm = some cm1 ∧
        cm1.objects
          = cm.objects ++ (List.range' i n).map (fun j => (j, clone_node W parent j)) := by
  have hIU : INT_MAX < U32 := by decide
  intro n
  induction n with
  | zero => intro i cm _ _; exact ⟨cm, rfl, by simp⟩
  | succ n ih =>
    intro i cm hk hn
    have hi : i % U32 = i := Nat.mod_eq_of_lt (by omega)
    have hidx : (clone_node W parent i).objectidx = i := by simp [clone_node, hi]
    have hins : (insert_object cm (clone_node W parent i)).objects
        = cm.objects ++ [(i, clone_node W parent i)] := by
      simp only [insert_object, hidx]
      exact xhash_insert_fresh _ _ _ hk
    have hk1 : keys_below (insert_object cm (clone_node W parent i)).objects (i + 1) := by
      rw [hins]
      exact keys_below_append _ _ _ hk
    obtain ⟨cm1, h1, h2⟩ :=
      ih (i + 1) (insert_object cm (clone_node W parent i)) hk1 (by omega)
    have hlt : i < INT_MAX := by omega
    refine ⟨cm1, ?_, ?_⟩
    · simp only [clone_nodes, hlt, if_true]
      exact h1
    · rw [h2, hins]
      simp only [List.range'_succ, List.map_cons, List.append_assoc, List.singleton_append]

/-- The loop of `handle_clone` has no defined result when it is to run past
the index `INT_MAX`. -/
theorem clone_nodes_overflow (W : peerd) (parent : map) :
    ∀ (n i : Nat) (cm : map), i ≤ INT_MAX → INT_MAX < i + n →
      clone_nodes W parent n i cm = none := by
  intro n
  induction n with
  | zero => intro i cm h1 h2; omega
  | succ n ih =>
    intro i cm h1 h2
    simp only [clone_nodes]
    split
    · exact ih (i + 1) _ (by omega) (by omega)
    · rfl

/-- A client request with operation CLONE goes to `handle_clone`. -/
theorem dispatch_clone (k : Nat) (W : peerd) (st : mstate) (pr_id : Nat) (pr : peer_req)
    (hget : get_pr st pr_id = some pr) (hop : pr.req.op = xseg_op.X_CLONE) :
    dispatch (k + 1) W st pr_id none
      = handle_clone W (W.envs st.tick) (fun s p => dispatch k W s p none)
          { st with tick := st.tick + 1, log := st.log ++ [event.dispatch pr_id none] } pr := by
  simp only [get_pr] at hget
  simp only [dispatch, dispatch_body, get_pr, hget, own_request, hop]
  simp

/-- The path of `handle_clone` on which the parent is cached and READY, every
allocation succeeds, the loop index stays within `int` and no map of the new
name is cached. -/
theorem handle_clone_ok (W : peerd) (env : handler_env)
    (d : mstate → Nat → Except stop mstate) (st : mstate) (pr : peer_req) (m cm1 : map)
    (hdata : env.get_data_ok = true)
    (hm : find_map st.hashmaps pr.req.clone_target (strlen pr.req.clone_target) = some m)
    (hl : m.flags &&& MF_MAP_LOADING = 0) (hd : m.flags &&& MF_MAP_DESTROYED = 0)
    (hmal : env.malloc_ok = true) (hxh : env.xhash_new_ok = true)
    (hxq : env.xq_alloc_ok = true) (hcal : env.nodes_calloc_ok = true)
    (hfresh : find_map st.hashmaps (new_clonemap env pr).volume (new_clonemap env pr).volumelen
      = none)
    (hcn : clone_nodes W m (clone_count pr) 0 (new_clonemap env pr) = some cm1) :
    handle_clone W env d st pr
      = Except.ok (complete { st with hashmaps := st.hashmaps ++ [cm1] } pr.id) := by
  have hf := clone_nodes_fields W m (clone_count pr) 0 (new_clonemap env pr) cm1 hcn
  have h1 : (0 : Int) = MF_PENDING ↔ False := by decide
  have hins : insert_map st.hashmaps cm1 = (0, st.hashmaps ++ [cm1]) := by
    simp [insert_map, hf.2.2.1, hf.2.2.2.1, hfresh]
  have hcn1 := hcn
  simp only [new_clonemap, clone_count] at hcn1
  simp only [handle_clone, find_or_load_map, hdata, hm, hl, hd, hmal, hxh, hxq, hcal,
    bne_self_eq_false, Bool.false_eq_true, if_false, lt_self_iff_false, h1, Bool.not_true,
    hcn1, hins]

/-- The path of `handle_clone` on which the parent is cached and READY and
every allocation succeeds, but the loop is to run past the index `INT_MAX`. -/
theorem handle_clone_overflow (W : peerd) (env : handler_env)
    (d : mstate → Nat → Except stop mstate) (st : mstate) (pr : peer_req) (m : map)
    (hdata : env.get_data_ok = true)
    (hm : find_map st.hashmaps pr.req.clone_target (strlen pr.req.clone_target) = some m)
    (hl : m.flags &&& MF_MAP_LOADING = 0) (hd : m.flags &&& MF_MAP_DESTROYED = 0)
    (hmal : env.malloc_ok = true) (hxh : env.xhash_new_ok = true)
    (hxq : env.xq_alloc_ok = true) (hcal : env.nodes_calloc_ok = true)
    (hc : INT_MAX < clone_count pr) :
    handle_clone W env d st pr = Except.error stop.signed_overflow := by
  have hcn := clone_nodes_overflow W m (clone_count pr) 0 (new_clonemap env pr)
    (Nat.zero_le _) (by omega)
  have h1 : (0 : Int) = MF_PENDING ↔ False := by decide
  simp only [new_clonemap, clone_count] at hcn
  simp only [handle_clone, find_or_load_map, hdata, hm, hl, hd, hmal, hxh, hxq, hcal,
    bne_self_eq_false, Bool.false_eq_true, if_false, lt_self_iff_false, h1, Bool.not_true,
    hcn]



/-- C30 (code defect, failing input): a client request whose operation is
SNAPSHOT is not failed.  The `case X_SNAPSHOT` of `dispatch` is commented
out, so the request falls to `default: break`: `dispatch` returns without
calling `fail` or `complete` and the request is never answered.  A request
whose operation is DELETE is failed, once, and never completed; in both cases
the map cache is unchanged. -/
theorem snapshot_request_is_not_failed :
    (∀ (fuel : Nat) (W : peerd) (st : mstate) (id : Nat) (pr : peer_req),
      get_pr st id = some pr → pr.req.op = xseg_op.X_SNAPSHOT →
      dispatch (fuel + 1) W st id none
        = Except.ok { st with tick := st.tick + 1,
                              log := st.log ++ [event.dispatch id none] }) ∧
    (∀ (fuel : Nat) (W : peerd) (st : mstate) (id : Nat) (pr : peer_req),
      get_pr st id = some pr → pr.req.op = xseg_op.X_DELETE →
      dispatch (fuel + 1) W st id none
        = Except.ok { st with tick := st.tick + 1,
                              log := st.log ++ [event.dispatch id none, event.fail pr.id] }) ∧
    (dispatch 1 test_peerd (single_req_state xseg_op.X_SNAPSHOT) 1 none).toOption.map
        (fun s => (s.log, s.hashmaps))
      = some ([event.dispatch 1 none], [s2_map]) ∧
    (dispatch 1 test_peerd (single_req_state xseg_op.X_DELETE) 1 none).toOption.map
        (fun s => (s.log, s.hashmaps))
      = some ([event.dispatch 1 none, event.fail 1], [s2_map]) := by
  refine ⟨?_, ?_, by decide, by decide⟩
  · intro fuel W st id pr hget hop
    simp only [get_pr] at hget
    simp only [dispatch, dispatch_body, get_pr, hget, own_request, hop]
    simp
  · intro fuel W st id pr hget hop
    simp only [get_pr] at hget
    simp only [dispatch, dispatch_body, get_pr, hget, own_request, hop, handle_destroy, fail]
    simp



theorem strncpy_bytes_length (s : List Nat) (n : Nat) : (strncpy_bytes s n).length = n := by
  simp only [strncpy_bytes, List.length_append, List.length_replicate, List.length_take]
  omega

theorem xhash_lookup_range_map {α : Type} (f : Nat → α) :
    ∀ (n s i : Nat), xhash_lookup ((List.range' s n).map (fun j => (j, f j))) i
      = if s ≤ i ∧ i < s + n then some (f i) else none := by
  intro n
  induction n with
  | zero =>
    intro s i
    have : ¬ (s ≤ i ∧ i < s) := by omega
    simp [xhash_lookup_nil, this]
  | succ n ih =>
    intro s i
    rw [List.range'_succ, List.map_cons, xhash_lookup_cons, ih]
    by_cases h : s = i
    · subst h
      simp
    · simp only [h, if_false]
      by_cases h2 : s + 1 ≤ i ∧ i < s + 1 + n
      · have : s ≤ i ∧ i < s + (n + 1) := by omega
        simp [h2, this]
      · have : ¬ (s ≤ i ∧ i < s + (n + 1)) := by omega
        simp [h2, this]

theorem padded_take_set (x : List Nat) (n : Nat) (hx : x.length = n)
    (hn : n ≤ XSEG_MAX_TARGET_LEN) :
    ((x ++ List.replicate (XSEG_MAX_TARGET_LEN + 1 - n) 0).take
        (XSEG_MAX_TARGET_LEN + 1)).set n 0
      = x ++ List.replicate (XSEG_MAX_TARGET_LEN + 1 - n) 0 := by
  have hlen : (x ++ List.replicate (XSEG_MAX_TARGET_LEN + 1 - n) 0).length
      = XSEG_MAX_TARGET_LEN + 1 := by
    simp only [List.length_append, List.length_replicate, hx]
    omega
  rw [List.take_of_length_le (by omega)]
  obtain ⟨k, hk⟩ : ∃ k, XSEG_MAX_TARGET_LEN + 1 - n = k + 1 := ⟨XSEG_MAX_TARGET_LEN - n, by omega⟩
  rw [hk, ← hx, List.set_append_right _ _ (le_refl _)]
  simp [List.replicate_succ]

/-- Node `handle_clone` makes for an index at which the parent has the node
`mn`: the first `objectlen` bytes of its name, NUL-terminated, in a zeroed
node. -/
theorem clone_node_found (W : peerd) (parent : map) (i : Nat) (mn : map_node)
    (h : find_object parent i = some mn) (hlen : mn.objectlen ≤ XSEG_MAX_TARGET_LEN) :
    clone_node W parent i
      = { flags := 0, objectidx := i % U32, objectlen := mn.objectlen,
          object := strncpy_bytes mn.object mn.objectlen
            ++ List.replicate (XSEG_MAX_TARGET_LEN + 1 - mn.objectlen) 0,
          pending := [] } := by
  simp only [clone_node, h]
  rw [padded_take_set _ _ (strncpy_bytes_length _ _) hlen]

/-- Node `handle_clone` makes for an index at which the parent has no node:
the name in `zero_block`. -/
theorem clone_node_missing (W : peerd) (parent : map) (i : Nat)
    (h : find_object parent i = none) (hlen : strlen W.zero_block ≤ XSEG_MAX_TARGET_LEN) :
    clone_node W parent i
      = { flags := 0, objectidx := i % U32, objectlen := strlen W.zero_block,
          object := strncpy_bytes W.zero_block (strlen W.zero_block)
            ++ List.replicate (XSEG_MAX_TARGET_LEN + 1 - strlen W.zero_block) 0,
          pending := [] } := by
  simp only [clone_node, h]
  rw [padded_take_set _ _ (strncpy_bytes_length _ _) hlen]

theorem clone_node_named (W : peerd) (parent : map) (i f : Nat) (name : List Nat)
    (h : find_object parent i = some (named_node i f name)) (hi : i < U32)
    (hnul : ∀ x ∈ name, x ≠ 0) (hlen : name.length ≤ XSEG_MAX_TARGET_LEN) :
    clone_node W parent i = named_node i 0 name := by
  rw [clone_node_found W parent i _ h hlen]
  have hs : strncpy_bytes (named_node i f name).object (named_node i f name).objectlen = name :=
    strncpy_bytes_of_nul_free _ name _ (by simp [named_node]) rfl hnul
  rw [hs]
  simp [named_node, Nat.mod_eq_of_lt hi]



theorem map_eq_of_fields (m1 m2 : map) (h1 : m1.flags = m2.flags) (h2 : m1.size = m2.size)
    (h3 : m1.volumelen = m2.volumelen) (h4 : m1.volume = m2.volume)
    (h5 : m1.objects = m2.objects) (h6 : m1.pending = m2.pending) : m1 = m2 := by
  cases m1
  cases m2
  simp only at h1 h2 h3 h4 h5 h6
  simp [h1, h2, h3, h4, h5, h6]

/-- Counterexample to C28 as stated: a CLONE of size 1 (`⌈size/block_size⌉ = 1`)
of the parent `v1` completes with a new map that has one entry, at index 0,
and none at index 1 = `⌈size/block_size⌉`. -/
theorem clone_of_one_byte_has_one_entry :
    (dispatch 1 test_peerd { s6_before [65] [66] with peer_reqs := [clone_req 1 1] } 1
        none).toOption.map
        (fun s => (s.log, s.hashmaps.map (fun m => (m.volume.take 2, m.size,
          m.objects.map (fun e => e.1)))))
      = some ([event.dispatch 1 none, event.complete 1],
          [([118, 49], 2 * block_size, [0, 1]), ([118, 50], 1, [0])]) ∧
    (1 + block_size - 1) / block_size + 1 = 2 := by
  decide

/-- C28 (amended): for every clone size, when the parent is cached and
READY and the allocations succeed.  The loop of `handle_clone` counts
`size / block_size + 1` (the quotient rounded down) with an `int` index.
When that count is at most `INT_MAX` and the new name is not cached,
`handle_clone` completes the request and appends to the cache a map with
exactly `size / block_size + 1` entries, at the indices `0 .. size / block_size`
and nowhere else; the entry of index `i` has no flag set and carries the first
`objectlen` bytes of the parent's name at `i`, or the name in `zero_block` when
the parent has no entry there.  When the count is larger, the increment of the
index overflows and `handle_clone` has no defined result. -/
theorem clone_table_size (W : peerd) (env : handler_env)
    (d : mstate → Nat → Except stop mstate) (st : mstate) (pr : peer_req) (m : map)
    (hdata : env.get_data_ok = true)
    (hm : find_map st.hashmaps pr.req.clone_target (strlen pr.req.clone_target) = some m)
    (hl : m.flags &&& MF_MAP_LOADING = 0) (hd : m.flags &&& MF_MAP_DESTROYED = 0)
    (hmal : env.malloc_ok = true) (hxh : env.xhash_new_ok = true)
    (hxq : env.xq_alloc_ok = true) (hcal : env.nodes_calloc_ok = true) :
    (clone_count pr ≤ INT_MAX →
      find_map st.hashmaps (new_clonemap env pr).volume (new_clonemap env pr).volumelen
        = none →
      ∃ cm, handle_clone W env d st pr
          = Except.ok (complete { st with hashmaps := st.hashmaps ++ [cm] } pr.id) ∧
        cm.size = pr.req.clone_size % U64 ∧ cm.flags = 0 ∧
        cm.objects = (List.range (clone_count pr)).map (fun i => (i, clone_node W m i)) ∧
        cm.objects.length = (pr.req.clone_size % U64) / block_size + 1 ∧
        (∀ i, i ≤ (pr.req.clone_size % U64) / block_size →
          find_object cm i = some (clone_node W m i)) ∧
        (∀ i, (pr.req.clone_size % U64) / block_size < i → find_object cm i = none)) ∧
    (INT_MAX < clone_count pr →
      handle_clone W env d st pr = Except.error stop.signed_overflow) ∧
    (∀ i mn, find_object m i = some mn → mn.objectlen ≤ XSEG_MAX_TARGET_LEN →
      (clone_node W m i).flags = 0 ∧ (clone_node W m i).objectlen = mn.objectlen ∧
      (clone_node W m i).object.take mn.objectlen
        = strncpy_bytes mn.object mn.objectlen) ∧
    (∀ i, find_object m i = none → strlen W.zero_block ≤ XSEG_MAX_TARGET_LEN →
      (clone_node W m i).flags = 0 ∧ (clone_node W m i).objectlen = strlen W.zero_block ∧
      (clone_node W m i).object.take (strlen W.zero_block) = cstr W.zero_block) := by
  refine ⟨?_, fun hc => handle_clone_overflow W env d st pr m hdata hm hl hd hmal hxh hxq hcal hc,
    ?_, ?_⟩
  · intro hc hfresh
    obtain ⟨cm1, hcn, hobj⟩ := clone_nodes_objects W m (clone_count pr) 0 (new_clonemap env pr)
      (by intro e he; simp [new_clonemap] at he) (by omega)
    have hf := clone_nodes_fields W m (clone_count pr) 0 (new_clonemap env pr) cm1 hcn
    have hobj1 : cm1.objects
        = (List.range (clone_count pr)).map (fun i => (i, clone_node W m i)) := by
      rw [hobj, List.range_eq_range']
      simp [new_clonemap]
    refine ⟨cm1,
      handle_clone_ok W env d st pr m cm1 hdata hm hl hd hmal hxh hxq hcal hfresh hcn,
      by rw [hf.2.1]; rfl, by rw [hf.1]; rfl, hobj1, ?_, ?_, ?_⟩
    · rw [hobj1]
      simp [clone_count]
    · intro i hi
      have := xhash_lookup_range_map (fun j => clone_node W m j) (clone_count pr) 0 i
      rw [find_object, hobj1, List.range_eq_range', this]
      have hlt : 0 ≤ i ∧ i < 0 + clone_count pr := by simp only [clone_count]; omega
      rw [if_pos hlt]
    · intro i hi
      have := xhash_lookup_range_map (fun j => clone_node W m j) (clone_count pr) 0 i
      rw [find_object, hobj1, List.range_eq_range', this]
      have hlt : ¬ (0 ≤ i ∧ i < 0 + clone_count pr) := by simp only [clone_count]; omega
      rw [if_neg hlt]
  · intro i mn hfind hlen
    rw [clone_node_found W m i mn hfind hlen]
    refine ⟨rfl, rfl, ?_⟩
    show (strncpy_bytes mn.object mn.objectlen ++ _).take mn.objectlen = _
    rw [List.take_append_of_le_length (by rw [strncpy_bytes_length])]
    exact List.take_of_length_le (by rw [strncpy_bytes_length])
  · intro i hfind hlen
    rw [clone_node_missing W m i hfind hlen]
    refine ⟨rfl, rfl, ?_⟩
    show (strncpy_bytes W.zero_block (strlen W.zero_block) ++ _).take (strlen W.zero_block) = _
    rw [List.take_append_of_le_length (by rw [strncpy_bytes_length])]
    rw [List.take_of_length_le (by rw [strncpy_bytes_length])]
    simp [strncpy_bytes, strlen]

theorem clone_table_size_witness :
    (∃ cm, handle_clone test_peerd (henv_ok 0) record_dispatch (s6_before [65] [66])
          (clone_req 1 (2 * block_size + block_size / 2))
        = Except.ok (complete
            { s6_before [65] [66] with hashmaps := (s6_before [65] [66]).hashmaps ++ [cm] } 1) ∧
      cm.objects.length = 3) ∧
    handle_clone test_peerd (henv_ok 0) record_dispatch (s6_before [65] [66])
        (clone_req 1 (2 ^ 31 * block_size)) = Except.error stop.signed_overflow :=
  have h := clone_table_size test_peerd (henv_ok 0) record_dispatch (s6_before [65] [66])
    (clone_req 1 (2 * block_size + block_size / 2)) (s6_parent [65] [66]) rfl (by decide)
    (by decide) (by decide) rfl rfl rfl rfl
  have h2 := clone_table_size test_peerd (henv_ok 0) record_dispatch (s6_before [65] [66])
    (clone_req 1 (2 ^ 31 * block_size)) (s6_parent [65] [66]) rfl (by decide)
    (by decide) (by decide) rfl rfl rfl rfl
  ⟨match h.1 (by decide) (by decide) with
    | ⟨cm, h1, _, _, _, h5, _⟩ => ⟨cm, h1, h5⟩,
   h2.2.1 (by decide)⟩

/-- C29: scenario S6.  With the READY map of `v1` in the cache, holding entry
0 named `a` and entry 1 named `b` (names of at most 64 bytes without NUL) and
no entry 2, the CLONE of the new volume `v2` with size `2.5 * block_size` is
completed and appends to the cache a READY map of `v2` with that size and
exactly three entries, at the indices 0, 1, 2, named `a`, `b` and the
zero-block name, none with a flag set. -/
theorem scenario_S6_clone (fuel : Nat) (a b : List Nat) (ha : ∀ x ∈ a, x ≠ 0)
    (hb : ∀ x ∈ b, x ≠ 0) (hla : a.length ≤ XSEG_MAX_TARGET_LEN)
    (hlb : b.length ≤ XSEG_MAX_TARGET_LEN) :
    dispatch (fuel + 1) test_peerd (s6_before a b) 1 none
      = Except.ok { s6_before a b with
          hashmaps := [s6_parent a b, s6_clone a b],
          log := [event.dispatch 1 none, event.complete 1], tick := 1 } ∧
    (s6_clone a b).flags = 0 ∧ (s6_clone a b).size = 2621440 ∧
    (s6_clone a b).objects.map (fun e => (e.1, cstr e.2.object, e.2.flags))
      = [(0, a, 0), (1, b, 0), (2, cstr test_peerd.zero_block, 0)] := by
  have hk : (cstr (s6_parent a b).volume == cstr (strncpy_bytes [118, 49] 2 ++ [0])) = true := by
    show (cstr ([118, 49] ++ List.replicate (XSEG_MAX_TARGET_LEN - 1) 0)
      == cstr (strncpy_bytes [118, 49] 2 ++ [0])) = true
    decide
  have hk2 : (cstr (s6_parent a b).volume
      == cstr (strncpy_bytes (new_clonemap (henv_ok 0) (clone_req 1 2621440)).volume 2
          ++ [0])) = false := by
    show (cstr ([118, 49] ++ List.replicate (XSEG_MAX_TARGET_LEN - 1) 0)
      == cstr (strncpy_bytes (new_clonemap (henv_ok 0) (clone_req 1 2621440)).volume 2
          ++ [0])) = false
    decide
  have hsz : 2 * block_size + block_size / 2 = 2621440 := by decide
  refine ⟨?_, rfl, hsz, ?_⟩
  · rw [dispatch_clone fuel test_peerd (s6_before a b) 1
      (clone_req 1 (2 * block_size + block_size / 2)) rfl rfl]
    have hc : clone_count (clone_req 1 (2 * block_size + block_size / 2)) = 3 := by decide
    have h0 := clone_node_named test_peerd (s6_parent a b) 0 MF_OBJECT_EXIST a
      (by simp [s6_parent, find_object, xhash_lookup_cons]) (by decide) ha hla
    have h1 := clone_node_named test_peerd (s6_parent a b) 1 MF_OBJECT_EXIST b
      (by simp [s6_parent, find_object, xhash_lookup_cons]) (by decide) hb hlb
    have h2a : clone_node test_peerd (s6_parent a b) 2
        = named_node 2 0 (List.replicate XSEG_MAX_TARGET_LEN 48) := by
      have e1 : find_object (s6_parent a b) 2 = none := by
        simp [s6_parent, find_object, xhash_lookup_cons, xhash_lookup_nil]
      rw [clone_node_missing test_peerd (s6_parent a b) 2 e1 (by decide)]
      decide
    obtain ⟨cm1, hcn, hobj⟩ := clone_nodes_objects test_peerd (s6_parent a b) 3 0
      (new_clonemap (test_peerd.envs 0) (clone_req 1 (2 * block_size + block_size / 2)))
      (by intro e he; simp [new_clonemap] at he) (by decide)
    have hf := clone_nodes_fields test_peerd (s6_parent a b) 3 0
      (new_clonemap (test_peerd.envs 0) (clone_req 1 (2 * block_size + block_size / 2)))
      cm1 hcn
    have hmap : cm1 = s6_clone a b := by
      have hvol : (new_clonemap (test_peerd.envs 0)
          (clone_req 1 (2 * block_size + block_size / 2))).volume
          = [118, 50] ++ List.replicate (XSEG_MAX_TARGET_LEN - 1) 0 := by decide
      apply map_eq_of_fields
      · rw [hf.1]; rfl
      · rw [hf.2.1]
        show (2 * block_size + block_size / 2) % U64 = 2 * block_size + block_size / 2
        decide
      · rw [hf.2.2.1]
        show 2 % U32 = 2
        decide
      · rw [hf.2.2.2.1, hvol]; rfl
      · rw [hobj]
        simp [new_clonemap, List.range', h0, h1, h2a, s6_clone]
      · rw [hf.2.2.2.2]; rfl
    rw [handle_clone_ok test_peerd _ _ _ _ (s6_parent a b) cm1 rfl
      (by simp only [s6_before, find_map, map_key, List.find?_cons, hsz]
          rw [show strlen (clone_req 1 2621440).req.clone_target = 2 by decide]
          rw [show (clone_req 1 2621440).req.clone_target = [118, 49] from rfl, hk])
      (show (0 : Nat) &&& MF_MAP_LOADING = 0 by decide)
      (show (0 : Nat) &&& MF_MAP_DESTROYED = 0 by decide) rfl rfl rfl rfl
      (by simp only [s6_before, find_map, map_key, List.find?_cons, hsz]
          rw [show (new_clonemap (test_peerd.envs 0) (clone_req 1 2621440)).volumelen = 2
            by decide]
          rw [show test_peerd.envs 0 = henv_ok 0 from rfl, hk2]
          rfl)
      (by rw [hc]; exact hcn)]
    rw [hmap]
    simp [complete, s6_before, clone_req]
  · have ca : cstr (named_node 0 0 a).object = a := by
      simp only [named_node]
      cases h : XSEG_MAX_TARGET_LEN + 1 - a.length with
      | zero => simp only [XSEG_MAX_TARGET_LEN] at h hla; omega
      | succ k => rw [List.replicate_succ]; exact cstr_append_nul a _ ha
    have cb : cstr (named_node 1 0 b).object = b := by
      simp only [named_node]
      cases h : XSEG_MAX_TARGET_LEN + 1 - b.length with
      | zero => simp only [XSEG_MAX_TARGET_LEN] at h hlb; omega
      | succ k => rw [List.replicate_succ]; exact cstr_append_nul b _ hb
    have cz : cstr (named_node 2 0 (List.replicate XSEG_MAX_TARGET_LEN 48)).object
        = cstr test_peerd.zero_block := by decide
    simp only [named_node] at ca cb cz
    simp only [s6_clone, named_node, List.map_cons, List.map_nil, ca, cb, cz]

theorem scenario_S6_clone_witness :
    dispatch 1 test_peerd (s6_before [65] [66]) 1 none
      = Except.ok { s6_before [65] [66] with
          hashmaps := [s6_parent [65] [66], s6_clone [65] [66]],
          log := [event.dispatch 1 none, event.complete 1], tick := 1 } :=
  (scenario_S6_clone 0 [65] [66] (by decide) (by decide) (by decide) (by decide)).1

/-! ## Cache keys and the loading of maps -/

/-- Key `find_map` looks up for `(target, targetlen)`: the string of `target`
cut at `targetlen` bytes. -/
theorem cstr_strncpy_nul (s : List Nat) (n : Nat) :
    cstr (strncpy_bytes s n ++ [0]) = (cstr s).take n := by
  simp only [strncpy_bytes, List.append_assoc, replicate_zero_append_nul]
  exact cstr_append_nul _ _ (fun x hx => cstr_nul_free s x (List.mem_of_mem_take hx))

theorem find_map_eq (l : List map) (t : List Nat) (n : Nat) :
    find_map l t n = l.find? (fun m => map_key m == (cstr t).take n) := by
  simp only [find_map, cstr_strncpy_nul]

theorem cstr_take_prefix (a r : List Nat) (ha : ∀ x ∈ a, x ≠ 0) :
    (cstr (a ++ r)).take a.length = a := by
  rw [cstr_append_of_nul_free a r ha]
  simp

theorem volume_prefix_aux (a h : List Nat) (n : Nat) (hn : n ≤ XSEG_MAX_TARGET_LEN)
    (ha : ∀ x ∈ a, x ≠ 0) (hl : a.length ≤ n) :
    (cstr ((a ++ List.replicate (n - a.length) 0 ++ h).take XSEG_MAX_TARGET_LEN ++ [0])).take n
      = a := by
  by_cases hfull : a.length = n
  · have e : (a ++ List.replicate (n - a.length) 0 ++ h).take XSEG_MAX_TARGET_LEN ++ [0]
        = a ++ (h.take (XSEG_MAX_TARGET_LEN - a.length) ++ [0]) := by
      have h0 : n - a.length = 0 := by omega
      rw [h0, List.replicate_zero, List.append_nil, List.take_append_eq_append_take,
        List.take_of_length_le (by omega), List.append_assoc]
    rw [e, ← hfull]
    exact cstr_take_prefix a _ ha
  · obtain ⟨k, hk⟩ : ∃ k, n - a.length = k + 1 := ⟨n - a.length - 1, by omega⟩
    obtain ⟨j, hj⟩ : ∃ j, XSEG_MAX_TARGET_LEN - a.length = j + 1 :=
      ⟨XSEG_MAX_TARGET_LEN - a.length - 1, by omega⟩
    have e : (a ++ List.replicate (n - a.length) 0 ++ h).take XSEG_MAX_TARGET_LEN ++ [0]
        = a ++ 0 :: ((List.replicate k 0 ++ h).take j ++ [0]) := by
      rw [hk, List.replicate_succ, List.append_assoc, List.take_append_eq_append_take,
        List.take_of_length_le (by omega), hj, List.cons_append, List.take_succ_cons,
        List.append_assoc, List.cons_append]
    rw [e, cstr_append_nul _ _ ha]
    exact List.take_of_length_le hl

/-- The volume buffer `load_map` fills holds, up to `targetlen`, the string
`find_map` looks up for the same target. -/
theorem load_volume_prefix (t h : List Nat) (n : Nat) (hn : n ≤ XSEG_MAX_TARGET_LEN) :
    (cstr ((strncpy_bytes t n ++ h).take XSEG_MAX_TARGET_LEN ++ [0])).take n
      = (cstr t).take n :=
  volume_prefix_aux ((cstr t).take n) h n hn
    (fun x hx => cstr_nul_free t x (List.mem_of_mem_take hx)) (List.length_take_le _ _)

theorem cstr_idem (s : List Nat) : cstr (cstr s) = cstr s := by
  have := cstr_append_of_nul_free (cstr s) [] (cstr_nul_free s)
  simpa [cstr] using this

/-- For a name of at most 64 bytes `insert_map` admits the map `load_map`
made exactly when `find_map` does not find the name. -/
theorem find_map_load_volume (l : List map) (t h : List Nat) (n : Nat)
    (hn : n ≤ XSEG_MAX_TARGET_LEN) :
    find_map l ((strncpy_bytes t n ++ h).take XSEG_MAX_TARGET_LEN ++ [0]) (n % U32)
      = find_map l t n := by
  have hu : n % U32 = n := Nat.mod_eq_of_lt
    (by simp only [XSEG_MAX_TARGET_LEN, SHA256_DIGEST_SIZE, U32] at *; omega)
  rw [find_map_eq, find_map_eq, hu, load_volume_prefix t h n hn]

theorem remove_map_appended (l : List map) (m : map) (h : ∀ x ∈ l, map_key x ≠ map_key m) :
    remove_map (l ++ [m]) m = l := by
  simp only [remove_map]
  rw [List.eraseP_append_right _ (by intro x hx; simpa using h x hx)]
  simp [List.eraseP_cons]

/-- What `load_map` returns for a name that is not cached when the READ
cannot be issued, as long as no cached map is stored under the string held in
the new volume buffer. -/
theorem load_map_read_not_issued (W : peerd) (env : handler_env)
    (d : mstate → Nat → Except stop mstate) (st : mstate) (pr : peer_req)
    (target : List Nat) (targetlen : Nat)
    (hfresh : find_map st.hashmaps target targetlen = none)
    (hlen : targetlen ≤ XSEG_MAX_TARGET_LEN)
    (hkey : ∀ x ∈ st.hashmaps, map_key x ≠
      cstr ((strncpy_bytes target targetlen ++ env.heap.drop targetlen).take XSEG_MAX_TARGET_LEN
        ++ [0]))
    (hmal : env.malloc_ok = true) (hxq : env.xq_alloc_ok = true)
    (hxh : env.xhash_new_ok = true) (hops : 0 < W.nr_ops)
    (hread : env.xseg.get_request = none ∨ env.xseg.prep_ok = false ∨ env.get_target_ok = false ∨
      env.xseg.set_req_data_ok = false ∨ env.xseg.submit_ok = false) :
    ∃ rel, load_map W env d st pr target targetlen
      = Except.ok (-1, { st with log := st.log ++ [event.fail pr.id], released := rel }) := by
  have hins : find_map st.hashmaps
      ((strncpy_bytes target targetlen ++ env.heap.drop targetlen).take XSEG_MAX_TARGET_LEN
        ++ [0]) (targetlen % U32) = none := by
    rw [find_map_load_volume _ _ _ _ hlen]; exact hfresh
  have hq : xq_append_tail W.nr_ops [] pr.id = [pr.id] := by
    simp [xq_append_tail, hops]
  simp only [load_map, hfresh, hmal, hxq, hxh, insert_map, hins, hq, Option.isSome_none,
    Bool.not_true, Bool.false_eq_true, if_false, load_map_out_fail, put_request]
  have hrm := remove_map_appended st.hashmaps
    { flags := MF_MAP_LOADING, size := U64 - 1, volumelen := targetlen % U32,
      volume := (strncpy_bytes target targetlen ++ env.heap.drop targetlen).take
        XSEG_MAX_TARGET_LEN ++ [0],
      objects := [], pending := [pr.id] } hkey
  simp only [show ¬ ((0 : Int) < 0) by decide, if_false, hrm, fail_all, List.foldl_cons,
    List.foldl_nil, fail]
  cases hg : env.xseg.get_request with
  | none => exact ⟨st.released, rfl⟩
  | some h =>
    refine ⟨st.released ++ [h], ?_⟩
    rcases hread with h1 | h1 | h1 | h1 | h1
    · rw [hg] at h1; cases h1
    · simp [h1]
    · by_cases h2 : env.xseg.prep_ok = true <;> simp [h1, h2]
    · by_cases h2 : env.xseg.prep_ok = true <;> by_cases h3 : env.get_target_ok = true <;>
        simp [h1, h2, h3]
    · by_cases h2 : env.xseg.prep_ok = true <;> by_cases h3 : env.get_target_ok = true <;>
        by_cases h4 : env.xseg.set_req_data_ok = true <;> simp [h1, h2, h3, h4]

theorem dirty_run : (dispatch_two peerd_dirty load_before 1 2).toOption = some dirty_both := by
  decide

theorem insert_map_found (hashmaps : List map) (m : map)
    (h : (find_map hashmaps m.volume m.volumelen).isSome = true) :
    insert_map hashmaps m = (-1, hashmaps) := by
  simp [insert_map, h]

/-- The translation returns -1 when the table has no entry at the first
index of the request. -/
theorem req2objs_missing_first (fuel : Nat) (sha256 : List Nat → List Nat) (env : xseg_env)
    (nr_ops : Nat) (st : r2o_state) (write : Bool) (nr_objs : Nat)
    (hc : calc_nr_obj fuel st.pr.req = some nr_objs) (hr : env.resize_ok = true)
    (hf : find_object st.map ((st.pr.req.offset % U64) / block_size) = none) :
    req2objs fuel sha256 env nr_ops st write
      = some (-1, { st with reply := { cnt := nr_objs, segs := [] } }) := by
  simp only [req2objs, hc, hr, visit_object, hf, Bool.not_true, Bool.false_eq_true, if_false]

/-- Label `out_fail` of `handle_mapread` is taken for a failed reply whose
target is cached: the requests parked on the map are failed in queue order and
the map found is removed. -/
theorem handle_mapread_failed (W : peerd) (d : mstate → Nat → Except stop mstate) (fuel : Nat)
    (st : mstate) (req : backing_reply) (m : map)
    (hm : find_map st.hashmaps req.target req.targetlen = some m) (hf : req.failed = true) :
    ∃ st1, handle_mapread W d fuel st req = Except.ok st1 ∧
      st1.log = st.log ++ m.pending.map event.fail ∧
      st1.hashmaps = remove_map st.hashmaps m ∧
      st1.released = st.released ++ [req.handle] := by
  refine ⟨handle_mapread_out_fail st m req, ?_, ?_, ?_, ?_⟩
  · simp only [handle_mapread, hm, hf, if_true]
  · simp only [handle_mapread_out_fail, fail_all_log, put_request]
  · have h : ∀ (q : List Nat) (s : mstate), (fail_all s q).hashmaps = s.hashmaps := by
      intro q
      induction q with
      | nil => intro s; rfl
      | cons p q ih => intro s; simp only [fail_all, List.foldl_cons] at ih ⊢; rw [ih]; rfl
    simp only [handle_mapread_out_fail, h, put_request]
  · have h : ∀ (q : List Nat) (s : mstate), (fail_all s q).released = s.released := by
      intro q
      induction q with
      | nil => intro s; rfl
      | cons p q ih => intro s; simp only [fail_all, List.foldl_cons] at ih ⊢; rw [ih]; rfl
    simp only [handle_mapread_out_fail, h, put_request]

/-- C23 (fails): after two client requests for volume `v`, absent from the
cache, in memory where `malloc` returns non-zero bytes, the cache holds two
maps with the same volume string: `load_map` leaves the bytes of `volume`
after the name as `malloc` returned them, so the map is stored under the name
followed by those bytes, and `find_map`, which looks up the name cut at
`targetlen`, does not find it.  `insert_map` of the second map succeeds
although a map with the same `volume` and `volumelen` is cached.  What holds:
`insert_map` fails with -1 and leaves the cache as it is whenever `find_map`
finds the name, and a CLONE onto a name that `find_map` finds is failed
without a change of the cache. -/
theorem cache_holds_two_maps_of_one_volume :
    (dispatch_two peerd_dirty load_before 1 2).toOption = some dirty_both ∧
    dirty_both.hashmaps.map (fun m => (m.volume, m.volumelen, map_key m))
      = [(dirty_volume, 1, [118] ++ List.replicate (XSEG_MAX_TARGET_LEN - 1) 170),
         (dirty_volume, 1, [118] ++ List.replicate (XSEG_MAX_TARGET_LEN - 1) 170)] ∧
    find_map [dirty_map 1] [118] 1 = none ∧
    insert_map [dirty_map 1] (dirty_map 2) = (0, [dirty_map 1, dirty_map 2]) ∧
    (∀ (hashmaps : List map) (m : map),
      (find_map hashmaps m.volume m.volumelen).isSome = true →
      insert_map hashmaps m = (-1, hashmaps)) ∧
    (dispatch 1 test_peerd
        { s6_before [65] [66] with hashmaps := [s6_parent [65] [66], s6_clone [65] [66]] } 1
        none).toOption.map (fun s => (s.log, s.hashmaps))
      = some ([event.dispatch 1 none, event.fail 1],
          [s6_parent [65] [66], s6_clone [65] [66]]) := by
  refine ⟨dirty_run, by decide, by decide, by decide, insert_map_found, by decide⟩

/-- C24 (fails): two client requests for volume `v`, absent from the cache,
in memory where `malloc` returns non-zero bytes: `find_or_load_map` returns
`MF_PENDING` for both, but each call loads the volume: two READs are
submitted and the cache holds two LOADING maps, with the queues `[1]` and
`[2]`.  In zeroed memory the scenario runs as expected: one READ (offset 0,
size `block_size`, target `v`), `MF_PENDING` twice and one LOADING map with
the queue `[1, 2]`. -/
theorem load_is_repeated_in_dirty_memory :
    (find_or_load_two peerd_dirty load_before (mapr0 1) (mapr0 2)).map
        (fun r => (r.1, r.2.1)) = some (MF_PENDING, MF_PENDING) ∧
    (find_or_load_two peerd_dirty load_before (mapr0 1) (mapr0 2)).map
        (fun r => (r.2.2.hashmaps.map (fun m => (m.flags, m.pending)), r.2.2.submitted))
      = some ([(MF_MAP_LOADING, [1]), (MF_MAP_LOADING, [2])],
          [⟨100, read_request [118] 1, 1⟩, ⟨101, read_request [118] 1, 2⟩]) ∧
    (dispatch_two peerd_dirty load_before 1 2).toOption.map
        (fun s => (s.submitted.map (fun r => r.handle), s.hashmaps.map (fun m => m.pending),
          s.log))
      = some ([100, 101], [[1], [2]], [event.dispatch 1 none, event.dispatch 2 none]) ∧
    (find_or_load_two test_peerd load_before (mapr0 1) (mapr0 2)).map
        (fun r => (r.1, r.2.1)) = some (MF_PENDING, MF_PENDING) ∧
    (find_or_load_two test_peerd load_before (mapr0 1) (mapr0 2)).map
        (fun r => (r.2.2.hashmaps.map (fun m => (m.flags, m.pending)), r.2.2.submitted))
      = some ([(MF_MAP_LOADING, [1, 2])], [⟨100, read_request [118] 1, 1⟩]) ∧
    read_request [118] 1
      = { op := xseg_op.X_READ, target := [118], targetlen := 1, offset := 0,
          size := block_size, copy_target := [] } ∧
    (dispatch_two test_peerd load_before 1 2).toOption = some load_both := by
  refine ⟨by decide, by decide, by decide, by decide, by decide, rfl, by decide⟩

/-- C25 (fails): in memory where `malloc` returns non-zero bytes the map of
volume `v` is stored under a key `find_map` does not look up, so when the
reply to its READ comes back, failed or with a block `read_map` would reject,
`handle_mapread` finds no map: the parked requests 1 and 2 are not failed and
the maps stay in the cache.  In zeroed memory the claim holds: both parked
requests are failed in order, the map is removed and the next request for
`v` starts a load with a new READ; for every state, a failed reply whose
target is cached fails the queue of the map found and removes that map. -/
theorem failed_load_is_not_cleaned_up_in_dirty_memory :
    (dispatch 2 peerd_dirty dirty_both 1 (some (read_reply 100 true))).toOption
      = some { dirty_both with
          released := [100],
          log := dirty_both.log ++ [event.dispatch 1 (some 100)],
          tick := 3 } ∧
    (dispatch 2 peerd_dirty dirty_both 1 (some (zero_magic_reply 100))).toOption
      = some { dirty_both with
          released := [100],
          log := dirty_both.log ++ [event.dispatch 1 (some 100)],
          tick := 3 } ∧
    (dispatch 2 test_peerd load_both 1 (some (read_reply 100 true))).toOption
      = some { load_both with
          hashmaps := [],
          released := [100],
          log := load_both.log ++ [event.dispatch 1 (some 100), event.fail 1, event.fail 2],
          tick := 3 } ∧
    (dispatch 2 test_peerd load_both 1 (some (zero_magic_reply 100))).toOption
      = (dispatch 2 test_peerd load_both 1 (some (read_reply 100 true))).toOption ∧
    ((dispatch 2 test_peerd load_both 1 (some (read_reply 100 true))).toOption.bind
        (fun s => (dispatch 2 test_peerd s 2 none).toOption)).map
        (fun s => (s.hashmaps.map (fun m => (m.flags, m.pending)),
          s.submitted.map (fun r => r.handle)))
      = some ([(MF_MAP_LOADING, [2])], [100, 103]) ∧
    (∀ (W : peerd) (d : mstate → Nat → Except stop mstate) (fuel : Nat) (st : mstate)
        (req : backing_reply) (m : map),
      find_map st.hashmaps req.target req.targetlen = some m → req.failed = true →
      ∃ st1, handle_mapread W d fuel st req = Except.ok st1 ∧
        st1.log = st.log ++ m.pending.map event.fail ∧
        st1.hashmaps = remove_map st.hashmaps m ∧
        st1.released = st.released ++ [req.handle]) := by
  refine ⟨by decide, by decide, by decide, by decide, by decide, handle_mapread_failed⟩

/-- C26: when the READ of a fresh load cannot be issued (`xseg_get_request`
returns no request, or preparing, addressing or submitting it fails), for a
name of at most 64 bytes that `find_map` does not find and with no cached map
stored under the string of the new volume buffer, `find_or_load_map` returns
-1, the cache is as it was before the call (the map inserted is removed) and
exactly one request is failed, the requesting one. -/
theorem load_failure_fails_the_requester (W : peerd) (env : handler_env)
    (d : mstate → Nat → Except stop mstate) (st : mstate) (pr : peer_req)
    (target : List Nat) (targetlen : Nat)
    (hfresh : find_map st.hashmaps target targetlen = none)
    (hlen : targetlen ≤ XSEG_MAX_TARGET_LEN)
    (hkey : ∀ x ∈ st.hashmaps, map_key x ≠
      cstr ((strncpy_bytes target targetlen ++ env.heap.drop targetlen).take XSEG_MAX_TARGET_LEN
        ++ [0]))
    (hmal : env.malloc_ok = true) (hxq : env.xq_alloc_ok = true)
    (hxh : env.xhash_new_ok = true) (hops : 0 < W.nr_ops)
    (hread : env.xseg.get_request = none ∨ env.xseg.prep_ok = false ∨ env.get_target_ok = false ∨
      env.xseg.set_req_data_ok = false ∨ env.xseg.submit_ok = false) :
    ∃ st1, find_or_load_map W env d st pr target targetlen = Except.ok (-1, none, st1) ∧
      st1.hashmaps = st.hashmaps ∧ st1.log = st.log ++ [event.fail pr.id] ∧
      st1.peer_reqs = st.peer_reqs ∧ st1.submitted = st.submitted ∧
      st1.replies = st.replies := by
  obtain ⟨rel, h⟩ := load_map_read_not_issued W env d st pr target targetlen hfresh hlen hkey
    hmal hxq hxh hops hread
  refine ⟨{ st with log := st.log ++ [event.fail pr.id], released := rel }, ?_, rfl, rfl, rfl,
    rfl, rfl⟩
  simp only [find_or_load_map, hfresh, h]
  rfl

theorem load_failure_fails_the_requester_witness :
    ∃ st1, find_or_load_map test_peerd henv_no_request record_dispatch s2_before
        { mapr0 3 with req := { (mapr0 3).req with target := [119] } } [119] 1
        = Except.ok (-1, none, st1) ∧
      st1.hashmaps = s2_before.hashmaps ∧ st1.log = s2_before.log ++ [event.fail 3] ∧
      st1.peer_reqs = s2_before.peer_reqs ∧ st1.submitted = s2_before.submitted ∧
      st1.replies = s2_before.replies :=
  load_failure_fails_the_requester test_peerd henv_no_request record_dispatch s2_before
    { mapr0 3 with req := { (mapr0 3).req with target := [119] } } [119] 1
    (by decide) (by decide) (by decide) rfl rfl rfl (by decide) (Or.inl rfl)

/-- C27 (fails): a CLONE of exactly one block makes a map `v2` of size
`block_size` with entries at the indices 0 and 1, and a MAPR of 512 bytes at
offset `block_size`, which touches only index 1 = `⌈size/block_size⌉`, is
completed with a segment of the parent's object 1.  On the decoded map of
size `block_size` with one entry, a MAPR of 512 bytes at offset
`block_size - 256`, whose range ends in block 1, is completed with one segment
of object 0.  What holds: when the table has no entry at the first index of
the request the translation returns -1, and the MAPR at offset `block_size` of
the decoded map is failed. -/
theorem access_past_the_end_is_completed :
    (dispatch_two test_peerd s6_one_block 1 2).toOption.map
        (fun s => s.hashmaps.map (fun m => (m.volume.take 2, m.size, m.flags,
          m.objects.map (fun e => e.1))))
      = some [([118, 49], 2 * block_size, 0, [0, 1]), ([118, 50], block_size, 0, [0, 1])] ∧
    (dispatch_two test_peerd s6_one_block 1 2).toOption.map (fun s => (s.log, s.replies))
      = some ([event.dispatch 1 none, event.complete 1, event.dispatch 2 none, event.complete 2],
          [(2, reply_data.map_reply { cnt := 1, segs := [⟨[66], 0, 512⟩] })]) ∧
    (block_size + block_size - 1) / block_size = 1 ∧
    (load_and_decode (block_size - 256) 512).toOption.map
        (fun s => (s.hashmaps.map (fun m => (m.size, m.flags, m.objects.map (fun e => e.1))),
          s.log, s.replies))
      = some ([(block_size, 0, [0])],
          [event.dispatch 1 none, event.dispatch 1 (some 100), event.dispatch 1 none,
           event.complete 1],
          [(1, reply_data.map_reply
            { cnt := 1, segs := [⟨test_name 7, block_size - 256, 512⟩] })]) ∧
    (load_and_decode block_size 512).toOption.map
        (fun s => (s.hashmaps.map (fun m => (m.size, m.flags, m.objects.map (fun e => e.1))),
          s.log, s.replies))
      = some ([(block_size, 0, [0])],
          [event.dispatch 1 none, event.dispatch 1 (some 100), event.dispatch 1 none,
           event.fail 1],
          [(1, reply_data.map_reply { cnt := 1, segs := [] })]) ∧
    (∀ (fuel : Nat) (sha256 : List Nat → List Nat) (env : xseg_env) (nr_ops : Nat)
        (st : r2o_state) (write : Bool) (nr_objs : Nat),
      calc_nr_obj fuel st.pr.req = some nr_objs → env.resize_ok = true →
      find_object st.map ((st.pr.req.offset % U64) / block_size) = none →
      req2objs fuel sha256 env nr_ops st write
        = some (-1, { st with reply := { cnt := nr_objs, segs := [] } })) := by
  refine ⟨by decide, by decide, by decide, by decide, by decide, req2objs_missing_first⟩

/-! ## Termination of the handlers -/

/-- A client request with operation MAPR goes to `handle_mapr`. -/
theorem dispatch_mapr_client (k : Nat) (W : peerd) (st : mstate) (pr_id : Nat) (pr : peer_req)
    (hget : get_pr st pr_id = some pr) (hop : pr.req.op = xseg_op.X_MAPR) :
    dispatch (k + 1) W st pr_id none
      = handle_mapr W (W.envs st.tick) k (fun s p => dispatch k W s p none)
          { st with tick := st.tick + 1, log := st.log ++ [event.dispatch pr_id none] } pr := by
  simp only [get_pr] at hget
  simp only [dispatch, dispatch_body, get_pr, hget, own_request, hop]
  simp

theorem run_req2objs_diverges (W : peerd) (env : handler_env) (fuel : Nat) (st : mstate)
    (pr : peer_req) (m : map) (write : Bool) (hs : pr.req.size < U64)
    (hoff : pr.req.offset < U64) (hgt : pr.req.size > block_size)
    (hend : (pr.req.offset + pr.req.size) % block_size ≠ 0) :
    run_req2objs W env fuel st pr m write = Except.error stop.out_of_fuel := by
  simp only [run_req2objs]
  rw [req2objs_diverges fuel W.sha256 env.xseg W.nr_ops _ write hs hoff hgt hend]

/-- C31 (fails): a MAPR or MAPW for a cached READY map whose size exceeds
`block_size` and whose end is not on a block boundary: for no amount of fuel
does the handler return a state; the counting loop of `calc_nr_obj` never
ends, because `rem_size - block_size > 0` is an unsigned comparison. -/
theorem handler_never_returns_on_unaligned_end (fuel : Nat) (W : peerd) (st : mstate)
    (id : Nat) (pr : peer_req) (m : map)
    (hget : get_pr st id = some pr)
    (hop : pr.req.op = xseg_op.X_MAPR ∨ pr.req.op = xseg_op.X_MAPW)
    (hm : find_map st.hashmaps pr.req.target pr.req.targetlen = some m)
    (hl : m.flags &&& MF_MAP_LOADING = 0) (hd : m.flags &&& MF_MAP_DESTROYED = 0)
    (herr : pr.mio.err = 0)
    (hs : pr.req.size < U64) (hoff : pr.req.offset < U64) (hgt : pr.req.size > block_size)
    (hend : (pr.req.offset + pr.req.size) % block_size ≠ 0) :
    dispatch fuel W st id none = Except.error stop.out_of_fuel := by
  cases fuel with
  | zero => rfl
  | succ k =>
    have h1 : (0 : Int) = MF_PENDING ↔ False := by decide
    rcases hop with hop | hop
    · rw [dispatch_mapr_client k W st id pr hget hop]
      simp only [handle_mapr, find_or_load_map, hm, hl, hd]
      simp [h1, hd, run_req2objs_diverges _ _ _ _ pr m false hs hoff hgt hend]
    · rw [dispatch_mapw_client k W st id pr hget hop]
      have h2 := run_req2objs_diverges W (W.envs st.tick) k
        { st with tick := st.tick + 1, log := st.log ++ [event.dispatch id none] }
        { pr with mio := { pr.mio with err := 0 } } m true hs hoff hgt hend
      simp only [handle_mapw_client, find_or_load_map, hm, hl, hd]
      simp [h1, hd, herr, h2]

theorem handler_never_returns_on_unaligned_end_witness :
    dispatch 1000 test_peerd
        { s2_before with peer_reqs := [map_req xseg_op.X_MAPR 0 (block_size + 512)] } 1 none
      = Except.error stop.out_of_fuel :=
  handler_never_returns_on_unaligned_end 1000 test_peerd
    { s2_before with peer_reqs := [map_req xseg_op.X_MAPR 0 (block_size + 512)] } 1
    (map_req xseg_op.X_MAPR 0 (block_size + 512)) s2_map (by decide) (Or.inl rfl) (by decide)
    (by decide) (by decide) rfl (by decide) (by decide) (by decide) (by decide)

/-! ## Failure to issue a COPY -/

theorem store_first_same {α : Type} (p : α → Bool) :
    ∀ (l : List α) (x : α), l.find? p = some x → store_first p x l = l := by
  intro l
  induction l with
  | nil => intro x h; simp at h
  | cons y l ih =>
    intro x h
    rw [List.find?_cons] at h
    rw [store_first_cons]
    by_cases hy : p y = true
    · rw [hy] at h
      cases h
      rw [if_pos hy]
    · have hy1 : p y = false := by simpa using hy
      rw [hy1] at h
      rw [if_neg hy, ih x h]

/-- A store of the map a lookup returned, unchanged, leaves the cache as it
is. -/
theorem put_map_same (st : mstate) (m : map) (target : List Nat) (targetlen : Nat)
    (h : find_map st.hashmaps target targetlen = some m) : put_map st m = st := by
  have hk : map_key m = cstr (strncpy_bytes target targetlen ++ [0]) := by
    have := List.find?_some h
    simpa using this
  simp only [find_map] at h
  simp only [put_map, hk]
  rw [store_first_same _ st.hashmaps m h]

/-- `copyup_object` never stores through the map. -/
theorem copyup_object_map (sha256 : List Nat → List Nat) (env : xseg_env) (key : Nat)
    (mn : map_node) (st : r2o_state) :
    (copyup_object sha256 env key mn st).2.map = st.map ∧
    (copyup_object sha256 env key mn st).2.reply = st.reply ∧
    (copyup_object sha256 env key mn st).2.pr.id = st.pr.id ∧
    (copyup_object sha256 env key mn st).2.pr.req = st.pr.req := by
  simp only [copyup_object]
  split
  · exact ⟨rfl, rfl, rfl, rfl⟩
  · split
    · exact ⟨rfl, rfl, rfl, rfl⟩
    · split
      · exact ⟨rfl, rfl, rfl, rfl⟩
      · split <;> exact ⟨rfl, rfl, rfl, rfl⟩

/-- When the COPY request cannot be obtained, prepared or submitted,
`copyup_object` returns -1 and submits nothing. -/
theorem copyup_object_fails (sha256 : List Nat → List Nat) (env : xseg_env) (key : Nat)
    (mn : map_node) (st : r2o_state)
    (hfail : env.get_request = none ∨ env.prep_ok = false ∨ env.set_req_data_ok = false ∨
      env.submit_ok = false) :
    (copyup_object sha256 env key mn st).1 = -1 ∧
    (copyup_object sha256 env key mn st).2.submitted = st.submitted := by
  simp only [copyup_object]
  cases hg : env.get_request with
  | none => exact ⟨rfl, rfl⟩
  | some h =>
    rcases hfail with h1 | h1 | h1 | h1
    · rw [hg] at h1; cases h1
    · simp [h1]
    · by_cases h2 : env.prep_ok = true <;> simp [h1, h2]
    · by_cases h2 : env.prep_ok = true <;> by_cases h3 : env.set_req_data_ok = true <;>
        simp [h1, h2, h3]

/-- A visit that ends the translation with an error leaves the map as it
was: no flag is set and no queue is touched. -/
theorem visit_object_error_map (sha256 : List Nat → List Nat) (env : xseg_env)
    (nr_ops : Nat) (write : Bool) (idx oi off sz : Nat) (st : r2o_state) (r : Int)
    (st1 : r2o_state)
    (h : visit_object sha256 env nr_ops write idx oi off sz st = Except.error (r, st1))
    (hr : r < 0) : st1.map = st.map := by
  simp only [visit_object] at h
  split at h
  · cases h; rfl
  · rename_i mn hf
    split at h
    · simp only [out_object_copying] at h
      cases h
      exact absurd hr (by decide)
    · split at h
      · have hm := (copyup_object_map sha256 env oi mn st).1
        revert h
        generalize copyup_object sha256 env oi mn st = res at hm
        obtain ⟨r1, s1⟩ := res
        intro h
        simp only at h hm
        split at h
        · cases h; exact hm
        · simp only [out_object_copying] at h
          cases h
          exact absurd hr (by decide)
      · cases h

theorem req2objs_loop_error_map (sha256 : List Nat → List Nat) (env : xseg_env)
    (nr_ops : Nat) (write : Bool) :
    ∀ (fuel rem idx oi : Nat) (st : r2o_state) (r : Int) (rs : r2o_state),
      req2objs_loop sha256 env nr_ops write fuel rem idx oi st = some (r, rs) → r < 0 →
      rs.map = st.map := by
  intro fuel
  induction fuel with
  | zero => intro rem idx oi st r rs h; simp [req2objs_loop] at h
  | succ n ih =>
    intro rem idx oi st r rs h hr
    simp only [req2objs_loop] at h
    split at h
    · split at h
      · rename_i res hv
        cases h
        exact visit_object_error_map _ _ _ _ _ _ _ _ _ _ _ hv hr
      · rename_i st1 hv
        rw [ih _ _ _ _ _ _ h hr]
        exact (visit_object_ok_frame _ _ _ _ _ _ _ _ _ _ hv).1
    · cases h
      exact absurd hr (by decide)

/-- When `req2objs` returns an error the map is as it was before the call. -/
theorem req2objs_error_map (fuel : Nat) (sha256 : List Nat → List Nat) (env : xseg_env)
    (nr_ops : Nat) (st : r2o_state) (write : Bool) (r : Int) (rs : r2o_state)
    (h : req2objs fuel sha256 env nr_ops st write = some (r, rs)) (hr : r < 0) :
    rs.map = st.map := by
  simp only [req2objs] at h
  split at h
  · cases h
  · split at h
    · cases h; rfl
    · split at h
      · rename_i res hv
        cases h
        exact (visit_object_error_map _ _ _ _ _ _ _ _ _ _ _ hv hr).trans rfl
      · rename_i st1 hv
        rw [req2objs_loop_error_map _ _ _ _ _ _ _ _ _ _ _ h hr]
        exact ((visit_object_ok_frame _ _ _ _ _ _ _ _ _ _ hv).1).trans rfl

/-- A visit of an entry that needs a copy-up, when the COPY cannot be issued,
ends the translation with -1. -/
theorem visit_object_copyup_fails (sha256 : List Nat → List Nat) (env : xseg_env)
    (nr_ops idx oi off sz : Nat) (st : r2o_state) (mn : map_node)
    (hf : find_object st.map oi = some mn) (he : mn.flags &&& MF_OBJECT_EXIST = 0)
    (hc : mn.flags &&& MF_OBJECT_COPYING = 0)
    (hfail : env.get_request = none ∨ env.prep_ok = false ∨ env.set_req_data_ok = false ∨
      env.submit_ok = false) :
    visit_object sha256 env nr_ops true idx oi off sz st
      = Except.error (-1, (copyup_object sha256 env oi mn st).2) := by
  have h1 : (mn.flags &&& MF_OBJECT_COPYING != 0) = false := by rw [hc]; decide
  have h2 : (mn.flags &&& MF_OBJECT_EXIST != 0) = false := by rw [he]; decide
  have h3 := (copyup_object_fails sha256 env oi mn st hfail).1
  simp only [visit_object, hf, h1, h2, Bool.and_false, Bool.false_eq_true, if_false,
    Bool.not_false, Bool.and_self, if_true]
  generalize copyup_object sha256 env oi mn st = res at h3
  obtain ⟨r1, s1⟩ := res
  simp only at h3
  subst h3
  simp

/-- C32: when `copyup_object` cannot obtain, prepare or submit the COPY
request it returns -1; a MAPW whose first entry needs a copy-up is then failed
once and not completed, nothing is submitted and the cache is as before: the
entry gets no COPYING flag and its queue is not touched.  For every request,
whenever `req2objs` returns an error the map is as it was before the call. -/
theorem copy_issue_failure_fails_request (k : Nat) (W : peerd) (st : mstate) (id : Nat)
    (pr : peer_req) (m : map) (mn : map_node) (nr : Nat)
    (hget : get_pr st id = some pr) (hop : pr.req.op = xseg_op.X_MAPW)
    (hm : find_map st.hashmaps pr.req.target pr.req.targetlen = some m)
    (hl : m.flags &&& MF_MAP_LOADING = 0) (hd : m.flags &&& MF_MAP_DESTROYED = 0)
    (herr : pr.mio.err = 0)
    (hnr : calc_nr_obj k pr.req = some nr) (hres : (W.envs st.tick).xseg.resize_ok = true)
    (hfind : find_object m ((pr.req.offset % U64) / block_size) = some mn)
    (he : mn.flags &&& MF_OBJECT_EXIST = 0) (hc : mn.flags &&& MF_OBJECT_COPYING = 0)
    (hfail : (W.envs st.tick).xseg.get_request = none ∨ (W.envs st.tick).xseg.prep_ok = false ∨
      (W.envs st.tick).xseg.set_req_data_ok = false ∨ (W.envs st.tick).xseg.submit_ok = false) :
    (∀ (key : Nat) (node : map_node) (s : r2o_state),
      (copyup_object W.sha256 (W.envs st.tick).xseg key node s).1 = -1 ∧
      (copyup_object W.sha256 (W.envs st.tick).xseg key node s).2.map = s.map) ∧
    (∃ st1, dispatch (k + 1) W st id none = Except.ok st1 ∧
      st1.log = st.log ++ [event.dispatch id none, event.fail pr.id] ∧
      st1.hashmaps = st.hashmaps ∧ st1.submitted = st.submitted) ∧
    (∀ (fuel : Nat) (s : r2o_state) (write : Bool) (r : Int) (rs : r2o_state),
      req2objs fuel W.sha256 (W.envs st.tick).xseg W.nr_ops s write = some (r, rs) → r < 0 →
      rs.map = s.map) := by
  refine ⟨fun key node s => ⟨(copyup_object_fails _ _ key node s hfail).1,
    (copyup_object_map _ _ key node s).1⟩, ?_,
    fun fuel s write r rs h hr => req2objs_error_map fuel _ _ _ s write r rs h hr⟩
  rw [dispatch_mapw_client k W st id pr hget hop]
  have hreq : ∀ reply0 : xseg_reply_map,
      req2objs k W.sha256 (W.envs st.tick).xseg W.nr_ops
        { map := m, pr := { pr with mio := { pr.mio with err := 0 } }, reply := reply0,
          submitted := st.submitted, released := st.released } true
      = some (-1, (copyup_object W.sha256 (W.envs st.tick).xseg
          ((pr.req.offset % U64) / block_size) mn
          { map := m, pr := { pr with mio := { pr.mio with err := 0 } },
            reply := { cnt := nr, segs := [] }, submitted := st.submitted,
            released := st.released }).2) := by
    intro reply0
    exact req2objs_first_visit k _ _ _ _ true nr _ hnr hres
      (visit_object_copyup_fails _ _ _ _ _ _ _ _ mn hfind he hc hfail)
  have hrun := run_req2objs_some W (W.envs st.tick) k
    { st with tick := st.tick + 1, log := st.log ++ [event.dispatch id none] }
    { pr with mio := { pr.mio with err := 0 } } m true (-1) _ hreq
  rw [handle_mapw_client_translates W (W.envs st.tick) k _
    { st with tick := st.tick + 1, log := st.log ++ [event.dispatch id none] } pr m (-1) _ hm
    hl hd herr hrun]
  refine ⟨_, rfl, ?_, ?_, ?_⟩
  · simp [fail, put_pr, put_map]
  · have hmap := (copyup_object_map W.sha256 (W.envs st.tick).xseg
      ((pr.req.offset % U64) / block_size) mn
      { map := m, pr := { pr with mio := { pr.mio with err := 0 } },
        reply := { cnt := nr, segs := [] }, submitted := st.submitted,
        released := st.released }).1
    have hsame := put_map_same
      { st with tick := st.tick + 1, log := st.log ++ [event.dispatch id none] } m
      pr.req.target pr.req.targetlen hm
    simp only [show ((-1 : Int) < 0) by decide, if_true, fail, put_pr]
    rw [hmap, hsame]
  · have hsub := (copyup_object_fails W.sha256 (W.envs st.tick).xseg
      ((pr.req.offset % U64) / block_size) mn
      { map := m, pr := { pr with mio := { pr.mio with err := 0 } },
        reply := { cnt := nr, segs := [] }, submitted := st.submitted,
        released := st.released } hfail).2
    simp only [show ((-1 : Int) < 0) by decide, if_true, fail]
    exact hsub

theorem copy_issue_failure_fails_request_witness :
    ∃ st1, dispatch 2 peerd_no_request s2_before 1 none = Except.ok st1 ∧
      st1.log = s2_before.log ++ [event.dispatch 1 none, event.fail (mapw5 1).id] ∧
      st1.hashmaps = s2_before.hashmaps ∧ st1.submitted = s2_before.submitted :=
  (copy_issue_failure_fails_request 1 peerd_no_request s2_before 1 (mapw5 1) s2_map
    (named_node 5 0 [50, 53]) 1 (by decide) rfl (by decide) (by decide) (by decide) rfl
    (by decide) rfl (by decide) (by decide) (by decide) (Or.inl rfl)).2.1

/-- Failure of the submission in `copyup_object`: the call returns -1 and
the request is given back, but the binding of its handle stays in
`copyups_nodes`. -/
theorem copyup_object_submit_fails (sha256 : List Nat → List Nat) (env : xseg_env) (key : Nat)
    (mn : map_node) (st : r2o_state) (h : Nat)
    (hreq : env.get_request = some h) (hprep : env.prep_ok = true)
    (hset : env.set_req_data_ok = true) (hins : env.copyups_insert_ok = true)
    (hsub : env.submit_ok = false) :
    copyup_object sha256 env key mn st
      = (-1, { st with
          pr := { st.pr with mio := set_copyup_node st.pr.mio h (st.map.volume, key) },
          released := st.released ++ [h] }) := by
  simp [copyup_object, hreq, hprep, hset, hins, hsub]

/-- Failures of `copyup_object` before the binding is made leave
`copyups_nodes` as it was. -/
theorem copyup_object_early_failure (sha256 : List Nat → List Nat) (env : xseg_env) (key : Nat)
    (mn : map_node) (st : r2o_state)
    (hfail : env.get_request = none ∨ env.prep_ok = false ∨ env.set_req_data_ok = false) :
    (copyup_object sha256 env key mn st).1 = -1 ∧
    (copyup_object sha256 env key mn st).2.pr = st.pr := by
  simp only [copyup_object]
  cases hg : env.get_request with
  | none => exact ⟨rfl, rfl⟩
  | some h =>
    rcases hfail with h1 | h1 | h1
    · rw [hg] at h1; cases h1
    · simp [h1]
    · by_cases h2 : env.prep_ok = true <;> simp [h1, h2]

/-- C37 (fails): when `xseg_submit` fails, `copyup_object` returns -1 after
`__set_copyup_node` has bound the handle of the request to the entry, and
nothing removes the binding: the label `out_unset` only clears the request
data and gives the request back.  In scenario S2 with a failing submission the
MAPW is failed and the table of peer request 1, empty before, binds the
released handle 100 to entry 5.  What holds: when the request cannot be
obtained or prepared the table is as before the call. -/
theorem failed_submit_leaves_binding :
    (∀ (sha256 : List Nat → List Nat) (env : xseg_env) (key : Nat) (mn : map_node)
        (st : r2o_state) (h : Nat),
      env.get_request = some h → env.prep_ok = true → env.set_req_data_ok = true →
      env.copyups_insert_ok = true → env.submit_ok = false →
      ∃ st1, copyup_object sha256 env key mn st = (-1, st1) ∧
        xhash_lookup st1.pr.mio.copyups_nodes h = some (st.map.volume, key) ∧
        st1.released = st.released ++ [h] ∧ st1.submitted = st.submitted) ∧
    (dispatch 2 peerd_no_submit s2_before 1 none).toOption.map
        (fun s => s.peer_reqs.map (fun p => (p.id, p.mio.copyups_nodes)))
      = some [(1, [(100, (s2_map.volume, 5))]), (2, [])] ∧
    (dispatch 2 peerd_no_submit s2_before 1 none).toOption.map
        (fun s => (s.released, s.log, s.submitted))
      = some ([100], [event.dispatch 1 none, event.fail 1], []) ∧
    s2_before.peer_reqs.map (fun p => (p.id, p.mio.copyups_nodes)) = [(1, []), (2, [])] ∧
    (∀ (sha256 : List Nat → List Nat) (env : xseg_env) (key : Nat) (mn : map_node)
        (st : r2o_state),
      env.get_request = none ∨ env.prep_ok = false ∨ env.set_req_data_ok = false →
      (copyup_object sha256 env key mn st).1 = -1 ∧
      (copyup_object sha256 env key mn st).2.pr = st.pr) := by
  refine ⟨?_, by decide, by decide, by decide, copyup_object_early_failure⟩
  intro sha256 env key mn st h hreq hprep hset hins hsub
  refine ⟨_, copyup_object_submit_fails sha256 env key mn st h hreq hprep hset hins hsub, ?_,
    rfl, rfl⟩
  exact xhash_lookup_insert_self _ _ _

/-! ## Responses of one dispatch -/

/-- A handler that gets -1 from `find_or_load_map` fails the request. -/
theorem handlers_fail_on_load_error (W : peerd) (env : handler_env) (fuel : Nat)
    (d : mstate → Nat → Except stop mstate) (st st1 : mstate) (pr : peer_req)
    (h : find_or_load_map W env d st pr pr.req.target pr.req.targetlen
      = Except.ok (-1, none, st1)) :
    handle_mapr W env fuel d st pr = Except.ok (fail st1 pr.id) ∧
    handle_mapw_client W env fuel d st pr = Except.ok (fail st1 pr.id) ∧
    (env.get_target_ok = true → handle_info W env d st pr = Except.ok (fail st1 pr.id)) := by
  refine ⟨?_, ?_, ?_⟩
  · simp [handle_mapr, h]
  · simp [handle_mapw_client, h]
  · intro hg
    simp [handle_info, h, hg]

/-- C39 (fails): when the READ of a load cannot be issued, `load_map` fails
the request it has just queued on the new map (label `out_fail`) and returns
-1; `find_or_load_map` passes the -1 on and the handler fails the request a
second time.  In the runs below, on an empty cache with `xseg_get_request`
returning no request, the dispatch of a MAPR, MAPW, INFO or CLONE request
invokes `fail` twice on the dispatched request. -/
theorem load_failure_fails_request_twice :
    (dispatch 2 peerd_no_request (load_one_before 0 512) 1 none).toOption.map (fun s => s.log)
      = some [event.dispatch 1 none, event.fail 1, event.fail 1] ∧
    (dispatch 2 peerd_no_request
        { load_before with peer_reqs := [map_req xseg_op.X_MAPW 0 512] } 1 none).toOption.map
        (fun s => s.log)
      = some [event.dispatch 1 none, event.fail 1, event.fail 1] ∧
    (dispatch 2 peerd_no_request
        { load_before with peer_reqs := [map_req xseg_op.X_INFO 0 0] } 1 none).toOption.map
        (fun s => s.log)
      = some [event.dispatch 1 none, event.fail 1, event.fail 1] ∧
    (dispatch 2 peerd_no_request
        { load_before with peer_reqs := [clone_req 1 block_size] } 1 none).toOption.map
        (fun s => s.log)
      = some [event.dispatch 1 none, event.fail 1, event.fail 1] ∧
    (∀ (W : peerd) (env : handler_env) (fuel : Nat) (d : mstate → Nat → Except stop mstate)
        (st st1 : mstate) (pr : peer_req),
      find_or_load_map W env d st pr pr.req.target pr.req.targetlen
        = Except.ok (-1, none, st1) →
      handle_mapr W env fuel d st pr = Except.ok (fail st1 pr.id) ∧
      handle_mapw_client W env fuel d st pr = Except.ok (fail st1 pr.id) ∧
      (env.get_target_ok = true → handle_info W env d st pr = Except.ok (fail st1 pr.id))) ∧
    (find_or_load_map peerd_no_request henv_no_request record_dispatch load_before (mapr0 1)
        [118] 1).toOption.map (fun r => (r.1, r.2.2.log, r.2.2.hashmaps))
      = some (-1, [event.fail 1], []) := by
  refine ⟨by decide, by decide, by decide, by decide, handlers_fail_on_load_error, by decide⟩

/-! ## Bounds of the native decode -/

theorem map_to_object_none (mn : map_node) (buf : List Nat)
    (h : buf.length < objectsize_in_map) : map_to_object mn buf = none := by
  simp [map_to_object, h]

/-- The native decode loop reads outside a buffer that is too short for the
records it is asked to decode. -/
theorem read_map_native_loop_past_end (buf : List Nat) :
    ∀ (n i pos : Nat) (m : map), buf.length < pos + objectsize_in_map * (n + 1) →
      read_map_native_loop buf (n + 1) i pos m = none := by
  have h65 : objectsize_in_map = 65 := rfl
  intro n
  induction n with
  | zero =>
    intro i pos m h
    have : (buf.drop pos).length < objectsize_in_map := by
      rw [List.length_drop]; omega
    rw [read_map_native_loop, map_to_object_none _ _ this]
  | succ n ih =>
    intro i pos m h
    by_cases hs : (buf.drop pos).length < objectsize_in_map
    · rw [read_map_native_loop, map_to_object_none _ _ hs]
    · rw [read_map_native_loop]
      have hs1 : objectsize_in_map ≤ (buf.drop pos).length := by omega
      rw [map_to_object_some _ _ hs1]
      rw [List.length_drop] at hs1
      exact ih _ _ _ (by rw [h65] at *; omega)

theorem past_block_buf_length : past_block_buf.length = block_size := by
  have h : magic_digest.length = 32 := rfl
  simp only [past_block_buf, List.length_append, List.length_replicate, h, le64_length]
  decide

theorem past_block_buf_size : header_size_field past_block_buf = 16132 * block_size := by
  have hml : magic_digest.length = SHA256_DIGEST_SIZE := rfl
  have hd : past_block_buf.drop SHA256_DIGEST_SIZE
      = le64 (16132 * block_size) ++ List.replicate (block_size - 40) 0 := by
    simp only [past_block_buf]
    rw [← hml, List.drop_left]
  have h8 : (le64 (16132 * block_size)).length = 8 := le64_length _
  simp only [header_size_field, hd]
  nth_rewrite 1 [← h8]
  rw [List.take_left]
  exact le64_decode_le64 _ (by decide)

/-- C38 (fails): `read_map` takes the number of records from the size field
of the header without comparing it with the size of the block.  For a block
whose first 32 bytes are the magic and whose header asks for more records than
fit behind the header (`40 + 65 * nr_objs > block_size`), with `calloc`
succeeding, the native branch reads records past the end of the block: the
call has no result in the model. -/
theorem native_decode_reads_past_block (P : platform) (m : map) (buf : List Nat)
    (hlen : buf.length = block_size)
    (hmagic : buf.take SHA256_DIGEST_SIZE = P.magic_sha256) (hnz : P.magic_sha256 ≠ nulls)
    (hc : P.calloc_ok (header_nr_objs buf) = true)
    (hbig : block_size < mapheader_size + objectsize_in_map * header_nr_objs buf) :
    read_map P m buf = none := by
  have hl : SHA256_DIGEST_SIZE ≤ buf.length := by rw [hlen]; decide
  rw [read_map_of_magic P m buf hl hmagic hnz]
  have hl8 : ¬ buf.length < SHA256_DIGEST_SIZE + 8 := by rw [hlen]; decide
  obtain ⟨k, hk⟩ : ∃ k, header_nr_objs buf = k + 1 := by
    cases hn : header_nr_objs buf with
    | zero =>
      rw [hn] at hbig
      simp only [mapheader_size, SHA256_DIGEST_SIZE, block_size] at hbig
      omega
    | succ k => exact ⟨k, rfl⟩
  simp only [header_nr_objs, header_size_field] at hc hk
  simp only [read_map_native, hl8, if_false, hc, Bool.not_true, Bool.false_eq_true]
  rw [hk, read_map_native_loop_past_end buf k 0 _ _ (by
    simp only [header_nr_objs, header_size_field] at hbig
    rw [hk] at hbig
    simp only [mapheader_size] at hbig
    omega)]

theorem native_decode_reads_past_block_witness :
    header_size_field past_block_buf = 16132 * block_size ∧
    16132 * block_size < U64 ∧
    mapheader_size + objectsize_in_map * 16131 ≤ block_size ∧
    block_size < mapheader_size + objectsize_in_map * 16132 ∧
    read_map test_platform empty_map past_block_buf = none := by
  have hml : magic_digest.length = SHA256_DIGEST_SIZE := rfl
  have ht : past_block_buf.take SHA256_DIGEST_SIZE = magic_digest := by
    simp only [past_block_buf]
    rw [← hml, List.take_left]
  have hn : header_nr_objs past_block_buf = 16132 := by
    simp only [header_nr_objs, past_block_buf_size]
    decide
  exact ⟨past_block_buf_size, by decide, by decide, by decide,
    native_decode_reads_past_block test_platform empty_map past_block_buf past_block_buf_length
      ht (by decide) rfl (by rw [hn]; decide)⟩

/-! ## Segment layout and spec strings -/

theorem tok_scan_colon (dflt : List Nat) (t rest : List Nat)
    (ht : ∀ c ∈ t, c ≠ 0 ∧ c ≠ 58) :
    ∀ acc, tok_scan dflt acc (t ++ 58 :: rest) = (acc ++ t, rest) := by
  induction t with
  | nil => intro acc; simp [tok_scan]
  | cons c t ih =>
    intro acc
    have hc := ht c (by simp)
    have := ih (fun x hx => ht x (by simp [hx])) (acc ++ [c])
    simp [tok_scan, hc.1, hc.2, this]

theorem tok_scan_end (dflt : List Nat) (t : List Nat) (ht : ∀ c ∈ t, c ≠ 0 ∧ c ≠ 58) :
    ∀ acc, tok_scan dflt acc (t ++ [0]) = (dflt, [0]) ∧ tok_scan dflt acc t = (dflt, []) := by
  induction t with
  | nil => intro acc; simp [tok_scan]
  | cons c t ih =>
    intro acc
    have hc := ht c (by simp)
    have := ih (fun x hx => ht x (by simp [hx])) (acc ++ [c])
    simp [tok_scan, hc.1, hc.2, this]

/-- C34 (fails): the two functions are not in sync.  `calculate_segment_size`
aligns the size after the array of ports and again after the queue bodies of
the ports; `initialize_segment` aligns only once, after the queue bodies.  For
the config with one port and one request (pages of 4096 bytes) and every
choice of structure sizes in which the port structure and the three queue
bodies of the port together fit in one page, `initialize_segment` lays out a
segment that is one page shorter than the size `calculate_segment_size`
returns.  On the config of the default spec, whose queue bodies fill whole
pages, the two sizes agree. -/
theorem segment_size_not_in_sync (S : xseg_sizes) (hport : 0 < S.sizeof_xseg_port)
    (hq : 0 < S.sizeof_xqindex) (hsum : S.sizeof_xseg_port + 3 * S.sizeof_xqindex ≤ 4096)
    (hreq : S.sizeof_xseg_request ≤ 4096) (hsh : S.sizeof_xseg_shared ≤ 4096) :
    12 ≤ small_config.page_shift ∧
    (initialize_segment S small_config).map (fun n => n + 4096)
      = some (calculate_segment_size S small_config) ∧
    initialize_segment test_sizes default_config
      = some (calculate_segment_size test_sizes default_config) := by
  refine ⟨by decide, ?_, by decide⟩
  simp only [initialize_segment, calculate_segment_size, small_config, seg_align,
    XSEG_MIN_PAGE_SIZE, U32, U64, List.range, List.range.loop, List.foldl]
  norm_num
  simp (disch := omega) only [Nat.mod_eq_of_lt]
  generalize hA : (8192 + S.sizeof_xseg_request + 4095) / 4096 * 4096 = A
  have hA1 : A % 4096 = 0 ∧ 8192 ≤ A ∧ A ≤ 12288 := by omega
  clear hA
  have h1 : (A + 4096 + S.sizeof_xseg_port + 4095) / 4096 * 4096 = A + 8192 := by omega
  have h2 : (A + 8192 + 3 * S.sizeof_xqindex + 4095) / 4096 * 4096 = A + 12288 := by omega
  have h3 : (A + 12288 + S.sizeof_xqindex + 4095) / 4096 * 4096 = A + 16384 := by omega
  have h4 : (A + 16384 + 4095) / 4096 * 4096 = A + 16384 := by omega
  have h5 : (A + 4096 + S.sizeof_xseg_port + S.sizeof_xqindex + S.sizeof_xqindex
      + S.sizeof_xqindex + 4095) / 4096 * 4096 = A + 8192 := by omega
  have h6 : (A + 8192 + S.sizeof_xqindex + 4095) / 4096 * 4096 = A + 12288 := by omega
  have h7 : (A + 12288 + 4095) / 4096 * 4096 = A + 12288 := by omega
  rw [h1, h2, h3, h4, h5, h6, h7]
  omega

theorem segment_size_not_in_sync_witness :
    12 ≤ small_config.page_shift ∧
    (initialize_segment test_sizes small_config).map (fun n => n + 4096)
      = some (calculate_segment_size test_sizes small_config) ∧
    initialize_segment test_sizes default_config
      = some (calculate_segment_size test_sizes default_config) :=
  segment_size_not_in_sync test_sizes (by decide) (by decide) (by decide) (by decide)
    (by decide)

/-- C35 (fails): `TOK` replaces the token by the default when it meets the
string terminator, also when bytes of a field precede the terminator, so the
last field of a spec string is never stored.  The spec
`posix:globalxseg:4:512:64:1024:13` gives `page_shift = 12` (the default), and
`segdev:xsegbd:8` gives `nr_ports = 4`.  Fields ended by a colon are stored as
the claim says: with a colon behind the last field the same spec gives
`page_shift = 13`. -/
theorem parse_spec_drops_last_field :
    xseg_parse_spec test_sizes (ascii "posix:globalxseg:4:512:64:1024:13")
      = { type := ascii "posix", name := ascii "globalxseg", nr_ports := 4,
          nr_requests := 512, request_size := 64, extra_size := 1024, page_shift := 12 } ∧
    xseg_parse_spec test_sizes (ascii "segdev:xsegbd:8")
      = { type := ascii "segdev", name := ascii "xsegbd", nr_ports := 4,
          nr_requests := 512, request_size := 64, extra_size := 128, page_shift := 12 } ∧
    (∀ (dflt t : List Nat), (∀ c ∈ t, c ≠ 0 ∧ c ≠ 58) →
      TOK dflt (t ++ [0]) = (dflt, [0]) ∧ TOK dflt t = (dflt, [])) ∧
    (∀ (dflt t rest : List Nat), (∀ c ∈ t, c ≠ 0 ∧ c ≠ 58) →
      TOK dflt (t ++ 58 :: rest) = (t, rest)) ∧
    xseg_parse_spec test_sizes (ascii "xsegdev:seg1:8:256:32:2048:13:")
      = { type := ascii "xsegdev", name := ascii "seg1", nr_ports := 8,
          nr_requests := 256, request_size := 32, extra_size := 2048, page_shift := 13 } := by
  refine ⟨by decide, by decide, ?_, ?_, by decide⟩
  · intro dflt t ht
    exact tok_scan_end dflt t ht []
  · intro dflt t rest ht
    have := tok_scan_colon dflt t rest ht []
    simpa [TOK] using this

/-! ## Count and entries of a reply -/

theorem sub64_block_ge (rem : Nat) (h1 : rem < U64) (h2 : rem % block_size = 0)
    (h3 : 0 < rem) :
    (rem = block_size ∧ sub64 rem block_size = 0) ∨
    (block_size < rem ∧ 0 < sub64 rem block_size ∧ sub64 rem block_size = rem - block_size) := by
  simp only [sub64, U64, block_size] at *
  norm_num at *
  omega

theorem calc_nr_obj_loop_count (fuel : Nat) :
    ∀ rem r c : Nat, rem < U64 → calc_nr_obj_loop fuel rem r = some c →
      r + rem / block_size < U32 → rem % block_size = 0 ∧ c = r + rem / block_size := by
  have hB : block_size = 1048576 := by decide
  have hU : U32 = 4294967296 := by decide
  have hU64 : 0 < U64 := by decide
  induction fuel with
  | zero => intro rem r c _ h; simp [calc_nr_obj_loop] at h
  | succ n ih =>
    intro rem r c h1 h hb
    have hres : rem % block_size = 0 := by
      by_contra hne
      rw [calc_nr_obj_loop_diverges (n + 1) rem r h1 hne] at h
      cases h
    refine ⟨hres, ?_⟩
    rcases Nat.eq_zero_or_pos rem with h0 | hpos
    · subst h0
      simp only [calc_nr_obj_loop, gt_iff_lt, lt_self_iff_false, if_false] at h
      cases h
      simp
    · simp only [calc_nr_obj_loop, gt_iff_lt, hpos, if_true] at h
      rw [hB, hU] at hb
      rcases sub64_block_ge rem h1 hres hpos with ⟨he, hs⟩ | ⟨hg, hs, hv⟩
      · rw [hs] at h
        simp only [lt_self_iff_false, if_false, sub64_self] at h
        have hr : (r + 1) % U32 = r + 1 := Nat.mod_eq_of_lt (by rw [he, hB] at hb; omega)
        rw [hr] at h
        have := ih 0 (r + 1) c hU64 h (by rw [Nat.zero_div, hU]; rw [he, hB] at hb; omega)
        rw [this.2, he, Nat.zero_div, Nat.div_self (by rw [hB]; decide)]
      · rw [if_pos hs, hv] at h
        rw [hB] at hg hres
        have hr : (r + 1) % U32 = r + 1 := Nat.mod_eq_of_lt (by rw [hU]; omega)
        rw [hr] at h
        have := ih (rem - block_size) (r + 1) c (by omega) h (by rw [hB, hU]; omega)
        rw [this.2, hB]
        omega

/-- A visit that emits its segment: the node was found and the segment is
written at `idx`. -/
theorem visit_object_ok_eq (sha256 : List Nat → List Nat) (env : xseg_env)
    (nr_ops : Nat) (write : Bool) (idx oi off sz : Nat) (st st1 : r2o_state)
    (h : visit_object sha256 env nr_ops write idx oi off sz st = Except.ok st1) :
    ∃ mn, find_object st.map oi = some mn ∧
      st1 = { st with reply :=
        { cnt := st.reply.cnt,
          segs := write_seg st.reply.segs idx ⟨seg_target mn, off, sz⟩ } } := by
  simp only [visit_object] at h
  split at h
  · cases h
  · rename_i mn hf
    split at h
    · cases h
    · split at h
      · split at h <;> cases h
      · cases h
        exact ⟨mn, hf, rfl⟩

/-- A visit that returns from `req2objs` does not return 0. -/
theorem visit_object_error_nonzero (sha256 : List Nat → List Nat) (env : xseg_env)
    (nr_ops : Nat) (write : Bool) (idx oi off sz : Nat) (st : r2o_state) (r : Int)
    (st1 : r2o_state)
    (h : visit_object sha256 env nr_ops write idx oi off sz st = Except.error (r, st1)) :
    r ≠ 0 := by
  simp only [visit_object] at h
  split at h
  · cases h; decide
  · split at h
    · simp only [out_object_copying] at h
      cases h; decide
    · split at h
      · split at h
        · cases h; decide
        · simp only [out_object_copying] at h
          cases h; decide
      · cases h

theorem write_seg_at_end (segs : List xseg_reply_map_scatterlist)
    (seg : xseg_reply_map_scatterlist) : write_seg segs segs.length seg = segs ++ [seg] := by
  simp [write_seg]

/-- The emission loop returns 0 only from a remaining size that is a
multiple of the block size. -/
theorem req2objs_loop_residue (sha256 : List Nat → List Nat) (env : xseg_env)
    (nr_ops : Nat) (write : Bool) :
    ∀ (fuel rem idx oi : Nat) (st rs : r2o_state), rem < U64 →
      req2objs_loop sha256 env nr_ops write fuel rem idx oi st = some (0, rs) →
      rem % block_size = 0 := by
  intro fuel
  induction fuel with
  | zero => intro rem idx oi st rs _ h; simp [req2objs_loop] at h
  | succ n ih =>
    intro rem idx oi st rs h1 h
    by_contra hne
    have hpos : rem > 0 := by
      rcases Nat.eq_zero_or_pos rem with h0 | h0
      · subst h0; simp at hne
      · exact h0
    obtain ⟨h3, h4, h5⟩ := sub64_block_residue rem h1 hne
    simp only [req2objs_loop, hpos, if_true] at h
    rw [if_pos h5] at h
    split at h
    · rename_i res hv
      cases h
      exact visit_object_error_nonzero _ _ _ _ _ _ _ _ _ _ _ hv rfl
    · exact h4 (ih _ _ _ _ _ h3 h)

/-- Segments the emission loop appends when it returns 0: one for each
block of the remaining size, for consecutive object indices, each with
offset 0. -/
theorem req2objs_loop_segments (sha256 : List Nat → List Nat) (env : xseg_env)
    (nr_ops : Nat) (write : Bool) :
    ∀ (fuel rem idx oi : Nat) (st rs : r2o_state), rem < U64 →
      req2objs_loop sha256 env nr_ops write fuel rem idx oi st = some (0, rs) →
      st.reply.segs.length = idx + 1 → idx + 1 + rem / block_size < U32 →
      ∃ L, rs.reply.segs = st.reply.segs ++ L ∧ L.length = rem / block_size ∧
        rs.reply.cnt = st.reply.cnt ∧ rs.map = st.map ∧
        ∀ j, j < L.length → ∃ mn sz, find_object st.map ((oi + 1 + j) % U64) = some mn ∧
          L[j]? = some ⟨seg_target mn, 0, sz⟩ := by
  have hB : block_size = 1048576 := by decide
  have hU : U32 = 4294967296 := by decide
  have hU64 : U64 = 18446744073709551616 := by decide
  intro fuel
  induction fuel with
  | zero => intro rem idx oi st rs _ h; simp [req2objs_loop] at h
  | succ n ih =>
    intro rem idx oi st rs h1 h hlen hb
    rw [hU, hB] at hb
    have hres := req2objs_loop_residue sha256 env nr_ops write (n + 1) rem idx oi st rs h1 h
    rcases Nat.eq_zero_or_pos rem with h0 | hpos
    · subst h0
      simp only [req2objs_loop, gt_iff_lt, lt_self_iff_false, if_false] at h
      cases h
      exact ⟨[], by simp, by simp, rfl, rfl, by intro j hj; simp at hj⟩
    · simp only [req2objs_loop, gt_iff_lt, hpos, if_true] at h
      have hidx : (idx + 1) % U32 = idx + 1 := Nat.mod_eq_of_lt (by rw [hU]; omega)
      rw [hidx] at h
      have hstep : ∃ sz rem1, rem1 < U64 ∧ rem1 / block_size + 1 = rem / block_size ∧
          (if 0 < sub64 rem block_size then block_size else rem) = sz ∧
          sub64 rem sz = rem1 := by
        rcases sub64_block_ge rem h1 hres hpos with ⟨he, hs⟩ | ⟨hg, hs, hv⟩
        · refine ⟨rem, 0, by rw [hU64]; decide, ?_, by rw [hs]; simp, sub64_self rem⟩
          rw [he, hB]
        · refine ⟨block_size, rem - block_size, by omega, ?_, by rw [if_pos hs], hv⟩
          rw [hB] at hg hres ⊢
          omega
      obtain ⟨sz, rem1, hr1, hdiv, hsz, hrem1⟩ := hstep
      rw [hsz, hrem1] at h
      split at h
      · rename_i res hv
        cases h
        exact absurd rfl (visit_object_error_nonzero _ _ _ _ _ _ _ _ _ _ _ hv)
      · rename_i st1 hv
        obtain ⟨mn, hf, hst1⟩ := visit_object_ok_eq _ _ _ _ _ _ _ _ _ _ hv
        have hw : write_seg st.reply.segs (idx + 1) ⟨seg_target mn, 0, sz⟩
            = st.reply.segs ++ [⟨seg_target mn, 0, sz⟩] := by
          rw [← hlen]; exact write_seg_at_end _ _
        rw [hw] at hst1
        have hlen1 : st1.reply.segs.length = idx + 1 + 1 := by
          rw [hst1]; simp [hlen]
        obtain ⟨L, hL1, hL2, hL3, hL4, hL5⟩ := ih rem1 (idx + 1) ((oi + 1) % U64) st1 rs hr1 h
          hlen1 (by rw [hU]; rw [hB] at hdiv; rw [hB]; omega)
        have hmap : st1.map = st.map := by rw [hst1]
        refine ⟨⟨seg_target mn, 0, sz⟩ :: L, ?_, ?_, ?_, ?_, ?_⟩
        · rw [hL1, hst1]; simp
        · simp only [List.length_cons, hL2]; omega
        · rw [hL3, hst1]
        · rw [hL4, hmap]
        · intro j hj
          cases j with
          | zero => exact ⟨mn, sz, by simpa using hf, by simp⟩
          | succ j =>
            obtain ⟨mn1, sz1, hf1, hg1⟩ := hL5 j (by simpa using hj)
            refine ⟨mn1, sz1, ?_, by simpa using hg1⟩
            rw [hmap] at hf1
            have : (oi + 1 + (j + 1)) % U64 = ((oi + 1) % U64 + 1 + j) % U64 := by
              rw [hU64]; omega
            rw [this]; exact hf1

theorem sub64_lt (a b : Nat) : sub64 a b < U64 := by
  simp only [sub64]
  exact Nat.mod_lt _ (by decide)

theorem first_rem_le (s o : Nat) (_hs : s < U64) :
    sub64 s (if s > block_size then sub64 block_size (o % block_size) else s) ≤ s := by
  have hB : block_size = 1048576 := by decide
  have hU64 : U64 = 18446744073709551616 := by decide
  by_cases h : s > block_size
  · rw [if_pos h]
    simp only [sub64]
    rw [hB, hU64] at *
    omega
  · rw [if_neg h, sub64_self]
    exact Nat.zero_le _

/-- C33: for every request with fewer than `2^32 - 2` blocks on which
`req2objs` returns 0, the count in the reply header is the value of
`calc_nr_obj` and equals the number of entries filled; entry `j` carries the
name of the node found at the object index `offset / block_size + j`, and every
entry after the first has offset 0. -/
theorem reply_count_consistency (fuel : Nat) (sha256 : List Nat → List Nat) (env : xseg_env)
    (nr_ops : Nat) (st : r2o_state) (write : Bool) (rs : r2o_state)
    (h : req2objs fuel sha256 env nr_ops st write = some (0, rs))
    (hn : (st.pr.req.size % U64) / block_size + 2 < U32) :
    calc_nr_obj fuel st.pr.req = some rs.reply.cnt ∧
    rs.reply.segs.length = rs.reply.cnt ∧
    ∀ j, j < rs.reply.cnt → ∃ mn seg, rs.reply.segs[j]? = some seg ∧
      find_object st.map (((st.pr.req.offset % U64) / block_size + j) % U64) = some mn ∧
      seg.target = seg_target mn ∧ (0 < j → seg.offset = 0) := by
  have hB : block_size = 1048576 := by decide
  have hU : U32 = 4294967296 := by decide
  have hU64 : U64 = 18446744073709551616 := by decide
  have hslt : st.pr.req.size % U64 < U64 := Nat.mod_lt _ (by decide)
  have hle := first_rem_le (st.pr.req.size % U64) (st.pr.req.offset % U64) hslt
  simp only [req2objs] at h
  split at h
  · cases h
  · rename_i nr hnr
    split at h
    · cases h
    · split at h
      · rename_i res hv
        cases h
        exact absurd rfl (visit_object_error_nonzero _ _ _ _ _ _ _ _ _ _ _ hv)
      · rename_i st1 hv
        obtain ⟨mn, hf, hst1⟩ := visit_object_ok_eq _ _ _ _ _ _ _ _ _ _ hv
        simp only [write_seg, List.take_nil, List.drop_nil, List.nil_append,
          List.append_nil] at hst1
        simp only [land_block_mask] at h hst1
        have hdiv : sub64 (st.pr.req.size % U64)
            (if st.pr.req.size % U64 > block_size
              then sub64 block_size (st.pr.req.offset % U64 % block_size)
              else st.pr.req.size % U64) / block_size
            ≤ st.pr.req.size % U64 / block_size := Nat.div_le_div_right hle
        rw [hB] at hdiv hn
        rw [hU] at hn
        obtain ⟨L, hL1, hL2, hL3, hL4, hL5⟩ := req2objs_loop_segments sha256 env nr_ops write
          fuel _ 0 _ st1 rs (sub64_lt _ _) h (by rw [hst1]; rfl) (by rw [hU, hB]; omega)
        have hcnt : calc_nr_obj fuel st.pr.req = some nr := hnr
        simp only [calc_nr_obj, land_block_mask] at hcnt
        have hc := calc_nr_obj_loop_count fuel _ 1 nr (sub64_lt _ _) hcnt
          (by rw [hU, hB]; omega)
        have hrc : rs.reply.cnt = nr := by rw [hL3, hst1]
        have hsegs : rs.reply.segs.length = nr := by
          rw [hL1, hst1, hc.2]
          simp only [List.length_append, List.length_cons, List.length_nil, hL2]
        refine ⟨by rw [hrc]; exact hnr, by rw [hsegs, hrc], ?_⟩
        intro j hj
        cases j with
        | zero =>
          have hoi : (st.pr.req.offset % U64 / block_size + 0) % U64
              = st.pr.req.offset % U64 / block_size := by
            have := Nat.mod_lt st.pr.req.offset (show 0 < U64 by decide)
            have h2 := Nat.div_le_self (st.pr.req.offset % U64) block_size
            rw [Nat.add_zero]
            exact Nat.mod_eq_of_lt (by omega)
          refine ⟨mn, (rs.reply.segs.headD ⟨[], 0, 0⟩), ?_, ?_, ?_, ?_⟩
          · rw [hL1, hst1]; simp
          · rw [hoi]; simpa using hf
          · rw [hL1, hst1]; simp
          · intro h0; exact absurd h0 (by decide)
        | succ j =>
          rw [hrc, hc.2] at hj
          obtain ⟨mn1, sz1, hf1, hg1⟩ := hL5 j (by rw [hL2]; omega)
          refine ⟨mn1, ⟨seg_target mn1, 0, sz1⟩, ?_, ?_, rfl, fun _ => rfl⟩
          · rw [hL1, hst1]
            simpa using hg1
          · have hm : st1.map = st.map := by rw [hst1]
            rw [hm] at hf1
            have : (st.pr.req.offset % U64 / block_size + (j + 1)) % U64
                = (st.pr.req.offset % U64 / block_size + 1 + j) % U64 := by
              congr 1; omega
            rw [this]; exact hf1

theorem reply_count_consistency_witness :
    req2objs 4 id env_ok 4 (r2o_init s1_map (map_req xseg_op.X_MAPR 0 (3 * block_size))) false
      = some (0, s1_whole) ∧
    calc_nr_obj 4 (map_req xseg_op.X_MAPR 0 (3 * block_size)).req = some 3 ∧
    s1_whole.reply.segs.length = 3 :=
  have h : req2objs 4 id env_ok 4
      (r2o_init s1_map (map_req xseg_op.X_MAPR 0 (3 * block_size))) false
      = some (0, s1_whole) := by decide
  have c := reply_count_consistency 4 id env_ok 4
    (r2o_init s1_map (map_req xseg_op.X_MAPR 0 (3 * block_size))) false s1_whole h (by decide)
  ⟨h, c.1, c.2.1⟩

/-! ## Steps of the handlers on the cache -/

theorem store_first_none {α : Type} (p : α → Bool) (v : α) :
    ∀ (l : List α), l.find? p = none → store_first p v l = l := by
  intro l
  induction l with
  | nil => intro _; rfl
  | cons y l ih =>
    intro h
    rw [List.find?_cons] at h
    by_cases hy : p y = true
    · rw [hy] at h; cases h
    · have hy1 : p y = false := by simpa using hy
      rw [hy1] at h
      rw [store_first_cons, if_neg hy, ih h]

/-- The store replaces the element the lookup returns, where it stands. -/
theorem store_first_split {α : Type} (p : α → Bool) (v : α) :
    ∀ (l : List α) (x : α), l.find? p = some x →
      ∃ a b, l = a ++ x :: b ∧ (∀ z ∈ a, p z = false) ∧ p x = true ∧
        store_first p v l = a ++ v :: b := by
  intro l
  induction l with
  | nil => intro x h; simp at h
  | cons y l ih =>
    intro x h
    rw [List.find?_cons] at h
    by_cases hy : p y = true
    · rw [hy] at h
      cases h
      exact ⟨[], l, rfl, by simp, hy, by rw [store_first_cons, if_pos hy]; rfl⟩
    · have hy1 : p y = false := by simpa using hy
      rw [hy1] at h
      obtain ⟨a, b, hl, ha, hx, hs⟩ := ih x h
      refine ⟨y :: a, b, by rw [hl]; rfl, ?_, hx, ?_⟩
      · intro z hz
        rcases List.mem_cons.mp hz with hz | hz
        · rw [hz]; exact hy1
        · exact ha z hz
      · rw [store_first_cons, if_neg hy, hs]; rfl

theorem sum_store_first {α : Type} (f : α → Nat) (p : α → Bool) (v : α) (l : List α) (x : α)
    (h : l.find? p = some x) :
    ((store_first p v l).map f).sum + f x = (l.map f).sum + f v := by
  obtain ⟨a, b, hl, _, _, hs⟩ := store_first_split p v l x h
  rw [hs, hl]
  simp only [List.map_append, List.map_cons, List.sum_append, List.sum_cons]
  omega

theorem cached_key (l : List map) (key : List Nat) (m : map) (h : cached l key = some m) :
    map_key m = key := by
  have := List.find?_some h
  simpa using this

/-- A store through the pointer a lookup returned changes the number of
times a request is queued by what the stored map differs from the map found. -/
theorem queued_put_map (l : List map) (key : List Nat) (m m1 : map) (p : Nat)
    (h : cached l key = some m) (hk : map_key m1 = map_key m) :
    queued (store_first (fun x => map_key x == map_key m1) m1 l) p + map_queued m p
      = queued l p + map_queued m1 p := by
  have hkey := cached_key _ _ _ h
  simp only [queued]
  rw [hk, hkey]
  exact sum_store_first (fun m => map_queued m p) _ m1 l m h

theorem queued_append (l : List map) (m : map) (p : Nat) :
    queued (l ++ [m]) p = queued l p + map_queued m p := by
  simp [queued, List.map_append, List.sum_append]

theorem queued_cons (x : map) (l : List map) (p : Nat) :
    queued (x :: l) p = map_queued x p + queued l p := by
  simp [queued]

theorem queued_eraseP_le (q : map → Bool) (p : Nat) :
    ∀ (l : List map), queued (l.eraseP q) p ≤ queued l p := by
  intro l
  induction l with
  | nil => simp
  | cons x l ih =>
    rw [List.eraseP_cons]
    by_cases hx : q x = true
    · rw [hx, cond_true, queued_cons]
      omega
    · have hx1 : q x = false := by simpa using hx
      rw [hx1, cond_false, queued_cons, queued_cons]
      omega

theorem map_queued_store_node (m : map) (k : Nat) (mn mn1 : map_node) (p : Nat)
    (h : find_object m k = some mn) :
    map_queued (store_node m k mn1) p + mn.pending.count p
      = map_queued m p + mn1.pending.count p := by
  simp only [find_object, xhash_lookup_eq_find] at h
  cases hfind : m.objects.find? (fun e => e.1 == k) with
  | none => rw [hfind] at h; simp at h
  | some e =>
    rw [hfind] at h
    have he : e.2 = mn := by simpa using h
    have := sum_store_first (fun e : Nat × map_node => e.2.pending.count p)
      (fun e => e.1 == k) (k, mn1) m.objects e hfind
    simp only [he] at this
    simp only [map_queued, store_node]
    omega

theorem mem_store_first {α : Type} (p : α → Bool) (v : α) :
    ∀ (l : List α) (x : α), x ∈ store_first p v l → x = v ∨ x ∈ l := by
  intro l
  induction l with
  | nil => intro x h; simp [store_first] at h
  | cons y l ih =>
    intro x h
    rw [store_first_cons] at h
    by_cases hy : p y = true
    · rw [if_pos hy] at h
      rcases List.mem_cons.mp h with h1 | h1
      · exact Or.inl h1
      · exact Or.inr (List.mem_cons_of_mem _ h1)
    · rw [if_neg hy] at h
      rcases List.mem_cons.mp h with h1 | h1
      · exact Or.inr (by rw [h1]; exact List.mem_cons_self _ _)
      · rcases ih x h1 with h2 | h2
        · exact Or.inl h2
        · exact Or.inr (List.mem_cons_of_mem _ h2)

theorem find_object_mem (m : map) (k : Nat) (mn : map_node) (h : find_object m k = some mn) :
    (k, mn) ∈ m.objects := by
  simp only [find_object, xhash_lookup_eq_find] at h
  cases hfind : m.objects.find? (fun e => e.1 == k) with
  | none => rw [hfind] at h; simp at h
  | some e =>
    rw [hfind] at h
    have he : e.2 = mn := by simpa using h
    have hk := find_key_eq _ _ _ hfind
    have hm := List.mem_of_find?_eq_some hfind
    have : e = (k, mn) := by
      cases e
      simp only at he hk
      rw [he, hk]
    rw [← this]; exact hm

theorem node_flags_ok (mn : map_node) :
    ¬ (mn.flags &&& MF_OBJECT_EXIST ≠ 0 ∧ mn.flags &&& MF_OBJECT_COPYING ≠ 0) →
    ∀ (id : Nat) (mn1 : map_node), node_step id mn mn1 →
    ¬ (mn1.flags &&& MF_OBJECT_EXIST ≠ 0 ∧ mn1.flags &&& MF_OBJECT_COPYING ≠ 0) := by
  intro h id mn1 hs
  rcases hs.2 with hf | ⟨he, hf⟩
  · rw [hf]; exact h
  · rw [hf, (flags_or_copying mn.flags he).2]
    intro hc
    exact hc.1 rfl

theorem flags_ok_append (l : List map) (m : map)
    (hm : ∀ e ∈ m.objects,
      ¬ (e.2.flags &&& MF_OBJECT_EXIST ≠ 0 ∧ e.2.flags &&& MF_OBJECT_COPYING ≠ 0))
    (hl : flags_ok l) : flags_ok (l ++ [m]) := by
  intro x hx
  rcases List.mem_append.mp hx with h | h
  · exact hl x h
  · have : x = m := by simpa using h
    rw [this]; exact hm

theorem flags_ok_put (l : List map) (p : map → Bool) (m1 : map)
    (hm : ∀ e ∈ m1.objects,
      ¬ (e.2.flags &&& MF_OBJECT_EXIST ≠ 0 ∧ e.2.flags &&& MF_OBJECT_COPYING ≠ 0))
    (hl : flags_ok l) : flags_ok (store_first p m1 l) := by
  intro x hx
  rcases mem_store_first p m1 l x hx with h | h
  · rw [h]; exact hm
  · exact hl x h

theorem flags_ok_eraseP (l : List map) (q : map → Bool) (hl : flags_ok l) :
    flags_ok (l.eraseP q) :=
  fun x hx => hl x (List.mem_of_mem_eraseP hx)

/-- A step of a client handler keeps EXIST and COPYING apart. -/
theorem client_step_flags_ok (id : Nat) (l l1 : List map)
    (h : client_step id l l1) (hl : flags_ok l) : flags_ok l1 := by
  cases h with
  | stay => exact hl
  | park key m q h hq =>
    have hm := List.mem_of_find?_eq_some h
    exact flags_ok_put l _ _ (hl m hm) hl
  | load m ho hq =>
    exact flags_ok_append l m (by rw [ho]; intro e he; simp at he) hl
  | load_fail m ho hq =>
    exact flags_ok_eraseP _ _ (flags_ok_append l m (by rw [ho]; intro e he; simp at he) hl)
  | translate key m k mn mn1 h hf hs =>
    have hm := List.mem_of_find?_eq_some h
    refine flags_ok_put l _ _ ?_ hl
    intro e he
    rcases mem_store_first _ _ _ e he with h1 | h1
    · rw [h1]
      exact node_flags_ok mn (hl m hm _ (find_object_mem m k mn hf)) id mn1 hs
    · exact hl m hm e h1
  | clone m hq ho =>
    refine flags_ok_append l m ?_ hl
    intro e he hc
    rw [(ho e he).1] at hc
    exact hc.1 rfl

theorem count_append_one (q : List Nat) (id p : Nat) :
    (q ++ [id]).count p = q.count p + (if p = id then 1 else 0) := by
  rw [List.count_append]
  by_cases h : p = id
  · simp [h]
  · have : ¬ id = p := fun e => h e.symm
    simp [h, List.count_cons, this]

/-- A step of the handler of a client request queues no request but its
own, and that at most once more. -/
theorem client_step_queued (id : Nat) (l l1 : List map)
    (h : client_step id l l1) (p : Nat) :
    queued l1 p ≤ queued l p + (if p = id then 1 else 0) := by
  cases h with
  | stay => omega
  | park key m q h hq =>
    have h1 := queued_put_map l key m { m with pending := q } p h rfl
    have h2 : map_queued { m with pending := q } p
        ≤ map_queued m p + (if p = id then 1 else 0) := by
      simp only [map_queued]
      rcases hq with hq | hq
      · rw [hq]; omega
      · rw [hq, count_append_one]; omega
    have h3 : (store_first (fun x => map_key x == map_key { m with pending := q })
        { m with pending := q } l)
        = store_first (fun x => map_key x == map_key m) { m with pending := q } l := rfl
    rw [h3] at h1
    omega
  | load m ho hq =>
    rw [queued_append]
    have : map_queued m p ≤ (if p = id then 1 else 0) := by
      simp only [map_queued, ho, List.map_nil, List.sum_nil]
      rcases hq with hq | hq
      · rw [hq]; simp
      · rw [hq]
        by_cases hp : p = id
        · simp [hp]
        · have : ¬ id = p := fun e => hp e.symm
          simp [hp, List.count_cons, this]
    omega
  | load_fail m ho hq =>
    have h1 := queued_eraseP_le (fun x => map_key x == map_key m) p (l ++ [m])
    rw [queued_append] at h1
    have : map_queued m p ≤ (if p = id then 1 else 0) := by
      simp only [map_queued, ho, List.map_nil, List.sum_nil]
      rcases hq with hq | hq
      · rw [hq]; simp
      · rw [hq]
        by_cases hp : p = id
        · simp [hp]
        · have : ¬ id = p := fun e => hp e.symm
          simp [hp, List.count_cons, this]
    simp only [remove_map]
    omega
  | translate key m k mn mn1 h hf hs =>
    have h1 := queued_put_map l key m (store_node m k mn1) p h rfl
    have h2 := map_queued_store_node m k mn mn1 p hf
    have h3 : mn1.pending.count p ≤ mn.pending.count p + (if p = id then 1 else 0) := by
      rcases hs.1 with hq | hq
      · rw [hq]; omega
      · rw [hq, count_append_one]
    have h4 : (store_first (fun x => map_key x == map_key (store_node m k mn1))
        (store_node m k mn1) l)
        = store_first (fun x => map_key x == map_key m) (store_node m k mn1) l := rfl
    rw [h4] at h1
    omega
  | clone m hq ho =>
    rw [queued_append]
    have : map_queued m p = 0 := by
      simp only [map_queued, hq, List.count_nil, Nat.zero_add]
      apply List.sum_eq_zero
      intro x hx
      obtain ⟨e, he, hxe⟩ := List.mem_map.mp hx
      rw [← hxe, (ho e he).2]
      rfl
    omega

theorem fail_all_hashmaps (q : List Nat) :
    ∀ st : mstate, (fail_all st q).hashmaps = st.hashmaps := by
  induction q with
  | nil => intro st; rfl
  | cons p q ih =>
    intro st
    simp only [fail_all, List.foldl_cons] at ih ⊢
    rw [ih]
    rfl

theorem xq_append_tail_cases (cap : Nat) (q : List Nat) (x : Nat) :
    xq_append_tail cap q x = q ∨ xq_append_tail cap q x = q ++ [x] := by
  unfold xq_append_tail
  split
  · exact Or.inr rfl
  · exact Or.inl rfl

theorem insert_map_cases (l : List map) (m : map) :
    insert_map l m = (-1, l) ∨ insert_map l m = (0, l ++ [m]) := by
  unfold insert_map
  split
  · exact Or.inl rfl
  · exact Or.inr rfl

/-- The part of `load_map` after the map was filled in. -/
theorem load_map_tail_step (env : handler_env) (st : mstate) (pr : peer_req) (t : List Nat)
    (tl : Nat) (m : map) (ho : m.objects = []) (hq : m.pending = [] ∨ m.pending = [pr.id])
    (r : Int) (st1 : mstate)
    (h : (match insert_map st.hashmaps m with
      | (r, hm) =>
        if r < 0 then Except.ok (-1, st)
        else
          let st1 := { st with hashmaps := hm }
          match env.xseg.get_request with
          | none => Except.ok (load_map_out_fail st1 m)
          | some h =>
            if !env.xseg.prep_ok then Except.ok (load_map_out_fail (put_request st1 h) m)
            else if !env.get_target_ok then
              Except.ok (load_map_out_fail (put_request st1 h) m)
            else if !env.xseg.set_req_data_ok then
              Except.ok (load_map_out_fail (put_request st1 h) m)
            else if !env.xseg.submit_ok then
              Except.ok (load_map_out_fail (put_request st1 h) m)
            else
              Except.ok (0, { st1 with
                submitted := st1.submitted ++ [⟨h, read_request t tl, pr.id⟩] }))
        = (Except.ok (r, st1) : Except stop (Int × mstate))) :
    client_step pr.id st.hashmaps st1.hashmaps := by
  rcases insert_map_cases st.hashmaps m with e | e
  · rw [e] at h
    simp only [] at h
    rw [if_pos (by decide)] at h
    cases h; exact client_step.stay
  · rw [e] at h
    simp only [] at h
    rw [if_neg (by decide)] at h
    have hfail : ∀ s : mstate, s.hashmaps = st.hashmaps ++ [m] →
        Except.ok (load_map_out_fail s m) = (Except.ok (r, st1) : Except stop (Int × mstate)) →
        client_step pr.id st.hashmaps st1.hashmaps := by
      intro s hs he
      have he1 : load_map_out_fail s m = (r, st1) := by
        injection he
      have : st1 = (load_map_out_fail s m).2 := by rw [he1]
      rw [this]
      simp only [load_map_out_fail, fail_all_hashmaps, hs]
      exact client_step.load_fail m ho hq
    split at h
    · exact hfail _ rfl h
    · split at h
      · exact hfail _ rfl h
      split at h
      · exact hfail _ rfl h
      split at h
      · exact hfail _ rfl h
      split at h
      · exact hfail _ rfl h
      · cases h
        exact client_step.load m ho hq

/-- A call of `load_map` for a target that is not cached adds a map for the
load, or adds it and removes a map of its key again, or leaves the cache as
it is. -/
theorem load_map_step (W : peerd) (env : handler_env) (d : mstate → Nat → Except stop mstate)
    (st : mstate) (pr : peer_req) (t : List Nat) (tl : Nat) (r : Int) (st1 : mstate)
    (hfind : find_map st.hashmaps t tl = none)
    (h : load_map W env d st pr t tl = Except.ok (r, st1)) :
    client_step pr.id st.hashmaps st1.hashmaps := by
  unfold load_map at h
  rw [hfind] at h
  simp only at h
  split at h
  · cases h; exact client_step.stay
  split at h
  · cases h; exact client_step.stay
  split at h
  · cases h; exact client_step.stay
  exact load_map_tail_step env st pr t tl _ rfl (xq_append_tail_cases W.nr_ops [] pr.id) r st1 h

/-- A call of `find_or_load_map` returns 0 with the cached map and the state
as it was, or another value after one step on the cache. -/
theorem find_or_load_map_step (W : peerd) (env : handler_env)
    (d : mstate → Nat → Except stop mstate)
    (st : mstate) (pr : peer_req) (t : List Nat) (tl : Nat) (r : Int) (om : Option map)
    (st1 : mstate)
    (h : find_or_load_map W env d st pr t tl = Except.ok (r, om, st1)) :
    (r = 0 ∧ st1 = st ∧ ∃ m, om = some m ∧ find_map st.hashmaps t tl = some m) ∨
    ((r < 0 ∨ r = MF_PENDING) ∧ client_step pr.id st.hashmaps st1.hashmaps) := by
  unfold find_or_load_map at h
  cases hfind : find_map st.hashmaps t tl with
  | some m =>
    rw [hfind] at h
    simp only at h
    split at h
    · cases h
      refine Or.inr ⟨Or.inr rfl, ?_⟩
      have hc : cached st.hashmaps (cstr (strncpy_bytes t tl ++ [0])) = some m := hfind
      exact client_step.park _ m _ hc
        (by
          rcases xq_append_tail_cases W.nr_ops m.pending pr.id with e | e
          · exact Or.inl e
          · exact Or.inr e)
    · cases h
      exact Or.inl ⟨rfl, rfl, m, rfl, rfl⟩
  | none =>
    rw [hfind] at h
    simp only at h
    cases hl : load_map W env d st pr t tl with
    | error e => rw [hl] at h; simp at h
    | ok v =>
      obtain ⟨r1, s1⟩ := v
      rw [hl] at h
      simp only at h
      have hs := load_map_step W env d st pr t tl r1 s1 hfind hl
      split at h
      · rename_i hr
        cases h
        exact Or.inr ⟨Or.inl (by decide), hs⟩
      · cases h
        exact Or.inr ⟨Or.inr rfl, hs⟩

/-- Map with which a visit ends the translation: the map as it was, or the
map with a `node_step` on the entry visited. -/
theorem visit_object_error_step (sha256 : List Nat → List Nat) (env : xseg_env)
    (nr_ops : Nat) (write : Bool) (idx oi off sz : Nat) (st : r2o_state) (r : Int)
    (st1 : r2o_state)
    (h : visit_object sha256 env nr_ops write idx oi off sz st = Except.error (r, st1)) :
    st1.map = st.map ∨
    ∃ mn mn1, find_object st.map oi = some mn ∧ node_step st.pr.id mn mn1 ∧
      st1.map = store_node st.map oi mn1 := by
  simp only [visit_object] at h
  split at h
  · cases h; exact Or.inl rfl
  · rename_i mn hf
    split at h
    · simp only [out_object_copying] at h
      cases h
      refine Or.inr ⟨mn, { mn with pending := xq_append_tail nr_ops mn.pending st.pr.id }, hf,
        ⟨?_, Or.inl rfl⟩, rfl⟩
      rcases xq_append_tail_cases nr_ops mn.pending st.pr.id with e | e
      · exact Or.inl e
      · exact Or.inr e
    · split at h
      · rename_i hnc hne
        have hm := (copyup_object_map sha256 env oi mn st)
        revert h
        generalize copyup_object sha256 env oi mn st = res at hm
        obtain ⟨r1, s1⟩ := res
        intro h
        simp only at h hm
        split at h
        · cases h; exact Or.inl hm.1
        · simp only [out_object_copying] at h
          cases h
          simp only [store_node_store_node, hm.1, hm.2.2.1]
          have he : mn.flags &&& MF_OBJECT_EXIST = 0 := by
            by_contra hc
            simp [hc] at hne
          refine Or.inr ⟨mn,
            { mn with flags := mn.flags ||| MF_OBJECT_COPYING,
                      pending := xq_append_tail nr_ops mn.pending st.pr.id }, hf,
            ⟨?_, Or.inr ⟨he, rfl⟩⟩, rfl⟩
          rcases xq_append_tail_cases nr_ops mn.pending st.pr.id with e | e
          · exact Or.inl e
          · exact Or.inr e
      · cases h

theorem req2objs_loop_step (sha256 : List Nat → List Nat) (env : xseg_env)
    (nr_ops : Nat) (write : Bool) :
    ∀ (fuel rem idx oi : Nat) (st : r2o_state) (r : Int) (rs : r2o_state),
      req2objs_loop sha256 env nr_ops write fuel rem idx oi st = some (r, rs) →
      rs.map = st.map ∨
      ∃ k mn mn1, find_object st.map k = some mn ∧ node_step st.pr.id mn mn1 ∧
        rs.map = store_node st.map k mn1 := by
  intro fuel
  induction fuel with
  | zero => intro rem idx oi st r rs h; simp [req2objs_loop] at h
  | succ n ih =>
    intro rem idx oi st r rs h
    simp only [req2objs_loop] at h
    split at h
    · split at h
      · rename_i res hv
        cases h
        rcases visit_object_error_step _ _ _ _ _ _ _ _ _ _ _ hv with e | ⟨mn, mn1, e⟩
        · exact Or.inl e
        · exact Or.inr ⟨_, mn, mn1, e⟩
      · rename_i st1 hv
        obtain ⟨mn, hmn, hst1⟩ := visit_object_ok_eq _ _ _ _ _ _ _ _ _ _ hv
        have := ih _ _ _ _ _ _ h
        rw [hst1] at this
        exact this
    · cases h
      exact Or.inl rfl

/-- Map that `req2objs` leaves: the map as it was, or the map with a
`node_step` on one entry. -/
theorem req2objs_step (fuel : Nat) (sha256 : List Nat → List Nat) (env : xseg_env)
    (nr_ops : Nat) (st : r2o_state) (write : Bool) (r : Int) (rs : r2o_state)
    (h : req2objs fuel sha256 env nr_ops st write = some (r, rs)) :
    rs.map = st.map ∨
    ∃ k mn mn1, find_object st.map k = some mn ∧ node_step st.pr.id mn mn1 ∧
      rs.map = store_node st.map k mn1 := by
  simp only [req2objs] at h
  split at h
  · cases h
  · split at h
    · cases h; exact Or.inl rfl
    · split at h
      · rename_i res hv
        cases h
        rcases visit_object_error_step _ _ _ _ _ _ _ _ _ _ _ hv with e | ⟨mn, mn1, e⟩
        · exact Or.inl e
        · exact Or.inr ⟨_, mn, mn1, e⟩
      · rename_i st1 hv
        obtain ⟨mn, hmn, hst1⟩ := visit_object_ok_eq _ _ _ _ _ _ _ _ _ _ hv
        have := req2objs_loop_step _ _ _ _ _ _ _ _ _ _ _ h
        rw [hst1] at this
        exact this

/-- A call of `req2objs` from a handler, on the map the lookup returned, is
one step on the cache. -/
theorem run_req2objs_step (W : peerd) (env : handler_env) (fuel : Nat) (st : mstate)
    (pr : peer_req) (m : map) (write : Bool) (t : List Nat) (tl : Nat) (r : Int) (st2 : mstate)
    (hfind : find_map st.hashmaps t tl = some m)
    (h : run_req2objs W env fuel st pr m write = Except.ok (r, st2)) :
    client_step pr.id st.hashmaps st2.hashmaps := by
  unfold run_req2objs at h
  simp only at h
  split at h
  · cases h
  · rename_i r1 rs hreq
    cases h
    have hh : (put_pr (put_map st rs.map) rs.pr).hashmaps
        = store_first (fun x => map_key x == map_key rs.map) rs.map st.hashmaps := rfl
    show client_step pr.id st.hashmaps (put_pr (put_map st rs.map) rs.pr).hashmaps
    rw [hh]
    rcases req2objs_step _ _ _ _ _ _ _ _ hreq with e | ⟨k, mn, mn1, hf, hs, e⟩
    · simp only at e
      rw [e]
      have := put_map_same st m t tl hfind
      have h2 : store_first (fun x => map_key x == map_key m) m st.hashmaps = st.hashmaps := by
        have h3 := congrArg mstate.hashmaps this
        exact h3
      rw [h2]
      exact client_step.stay
    · simp only at e hf hs
      rw [e]
      have hc : cached st.hashmaps (cstr (strncpy_bytes t tl ++ [0])) = some m := hfind
      exact client_step.translate _ m k mn mn1 hc hf hs

theorem mem_xhash_insert {α : Type} (t : List (Nat × α)) (k : Nat) (v : α) (e : Nat × α)
    (h : e ∈ xhash_insert t k v) : e ∈ t ∨ e = (k, v) := by
  unfold xhash_insert at h
  split at h
  · obtain ⟨x, hx, he⟩ := List.mem_map.mp h
    by_cases hk : (x.1 == k) = true
    · rw [if_pos hk] at he
      exact Or.inr he.symm
    · rw [if_neg hk] at he
      rw [← he]; exact Or.inl hx
  · rcases List.mem_append.mp h with h1 | h1
    · exact Or.inl h1
    · exact Or.inr (by simpa using h1)

theorem clone_nodes_mem (W : peerd) (parent : map) :
    ∀ (n i : Nat) (cm cm1 : map), clone_nodes W parent n i cm = some cm1 →
      ∀ e ∈ cm1.objects, e ∈ cm.objects ∨ (e.2.flags = 0 ∧ e.2.pending = []) := by
  intro n
  induction n with
  | zero =>
    intro i cm cm1 hc e he
    simp only [clone_nodes, Option.some.injEq] at hc
    rw [← hc] at he
    exact Or.inl he
  | succ n ih =>
    intro i cm cm1 hc e he
    simp only [clone_nodes] at hc
    split at hc
    · rcases ih _ _ cm1 hc e he with h | h
      · simp only [insert_object] at h
        rcases mem_xhash_insert _ _ _ _ h with h1 | h1
        · exact Or.inl h1
        · rw [h1]; exact Or.inr ⟨rfl, rfl⟩
      · exact Or.inr h
    · cases hc

/-- The cache after `find_or_load_map` is the cache before after one step. -/
theorem find_or_load_map_cache (W : peerd) (env : handler_env)
    (d : mstate → Nat → Except stop mstate)
    (st : mstate) (pr : peer_req) (t : List Nat) (tl : Nat) (r : Int) (om : Option map)
    (st1 : mstate)
    (h : find_or_load_map W env d st pr t tl = Except.ok (r, om, st1)) :
    client_step pr.id st.hashmaps st1.hashmaps := by
  rcases find_or_load_map_step W env d st pr t tl r om st1 h with ⟨_, e, _⟩ | ⟨_, hs⟩
  · rw [e]; exact client_step.stay
  · exact hs

theorem find_or_load_map_found (W : peerd) (env : handler_env)
    (d : mstate → Nat → Except stop mstate)
    (st : mstate) (pr : peer_req) (t : List Nat) (tl : Nat) (r : Int) (om : Option map)
    (st1 : mstate)
    (h : find_or_load_map W env d st pr t tl = Except.ok (r, om, st1))
    (h1 : ¬ r < 0) (h2 : ¬ r = MF_PENDING) :
    st1 = st ∧ ∃ m, om = some m ∧ find_map st.hashmaps t tl = some m := by
  rcases find_or_load_map_step W env d st pr t tl r om st1 h with ⟨_, e, hm⟩ | ⟨hr, _⟩
  · exact ⟨e, hm⟩
  · rcases hr with hr | hr
    · exact absurd hr h1
    · exact absurd hr h2

/-- One run of `handle_mapr` is one step on the cache. -/
theorem handle_mapr_step (W : peerd) (env : handler_env) (fuel : Nat)
    (d : mstate → Nat → Except stop mstate) (st : mstate) (pr : peer_req) (st1 : mstate)
    (h : handle_mapr W env fuel d st pr = Except.ok st1) :
    client_step pr.id st.hashmaps st1.hashmaps := by
  unfold handle_mapr at h
  cases hfl : find_or_load_map W env d st pr pr.req.target pr.req.targetlen with
  | error e => rw [hfl] at h; simp at h
  | ok v =>
    obtain ⟨r, om, s1⟩ := v
    rw [hfl] at h
    simp only at h
    have hc := find_or_load_map_cache W env d st pr _ _ r om s1 hfl
    split at h
    · cases h; exact hc
    · rename_i h1
      split at h
      · cases h; exact hc
      · rename_i h2
        obtain ⟨e, m, hom, hfind⟩ := find_or_load_map_found W env d st pr _ _ r om s1 hfl h1 h2
        subst e
        subst hom
        simp only at h
        split at h
        · cases h; exact hc
        · cases hrun : run_req2objs W env fuel s1 pr m false with
          | error e => rw [hrun] at h; simp at h
          | ok v2 =>
            obtain ⟨r2, s2⟩ := v2
            rw [hrun] at h
            simp only at h
            have hs := run_req2objs_step W env fuel s1 pr m false _ _ r2 s2 hfind hrun
            split at h
            · cases h; exact hs
            · split at h
              · cases h; exact hs
              · cases h; exact hs

/-- One run of `handle_mapw` for the client request is one step on the
cache. -/
theorem handle_mapw_client_step (W : peerd) (env : handler_env) (fuel : Nat)
    (d : mstate → Nat → Except stop mstate) (st : mstate) (pr : peer_req) (st1 : mstate)
    (h : handle_mapw_client W env fuel d st pr = Except.ok st1) :
    client_step pr.id st.hashmaps st1.hashmaps := by
  unfold handle_mapw_client at h
  cases hfl : find_or_load_map W env d st pr pr.req.target pr.req.targetlen with
  | error e => rw [hfl] at h; simp at h
  | ok v =>
    obtain ⟨r, om, s1⟩ := v
    rw [hfl] at h
    simp only at h
    have hc := find_or_load_map_cache W env d st pr _ _ r om s1 hfl
    split at h
    · cases h; exact hc
    · rename_i h1
      split at h
      · cases h; exact hc
      · rename_i h2
        obtain ⟨e, m, hom, hfind⟩ := find_or_load_map_found W env d st pr _ _ r om s1 hfl h1 h2
        subst e
        subst hom
        simp only at h
        split at h
        · cases h; exact hc
        · split at h
          · cases h; exact hc
          · cases hrun : run_req2objs W env fuel s1 { pr with mio := { pr.mio with err := 0 } }
                m true with
            | error e => rw [hrun] at h; simp at h
            | ok v2 =>
              obtain ⟨r2, s2⟩ := v2
              rw [hrun] at h
              simp only at h
              have hs : client_step pr.id s1.hashmaps s2.hashmaps :=
                run_req2objs_step W env fuel s1 { pr with mio := { pr.mio with err := 0 } }
                  m true _ _ r2 s2 hfind hrun
              split at h
              · cases h
                split <;> exact hs
              · cases h
                split <;> exact hs

/-- One run of `handle_info` is one step on the cache. -/
theorem handle_info_step (W : peerd) (env : handler_env)
    (d : mstate → Nat → Except stop mstate) (st : mstate) (pr : peer_req) (st1 : mstate)
    (h : handle_info W env d st pr = Except.ok st1) :
    client_step pr.id st.hashmaps st1.hashmaps := by
  unfold handle_info at h
  split at h
  · cases h; exact client_step.stay
  cases hfl : find_or_load_map W env d st pr pr.req.target pr.req.targetlen with
  | error e => rw [hfl] at h; simp at h
  | ok v =>
    obtain ⟨r, om, s1⟩ := v
    rw [hfl] at h
    simp only at h
    have hc := find_or_load_map_cache W env d st pr _ _ r om s1 hfl
    split at h
    · cases h; exact hc
    · split at h
      · cases h; exact hc
      · split at h
        · cases h; exact hc
        · split at h
          · cases h; exact hc
          · cases h; exact hc

/-- One run of `handle_clone` is one step on the cache. -/
theorem handle_clone_step (W : peerd) (env : handler_env)
    (d : mstate → Nat → Except stop mstate) (st : mstate) (pr : peer_req) (st1 : mstate)
    (h : handle_clone W env d st pr = Except.ok st1) :
    client_step pr.id st.hashmaps st1.hashmaps := by
  unfold handle_clone at h
  split at h
  · cases h; exact client_step.stay
  cases hfl : find_or_load_map W env d st pr pr.req.clone_target (strlen pr.req.clone_target) with
  | error e => rw [hfl] at h; simp at h
  | ok v =>
    obtain ⟨r, om, s1⟩ := v
    rw [hfl] at h
    simp only at h
    have hc := find_or_load_map_cache W env d st pr _ _ r om s1 hfl
    split at h
    · cases h; exact hc
    · rename_i h1
      split at h
      · cases h; exact hc
      · rename_i h2
        obtain ⟨e, m, hom, hfind⟩ := find_or_load_map_found W env d st pr _ _ r om s1 hfl h1 h2
        subst e
        subst hom
        simp only at h
        split at h
        · cases h; exact hc
        split at h
        · cases h; exact hc
        split at h
        · cases h; exact hc
        split at h
        · cases h; exact hc
        split at h
        · cases h; exact hc
        split at h
        · cases h
        · rename_i cm1 hcn
          rcases insert_map_cases s1.hashmaps cm1 with e | e
          · rw [e] at h
            simp only at h
            rw [if_pos (by decide)] at h
            cases h; exact hc
          · rw [e] at h
            simp only at h
            rw [if_neg (by decide)] at h
            cases h
            refine client_step.clone _ ?_ ?_
            · rw [(clone_nodes_fields W m _ 0 _ cm1 hcn).2.2.2.2]
            · intro x hx
              rcases clone_nodes_mem W m _ 0 _ cm1 hcn x hx with h3 | h3
              · simp at h3
              · exact h3

theorem sum_xhash_insert_le {α : Type} (f : Nat × α → Nat) (t : List (Nat × α)) (k : Nat)
    (v : α) (hv : f (k, v) = 0) :
    ((xhash_insert t k v).map f).sum ≤ (t.map f).sum := by
  unfold xhash_insert
  split
  · clear * - hv
    induction t with
    | nil => simp
    | cons x t ih =>
      simp only [List.map_cons, List.sum_cons]
      by_cases hk : (x.1 == k) = true
      · rw [if_pos hk, hv]; omega
      · rw [if_neg hk]; omega
  · simp [hv]

theorem refreshed_refl (m : map) : refreshed m m :=
  ⟨rfl, rfl, fun _ he => Or.inl he, fun _ => Nat.le_refl _⟩

theorem refreshed_trans (a b c : map) (h1 : refreshed a b) (h2 : refreshed b c) :
    refreshed a c := by
  refine ⟨h2.1.trans h1.1, h2.2.1.trans h1.2.1, ?_, fun p => Nat.le_trans (h2.2.2.2 p) (h1.2.2.2 p)⟩
  intro e he
  rcases h2.2.2.1 e he with h | h
  · exact h1.2.2.1 e h
  · exact Or.inr h

theorem refreshed_of_fields (m m1 : map) (hv : m1.volume = m.volume)
    (hp : m1.pending = m.pending) (ho : m1.objects = m.objects) : refreshed m m1 :=
  ⟨hv, hp, fun e he => Or.inl (ho ▸ he), fun p => by rw [ho]⟩

theorem refreshed_insert (m : map) (mn : map_node) (hp : mn.pending = [])
    (hc : mn.flags &&& MF_OBJECT_COPYING = 0) : refreshed m (insert_object m mn) := by
  refine ⟨rfl, rfl, ?_, ?_⟩
  · intro e he
    simp only [insert_object] at he
    rcases mem_xhash_insert _ _ _ _ he with h | h
    · exact Or.inl h
    · rw [h]; exact Or.inr ⟨hp, hc⟩
  · intro p
    simp only [insert_object]
    exact sum_xhash_insert_le _ _ _ _ (by simp [hp])

theorem map_to_object_fresh (i : Nat) (buf : List Nat) (mn : map_node)
    (h : map_to_object (new_node i) buf = some mn) :
    mn.pending = [] ∧ mn.flags &&& MF_OBJECT_COPYING = 0 := by
  unfold map_to_object at h
  split at h
  · cases h
  · simp only [Option.some.injEq] at h
    rw [← h]
    refine ⟨rfl, ?_⟩
    simp only
    split <;> decide

theorem pithosmap_to_object_fresh (cs : Bool) (i : Nat) (buf : List Nat) (mn : map_node)
    (h : pithosmap_to_object cs (new_node i) buf = some mn) :
    mn.pending = [] ∧ mn.flags &&& MF_OBJECT_COPYING = 0 := by
  unfold pithosmap_to_object at h
  split at h
  · cases h
  · simp only [Option.some.injEq] at h
    rw [← h]
    refine ⟨rfl, ?_⟩
    show (0 : Nat) &&& MF_OBJECT_COPYING = 0
    decide

theorem read_map_native_loop_refreshed (buf : List Nat) :
    ∀ (n i pos : Nat) (m m1 : map), read_map_native_loop buf n i pos m = some m1 →
      refreshed m m1 := by
  intro n
  induction n with
  | zero =>
    intro i pos m m1 h
    simp only [read_map_native_loop, Option.some.injEq] at h
    rw [← h]; exact refreshed_refl m
  | succ n ih =>
    intro i pos m m1 h
    simp only [read_map_native_loop] at h
    split at h
    · cases h
    · rename_i mn hmn
      have hf := map_to_object_fresh i _ mn hmn
      exact refreshed_trans _ _ _ (refreshed_insert m mn hf.1 hf.2) (ih _ _ _ _ h)

theorem read_map_pithos_loop_refreshed (cs : Bool) (buf : List Nat) :
    ∀ (n i pos : Nat) (m : map) (j : Nat) (m1 : map),
      read_map_pithos_loop cs buf n i pos m = some (j, m1) → refreshed m m1 := by
  intro n
  induction n with
  | zero =>
    intro i pos m j m1 h
    simp only [read_map_pithos_loop, Option.some.injEq, Prod.mk.injEq] at h
    rw [← h.2]; exact refreshed_refl m
  | succ n ih =>
    intro i pos m j m1 h
    simp only [read_map_pithos_loop] at h
    split at h
    · cases h
    · split at h
      · simp only [Option.some.injEq, Prod.mk.injEq] at h
        rw [← h.2]; exact refreshed_refl m
      · split at h
        · cases h
        · rename_i mn hmn
          have hf := pithosmap_to_object_fresh cs i _ mn hmn
          exact refreshed_trans _ _ _ (refreshed_insert m mn hf.1 hf.2) (ih _ _ _ _ _ h)

/-- The map `read_map` leaves is the map it was given with entries
inserted. -/
theorem read_map_refreshed (P : platform) (m : map) (buf : List Nat) (r : Int) (m1 : map)
    (h : read_map P m buf = some (r, m1)) : refreshed m m1 := by
  unfold read_map at h
  split at h
  · cases h
  split at h
  · simp only [Option.some.injEq, Prod.mk.injEq] at h
    rw [← h.2]; exact refreshed_refl m
  split at h
  · unfold read_map_native at h
    simp only at h
    split at h
    · cases h
    · split at h <;>
      · split at h
        · simp only [Option.some.injEq, Prod.mk.injEq] at h
          rw [← h.2]
          exact refreshed_of_fields _ _ rfl rfl rfl
        · split at h
          · cases h
          · rename_i m2 hm2
            simp only [Option.some.injEq, Prod.mk.injEq] at h
            rw [← h.2]
            have h2 := read_map_native_loop_refreshed buf _ _ _ _ _ hm2
            exact refreshed_trans _ _ _ (refreshed_of_fields m _ rfl rfl rfl) h2
  · unfold read_map_pithos at h
    simp only at h
    split at h
    · simp only [Option.some.injEq, Prod.mk.injEq] at h
      rw [← h.2]; exact refreshed_refl m
    · split at h
      · cases h
      · rename_i j m2 hm2
        simp only [Option.some.injEq, Prod.mk.injEq] at h
        rw [← h.2]
        exact refreshed_trans _ _ _ (read_map_pithos_loop_refreshed _ buf _ _ _ _ _ _ hm2)
          (refreshed_of_fields m2 _ rfl rfl rfl)

theorem reply_steps_one (l l1 : List map) (h : reply_step l l1) : reply_steps l l1 :=
  reply_steps.step l l1 l1 h (reply_steps.done l1)

theorem reply_steps_trans (a b c : List map) (h1 : reply_steps a b) (h2 : reply_steps b c) :
    reply_steps a c := by
  induction h1 with
  | done l => exact h2
  | step l l1 l2 h t ih => exact reply_steps.step l l1 c h (ih h2)

/-- The loop of `handle_mapread` that resumes the requests parked on a map
is a sequence of `resume_map` steps, when every nested call is one step of a
client handler. -/
theorem drain_map_steps (d : mstate → Nat → Except stop mstate) (key : List Nat)
    (hd : ∀ s p s1, d s p = Except.ok s1 → client_step p s.hashmaps s1.hashmaps) :
    ∀ (n : Nat) (st st1 : mstate), drain_map d key n st = Except.ok st1 →
      reply_steps st.hashmaps st1.hashmaps := by
  intro n
  induction n with
  | zero => intro st st1 h; simp [drain_map] at h
  | succ n ih =>
    intro st st1 h
    simp only [drain_map] at h
    split at h
    · cases h; exact reply_steps.done _
    · rename_i m hm
      split at h
      · cases h; exact reply_steps.done _
      · rename_i p rest hp
        split at h
        · cases h
        · rename_i st2 hd2
          have hs := hd _ _ _ hd2
          exact reply_steps.step _ _ _
            (reply_step.resume_map key m p rest st2.hashmaps hm hp hs) (ih _ _ h)

theorem resolve_node_some (st : mstate) (ref : List Nat × Nat) (m : map) (mn : map_node)
    (h : resolve_node st ref = some (m, mn)) :
    cached st.hashmaps (cstr ref.1) = some m ∧ find_object m ref.2 = some mn := by
  unfold resolve_node at h
  split at h
  · cases h
  · rename_i m1 hm1
    split at h
    · cases h
    · rename_i mn1 hmn1
      simp only [Option.some.injEq, Prod.mk.injEq] at h
      rw [← h.1, ← h.2]
      exact ⟨hm1, hmn1⟩

/-- The loop of `handle_copyup` that resumes the requests parked on a node is
a sequence of `resume_node` steps, when every nested call is one step of a
client handler. -/
theorem drain_object_steps (d : mstate → Nat → Except stop mstate) (ref : List Nat × Nat)
    (hd : ∀ s p s1, d s p = Except.ok s1 → client_step p s.hashmaps s1.hashmaps) :
    ∀ (n : Nat) (st st1 : mstate), drain_object d ref n st = Except.ok st1 →
      reply_steps st.hashmaps st1.hashmaps := by
  intro n
  induction n with
  | zero => intro st st1 h; simp [drain_object] at h
  | succ n ih =>
    intro st st1 h
    simp only [drain_object] at h
    split at h
    · cases h; exact reply_steps.done _
    · rename_i m mn hm
      obtain ⟨hc, hf⟩ := resolve_node_some st ref m mn hm
      split at h
      · cases h; exact reply_steps.done _
      · rename_i p rest hp
        split at h
        · cases h
        · rename_i st2 hd2
          have hs := hd _ _ _ hd2
          exact reply_steps.step _ _ _
            (reply_step.resume_node _ m ref.2 mn p rest st2.hashmaps hc hf hp hs) (ih _ _ h)

/-- One run of `handle_mapread` is a sequence of steps of a reply handler. -/
theorem handle_mapread_steps (W : peerd) (d : mstate → Nat → Except stop mstate) (fuel : Nat)
    (st : mstate) (req : backing_reply) (st1 : mstate)
    (hd : ∀ s p s1, d s p = Except.ok s1 → client_step p s.hashmaps s1.hashmaps)
    (h : handle_mapread W d fuel st req = Except.ok st1) :
    reply_steps st.hashmaps st1.hashmaps := by
  unfold handle_mapread at h
  split at h
  · cases h; exact reply_steps.done _
  · rename_i m hm
    have hc : cached st.hashmaps (cstr (strncpy_bytes req.target req.targetlen ++ [0])) = some m :=
      hm
    split at h
    · cases h
      simp only [handle_mapread_out_fail, fail_all_hashmaps]
      exact reply_steps_one _ _ (reply_step.remove m)
    · split at h
      · cases h
      · rename_i r m1 hrd
        have hr := read_map_refreshed W.P m req.data r m1 hrd
        have hk : map_key m1 = map_key m := by simp only [map_key, hr.1]
        simp only at h
        split at h
        · cases h
          simp only [handle_mapread_out_fail, fail_all_hashmaps]
          have e : (put_request (put_map st m1) req.handle).hashmaps
              = store_first (fun x => map_key x == map_key m) m1 st.hashmaps := by
            simp only [put_request, put_map, hk]
          rw [e]
          exact reply_steps.step _ _ _ (reply_step.decode _ m m1 hc hr)
            (reply_steps_one _ _ (reply_step.remove m1))
        · have hr2 : refreshed m { m1 with flags := m1.flags &&& (U32 - 1 - MF_MAP_LOADING) } :=
            refreshed_trans _ _ _ hr (refreshed_of_fields m1 _ rfl rfl rfl)
          have hs := drain_map_steps d _ hd _ _ _ h
          have e : (put_map (put_request st req.handle)
                { m1 with flags := m1.flags &&& (U32 - 1 - MF_MAP_LOADING) }).hashmaps
              = store_first (fun x => map_key x == map_key m)
                  { m1 with flags := m1.flags &&& (U32 - 1 - MF_MAP_LOADING) } st.hashmaps := by
            have hk2 : map_key { m1 with flags := m1.flags &&& (U32 - 1 - MF_MAP_LOADING) }
                = map_key m := hk
            simp only [put_request, put_map, hk2]
          rw [e] at hs
          exact reply_steps.step _ _ _ (reply_step.decode _ m _ hc hr2) hs

/-- The client request of a peer request, handled as a READ reply, leaves
the cache as it is: its data holds no map block. -/
theorem handle_mapread_own (W : peerd) (d : mstate → Nat → Except stop mstate) (fuel : Nat)
    (st : mstate) (pr : peer_req) (st1 : mstate)
    (h : handle_mapread W d fuel st (own_request pr) = Except.ok st1) :
    st1.hashmaps = st.hashmaps := by
  unfold handle_mapread at h
  split at h
  · cases h; rfl
  · split at h
    · rename_i hf
      simp [own_request] at hf
    · have : ∀ m, read_map W.P m (own_request pr).data = none := by
        intro m
        simp [own_request, read_map, SHA256_DIGEST_SIZE]
      split at h
      · cases h
      · rename_i r m1 hrd
        rw [this] at hrd
        cases hrd

theorem handle_copyup_update_cases (env : xseg_env) (st : mstate) (pr : peer_req)
    (req : backing_reply) :
    ((handle_copyup_update env st pr req).2 = none ∧
      (handle_copyup_update env st pr req).1.hashmaps = st.hashmaps) ∨
    ∃ rf m mn, resolve_node st rf = some (m, mn) ∧
      handle_copyup_update env st pr req =
        (put_pr (put_request (put_map st (store_node m rf.2 (node_after_copyup req mn)))
            req.handle) { pr with mio := mio_after_copyup env req pr.mio },
          some rf) := by
  cases hb : xhash_lookup pr.mio.copyups_nodes req.handle with
  | none =>
    left
    by_cases hr : (req.failed && !req.served) = true <;>
      by_cases hdel : env.copyups_delete_ok = true <;>
      simp [handle_copyup_update, hb, hr, hdel, put_pr, put_request]
  | some rf =>
    cases hn : resolve_node st rf with
    | none =>
      left
      by_cases hr : (req.failed && !req.served) = true <;>
        by_cases hdel : env.copyups_delete_ok = true <;>
        simp [handle_copyup_update, hb, hn, hr, hdel, put_pr, put_request]
    | some x =>
      obtain ⟨m, mn⟩ := x
      right
      exact ⟨rf, m, mn, hn, handle_copyup_update_found env st pr req rf m mn hb hn⟩

theorem node_after_copyup_fields (req : backing_reply) (mn : map_node) :
    (node_after_copyup req mn).pending = mn.pending ∧
    (node_after_copyup req mn).flags &&& MF_OBJECT_COPYING = 0 := by
  unfold node_after_copyup
  split
  · exact ⟨rfl, (flags_clear_copying mn.flags).1⟩
  · refine ⟨rfl, ?_⟩
    show ((mn.flags &&& (U32 - 1 - MF_OBJECT_COPYING)) ||| MF_OBJECT_EXIST) &&& MF_OBJECT_COPYING = 0
    rw [Nat.and_distrib_right, (flags_clear_copying mn.flags).1]
    decide

/-- One run of `handle_copyup` is a sequence of steps of a reply handler. -/
theorem handle_copyup_steps (env : xseg_env) (d : mstate → Nat → Except stop mstate)
    (fuel : Nat) (st : mstate) (pr : peer_req) (req : backing_reply) (st1 : mstate)
    (hd : ∀ s p s1, d s p = Except.ok s1 → client_step p s.hashmaps s1.hashmaps)
    (h : handle_copyup env d fuel st pr req = Except.ok st1) :
    reply_steps st.hashmaps st1.hashmaps := by
  unfold handle_copyup at h
  rcases handle_copyup_update_cases env st pr req with ⟨h2, h1⟩ | ⟨rf, m, mn, hn, he⟩
  · revert h h1 h2
    generalize handle_copyup_update env st pr req = res
    obtain ⟨s, o⟩ := res
    intro h h1 h2
    simp only at h1 h2
    subst h1
    simp only at h
    cases h
    rw [h2]; exact reply_steps.done _
  · rw [he] at h
    simp only at h
    obtain ⟨hc, hf⟩ := resolve_node_some st rf m mn hn
    have hs := drain_object_steps d rf hd _ _ _ h
    have hfl := node_after_copyup_fields req mn
    exact reply_steps.step _ _ _
      (reply_step.copied _ m rf.2 mn (node_after_copyup req mn) hc hf hfl.1 hfl.2) hs

theorem get_pr_id (st : mstate) (id : Nat) (pr : peer_req) (h : get_pr st id = some pr) :
    pr.id = id := by
  unfold get_pr at h
  have := List.find?_some h
  simpa using this

/-- A call of `dispatch` for the client request of a peer request is one
step on the cache, whatever the call nested in it does. -/
theorem dispatch_body_client_step (W : peerd) (fuel : Nat)
    (d : mstate → Nat → Except stop mstate) (st : mstate) (id : Nat) (st1 : mstate)
    (h : dispatch_body W fuel d st id none = Except.ok st1) :
    client_step id st.hashmaps st1.hashmaps := by
  unfold dispatch_body at h
  simp only at h
  split at h
  · cases h; exact client_step.stay
  · rename_i pr hpr
    have hid : pr.id = id := get_pr_id _ id pr hpr
    rw [← hid]
    split at h
    · have := handle_mapread_own W d fuel _ pr st1 h
      rw [this]; exact client_step.stay
    · split at h
      · exact (handle_clone_step W _ d _ pr st1 h :)
      · exact (handle_mapr_step W _ fuel d _ pr st1 h :)
      · exact (handle_mapw_client_step W _ fuel d _ pr st1 h :)
      · exact (handle_info_step W _ d _ pr st1 h :)
      · cases h; exact client_step.stay
      · cases h; exact client_step.stay

theorem dispatch_client_step (fuel : Nat) (W : peerd) (st : mstate) (id : Nat) (st1 : mstate)
    (h : dispatch fuel W st id none = Except.ok st1) :
    client_step id st.hashmaps st1.hashmaps := by
  cases fuel with
  | zero => simp [dispatch] at h
  | succ k => exact dispatch_body_client_step W k _ st id st1 h

/-- What one call of `dispatch` does to the cache: one step of a client
handler, or a sequence of steps of a reply handler. -/
theorem dispatch_steps (fuel : Nat) (W : peerd) (st : mstate) (id : Nat)
    (req : Option backing_reply) (st1 : mstate)
    (h : dispatch fuel W st id req = Except.ok st1) :
    client_step id st.hashmaps st1.hashmaps ∨ reply_steps st.hashmaps st1.hashmaps := by
  cases req with
  | none => exact Or.inl (dispatch_client_step fuel W st id st1 h)
  | some rq =>
    cases fuel with
    | zero => simp [dispatch] at h
    | succ k =>
      have hd : ∀ s p s1, (fun s p => dispatch k W s p none) s p = Except.ok s1 →
          client_step p s.hashmaps s1.hashmaps :=
        fun s p s1 hh => dispatch_client_step k W s p s1 hh
      simp only [dispatch] at h
      unfold dispatch_body at h
      simp only at h
      split at h
      · cases h; exact Or.inl client_step.stay
      · rename_i pr hpr
        have hid : pr.id = id := get_pr_id _ id pr hpr
        rw [← hid]
        split at h
        · exact Or.inr (handle_mapread_steps W _ k _ rq st1 hd h :)
        · split at h
          · exact Or.inl (handle_clone_step W _ _ _ pr st1 h :)
          · exact Or.inl (handle_mapr_step W _ k _ _ pr st1 h :)
          · unfold handle_mapw at h
            simp only at h
            split at h
            · exact Or.inr (handle_copyup_steps _ _ k _ pr rq st1 hd h :)
            · exact Or.inl (handle_mapw_client_step W _ k _ _ pr st1 h :)
          · exact Or.inl (handle_info_step W _ _ _ pr st1 h :)
          · cases h; exact Or.inl client_step.stay
          · cases h; exact Or.inl client_step.stay

/-- A call of `dispatch` for a READ reply, or for a COPY reply to a peer
request that carries a MAPW, is a sequence of steps of a reply handler. -/
theorem dispatch_reply_steps (fuel : Nat) (W : peerd) (st : mstate) (id : Nat)
    (rq : backing_reply) (st1 : mstate)
    (hrq : rq.op = xseg_op.X_READ ∨
      (rq.op = xseg_op.X_COPY ∧ ∀ pr, get_pr st id = some pr → pr.req.op = xseg_op.X_MAPW))
    (h : dispatch fuel W st id (some rq) = Except.ok st1) :
    reply_steps st.hashmaps st1.hashmaps := by
  cases fuel with
  | zero => simp [dispatch] at h
  | succ k =>
    have hd : ∀ s p s1, (fun s p => dispatch k W s p none) s p = Except.ok s1 →
        client_step p s.hashmaps s1.hashmaps :=
      fun s p s1 hh => dispatch_client_step k W s p s1 hh
    simp only [dispatch] at h
    unfold dispatch_body at h
    simp only at h
    split at h
    · cases h; exact reply_steps.done _
    · rename_i pr hpr
      split at h
      · exact (handle_mapread_steps W _ k _ rq st1 hd h :)
      · rename_i hnr
        rcases hrq with hrq | ⟨hcopy, hop⟩
        · exact absurd hrq hnr
        · have hw : pr.req.op = xseg_op.X_MAPW := hop pr hpr
          rw [hw] at h
          simp only [handle_mapw, hcopy, if_true] at h
          exact (handle_copyup_steps _ _ k _ pr rq st1 hd h :)

theorem count_cons_head (p q : Nat) (rest : List Nat) :
    (q :: rest).count p = rest.count p + (if p = q then 1 else 0) := by
  by_cases h : p = q
  · simp [h]
  · have : ¬ q = p := fun e => h e.symm
    simp [h, List.count_cons, this]

/-- A step of a reply handler puts no request on more queues than it
stood on. -/
theorem reply_step_queued (l l1 : List map) (h : reply_step l l1) (p : Nat) :
    queued l1 p ≤ queued l p := by
  cases h with
  | decode key m m1 h hm =>
    have hk : map_key m1 = map_key m := by simp only [map_key, hm.1]
    have h1 := queued_put_map l key m m1 p h hk
    rw [hk] at h1
    have h2 : map_queued m1 p ≤ map_queued m p := by
      simp only [map_queued, hm.2.1]
      have := hm.2.2.2 p
      omega
    omega
  | remove m => exact queued_eraseP_le _ p l
  | copied key m k mn mn1 h hf hp hc =>
    have h1 := queued_put_map l key m (store_node m k mn1) p h rfl
    have h2 := map_queued_store_node m k mn mn1 p hf
    have h4 : (store_first (fun x => map_key x == map_key (store_node m k mn1))
        (store_node m k mn1) l)
        = store_first (fun x => map_key x == map_key m) (store_node m k mn1) l := rfl
    rw [h4] at h1
    rw [hp] at h2
    omega
  | resume_map key m q rest _ h hp hs =>
    have h1 := queued_put_map l key m { m with pending := rest } p h rfl
    have h3 : (store_first (fun x => map_key x == map_key { m with pending := rest })
        { m with pending := rest } l)
        = store_first (fun x => map_key x == map_key m) { m with pending := rest } l := rfl
    rw [h3] at h1
    have h2 : map_queued m p
        = map_queued { m with pending := rest } p + (if p = q then 1 else 0) := by
      simp only [map_queued, hp, count_cons_head]
      omega
    have h5 := client_step_queued q _ _ hs p
    omega
  | resume_node key m k mn q rest _ h hf hp hs =>
    have h1 := queued_put_map l key m (store_node m k { mn with pending := rest }) p h rfl
    have h3 : (store_first
        (fun x => map_key x == map_key (store_node m k { mn with pending := rest }))
        (store_node m k { mn with pending := rest }) l)
        = store_first (fun x => map_key x == map_key m)
            (store_node m k { mn with pending := rest }) l := rfl
    rw [h3] at h1
    have h2 := map_queued_store_node m k mn { mn with pending := rest } p hf
    simp only [hp, count_cons_head] at h2
    have h5 := client_step_queued q _ _ hs p
    omega

theorem reply_steps_queued (l l1 : List map) (h : reply_steps l l1) (p : Nat) :
    queued l1 p ≤ queued l p := by
  induction h with
  | done l => exact Nat.le_refl _
  | step l l1 l2 h _ ih => exact Nat.le_trans ih (reply_step_queued l l1 h p)

/-- A step of a reply handler keeps EXIST and COPYING apart. -/
theorem reply_step_flags_ok (l l1 : List map) (h : reply_step l l1) (hl : flags_ok l) :
    flags_ok l1 := by
  cases h with
  | decode key m m1 h hm =>
    have hmem := List.mem_of_find?_eq_some h
    refine flags_ok_put l _ _ ?_ hl
    intro e he
    rcases hm.2.2.1 e he with h1 | h1
    · exact hl m hmem e h1
    · intro hc
      exact hc.2 h1.2
  | remove m => exact flags_ok_eraseP _ _ hl
  | copied key m k mn mn1 h hf hp hc =>
    have hmem := List.mem_of_find?_eq_some h
    refine flags_ok_put l _ _ ?_ hl
    intro e he
    rcases mem_store_first _ _ _ e he with h1 | h1
    · rw [h1]
      intro hcc
      exact hcc.2 hc
    · exact hl m hmem e h1
  | resume_map key m q rest _ h hp hs =>
    have hmem := List.mem_of_find?_eq_some h
    exact client_step_flags_ok q _ _ hs (flags_ok_put l _ _ (hl m hmem) hl)
  | resume_node key m k mn q rest _ h hf hp hs =>
    have hmem := List.mem_of_find?_eq_some h
    refine client_step_flags_ok q _ _ hs (flags_ok_put l _ _ ?_ hl)
    intro e he
    rcases mem_store_first _ _ _ e he with h1 | h1
    · rw [h1]
      exact hl m hmem (k, mn) (find_object_mem m k mn hf)
    · exact hl m hmem e h1

theorem reply_steps_flags_ok (l l1 : List map) (h : reply_steps l l1) (hl : flags_ok l) :
    flags_ok l1 := by
  induction h with
  | done l => exact hl
  | step l l1 l2 h _ ih => exact ih (reply_step_flags_ok l l1 h hl)

/-! ## Invariants of the cache -/

theorem queued_le_queue_lengths (l : List map) (p : Nat) : queued l p ≤ queue_lengths l := by
  unfold queued queue_lengths
  induction l with
  | nil => simp
  | cons m l ih =>
    simp only [List.map_cons, List.sum_cons]
    have h1 : map_queued m p
        ≤ m.pending.length + (m.objects.map (fun e => e.2.pending.length)).sum := by
      unfold map_queued
      have h2 : m.pending.count p ≤ m.pending.length := List.count_le_length _ _
      have h3 : (m.objects.map (fun e => e.2.pending.count p)).sum
          ≤ (m.objects.map (fun e => e.2.pending.length)).sum := by
        generalize m.objects = t
        induction t with
        | nil => simp
        | cons e t iht =>
          simp only [List.map_cons, List.sum_cons]
          have := List.count_le_length p e.2.pending
          omega
      omega
    omega

theorem run_calls_flags_ok (W : peerd) :
    ∀ (calls : List (Nat × Nat × Option backing_reply)) (st st1 : mstate),
      flags_ok st.hashmaps → run_calls W calls st = Except.ok st1 → flags_ok st1.hashmaps := by
  intro calls
  induction calls with
  | nil =>
    intro st st1 hl h
    simp only [run_calls, Except.ok.injEq] at h
    rw [← h]; exact hl
  | cons c cs ih =>
    intro st st1 hl h
    obtain ⟨fuel, id, req⟩ := c
    simp only [run_calls] at h
    split at h
    · cases h
    · rename_i s hs
      refine ih s st1 ?_ h
      rcases dispatch_steps fuel W st id req s hs with h1 | h1
      · exact client_step_flags_ok id _ _ h1 hl
      · exact reply_steps_flags_ok _ _ h1 hl

/-- C21 (code defect, failing input): a READ reply clears the EXIST flag of
an entry of a map that is READY before and after the reply.  `load_map` fills
only the first `targetlen` bytes and the last byte of `volume`, so the map
made for volume `v` in memory that holds other bytes is cached under another
name than `v` (the defect of C23, C24 and C25).  The MAPW of peer request 2
therefore starts a second load of `v`, into memory that holds zeros.  The
reply to the first READ finds the second map, decodes it and resumes peer
request 2, which copies object 0 up; the reply to the COPY sets EXIST on
entry 0 and the write completes.  The READ of handle 101 is then still in
flight; when its reply comes, `handle_mapread` finds the READY map (that it
is LOADING is only asserted in a comment) and `read_map` decodes the block
again: entry 0 has EXIST clear, while the map stayed READY throughout. -/
theorem second_read_reply_clears_exist :
    (run_calls peerd_dirty_once double_load_calls two_writers).toOption.bind
        (fun s => entry_flags s [118] 0) = some (0, MF_OBJECT_EXIST) ∧
    (run_calls peerd_dirty_once double_load_calls two_writers).toOption.map handles
      = some ([100, 101, 103], [100, 103]) ∧
    (run_calls peerd_dirty_once (double_load_calls ++ [(4, 2, some (unwritten_reply 101))])
        two_writers).toOption.bind (fun s => entry_flags s [118] 0) = some (0, 0) := by
  refine ⟨?_, ?_, ?_⟩ <;> decide

/-- C22: a call of `dispatch` that returns keeps every peer request on at
most one pending queue, counted over the queues of all cached maps and of all
their entries, and on it at most once, when the peer request the call is made
for stands on no queue, or when the call is made for a READ reply or for a
COPY reply to a peer request that carries a MAPW.  A handler of a client
request parks only its own peer request and that at most once; a reply
handler takes a peer request from its queue before it dispatches it again.
No call puts another peer request than its own on more queues than it stood
on. -/
theorem request_on_one_queue_at_most (fuel : Nat) (W : peerd) (st : mstate) (id : Nat)
    (req : Option backing_reply) (st1 : mstate)
    (h : dispatch fuel W st id req = Except.ok st1)
    (hinv : ∀ p, queued st.hashmaps p ≤ 1)
    (hnew : queued st.hashmaps id = 0 ∨
      ∃ rq, req = some rq ∧ (rq.op = xseg_op.X_READ ∨
        (rq.op = xseg_op.X_COPY ∧
          ∀ pr, get_pr st id = some pr → pr.req.op = xseg_op.X_MAPW))) :
    (∀ p, queued st1.hashmaps p ≤ 1) ∧
    (∀ p, p ≠ id → queued st1.hashmaps p ≤ queued st.hashmaps p) := by
  have hgen : ∀ p, queued st1.hashmaps p
      ≤ queued st.hashmaps p + (if p = id then 1 else 0) := by
    intro p
    rcases dispatch_steps fuel W st id req st1 h with h1 | h1
    · exact client_step_queued id _ _ h1 p
    · have := reply_steps_queued _ _ h1 p
      omega
  constructor
  · intro p
    rcases hnew with h0 | ⟨rq, hrq, hop⟩
    · have h1 := hgen p
      have h2 := hinv p
      by_cases hp : p = id
      · rw [hp] at h1 ⊢
        rw [h0] at h1
        simpa using h1
      · rw [if_neg hp] at h1
        omega
    · rw [hrq] at h
      have h1 := reply_steps_queued _ _ (dispatch_reply_steps fuel W st id rq st1 hop h) p
      have h2 := hinv p
      omega
  · intro p hp
    have h1 := hgen p
    rw [if_neg hp] at h1
    exact h1

theorem request_on_one_queue_at_most_witness :
    queued s2_after.hashmaps 1 ≤ 1 ∧ queued s4_after.hashmaps 1 ≤ 1 ∧
    queued s4_after.hashmaps 2 ≤ queued s2_after.hashmaps 2 :=
  have hinv : ∀ p, queued s2_after.hashmaps p ≤ 1 :=
    fun p => Nat.le_trans (queued_le_queue_lengths _ p) (by decide)
  have c := request_on_one_queue_at_most 3 test_peerd s2_after 1
    (some (copy_reply 100 true)) s4_after s4_run hinv
    (Or.inr ⟨copy_reply 100 true, rfl, Or.inr ⟨rfl, fun pr hpr => by
      have e : get_pr s2_after 1 = some copying_req := by decide
      rw [e] at hpr
      cases hpr
      rfl⟩⟩)
  ⟨hinv 1, c.1 1, c.2 2 (by decide)⟩

/-- C36: in every state reached by calls of `dispatch` from a cache in which
no entry has both EXIST and COPYING set (the empty cache is one), no entry
has both set, whatever the requests and replies the calls are made for and
whatever the primitives answer.  Every call that returns is one step of a
client handler or a sequence of steps of a reply handler: a decode or a clone
adds entries with COPYING clear, the translation sets COPYING only on an
entry whose EXIST is clear (`node_step`), and EXIST is set only by the store
of `handle_copyup` that leaves COPYING clear (`copied`). -/
theorem exist_and_copying_exclusive (W : peerd)
    (calls : List (Nat × Nat × Option backing_reply)) (st st1 : mstate)
    (hl : flags_ok st.hashmaps) (h : run_calls W calls st = Except.ok st1) :
    flags_ok st1.hashmaps ∧
    ∀ (fuel : Nat) (s : mstate) (id : Nat) (req : Option backing_reply) (s1 : mstate),
      dispatch fuel W s id req = Except.ok s1 →
      client_step id s.hashmaps s1.hashmaps ∨ reply_steps s.hashmaps s1.hashmaps :=
  ⟨run_calls_flags_ok W calls st st1 hl h,
    fun fuel s id req s1 hd => dispatch_steps fuel W s id req s1 hd⟩

theorem exist_and_copying_exclusive_witness :
    flags_ok s2_before.hashmaps ∧ flags_ok s3_after.hashmaps :=
  have hl : flags_ok s2_before.hashmaps := by
    unfold flags_ok
    decide
  ⟨hl, (exist_and_copying_exclusive test_peerd
    [(2, 1, none), (3, 1, some (copy_reply 100 false))] s2_before s3_after hl
    (except_ok_of_toOption _ _ (by decide))).1⟩

/-! ## Order of resumption with the handlers of the daemon -/

theorem redispatched_append (a b : List event) :
    redispatched (a ++ b) = redispatched a ++ redispatched b := by
  simp [redispatched, List.filterMap_append]

theorem redispatched_fail (st : mstate) (x : Nat) :
    redispatched (fail st x).log = redispatched st.log := by
  simp [fail, redispatched, List.filterMap_append]

theorem redispatched_complete (st : mstate) (x : Nat) :
    redispatched (complete st x).log = redispatched st.log := by
  simp [complete, redispatched, List.filterMap_append]

theorem resumed_refl (m : map) (st : mstate) : resumed m st st :=
  ⟨rfl, fun x hx => ⟨x, hx, rfl, rfl⟩, Or.inl rfl⟩

theorem resumed_fail (m : map) (st st1 : mstate) (x : Nat) (h : resumed m st st1) :
    resumed m st (fail st1 x) :=
  ⟨(redispatched_fail st1 x).trans h.1, h.2.1, h.2.2⟩

theorem resumed_complete (m : map) (st st1 : mstate) (x : Nat) (h : resumed m st st1) :
    resumed m st (complete st1 x) :=
  ⟨(redispatched_complete st1 x).trans h.1, h.2.1, h.2.2⟩

/-- When the counting loop of `calc_nr_obj` ends within the fuel, so does the
loop of `req2objs` on the same remainder. -/
theorem req2objs_loop_returns (sha256 : List Nat → List Nat) (env : xseg_env)
    (nr_ops : Nat) (write : Bool) :
    ∀ (fuel rem r : Nat), calc_nr_obj_loop fuel rem r ≠ none →
      ∀ (idx oi : Nat) (st : r2o_state),
        ∃ res, req2objs_loop sha256 env nr_ops write fuel rem idx oi st = some res := by
  intro fuel
  induction fuel with
  | zero => intro rem r h; simp [calc_nr_obj_loop] at h
  | succ n ih =>
    intro rem r h idx oi st
    simp only [calc_nr_obj_loop] at h
    simp only [req2objs_loop]
    by_cases hr : rem > 0
    · rw [if_pos hr] at h
      rw [if_pos hr]
      split
      · exact ⟨_, rfl⟩
      · exact ih _ _ h _ _ _
    · rw [if_neg hr]
      exact ⟨_, rfl⟩

/-- When the counting loop of `calc_nr_obj` ends within the fuel, `req2objs`
returns. -/
theorem req2objs_returns (fuel : Nat) (sha256 : List Nat → List Nat) (env : xseg_env)
    (nr_ops : Nat) (st : r2o_state) (write : Bool)
    (h : calc_nr_obj fuel st.pr.req ≠ none) :
    ∃ res, req2objs fuel sha256 env nr_ops st write = some res := by
  simp only [req2objs]
  cases hc : calc_nr_obj fuel st.pr.req with
  | none => exact absurd hc h
  | some nr =>
    simp only
    split
    · exact ⟨_, rfl⟩
    · split
      · exact ⟨_, rfl⟩
      · simp only [calc_nr_obj] at hc
        exact req2objs_loop_returns sha256 env nr_ops write fuel _ 1
          (by rw [hc]; simp) _ _ _

/-- A visit that ends the translation leaves the map as it was, or with
another node at the index visited, whose entry had COPYING set or EXIST clear;
the peer request keeps its number and its request. -/
theorem visit_object_error_parks (sha256 : List Nat → List Nat) (env : xseg_env)
    (nr_ops : Nat) (write : Bool) (idx oi off sz : Nat) (st : r2o_state) (r : Int)
    (st1 : r2o_state)
    (h : visit_object sha256 env nr_ops write idx oi off sz st = Except.error (r, st1)) :
    st1.pr.id = st.pr.id ∧ st1.pr.req = st.pr.req ∧
    (st1.map = st.map ∨
      ∃ mn mn1, find_object st.map oi = some mn ∧
        (mn.flags &&& MF_OBJECT_COPYING ≠ 0 ∨ mn.flags &&& MF_OBJECT_EXIST = 0) ∧
        st1.map = store_node st.map oi mn1) := by
  simp only [visit_object] at h
  split at h
  · cases h; exact ⟨rfl, rfl, Or.inl rfl⟩
  · rename_i mn hf
    split at h
    · rename_i hc
      simp only [out_object_copying] at h
      cases h
      refine ⟨rfl, rfl, Or.inr ⟨mn, _, hf, Or.inl ?_, rfl⟩⟩
      intro h0
      simp [h0] at hc
    · split at h
      · rename_i hnc hne
        have hm := (copyup_object_map sha256 env oi mn st)
        revert h
        generalize copyup_object sha256 env oi mn st = res at hm
        obtain ⟨r1, s1⟩ := res
        intro h
        simp only at h hm
        split at h
        · cases h; exact ⟨hm.2.2.1, hm.2.2.2, Or.inl hm.1⟩
        · simp only [out_object_copying] at h
          cases h
          simp only [store_node_store_node, hm.1]
          have he : mn.flags &&& MF_OBJECT_EXIST = 0 := by
            by_contra hc
            simp [hc] at hne
          exact ⟨hm.2.2.1, hm.2.2.2, Or.inr ⟨mn, _, hf, Or.inr he, rfl⟩⟩
      · cases h

theorem req2objs_loop_cases (sha256 : List Nat → List Nat) (env : xseg_env)
    (nr_ops : Nat) (write : Bool) :
    ∀ (fuel rem idx oi : Nat) (st : r2o_state) (r : Int) (rs : r2o_state),
      req2objs_loop sha256 env nr_ops write fuel rem idx oi st = some (r, rs) →
      rs.pr.id = st.pr.id ∧ rs.pr.req = st.pr.req ∧
      (rs.map = st.map ∨
        ∃ k mn mn1, find_object st.map k = some mn ∧
          (mn.flags &&& MF_OBJECT_COPYING ≠ 0 ∨ mn.flags &&& MF_OBJECT_EXIST = 0) ∧
          rs.map = store_node st.map k mn1) := by
  intro fuel
  induction fuel with
  | zero => intro rem idx oi st r rs h; simp [req2objs_loop] at h
  | succ n ih =>
    intro rem idx oi st r rs h
    simp only [req2objs_loop] at h
    split at h
    · split at h
      · rename_i res hv
        cases h
        obtain ⟨h1, h2, h3⟩ := visit_object_error_parks _ _ _ _ _ _ _ _ _ _ _ hv
        refine ⟨h1, h2, ?_⟩
        rcases h3 with e | ⟨mn, mn1, e⟩
        · exact Or.inl e
        · exact Or.inr ⟨_, mn, mn1, e⟩
      · rename_i st1 hv
        obtain ⟨mn, hmn, hst1⟩ := visit_object_ok_eq _ _ _ _ _ _ _ _ _ _ hv
        have := ih _ _ _ _ _ _ h
        rw [hst1] at this
        exact this
    · cases h
      exact ⟨rfl, rfl, Or.inl rfl⟩

/-- The map `req2objs` leaves is the map as it was, or the map with another
node at one index, whose entry had COPYING set or EXIST clear; the peer
request keeps its number and its request. -/
theorem req2objs_cases (fuel : Nat) (sha256 : List Nat → List Nat) (env : xseg_env)
    (nr_ops : Nat) (st : r2o_state) (write : Bool) (r : Int) (rs : r2o_state)
    (h : req2objs fuel sha256 env nr_ops st write = some (r, rs)) :
    rs.pr.id = st.pr.id ∧ rs.pr.req = st.pr.req ∧
    (rs.map = st.map ∨
      ∃ k mn mn1, find_object st.map k = some mn ∧
        (mn.flags &&& MF_OBJECT_COPYING ≠ 0 ∨ mn.flags &&& MF_OBJECT_EXIST = 0) ∧
        rs.map = store_node st.map k mn1) := by
  simp only [req2objs] at h
  split at h
  · cases h
  · split at h
    · cases h; exact ⟨rfl, rfl, Or.inl rfl⟩
    · split at h
      · rename_i res hv
        cases h
        obtain ⟨h1, h2, h3⟩ := visit_object_error_parks _ _ _ _ _ _ _ _ _ _ _ hv
        refine ⟨h1, h2, ?_⟩
        rcases h3 with e | ⟨mn, mn1, e⟩
        · exact Or.inl e
        · exact Or.inr ⟨_, mn, mn1, e⟩
      · rename_i st1 hv
        obtain ⟨mn, hmn, hst1⟩ := visit_object_ok_eq _ _ _ _ _ _ _ _ _ _ hv
        have := req2objs_loop_cases _ _ _ _ _ _ _ _ _ _ _ h
        rw [hst1] at this
        exact this

theorem req2objs_ne_none (fuel : Nat) (sha256 : List Nat → List Nat) (env : xseg_env)
    (nr_ops : Nat) (st : r2o_state) (write : Bool)
    (h : calc_nr_obj fuel st.pr.req ≠ none) :
    req2objs fuel sha256 env nr_ops st write ≠ none := by
  obtain ⟨res, hres⟩ := req2objs_returns fuel sha256 env nr_ops st write h
  rw [hres]
  simp

theorem find_or_load_map_ready (W : peerd) (env : handler_env)
    (d : mstate → Nat → Except stop mstate) (st : mstate) (pr : peer_req)
    (t : List Nat) (tl : Nat) (m : map)
    (hm : find_map st.hashmaps t tl = some m) (hl : m.flags &&& MF_MAP_LOADING = 0) :
    find_or_load_map W env d st pr t tl = Except.ok (0, some m, st) := by
  simp [find_or_load_map, hm, hl]

/-- A call of `req2objs` from a handler, for a request whose counting loop
ends within the fuel, on the map the lookup returned: the call returns. -/
theorem run_req2objs_resumed (W : peerd) (env : handler_env) (k : Nat) (st : mstate)
    (pr : peer_req) (m : map) (write : Bool) (t : List Nat) (tl : Nat)
    (hm : find_map st.hashmaps t tl = some m)
    (hnr : calc_nr_obj k pr.req ≠ none)
    (hpr : ∃ y ∈ st.peer_reqs, y.id = pr.id ∧ y.req = pr.req) :
    ∃ r st2, run_req2objs W env k st pr m write = Except.ok (r, st2) ∧ resumed m st st2 := by
  cases hq : run_req2objs W env k st pr m write with
  | error e =>
    unfold run_req2objs at hq
    simp only at hq
    split at hq
    · rename_i heq
      exact absurd heq (req2objs_ne_none _ _ _ _ _ _ hnr)
    · cases hq
  | ok v =>
    obtain ⟨r, st2⟩ := v
    refine ⟨r, st2, rfl, ?_⟩
    have hlog := run_req2objs_log W env k st pr m write r st2 hq
    unfold run_req2objs at hq
    simp only at hq
    split at hq
    · cases hq
    · rename_i r1 rs hreq
      cases hq
      obtain ⟨hid, hrq, hmap⟩ := req2objs_cases _ _ _ _ _ _ _ _ hreq
      simp only at hid hrq hmap
      refine ⟨by rw [hlog], ?_, ?_⟩
      · intro x hx
        have hx1 : x ∈ st.peer_reqs.map (fun p => if p.id == rs.pr.id then rs.pr else p) := hx
        obtain ⟨y, hy, hxy⟩ := List.mem_map.mp hx1
        by_cases hc : (y.id == rs.pr.id) = true
        · rw [if_pos hc] at hxy
          obtain ⟨z, hz, hz1, hz2⟩ := hpr
          exact ⟨z, hz, by rw [← hxy, hid, hz1], by rw [← hxy, hrq, hz2]⟩
        · rw [if_neg hc] at hxy
          exact ⟨y, hy, by rw [hxy], by rw [hxy]⟩
      · have hh : (put_pr (put_map st rs.map) rs.pr).hashmaps
            = store_first (fun x => map_key x == map_key rs.map) rs.map st.hashmaps := rfl
        show (put_pr (put_map st rs.map) rs.pr).hashmaps = st.hashmaps ∨ _
        rw [hh]
        rcases hmap with e | ⟨i, mn, mn1, hf, hfl, e⟩
        · left
          rw [e]
          exact congrArg mstate.hashmaps (put_map_same st m t tl hm)
        · right; right
          rw [e]
          exact ⟨i, mn, mn1, hf, hfl, rfl⟩

/-- Function `handle_mapr` re-invoked on a READY map returns. -/
theorem handle_mapr_resumed (W : peerd) (env : handler_env) (k : Nat)
    (d : mstate → Nat → Except stop mstate) (st : mstate) (pr : peer_req) (m : map)
    (hm : find_map st.hashmaps pr.req.target pr.req.targetlen = some m)
    (hl : m.flags &&& MF_MAP_LOADING = 0)
    (hnr : calc_nr_obj k pr.req ≠ none)
    (hpr : ∃ y ∈ st.peer_reqs, y.id = pr.id ∧ y.req = pr.req) :
    ∃ st1, handle_mapr W env k d st pr = Except.ok st1 ∧ resumed m st st1 := by
  have h1 : (0 : Int) = MF_PENDING ↔ False := by decide
  simp only [handle_mapr, find_or_load_map_ready W env d st pr _ _ m hm hl,
    lt_self_iff_false, if_false, h1]
  split
  · exact ⟨_, rfl, resumed_fail m st st _ (resumed_refl m st)⟩
  · obtain ⟨r, st2, hrun, hres⟩ := run_req2objs_resumed W env k st pr m false _ _ hm hnr hpr
    rw [hrun]
    simp only
    split
    · exact ⟨_, rfl, resumed_fail m st st2 _ hres⟩
    · split
      · exact ⟨_, rfl, resumed_complete m st st2 _ hres⟩
      · exact ⟨_, rfl, hres⟩

/-- Function `handle_mapw` re-invoked for the client request on a READY map
returns. -/
theorem handle_mapw_client_resumed (W : peerd) (env : handler_env) (k : Nat)
    (d : mstate → Nat → Except stop mstate) (st : mstate) (pr : peer_req) (m : map)
    (hm : find_map st.hashmaps pr.req.target pr.req.targetlen = some m)
    (hl : m.flags &&& MF_MAP_LOADING = 0)
    (hnr : calc_nr_obj k pr.req ≠ none)
    (hpr : ∃ y ∈ st.peer_reqs, y.id = pr.id ∧ y.req = pr.req) :
    ∃ st1, handle_mapw_client W env k d st pr = Except.ok st1 ∧ resumed m st st1 := by
  have h1 : (0 : Int) = MF_PENDING ↔ False := by decide
  simp only [handle_mapw_client, find_or_load_map_ready W env d st pr _ _ m hm hl,
    lt_self_iff_false, if_false, h1]
  split
  · exact ⟨_, rfl, resumed_fail m st st _ (resumed_refl m st)⟩
  · split
    · exact ⟨_, rfl, resumed_fail m st st _ (resumed_refl m st)⟩
    · obtain ⟨r, st2, hrun, hres⟩ := run_req2objs_resumed W env k st
        { pr with mio := { pr.mio with err := 0 } } m true _ _ hm hnr hpr
      rw [hrun]
      simp only
      split
      · split
        · exact ⟨_, rfl, resumed_complete m st _ _ (resumed_fail m st st2 _ hres)⟩
        · exact ⟨_, rfl, resumed_complete m st st2 _ hres⟩
      · split
        · exact ⟨_, rfl, resumed_fail m st st2 _ hres⟩
        · exact ⟨_, rfl, hres⟩

/-- Function `handle_info` re-invoked on a READY map returns. -/
theorem handle_info_resumed (W : peerd) (env : handler_env)
    (d : mstate → Nat → Except stop mstate) (st : mstate) (pr : peer_req) (m : map)
    (hm : find_map st.hashmaps pr.req.target pr.req.targetlen = some m)
    (hl : m.flags &&& MF_MAP_LOADING = 0) :
    ∃ st1, handle_info W env d st pr = Except.ok st1 ∧ resumed m st st1 := by
  have h1 : (0 : Int) = MF_PENDING ↔ False := by decide
  simp only [handle_info, find_or_load_map_ready W env d st pr _ _ m hm hl,
    lt_self_iff_false, if_false, h1]
  split
  · exact ⟨_, rfl, resumed_fail m st st _ (resumed_refl m st)⟩
  · split
    · exact ⟨_, rfl, resumed_fail m st st _ (resumed_refl m st)⟩
    · exact ⟨_, rfl, resumed_complete m st _ _ ⟨rfl, fun x hx => ⟨x, hx, rfl, rfl⟩, Or.inl rfl⟩⟩

/-- Function `handle_clone` re-invoked on a READY parent returns, when its
loop index stays within `int`. -/
theorem handle_clone_resumed (W : peerd) (env : handler_env)
    (d : mstate → Nat → Except stop mstate) (st : mstate) (pr : peer_req) (m : map)
    (hm : find_map st.hashmaps pr.req.clone_target (strlen pr.req.clone_target) = some m)
    (hl : m.flags &&& MF_MAP_LOADING = 0)
    (hc : (pr.req.clone_size % U64) / block_size + 1 ≤ INT_MAX) :
    ∃ st1, handle_clone W env d st pr = Except.ok st1 ∧ resumed m st st1 := by
  have h1 : (0 : Int) = MF_PENDING ↔ False := by decide
  simp only [handle_clone, find_or_load_map_ready W env d st pr _ _ m hm hl,
    lt_self_iff_false, if_false, h1]
  have hf : ∀ s : mstate, s = st → resumed m st (fail s pr.id) := by
    intro s hs; rw [hs]; exact resumed_fail m st st _ (resumed_refl m st)
  split
  · exact ⟨_, rfl, hf _ rfl⟩
  split
  · exact ⟨_, rfl, hf _ rfl⟩
  split
  · exact ⟨_, rfl, hf _ rfl⟩
  split
  · exact ⟨_, rfl, hf _ rfl⟩
  split
  · exact ⟨_, rfl, hf _ rfl⟩
  split
  · exact ⟨_, rfl, hf _ rfl⟩
  split
  · rename_i hcn
    obtain ⟨cm1, hcn1, _⟩ := clone_nodes_objects W m
      ((pr.req.clone_size % U64) / block_size + 1) 0
      { flags := 0, size := pr.req.clone_size % U64, volumelen := pr.req.targetlen % U32,
        volume := (strncpy_bytes pr.req.target pr.req.targetlen ++ [0]
          ++ env.heap.drop (pr.req.targetlen + 1)).take (XSEG_MAX_TARGET_LEN + 1),
        objects := [], pending := [] }
      (by intro e he; simp at he) (by omega)
    rw [hcn1] at hcn
    cases hcn
  · rename_i cm1 hcn
    rcases insert_map_cases st.hashmaps cm1 with e | e
    · rw [e]
      simp only
      rw [if_pos (by decide)]
      exact ⟨_, rfl, hf _ rfl⟩
    · rw [e]
      simp only
      rw [if_neg (by decide)]
      exact ⟨_, rfl, resumed_complete m st _ _
        ⟨rfl, fun x hx => ⟨x, hx, rfl, rfl⟩, Or.inr (Or.inl ⟨cm1, rfl⟩)⟩⟩

/-- A client request with operation INFO goes to `handle_info`. -/
theorem dispatch_info (k : Nat) (W : peerd) (st : mstate) (pr_id : Nat) (pr : peer_req)
    (hget : get_pr st pr_id = some pr) (hop : pr.req.op = xseg_op.X_INFO) :
    dispatch (k + 1) W st pr_id none
      = handle_info W (W.envs st.tick) (fun s p => dispatch k W s p none)
          { st with tick := st.tick + 1, log := st.log ++ [event.dispatch pr_id none] } pr := by
  simp only [get_pr] at hget
  simp only [dispatch, dispatch_body, get_pr, hget, own_request, hop]
  simp

/-- The handler of a resumable request, re-invoked while the map of its
volume is cached and READY, returns. -/
theorem dispatch_resumed (k : Nat) (W : peerd) (st : mstate) (p : Nat) (key : List Nat)
    (m : map) (hm : cached st.hashmaps key = some m) (hl : m.flags &&& MF_MAP_LOADING = 0)
    (hr : ∀ pr ∈ st.peer_reqs, pr.id = p → resumable k key pr.req) :
    ∃ st1, dispatch (k + 1) W st p none = Except.ok st1 ∧
      resumed m { st with tick := st.tick + 1, log := st.log ++ [event.dispatch p none] }
        st1 := by
  cases hget : get_pr st p with
  | none =>
    refine ⟨{ st with tick := st.tick + 1, log := st.log ++ [event.dispatch p none] }, ?_,
      resumed_refl m _⟩
    simp only [get_pr] at hget
    simp only [dispatch, dispatch_body, get_pr, hget]
    simp
  | some pr =>
    have hmem : pr ∈ st.peer_reqs := List.mem_of_find?_eq_some hget
    have hid : pr.id = p := get_pr_id st p pr hget
    have hpr : ∃ y ∈ st.peer_reqs, y.id = pr.id ∧ y.req = pr.req := ⟨pr, hmem, rfl, rfl⟩
    rcases hr pr hmem hid with ⟨hop, hk, hnr⟩ | ⟨hop, hk⟩ | ⟨hop, hk, hc⟩
    · have hfind : find_map st.hashmaps pr.req.target pr.req.targetlen = some m := by
        show cached st.hashmaps (cstr (strncpy_bytes pr.req.target pr.req.targetlen ++ [0]))
          = some m
        rw [hk]; exact hm
      rcases hop with hop | hop
      · rw [dispatch_mapr_client k W st p pr hget hop]
        exact handle_mapr_resumed W _ k _ _ pr m hfind hl hnr hpr
      · rw [dispatch_mapw_client k W st p pr hget hop]
        exact handle_mapw_client_resumed W _ k _ _ pr m hfind hl hnr hpr
    · have hfind : find_map st.hashmaps pr.req.target pr.req.targetlen = some m := by
        show cached st.hashmaps (cstr (strncpy_bytes pr.req.target pr.req.targetlen ++ [0]))
          = some m
        rw [hk]; exact hm
      rw [dispatch_info k W st p pr hget hop]
      exact handle_info_resumed W _ _ _ pr m hfind hl
    · have hfind : find_map st.hashmaps pr.req.clone_target (strlen pr.req.clone_target)
          = some m := by
        show cached st.hashmaps
          (cstr (strncpy_bytes pr.req.clone_target (strlen pr.req.clone_target) ++ [0]))
          = some m
        rw [hk]; exact hm
      rw [dispatch_clone k W st p pr hget hop]
      exact handle_clone_resumed W _ _ _ pr m hfind hl hc

/-- After a handler was re-invoked on the READY map cached under `key`, the
map cached under `key` has the flags and the queue it had, and every entry
that had EXIST set and COPYING clear is as it was. -/
theorem resumed_header (m : map) (st st1 : mstate) (key : List Nat)
    (h : resumed m st st1) (hm : cached st.hashmaps key = some m) :
    ∃ m1, cached st1.hashmaps key = some m1 ∧ m1.flags = m.flags ∧ m1.pending = m.pending ∧
      ∀ j mnj, find_object m j = some mnj → mnj.flags &&& MF_OBJECT_EXIST ≠ 0 →
        mnj.flags &&& MF_OBJECT_COPYING = 0 → find_object m1 j = some mnj := by
  rcases h.2.2 with e | ⟨c, e⟩ | ⟨i, mn, mn1, hf, hfl, e⟩
  · rw [e]
    exact ⟨m, hm, rfl, rfl, fun j mnj hj _ _ => hj⟩
  · rw [e]
    refine ⟨m, ?_, rfl, rfl, fun j mnj hj _ _ => hj⟩
    simp only [cached] at hm ⊢
    rw [List.find?_append, hm]
    rfl
  · rw [e]
    have hm' : st.hashmaps.find? (fun x => map_key x == key) = some m := hm
    refine ⟨store_node m i mn1, find_map_key_replace st.hashmaps key m (store_node m i mn1) hm' rfl,
      rfl, rfl, ?_⟩
    intro j mnj hj he hc
    by_cases hji : j = i
    · rw [hji, hf] at hj
      have hmn : mn = mnj := Option.some.inj hj
      rw [hmn] at hfl
      rcases hfl with h1 | h1
      · exact absurd hc h1
      · exact absurd h1 he
    · rw [find_object_store_node_ne m i j mn1 hji]
      exact hj

/-- The loop of `handle_mapread` on a READY map, with the handlers of the
daemon: the requests of the queue are re-dispatched from the head on, each
once, and the loop ends with the queue empty. -/
theorem drain_map_resumes (k : Nat) (W : peerd) (key : List Nat) (Q : List Nat) :
    ∀ (q : List Nat) (n : Nat) (st : mstate) (m : map),
      cached st.hashmaps key = some m → m.flags &&& MF_MAP_LOADING = 0 → m.pending = q →
      q.length < n → (∀ x ∈ q, x ∈ Q) →
      (∀ pr ∈ st.peer_reqs, pr.id ∈ Q → resumable k key pr.req) →
      ∃ st1, drain_map (fun s p => dispatch (k + 1) W s p none) key n st = Except.ok st1 ∧
        redispatched st1.log = redispatched st.log ++ q ∧ map_pending st1 key = [] := by
  intro q
  induction q with
  | nil =>
    intro n st m hm hl hq hn _ _
    have hm' : st.hashmaps.find? (fun x => map_key x == key) = some m := hm
    cases n with
    | zero => simp at hn
    | succ n =>
      refine ⟨st, ?_, by simp, ?_⟩
      · simp only [drain_map, hm', hq]
      · simp only [map_pending, hm', hq]
  | cons p rest ih =>
    intro n st m hm hl hq hn hQ hP
    have hm' : st.hashmaps.find? (fun x => map_key x == key) = some m := hm
    cases n with
    | zero => simp at hn
    | succ n =>
      have hc1 : cached (put_map st { m with pending := rest }).hashmaps key
          = some { m with pending := rest } :=
        find_map_key_replace st.hashmaps key m { m with pending := rest } hm' rfl
      obtain ⟨s1, hd, hres⟩ := dispatch_resumed k W (put_map st { m with pending := rest }) p
        key { m with pending := rest } hc1 hl
        (fun pr hpr hid => hP pr hpr (by rw [hid]; exact hQ p (List.mem_cons_self _ _)))
      obtain ⟨m1, hm1, hf1, hp1, _⟩ := resumed_header _ _ s1 key hres hc1
      have hP1 : ∀ pr ∈ s1.peer_reqs, pr.id ∈ Q → resumable k key pr.req := by
        intro pr hpr hid
        obtain ⟨y, hy, hy1, hy2⟩ := hres.2.1 pr hpr
        rw [← hy2]
        exact hP y hy (by rw [hy1]; exact hid)
      obtain ⟨st1, h4, h5, h6⟩ := ih n s1 m1 hm1 (by rw [hf1]; exact hl) hp1
        (by simpa using hn) (fun x hx => hQ x (List.mem_cons_of_mem _ hx)) hP1
      refine ⟨st1, ?_, ?_, h6⟩
      · simp only [drain_map, hm', hq, hd]
        exact h4
      · rw [h5, hres.1]
        simp [redispatched, put_map, List.filterMap_append]

/-- The loop of `handle_copyup` on an entry that has EXIST set and COPYING
clear, with the handlers of the daemon: the requests of the queue are
re-dispatched from the head on, each once, and the loop ends with the queue
empty. -/
theorem drain_object_resumes (k : Nat) (W : peerd) (ref : List Nat × Nat) (Q : List Nat) :
    ∀ (q : List Nat) (n : Nat) (st : mstate) (m : map) (mn : map_node),
      resolve_node st ref = some (m, mn) → m.flags &&& MF_MAP_LOADING = 0 →
      mn.flags &&& MF_OBJECT_EXIST ≠ 0 → mn.flags &&& MF_OBJECT_COPYING = 0 →
      mn.pending = q → q.length < n → (∀ x ∈ q, x ∈ Q) →
      (∀ pr ∈ st.peer_reqs, pr.id ∈ Q → resumable k (cstr ref.1) pr.req) →
      ∃ st1, drain_object (fun s p => dispatch (k + 1) W s p none) ref n st = Except.ok st1 ∧
        redispatched st1.log = redispatched st.log ++ q ∧ entry_pending st1 ref = [] := by
  intro q
  induction q with
  | nil =>
    intro n st m mn hm hl he hc hq hn _ _
    cases n with
    | zero => simp at hn
    | succ n =>
      refine ⟨st, ?_, by simp, ?_⟩
      · simp only [drain_object, hm, hq]
      · simp only [entry_pending, hm, hq]
  | cons p rest ih =>
    intro n st m mn hm hl he hc hq hn hQ hP
    cases n with
    | zero => simp at hn
    | succ n =>
      have hr1 := resolve_node_put_map st ref m mn { mn with pending := rest } hm
      obtain ⟨hc1, hf1⟩ := resolve_node_some _ ref _ _ hr1
      obtain ⟨s1, hd, hres⟩ := dispatch_resumed k W
        (put_map st (store_node m ref.2 { mn with pending := rest })) p
        (cstr ref.1) (store_node m ref.2 { mn with pending := rest }) hc1 hl
        (fun pr hpr hid => hP pr hpr (by rw [hid]; exact hQ p (List.mem_cons_self _ _)))
      obtain ⟨m1, hm1, hfl1, _, hnode⟩ := resumed_header _ _ s1 (cstr ref.1) hres hc1
      have hn1 := hnode ref.2 { mn with pending := rest } hf1 he hc
      have hres1 : resolve_node s1 ref = some (m1, { mn with pending := rest }) := by
        have hm1' : s1.hashmaps.find? (fun x => map_key x == cstr ref.1) = some m1 := hm1
        simp only [resolve_node, hm1', hn1]
      have hP1 : ∀ pr ∈ s1.peer_reqs, pr.id ∈ Q → resumable k (cstr ref.1) pr.req := by
        intro pr hpr hid
        obtain ⟨y, hy, hy1, hy2⟩ := hres.2.1 pr hpr
        rw [← hy2]
        exact hP y hy (by rw [hy1]; exact hid)
      obtain ⟨st1, h4, h5, h6⟩ := ih n s1 m1 { mn with pending := rest } hres1
        (by rw [hfl1]; exact hl) he hc rfl
        (by simpa using hn) (fun x hx => hQ x (List.mem_cons_of_mem _ hx)) hP1
      refine ⟨st1, ?_, ?_, h6⟩
      · simp only [drain_object, hm, hq, hd]
        exact h4
      · rw [h5, hres.1]
        simp [redispatched, put_map, List.filterMap_append]

/-- C19: FIFO resumption.  A request is parked at the tail of a queue
(`__xq_append_tail`: on a map being loaded in `find_or_load_map`, on an entry
being copied up at the label `out_object_copying`), and the loops of
`handle_mapread` and `handle_copyup`, which re-invoke `dispatch` of the
daemon, take the requests from the head.  For a READY map with the queue `q`,
and for an entry with EXIST set, COPYING clear and the queue `q`, whose parked
peer requests carry requests for that volume whose handlers run to their end
(`resumable`), the loop returns, the requests of `q` are re-dispatched in the
order of `q`, each once, and the queue is empty afterwards; a failed load
fails them in the order of `q`.  For the peer requests 1 and 2 parked in this
order on the map of volume `v` while it is loaded, the handler of 1 is
re-invoked, and completes, before that of 2 when the map block is decoded,
and 1 is failed before 2 when the READ fails. -/
theorem pending_queues_resume_in_order (k n : Nat) (W : peerd)
    (st : mstate) (key : List Nat) (m : map)
    (hm : cached st.hashmaps key = some m) (hl : m.flags &&& MF_MAP_LOADING = 0)
    (hn : m.pending.length < n)
    (hq : ∀ pr ∈ st.peer_reqs, pr.id ∈ m.pending → resumable k key pr.req)
    (st2 : mstate) (ref : List Nat × Nat) (m2 : map) (mn : map_node)
    (hm2 : resolve_node st2 ref = some (m2, mn)) (hl2 : m2.flags &&& MF_MAP_LOADING = 0)
    (he : mn.flags &&& MF_OBJECT_EXIST ≠ 0) (hc : mn.flags &&& MF_OBJECT_COPYING = 0)
    (hn2 : mn.pending.length < n)
    (hq2 : ∀ pr ∈ st2.peer_reqs, pr.id ∈ mn.pending → resumable k (cstr ref.1) pr.req) :
    (∀ cap q x, q.length < cap → xq_append_tail cap q x = q ++ [x]) ∧
    (∀ (W0 : peerd) (env : handler_env) (d0 : mstate → Nat → Except stop mstate)
      (s : mstate) (pr : peer_req) (target : List Nat) (targetlen : Nat) (m0 : map),
      find_map s.hashmaps target targetlen = some m0 → m0.flags &&& MF_MAP_LOADING ≠ 0 →
      m0.pending.length < W0.nr_ops →
      find_or_load_map W0 env d0 s pr target targetlen
        = Except.ok (MF_PENDING, some { m0 with pending := m0.pending ++ [pr.id] },
            put_map s { m0 with pending := m0.pending ++ [pr.id] })) ∧
    (∀ (nr_ops i : Nat) (node : map_node) (s : r2o_state), node.pending.length < nr_ops →
      out_object_copying nr_ops i node s = (MF_PENDING, parked_on i node s)) ∧
    (∃ st1, drain_map (fun s p => dispatch (k + 1) W s p none) key n st = Except.ok st1 ∧
      redispatched st1.log = redispatched st.log ++ m.pending ∧ map_pending st1 key = []) ∧
    (∃ st3, drain_object (fun s p => dispatch (k + 1) W s p none) ref n st2 = Except.ok st3 ∧
      redispatched st3.log = redispatched st2.log ++ mn.pending ∧
      entry_pending st3 ref = []) ∧
    (∀ (s : mstate) (q : List Nat), (fail_all s q).log = s.log ++ q.map event.fail) ∧
    (dispatch 2 test_peerd load_before 1 none).bind (fun s => dispatch 2 test_peerd s 2 none)
      = Except.ok load_both ∧
    (dispatch 4 test_peerd load_both 1 (some (read_reply 100 false))).toOption.map
        (fun s => s.log)
      = some [event.dispatch 1 none, event.dispatch 2 none, event.dispatch 1 (some 100),
          event.dispatch 1 none, event.complete 1, event.dispatch 2 none,
          event.complete 2] ∧
    (dispatch 4 test_peerd load_both 1 (some (read_reply 100 true))).toOption.map
        (fun s => s.log)
      = some [event.dispatch 1 none, event.dispatch 2 none, event.dispatch 1 (some 100),
          event.fail 1, event.fail 2] := by
  refine ⟨?_, ?_, ?_, ?_, ?_, fun s q => fail_all_log q s,
    except_ok_of_toOption _ _ (by decide), by decide, by decide⟩
  · intro cap q x h
    simp [xq_append_tail, h]
  · intro W0 env d0 s pr target targetlen m0 hm0 hl0 hq0
    exact find_or_load_map_loading W0 env d0 s pr target targetlen m0 hm0 hl0 hq0
  · intro nr_ops i node s h
    simp [out_object_copying, xq_append_tail, h, parked_on]
  · exact drain_map_resumes k W key m.pending m.pending n st m hm hl rfl hn
      (fun x hx => hx) hq
  · exact drain_object_resumes k W ref mn.pending mn.pending n st2 m2 mn hm2 hl2 he hc rfl hn2
      (fun x hx => hx) hq2

theorem pending_queues_resume_in_order_witness :
    (∃ st1, drain_map (fun s p => dispatch 2 test_peerd s p none) [118] 3 parked_readers
        = Except.ok st1 ∧
      redispatched st1.log = redispatched parked_readers.log ++ [1, 2] ∧
      map_pending st1 [118] = []) ∧
    (∃ st3, drain_object (fun s p => dispatch 2 test_peerd s p none) (s2_map.volume, 5) 3
        copied_both = Except.ok st3 ∧
      redispatched st3.log = redispatched copied_both.log ++ [1, 2] ∧
      entry_pending st3 (s2_map.volume, 5) = []) :=
  have h := pending_queues_resume_in_order 1 3 test_peerd parked_readers [118]
    { s2_map with pending := [1, 2] } (by decide) (by decide) (by decide)
    (fun pr hpr _ => by
      have hp : pr = mapr0 1 ∨ pr = mapr0 2 := by
        simpa [parked_readers, load_both] using hpr
      rcases hp with e | e <;> rw [e] <;>
        exact Or.inl ⟨Or.inl rfl, by decide, by decide⟩)
    copied_both (s2_map.volume, 5) (s2_map_with MF_OBJECT_EXIST [1, 2])
    { named_node 5 MF_OBJECT_EXIST [50, 53] with pending := [1, 2] }
    (by decide) (by decide) (by decide) (by decide) (by decide)
    (fun pr hpr _ => by
      have hp : pr = copying_req ∨ pr = mapw5 2 := by
        simpa [copied_both, s2_both_parked, s2_after] using hpr
      rcases hp with e | e <;> rw [e] <;>
        exact Or.inl ⟨Or.inr rfl, by decide, by decide⟩)
  ⟨h.2.2.2.1, h.2.2.2.2.1⟩

end Mapperd
